import Mathlib

/-!
# ext2 driver of the kernel: blocks, inodes, files and directories

A shallow embedding of `kernel/kernel/fs/ext2/ext2.c`.  The storage device is a
map from byte addresses to bytes, the driver's buffers are maps from indices to
bytes, `uint32_t` arithmetic is arithmetic on `Nat` reduced modulo `2^32`
wherever the C expression can wrap.
-/

namespace Ext2

/-! ## Machine words and buffers -/

/-- One byte (`uint8_t`). -/
abbrev Byte := Fin 256

/-- A byte buffer in kernel or user memory, indexed from its start. -/
abbrev Buf := Nat → Byte

/-- Contents of the storage device, by absolute byte address. -/
abbrev Disk := Nat → Byte

/-- Number of values of a `uint32_t`. -/
def U32 : Nat := 4294967296

/-- Truncation of a value to `uint8_t`. -/
def toByte (x : Nat) : Byte := ⟨x % 256, Nat.mod_lt _ (by decide)⟩

/-- Wrapping `uint32_t` subtraction. -/
def sub32 (a b : Nat) : Nat := (a % U32 + U32 - b % U32) % U32

/-- A buffer whose content is not used before it is overwritten. -/
def zero_buf : Buf := fun _ => 0

/-- The `uint32_t` stored little-endian in the first four bytes of a buffer
(all supported targets are little-endian). -/
def u32_of_buf (b : Buf) : Nat :=
  (b 0).val + 256 * (b 1).val + 65536 * (b 2).val + 16777216 * (b 3).val

/-- The four bytes of a `uint32_t` object, as seen through `(uint8_t*)&val`. -/
def buf_of_u32 (v : Nat) : Buf := fun i =>
  if i = 0 then toByte v
  else if i = 1 then toByte (v / 256)
  else if i = 2 then toByte (v / 65536)
  else if i = 3 then toByte (v / 16777216)
  else 0

/-- The effect of `memcpy(&dst[doff], &src[soff], n)` on `dst`. -/
def memcpy (dst : Buf) (doff : Nat) (src : Buf) (soff n : Nat) : Buf := fun i =>
  if doff ≤ i ∧ i < doff + n then src (soff + (i - doff)) else dst i

/-! ## Block device interface -/

/-- Modelled from the spec: the storage driver's `read(dev, lba, buf512)` of the
block device interface (the driver is not part of the sources); it delivers the
512 bytes of sector `sector`. -/
def drv_read (dev : Disk) (sector : Nat) : Buf := fun i => dev (sector * 512 + i)

/-- Modelled from the spec: the storage driver's `write(dev, lba, buf512, 512)`
of the block device interface; it replaces the 512 bytes of sector `sector`. -/
def drv_write (dev : Disk) (sector : Nat) (buf : Buf) : Disk := fun a =>
  if a / 512 = sector then buf (a % 512) else dev a

/-! ## Drive related functions -/

/-- The `while (len)` loop of `_ext2_read_from_dev`; `none` when the fuel runs
out before `len` reaches zero. -/
def _ext2_read_from_dev_loop (dev : Disk) :
    Nat → Buf → Nat → Nat → Nat → Nat → Option Buf
  | fuel, buf, already_read, sector, start_offset, len =>
    if len = 0 then some buf
    else match fuel with
      | 0 => none
      | fuel + 1 =>
        let tmp_buf := drv_read dev sector
        let to_read := min (512 - start_offset) len
        _ext2_read_from_dev_loop dev fuel
          (memcpy buf already_read tmp_buf start_offset to_read)
          (already_read + to_read) (sector + 1) 0 (len - to_read)

/-- Source `_ext2_read_from_dev(vfsdev, buf, start, len)`: the buffer afterwards. -/
def _ext2_read_from_dev (dev : Disk) (buf : Buf) (start len : Nat) : Buf :=
  (_ext2_read_from_dev_loop dev len buf 0 (start / 512) (start % 512) len).getD buf

/-- The `while (len != 0)` loop of `_ext2_write_to_dev`; `none` when the fuel
runs out before `len` reaches zero. -/
def _ext2_write_to_dev_loop (buf : Buf) :
    Nat → Disk → Buf → Nat → Nat → Nat → Nat → Option Disk
  | fuel, dev, tmp_buf, already_written, sector, start_offset, len =>
    if len = 0 then some dev
    else match fuel with
      | 0 => none
      | fuel + 1 =>
        let tmp_buf := if start_offset ≠ 0 ∨ len < 512 then drv_read dev sector else tmp_buf
        let to_write := min (512 - start_offset) len
        let tmp_buf := memcpy tmp_buf start_offset buf already_written to_write
        _ext2_write_to_dev_loop buf fuel (drv_write dev sector tmp_buf) tmp_buf
          (already_written + to_write) (sector + 1) 0 (len - to_write)

/-- Source `_ext2_write_to_dev(vfsdev, buf, start, len)`: the device afterwards. -/
def _ext2_write_to_dev (dev : Disk) (buf : Buf) (start len : Nat) : Disk :=
  (_ext2_write_to_dev_loop buf len dev zero_buf 0 (start / 512) (start % 512) len).getD dev

/-- Source `_ext2_user_read_from_dev`: the same loop as `_ext2_read_from_dev`,
each piece copied to the user buffer by `umem_copy_to_user`. -/
def _ext2_user_read_from_dev (dev : Disk) (buf : Buf) (start len : Nat) : Buf :=
  (_ext2_read_from_dev_loop dev len buf 0 (start / 512) (start % 512) len).getD buf

/-- Source `_ext2_user_write_to_dev`: the same loop as `_ext2_write_to_dev`,
each piece fetched from the user buffer by `umem_copy_from_user`. -/
def _ext2_user_write_to_dev (dev : Disk) (buf : Buf) (start len : Nat) : Disk :=
  (_ext2_write_to_dev_loop buf len dev zero_buf 0 (start / 512) (start % 512) len).getD dev

/-! ## File system data -/

/-- Modelled from the spec: `SUPERBLOCK_START`, the byte offset of the superblock
(the header defining it is not part of the sources). -/
def SUPERBLOCK_START : Nat := 1024

/-- Source `MAX_BLOCK_LEN`. -/
def MAX_BLOCK_LEN : Nat := 1024

/-- Modelled from the spec: the errno value `ENOSPC` (`libkern/bits/errno.h` is
not part of the sources); only its being positive and different from 1 matters. -/
def ENOSPC : Int := 28

/-- Number of values of the 16-bit counters of a group descriptor. -/
def U16 : Nat := 65536

/-- The fields of `superblock_t` that the driver's block and inode functions use. -/
structure superblock_t where
  log_block_size : Nat
  blocks_per_group : Nat
  inodes_per_group : Nat

/-- Modelled from the spec: the ext2 rev 0 group descriptor `group_desc_t` (its
declaration is not part of the sources). -/
structure group_desc_t where
  block_bitmap : Nat
  inode_bitmap : Nat
  inode_table : Nat
  free_blocks_count : Nat
  free_inodes_count : Nat

/-- The cached group descriptor table `ext2_groups_info_t`. -/
structure ext2_groups_info_t where
  count : Nat
  table : Nat → group_desc_t

/-- The per-device data `ext2_fsdata_t`. -/
structure ext2_fsdata_t where
  sb : superblock_t
  gt : ext2_groups_info_t

/-- A mounted device `vfs_device_t`: the storage contents and the cached
file system data. -/
structure vfs_device_t where
  dev : Disk
  fsdata : ext2_fsdata_t

/-- The in-memory inode `inode_t`. -/
structure inode_t where
  mode : Nat
  uid : Nat
  gid : Nat
  size : Nat
  mtime : Nat
  links_count : Nat
  blocks : Nat
  block : Fin 15 → Nat

/-- A cached inode `dentry_t`; `dirty` is the flag `DENTRY_DIRTY`, `d_count` the
reference count. -/
structure dentry_t where
  inode_indx : Nat
  inode : inode_t
  dirty : Bool
  d_count : Nat := 0

/-- Source macro `BLOCK_LEN(sb)`. -/
def BLOCK_LEN (sb : superblock_t) : Nat := 1024 <<< sb.log_block_size

/-- Source macro `TO_EXT_BLOCKS_CNT(sb, x)`. -/
def TO_EXT_BLOCKS_CNT (sb : superblock_t) (x : Nat) : Nat := x / (2 <<< sb.log_block_size)

/-- The group descriptor table with the entry of group `id` replaced. -/
def set_group (gt : ext2_groups_info_t) (id : Nat) (g : group_desc_t) : ext2_groups_info_t :=
  { gt with table := fun j => if j = id then g else gt.table j }

/-- The inode with `block[i]` replaced. -/
def set_block (inode : inode_t) (i : Fin 15) (v : Nat) : inode_t :=
  { inode with block := fun j => if j = i then v else inode.block j }

/-! ## Utils -/

/-- Source `_ext2_bitmap_get`. -/
def _ext2_bitmap_get (bitmap : Buf) (index : Nat) : Bool :=
  ((bitmap (index / 8)).val >>> (index % 8)) &&& 1 != 0

/-- Source `_ext2_bitmap_set_bit`. -/
def _ext2_bitmap_set_bit (bitmap : Buf) (index : Nat) : Buf := fun j =>
  if j = index / 8 then toByte ((bitmap (index / 8)).val ||| (toByte (1 <<< (index % 8))).val)
  else bitmap j

/-- Source `_ext2_bitmap_unset_bit`; `~` is taken on a 32-bit `int`. -/
def _ext2_bitmap_unset_bit (bitmap : Buf) (index : Nat) : Buf := fun j =>
  if j = index / 8 then toByte ((bitmap (index / 8)).val &&& (4294967295 ^^^ (1 <<< (index % 8))))
  else bitmap j

/-! ## Block functions -/

/-- Source `_ext2_get_block_offset`, in `uint32_t` arithmetic. -/
def _ext2_get_block_offset (sb : superblock_t) (block_index : Nat) : Nat :=
  (SUPERBLOCK_START + sub32 block_index 1 * BLOCK_LEN sb) % U32

/-- Source `_ext2_get_block_of_inode_lev0`. -/
def _ext2_get_block_of_inode_lev0 (vfsdev : vfs_device_t) (cur_block inode_block_index : Nat) :
    Nat :=
  let offset := inode_block_index
  u32_of_buf (_ext2_read_from_dev vfsdev.dev zero_buf
    ((_ext2_get_block_offset vfsdev.fsdata.sb cur_block + offset * 4) % U32) 4)

/-- Source `_ext2_get_block_of_inode_lev1`. -/
def _ext2_get_block_of_inode_lev1 (vfsdev : vfs_device_t) (cur_block inode_block_index : Nat) :
    Nat :=
  let lev_contain := BLOCK_LEN vfsdev.fsdata.sb / 4
  let offset := inode_block_index / lev_contain
  let offset_inner := inode_block_index % lev_contain
  let res := u32_of_buf (_ext2_read_from_dev vfsdev.dev zero_buf
    ((_ext2_get_block_offset vfsdev.fsdata.sb cur_block + offset * 4) % U32) 4)
  if res ≠ 0 then _ext2_get_block_of_inode_lev0 vfsdev res offset_inner else 0

/-- Source `_ext2_get_block_of_inode_lev2`. -/
def _ext2_get_block_of_inode_lev2 (vfsdev : vfs_device_t) (cur_block inode_block_index : Nat) :
    Nat :=
  let block_len := BLOCK_LEN vfsdev.fsdata.sb / 4
  let lev_contain := (block_len * block_len) % U32
  let offset := inode_block_index / lev_contain
  let offset_inner := inode_block_index % lev_contain
  let res := u32_of_buf (_ext2_read_from_dev vfsdev.dev zero_buf
    ((_ext2_get_block_offset vfsdev.fsdata.sb cur_block + offset * 4) % U32) 4)
  if res ≠ 0 then _ext2_get_block_of_inode_lev1 vfsdev res offset_inner else 0

/-- Source `_ext2_get_block_of_inode`. -/
def _ext2_get_block_of_inode (vfsdev : vfs_device_t) (dentry : dentry_t)
    (inode_block_index : Nat) : Nat :=
  let block_len := BLOCK_LEN vfsdev.fsdata.sb / 4
  if h : inode_block_index < 12 then
    dentry.inode.block ⟨inode_block_index, by omega⟩
  else if inode_block_index < (12 + block_len) % U32 then
    _ext2_get_block_of_inode_lev0 vfsdev (dentry.inode.block 12) (sub32 inode_block_index 12)
  else if inode_block_index < (12 + block_len + block_len * block_len) % U32 then
    _ext2_get_block_of_inode_lev1 vfsdev (dentry.inode.block 13)
      (sub32 (sub32 inode_block_index 12) block_len)
  else
    _ext2_get_block_of_inode_lev2 vfsdev (dentry.inode.block 14)
      (sub32 inode_block_index (12 + block_len + block_len * block_len))

/-- The `for (off = 0; off < 8 * blocklen; off++)` scan of the two
`_ext2_find_free_*_index` functions: the first `off` whose bit is clear, with
`n` iterations left from `off` on. -/
def first_clear_bit (bitmap : Buf) : Nat → Nat → Option Nat
  | 0, _ => none
  | n + 1, off =>
    if _ext2_bitmap_get bitmap off = false then some off
    else first_clear_bit bitmap n (off + 1)

/-- Source `_ext2_find_free_block_index`.  The argument `block_index` is the
value of `*block_index` before the call; the result is the return value, the
device afterwards and `*block_index` afterwards.  The on-stack buffer
`block_bitmap[MAX_BLOCK_LEN]` is taken to hold the whole block: the model is
that of the source for `BLOCK_LEN(sb) ≤ MAX_BLOCK_LEN`; with larger blocks the
source writes past the buffer and the model does not describe the call. -/
def _ext2_find_free_block_index (vfsdev : vfs_device_t) (block_index group_index : Nat) :
    Int × vfs_device_t × Nat :=
  let fsdata := vfsdev.fsdata
  let blockoff := _ext2_get_block_offset fsdata.sb (fsdata.gt.table group_index).block_bitmap
  let blocklen := BLOCK_LEN fsdata.sb
  let block_bitmap := _ext2_read_from_dev vfsdev.dev zero_buf blockoff blocklen
  match first_clear_bit block_bitmap (8 * blocklen) 0 with
  | some off =>
    (0,
     { vfsdev with
       dev := _ext2_write_to_dev vfsdev.dev (_ext2_bitmap_set_bit block_bitmap off)
                blockoff blocklen },
     (fsdata.sb.blocks_per_group * group_index + off + 1) % U32)
  | none => (-ENOSPC, vfsdev, block_index)

/-- The `for (i = 0; i < groups_cnt; i++)` loop of `_ext2_allocate_block_index`,
with `n` iterations left from `i` on. -/
def _ext2_allocate_block_index_loop (pref_group : Nat) :
    Nat → Nat → vfs_device_t → Nat → Int × vfs_device_t × Nat
  | 0, _, vfsdev, block_index => (-ENOSPC, vfsdev, block_index)
  | n + 1, i, vfsdev, block_index =>
    let groups_cnt := vfsdev.fsdata.gt.count
    let group_id := ((pref_group + i) % U32) % groups_cnt
    let g := vfsdev.fsdata.gt.table group_id
    if g.free_blocks_count ≠ 0 then
      let r := _ext2_find_free_block_index vfsdev block_index group_id
      if r.1 = 0 then
        let g1 := r.2.1.fsdata.gt.table group_id
        (0,
         { r.2.1 with
           fsdata := { r.2.1.fsdata with
             gt := set_group r.2.1.fsdata.gt group_id
               { g1 with free_blocks_count := g1.free_blocks_count - 1 } } },
         r.2.2)
      else _ext2_allocate_block_index_loop pref_group n (i + 1) r.2.1 r.2.2
    else _ext2_allocate_block_index_loop pref_group n (i + 1) vfsdev block_index

/-- Source `_ext2_allocate_block_index`; `block_index` is `*block_index` before
the call. -/
def _ext2_allocate_block_index (vfsdev : vfs_device_t) (block_index pref_group : Nat) :
    Int × vfs_device_t × Nat :=
  _ext2_allocate_block_index_loop pref_group vfsdev.fsdata.gt.count 0 vfsdev block_index

/-- Source `_ext2_free_block_index`.  The model is that of the source for
`BLOCK_LEN(sb) ≤ MAX_BLOCK_LEN`, the size of the buffer `block_bitmap`, and
`blocks_per_group ≠ 0`: with larger blocks the source writes past the buffer,
and with `blocks_per_group = 0` it divides by zero where `/` and `%` of the
model give 0 and the dividend. -/
def _ext2_free_block_index (vfsdev : vfs_device_t) (block_index : Nat) : Int × vfs_device_t :=
  let fsdata := vfsdev.fsdata
  let block_index := sub32 block_index 1
  let block_len := BLOCK_LEN fsdata.sb
  let blockes_per_group := fsdata.sb.blocks_per_group
  let group_index := block_index / blockes_per_group
  let off := block_index % block_len
  let block_off := _ext2_get_block_offset fsdata.sb (fsdata.gt.table group_index).block_bitmap
  let block_bitmap := _ext2_read_from_dev vfsdev.dev zero_buf block_off block_len
  let block_bitmap := _ext2_bitmap_unset_bit block_bitmap off
  let dev := _ext2_write_to_dev vfsdev.dev block_bitmap block_off block_len
  let g := fsdata.gt.table group_index
  (0,
   { dev := dev,
     fsdata := { fsdata with
       gt := set_group fsdata.gt group_index
         { g with free_blocks_count := (g.free_blocks_count + 1) % U16 } } })

/-- Source `_ext2_set_block_of_inode_lev0`. -/
def _ext2_set_block_of_inode_lev0 (vfsdev : vfs_device_t)
    (cur_block inode_block_index val : Nat) : Int × vfs_device_t :=
  let offset := inode_block_index
  (0,
   { vfsdev with
     dev := _ext2_write_to_dev vfsdev.dev (buf_of_u32 val)
       ((_ext2_get_block_offset vfsdev.fsdata.sb cur_block + offset * 4) % U32) 4 })

/-- Source `_ext2_set_block_of_inode_lev1`. -/
def _ext2_set_block_of_inode_lev1 (vfsdev : vfs_device_t)
    (cur_block inode_block_index val : Nat) : Int × vfs_device_t :=
  let lev_contain := BLOCK_LEN vfsdev.fsdata.sb / 4
  let offset := inode_block_index / lev_contain
  let offset_inner := inode_block_index % lev_contain
  let slot := (_ext2_get_block_offset vfsdev.fsdata.sb cur_block + offset * 4) % U32
  let res := u32_of_buf (_ext2_read_from_dev vfsdev.dev zero_buf slot 4)
  if res = 0 then
    let r := _ext2_allocate_block_index vfsdev res 0
    if r.1 ≠ 0 then (r.1, r.2.1)
    else
      let vfsdev1 : vfs_device_t :=
        { r.2.1 with dev := _ext2_write_to_dev r.2.1.dev (buf_of_u32 r.2.2) slot 4 }
      if r.2.2 ≠ 0 then _ext2_set_block_of_inode_lev0 vfsdev1 r.2.2 offset_inner val
      else (-1, vfsdev1)
  else _ext2_set_block_of_inode_lev0 vfsdev res offset_inner val

/-- Source `_ext2_set_block_of_inode_lev2`. -/
def _ext2_set_block_of_inode_lev2 (vfsdev : vfs_device_t)
    (cur_block inode_block_index val : Nat) : Int × vfs_device_t :=
  let block_len := BLOCK_LEN vfsdev.fsdata.sb / 4
  let lev_contain := (block_len * block_len) % U32
  let offset := inode_block_index / lev_contain
  let offset_inner := inode_block_index % lev_contain
  let slot := (_ext2_get_block_offset vfsdev.fsdata.sb cur_block + offset * 4) % U32
  let res := u32_of_buf (_ext2_read_from_dev vfsdev.dev zero_buf slot 4)
  if res = 0 then
    let r := _ext2_allocate_block_index vfsdev res 0
    if r.1 ≠ 0 then (r.1, r.2.1)
    else
      let vfsdev1 : vfs_device_t :=
        { r.2.1 with dev := _ext2_write_to_dev r.2.1.dev (buf_of_u32 r.2.2) slot 4 }
      if r.2.2 ≠ 0 then _ext2_set_block_of_inode_lev1 vfsdev1 r.2.2 offset_inner val
      else (-1, vfsdev1)
  else _ext2_set_block_of_inode_lev1 vfsdev res offset_inner val

/-- The first half of the three indirect branches of `_ext2_set_block_of_inode`:
`if (!dentry->inode->block[i]) { err = _ext2_allocate_block_index(vfsdev,
&dentry->inode->block[i], 0); ... }`.  The result is `err` (0 when nothing had to
be allocated), the device and the dentry afterwards. -/
def alloc_top_block (vfsdev : vfs_device_t) (dentry : dentry_t) (i : Fin 15) :
    Int × vfs_device_t × dentry_t :=
  if dentry.inode.block i = 0 then
    let r := _ext2_allocate_block_index vfsdev (dentry.inode.block i) 0
    (r.1, r.2.1, { dentry with inode := set_block dentry.inode i r.2.2 })
  else (0, vfsdev, dentry)

/-- Source `_ext2_set_block_of_inode`: the return value, the device and the
dentry afterwards. -/
def _ext2_set_block_of_inode (vfsdev : vfs_device_t) (dentry : dentry_t)
    (inode_block_index val : Nat) : Int × vfs_device_t × dentry_t :=
  let block_len := BLOCK_LEN vfsdev.fsdata.sb / 4
  if h : inode_block_index < 12 then
    (0, vfsdev,
     { dentry with
       inode := set_block dentry.inode ⟨inode_block_index, by omega⟩ val, dirty := true })
  else if inode_block_index < (12 + block_len) % U32 then
    let a := alloc_top_block vfsdev dentry 12
    if a.1 ≠ 0 then a
    else
      let r := _ext2_set_block_of_inode_lev0 a.2.1 (a.2.2.inode.block 12)
        (sub32 inode_block_index 12) val
      (r.1, r.2, a.2.2)
  else if inode_block_index < (12 + block_len + block_len * block_len) % U32 then
    let a := alloc_top_block vfsdev dentry 13
    if a.1 ≠ 0 then a
    else
      let r := _ext2_set_block_of_inode_lev1 a.2.1 (a.2.2.inode.block 13)
        (sub32 (sub32 inode_block_index 12) block_len) val
      (r.1, r.2, a.2.2)
  else
    let a := alloc_top_block vfsdev dentry 14
    if a.1 ≠ 0 then a
    else
      let r := _ext2_set_block_of_inode_lev2 a.2.1 (a.2.2.inode.block 14)
        (sub32 inode_block_index (12 + block_len + block_len * block_len)) val
      (r.1, r.2, a.2.2)

/-- Source `_ext2_allocate_block_for_inode`; `block_index` is `*block_index`
before the call.  The result is the return value, the device, the dentry and
`*block_index` afterwards. -/
def _ext2_allocate_block_for_inode (vfsdev : vfs_device_t) (dentry : dentry_t)
    (pref_group block_index : Nat) : Int × vfs_device_t × dentry_t × Nat :=
  let r := _ext2_allocate_block_index vfsdev block_index pref_group
  if r.1 = 0 then
    let blocks_per_inode := TO_EXT_BLOCKS_CNT r.2.1.fsdata.sb dentry.inode.blocks
    let s := _ext2_set_block_of_inode r.2.1 dentry blocks_per_inode r.2.2
    if s.1 = 0 then
      (0, s.2.1,
       { s.2.2 with
         inode := { s.2.2.inode with
           blocks := (s.2.2.inode.blocks + BLOCK_LEN s.2.1.fsdata.sb / 512) % U32 },
         dirty := true },
       r.2.2)
    else (-ENOSPC, s.2.1, s.2.2, r.2.2)
  else (-ENOSPC, r.2.1, dentry, r.2.2)

/-! ## Inode functions -/

/-- Source `_ext2_find_free_inode_index`; `inode_index` is `*inode_index` before
the call.  The buffer `inode_bitmap[MAX_BLOCK_LEN]` is taken to hold the whole
block, as in `_ext2_find_free_block_index`: the model is that of the source for
`BLOCK_LEN(sb) ≤ MAX_BLOCK_LEN`. -/
def _ext2_find_free_inode_index (vfsdev : vfs_device_t) (inode_index group_index : Nat) :
    Int × vfs_device_t × Nat :=
  let fsdata := vfsdev.fsdata
  let blockoff := _ext2_get_block_offset fsdata.sb (fsdata.gt.table group_index).inode_bitmap
  let blocklen := BLOCK_LEN fsdata.sb
  let inode_bitmap := _ext2_read_from_dev vfsdev.dev zero_buf blockoff blocklen
  match first_clear_bit inode_bitmap (8 * blocklen) 0 with
  | some off =>
    (0,
     { vfsdev with
       dev := _ext2_write_to_dev vfsdev.dev (_ext2_bitmap_set_bit inode_bitmap off)
                blockoff blocklen },
     (fsdata.sb.inodes_per_group * group_index + off + 1) % U32)
  | none => (-ENOSPC, vfsdev, inode_index)

/-- The `for (i = 0; i < groups_cnt; i++)` loop of `_ext2_allocate_inode_index`,
with `n` iterations left from `i` on. -/
def _ext2_allocate_inode_index_loop (pref_group : Nat) :
    Nat → Nat → vfs_device_t → Nat → Int × vfs_device_t × Nat
  | 0, _, vfsdev, inode_index => (-ENOSPC, vfsdev, inode_index)
  | n + 1, i, vfsdev, inode_index =>
    let groups_cnt := vfsdev.fsdata.gt.count
    let group_id := ((pref_group + i) % U32) % groups_cnt
    if (vfsdev.fsdata.gt.table group_id).free_inodes_count ≠ 0 then
      let r := _ext2_find_free_inode_index vfsdev inode_index group_id
      if r.1 = 0 then (0, r.2.1, r.2.2)
      else _ext2_allocate_inode_index_loop pref_group n (i + 1) r.2.1 r.2.2
    else _ext2_allocate_inode_index_loop pref_group n (i + 1) vfsdev inode_index

/-- Source `_ext2_allocate_inode_index`; `inode_index` is `*inode_index` before
the call. -/
def _ext2_allocate_inode_index (vfsdev : vfs_device_t) (inode_index pref_group : Nat) :
    Int × vfs_device_t × Nat :=
  _ext2_allocate_inode_index_loop pref_group vfsdev.fsdata.gt.count 0 vfsdev inode_index

/-- Source `_ext2_free_inode_index`.  The model is that of the source for
`BLOCK_LEN(sb) ≤ MAX_BLOCK_LEN`, the size of the buffer `inode_bitmap`, and
`inodes_per_group ≠ 0`: with larger blocks the source writes past the buffer,
and with `inodes_per_group = 0` it divides by zero where `/` and `%` of the
model give 0 and the dividend. -/
def _ext2_free_inode_index (vfsdev : vfs_device_t) (inode_index : Nat) : Int × vfs_device_t :=
  let fsdata := vfsdev.fsdata
  let inode_index := sub32 inode_index 1
  let block_len := BLOCK_LEN fsdata.sb
  let inodes_per_group := fsdata.sb.inodes_per_group
  let group_index := inode_index / inodes_per_group
  let off := inode_index % inodes_per_group
  let block_off := _ext2_get_block_offset fsdata.sb (fsdata.gt.table group_index).inode_bitmap
  let inode_bitmap := _ext2_read_from_dev vfsdev.dev zero_buf block_off block_len
  let inode_bitmap := _ext2_bitmap_unset_bit inode_bitmap off
  let dev := _ext2_write_to_dev vfsdev.dev inode_bitmap block_off block_len
  let g := fsdata.gt.table group_index
  (0,
   { dev := dev,
     fsdata := { fsdata with
       gt := set_group fsdata.gt group_index
         { g with free_inodes_count := (g.free_inodes_count + 1) % U16 } } })

/-! ## API functions -/

/-- The `for` loop of `ext2_read` from `virt_block_index` on; `none` when the
fuel runs out.  The result is the user buffer and `already_read`. -/
def ext2_read_loop (vfsdev : vfs_device_t) (dentry : dentry_t) (block_len end_block_index : Nat) :
    Nat → Nat → Buf → Nat → Nat → Nat → Option (Buf × Nat)
  | fuel, virt_block_index, buf, have_to_read, read_offset, already_read =>
    if virt_block_index ≤ end_block_index then
      match fuel with
      | 0 => none
      | fuel + 1 =>
        let data_block_index := _ext2_get_block_of_inode vfsdev dentry virt_block_index
        let read_from_block := min have_to_read (sub32 block_len read_offset)
        let piece := _ext2_user_read_from_dev vfsdev.dev (fun j => buf (already_read + j))
          ((_ext2_get_block_offset vfsdev.fsdata.sb data_block_index + read_offset) % U32)
          read_from_block
        let buf1 : Buf := fun i => if i < already_read then buf i else piece (i - already_read)
        ext2_read_loop vfsdev dentry block_len end_block_index fuel
          ((virt_block_index + 1) % U32) buf1 (have_to_read - read_from_block) 0
          ((already_read + read_from_block) % U32)
    else some (buf, already_read)

/-- Source `ext2_read(file, buf, start, len)` on the dentry of `file`; `W` is the
number of values of `size_t` on the target.  The result is the return value and
the user buffer afterwards; `none` when the loop does not end. -/
def ext2_read (W : Nat) (vfsdev : vfs_device_t) (dentry : dentry_t) (buf : Buf)
    (start len : Nat) : Option (Int × Buf) :=
  let block_len := BLOCK_LEN vfsdev.fsdata.sb % U32
  let blocks_allocated := TO_EXT_BLOCKS_CNT vfsdev.fsdata.sb dentry.inode.blocks
  let start_block_index := (start / block_len) % U32
  let end_block_index :=
    (min (((start + len) % W + W - 1) % W / block_len) (sub32 blocks_allocated 1)) % U32
  if start ≥ dentry.inode.size then some (0, buf)
  else
    let have_to_read := (min len (dentry.inode.size - start)) % U32
    let read_offset := start % block_len
    (ext2_read_loop vfsdev dentry block_len end_block_index
        (end_block_index + 1 - start_block_index) start_block_index buf have_to_read
        read_offset 0).map
      (fun r => ((r.2 : Int), r.1))

/-- The `for` loop of `ext2_write` from `virt_block_index` on; `none` when the
fuel runs out.  The result is the error of a failed allocation, if any, the
device, the dentry and `already_written`. -/
def ext2_write_loop (buf : Buf) (block_len end_block_index blocks_allocated : Nat) :
    Nat → Nat → vfs_device_t → dentry_t → Nat → Nat → Nat → Nat →
      Option (Option Int × vfs_device_t × dentry_t × Nat)
  | fuel, virt_block_index, vfsdev, dentry, data_block_index, to_write, write_offset,
      already_written =>
    if virt_block_index ≤ end_block_index then
      match fuel with
      | 0 => none
      | fuel + 1 =>
        let write_to_block := min to_write (sub32 block_len write_offset)
        let a : Int × vfs_device_t × dentry_t × Nat :=
          if blocks_allocated ≤ virt_block_index then
            _ext2_allocate_block_for_inode vfsdev dentry 0 data_block_index
          else (0, vfsdev, dentry, _ext2_get_block_of_inode vfsdev dentry virt_block_index)
        if a.1 ≠ 0 then some (some a.1, a.2.1, a.2.2.1, already_written)
        else
          let dev := _ext2_user_write_to_dev a.2.1.dev (fun j => buf (already_written + j))
            ((_ext2_get_block_offset a.2.1.fsdata.sb a.2.2.2 + write_offset) % U32)
            write_to_block
          ext2_write_loop buf block_len end_block_index blocks_allocated fuel
            ((virt_block_index + 1) % U32) { a.2.1 with dev := dev } a.2.2.1 a.2.2.2
            (to_write - write_to_block) 0 ((already_written + write_to_block) % U32)
    else some (none, vfsdev, dentry, already_written)

/-- Source `ext2_write(file, buf, start, len)` on the dentry of `file`; `W` is
the number of values of `size_t` on the target and `now` the value of
`timeman_seconds_since_epoch()`.  The result is the return value, the device and
the dentry afterwards; `none` when the loop does not end. -/
def ext2_write (W now : Nat) (vfsdev : vfs_device_t) (dentry : dentry_t) (buf : Buf)
    (start len : Nat) : Option (Int × vfs_device_t × dentry_t) :=
  let block_len := BLOCK_LEN vfsdev.fsdata.sb % U32
  let start_block_index := (start / block_len) % U32
  let end_block_index := ((start + len) % W / block_len) % U32
  let write_offset := start % block_len
  let to_write := len % U32
  let blocks_allocated := TO_EXT_BLOCKS_CNT vfsdev.fsdata.sb dentry.inode.blocks
  (ext2_write_loop buf block_len end_block_index blocks_allocated
      (end_block_index + 1 - start_block_index) start_block_index vfsdev dentry 0 to_write
      write_offset 0).map
    (fun r =>
      match r.1 with
      | some err => (err, r.2.1, r.2.2.1)
      | none =>
        let inode := r.2.2.1.inode
        let inode1 : inode_t :=
          if inode.size < (start + len) % W then { inode with size := (start + len) % W % U32 }
          else inode
        ((r.2.2.2 : Int), r.2.1,
         { r.2.2.1 with inode := { inode1 with mtime := now % U32 }, dirty := true }))

/-! ## Specification-side reading of the device -/

/-- The little-endian 32-bit word at byte address `a` of the device. -/
def dev_u32 (dev : Disk) (a : Nat) : Nat :=
  (dev a).val + 256 * (dev (a + 1)).val + 65536 * (dev (a + 2)).val
    + 16777216 * (dev (a + 3)).val

/-- Entry `k` of the index block `b`: the 32-bit word at byte `4 * k` of block `b`. -/
def index_entry (vfsdev : vfs_device_t) (b k : Nat) : Nat :=
  dev_u32 vfsdev.dev ((_ext2_get_block_offset vfsdev.fsdata.sb b + 4 * k) % U32)

/-- The entries of intermediate index blocks on the path of logical block `n`
are allocated (non-zero). -/
def index_path_allocated (vfsdev : vfs_device_t) (dentry : dentry_t) (n : Nat) : Prop :=
  let L := BLOCK_LEN vfsdev.fsdata.sb / 4
  if n < 12 + L then True
  else if n < 12 + L + L * L then
    index_entry vfsdev (dentry.inode.block 13) ((n - 12 - L) / L) ≠ 0
  else
    let m := n - 12 - L - L * L
    index_entry vfsdev (dentry.inode.block 14) (m / (L * L)) ≠ 0 ∧
    index_entry vfsdev (index_entry vfsdev (dentry.inode.block 14) (m / (L * L)))
      (m % (L * L) / L) ≠ 0

instance (vfsdev : vfs_device_t) (dentry : dentry_t) (n : Nat) :
    Decidable (index_path_allocated vfsdev dentry n) := by
  unfold index_path_allocated
  exact inferInstance

/-- Bit `off` of the bitmap that starts at byte `blockoff` of the device. -/
def disk_bit (dev : Disk) (blockoff off : Nat) : Bool :=
  (dev (blockoff + off / 8)).val.testBit (off % 8)

/-- Byte offset of the block bitmap of group `g`. -/
def block_bitmap_off (vfsdev : vfs_device_t) (g : Nat) : Nat :=
  _ext2_get_block_offset vfsdev.fsdata.sb (vfsdev.fsdata.gt.table g).block_bitmap

/-- Byte offset of the inode bitmap of group `g`. -/
def inode_bitmap_off (vfsdev : vfs_device_t) (g : Nat) : Nat :=
  _ext2_get_block_offset vfsdev.fsdata.sb (vfsdev.fsdata.gt.table g).inode_bitmap

/-- Number of cleared bits among the bits `off, ..., off + n - 1` of the bitmap
at byte `blockoff`. -/
def count_clear (dev : Disk) (blockoff : Nat) : Nat → Nat → Nat
  | 0, _ => 0
  | n + 1, off =>
    (if disk_bit dev blockoff off then 0 else 1) + count_clear dev blockoff n (off + 1)

/-! ## Concrete file systems -/

/-- A superblock with 1 KiB blocks and full-size groups. -/
def sb_1k : superblock_t :=
  { log_block_size := 0, blocks_per_group := 8192, inodes_per_group := 64 }

/-- An inode without blocks. -/
def inode_empty : inode_t :=
  { mode := 33188, uid := 0, gid := 0, size := 0, mtime := 0, links_count := 1, blocks := 0,
    block := fun _ => 0 }

/-- The dentry of an empty regular file. -/
def dentry_empty : dentry_t := { inode_indx := 12, inode := inode_empty, dirty := false }

/-- One group whose block bitmap is block 3, inode bitmap block 4, inode table
block 5. -/
def gt_one (free_blocks free_inodes : Nat) : ext2_groups_info_t :=
  { count := 1,
    table := fun _ =>
      { block_bitmap := 3, inode_bitmap := 4, inode_table := 5,
        free_blocks_count := free_blocks, free_inodes_count := free_inodes } }

/-- A device holding a triple-indirect path: entry 1 of block 20 is 21, entry 2
of block 21 is 22, entry 3 of block 22 is 77. -/
def dev_triple : Disk := fun a =>
  if a = 20484 then 21 else if a = 21512 then 22 else if a = 22540 then 77 else 0

/-- The file system on `dev_triple`. -/
def vfs_triple : vfs_device_t :=
  { dev := dev_triple, fsdata := { sb := sb_1k, gt := gt_one 100 10 } }

/-- A dentry whose only block pointer is the triple-indirect block 20. -/
def dentry_triple : dentry_t :=
  { dentry_empty with
    inode := { inode_empty with block := fun i => if i = 14 then 20 else 0 } }

/-- A device whose first byte, at byte 0 of the boot area, is 1, whose superblock
area starts with 2 and whose block 2 starts with 5. -/
def dev_boot : Disk := fun a =>
  if a = 0 then 1 else if a = 1024 then 2 else if a = 2048 then 5 else 0

/-- The file system on `dev_boot`. -/
def vfs_boot : vfs_device_t :=
  { dev := dev_boot, fsdata := { sb := sb_1k, gt := gt_one 100 10 } }

/-- `off` is the lowest cleared bit among the first `n` bits of the bitmap at
byte `blockoff`. -/
def lowest_clear (dev : Disk) (blockoff n off : Nat) : Prop :=
  off < n ∧ disk_bit dev blockoff off = false ∧ ∀ j, j < off → disk_bit dev blockoff j = true

/-- Group `g` can serve a block allocation: its counter of free blocks is not
zero and its on-disk block bitmap has a cleared bit. -/
def group_usable (vfsdev : vfs_device_t) (g : Nat) : Prop :=
  (vfsdev.fsdata.gt.table g).free_blocks_count ≠ 0 ∧
  ∃ off, off < 8 * BLOCK_LEN vfsdev.fsdata.sb ∧
    disk_bit vfsdev.dev (block_bitmap_off vfsdev g) off = false

/-- Group `g` has a free block: its counter of free blocks is not zero and one
of the `blocks_per_group` bits of its on-disk block bitmap is cleared. -/
def group_has_free_block (vfsdev : vfs_device_t) (g : Nat) : Prop :=
  (vfsdev.fsdata.gt.table g).free_blocks_count ≠ 0 ∧
  ∃ off, off < vfsdev.fsdata.sb.blocks_per_group ∧
    disk_bit vfsdev.dev (block_bitmap_off vfsdev g) off = false

/-- What a successful block allocation from bit `off` of group `g` does: the
block index returned, exactly that bit set on the device, the counter of `g`
decremented by one, everything else unchanged. -/
def alloc_block_effect (v : vfs_device_t) (r : Int × vfs_device_t × Nat) (g off : Nat) : Prop :=
  r.2.2 = (v.fsdata.sb.blocks_per_group * g + off + 1) % U32 ∧
  (∀ a k, (r.2.1.dev a).val.testBit k =
    ((v.dev a).val.testBit k || decide (a = block_bitmap_off v g + off / 8 ∧ k = off % 8))) ∧
  r.2.1.fsdata.sb = v.fsdata.sb ∧
  r.2.1.fsdata.gt.count = v.fsdata.gt.count ∧
  r.2.1.fsdata.gt.table g =
    { v.fsdata.gt.table g with
      free_blocks_count := (v.fsdata.gt.table g).free_blocks_count - 1 } ∧
  ∀ g', g' ≠ g → r.2.1.fsdata.gt.table g' = v.fsdata.gt.table g'

/-- The success part of the contract of `_ext2_allocate_block_index`, for a given
notion of which groups are eligible: a call that returns 0 has taken the first
eligible group in the cyclic order `pref_group, pref_group + 1, ...` and the
lowest cleared bit of that group's block bitmap. -/
def allocate_block_success_claim (eligible : vfs_device_t → Nat → Prop)
    (v : vfs_device_t) (bi pref : Nat) : Prop :=
  (_ext2_allocate_block_index v bi pref).1 = 0 →
    ∃ i off, i < v.fsdata.gt.count ∧
      (∀ j, j < i → ¬ eligible v ((pref + j) % v.fsdata.gt.count)) ∧
      eligible v ((pref + i) % v.fsdata.gt.count) ∧
      lowest_clear v.dev (block_bitmap_off v ((pref + i) % v.fsdata.gt.count))
        (8 * BLOCK_LEN v.fsdata.sb) off ∧
      alloc_block_effect v (_ext2_allocate_block_index v bi pref)
        ((pref + i) % v.fsdata.gt.count) off

/-- Eligibility as the claim words it: the group's `free_blocks_count` is not zero. -/
def counter_nonzero (v : vfs_device_t) (g : Nat) : Prop :=
  (v.fsdata.gt.table g).free_blocks_count ≠ 0

/-- Two groups with block bitmaps in blocks 3 and 8195; the counters are
`free0` and `free1`. -/
def gt_two (free0 free1 : Nat) : ext2_groups_info_t :=
  { count := 2,
    table := fun g =>
      if g = 0 then
        { block_bitmap := 3, inode_bitmap := 4, inode_table := 5,
          free_blocks_count := free0, free_inodes_count := 10 }
      else
        { block_bitmap := 8195, inode_bitmap := 8196, inode_table := 8197,
          free_blocks_count := free1, free_inodes_count := 10 } }

/-- A device on which the block bitmap of group 0 (bytes 3072..4095) is full and
the block bitmap of group 1 (at byte 8391680) has its first eight bits set. -/
def dev_full0 : Disk := fun a =>
  if 3072 ≤ a ∧ a < 4096 then 255 else if a = 8391680 then 255 else 0

/-- Group 0 claims one free block although its bitmap is full; group 1 has free
blocks. -/
def vfs_full0 : vfs_device_t :=
  { dev := dev_full0, fsdata := { sb := sb_1k, gt := gt_two 1 5 } }

/-- A device on which blocks 1..8 of the single group are in use. -/
def dev_small : Disk := fun a => if a = 3072 then 255 else 0

/-- A file system with one group and free blocks from block 9 on. -/
def vfs_small : vfs_device_t :=
  { dev := dev_small, fsdata := { sb := sb_1k, gt := gt_one 100 10 } }

/-- The allocator invariant: in every group the counter `free_blocks_count`
equals the number of cleared bits among the `8 * block_size` bits of the
group's on-disk block bitmap. -/
def counters_match_bitmaps (v : vfs_device_t) : Prop :=
  ∀ g, g < v.fsdata.gt.count →
    (v.fsdata.gt.table g).free_blocks_count =
      count_clear v.dev (block_bitmap_off v g) (8 * BLOCK_LEN v.fsdata.sb) 0

/-- A device on which blocks 1..8 and block 1034 of the single group are in use:
bits 0..7 and bit 1033 of the block bitmap at byte 3072 are set. -/
def dev_1034 : Disk := fun a => if a = 3072 then 255 else if a = 3201 then 2 else 0

/-- The file system on `dev_1034`; 8183 of the 8192 bits are cleared. -/
def vfs_1034 : vfs_device_t :=
  { dev := dev_1034, fsdata := { sb := sb_1k, gt := gt_one 8183 10 } }

/-- A device on which blocks 1..10 and block 1034 of the single group are in
use: bits 0..9 and bit 1033 of the block bitmap at byte 3072 are set. -/
def dev_1034b : Disk := fun a =>
  if a = 3072 then 255 else if a = 3073 then 3 else if a = 3201 then 2 else 0

/-- The file system on `dev_1034b`. -/
def vfs_1034b : vfs_device_t :=
  { dev := dev_1034b, fsdata := { sb := sb_1k, gt := gt_one 8181 10 } }

/-- A superblock with 1 KiB blocks and groups of 1024 blocks. -/
def sb_short : superblock_t :=
  { log_block_size := 0, blocks_per_group := 1024, inodes_per_group := 64 }

/-- A device on which the first 1024 bits of the block bitmap at byte 3072 are
set and the rest of the bitmap block is zero. -/
def dev_short : Disk := fun a => if 3072 ≤ a ∧ a < 3200 then 255 else 0

/-- A file system with groups of 1024 blocks whose group 0 is full. -/
def vfs_short : vfs_device_t :=
  { dev := dev_short, fsdata := { sb := sb_short, gt := gt_one 1 10 } }

/-- A write followed by a read of the same range on the resulting state: the
return value of `ext2_write`, the return value of `ext2_read`, the buffer read,
and the dentry after the write. -/
def write_then_read (W now : Nat) (vfsdev : vfs_device_t) (dentry : dentry_t) (S : Buf)
    (O len : Nat) : Option (Int × Int × Buf × dentry_t) :=
  match ext2_write W now vfsdev dentry S O len with
  | none => none
  | some w =>
    match ext2_read W w.2.1 w.2.2 zero_buf O len with
    | none => none
    | some r => some (w.1, r.1, r.2, w.2.2)

/-- A user buffer filled with the byte 65. -/
def buf_A : Buf := fun _ => 65

/-- Index of the top-level pointer (`block[12]`, `block[13]` or `block[14]`) that
`_ext2_set_block_of_inode` uses for a logical index `n ≥ 12`. -/
def top_index (v : vfs_device_t) (n : Nat) : Fin 15 :=
  let block_len := BLOCK_LEN v.fsdata.sb / 4
  if n < (12 + block_len) % U32 then 12
  else if n < (12 + block_len + block_len * block_len) % U32 then 13
  else 14

/-- The block indices that the allocator can hand out fit into 32 bits, so that
no allocated block index wraps around to 0. -/
def block_indices_fit (v : vfs_device_t) : Prop :=
  v.fsdata.gt.count < U32 ∧
  v.fsdata.sb.blocks_per_group * v.fsdata.gt.count + 8 * BLOCK_LEN v.fsdata.sb < U32

instance (v : vfs_device_t) : Decidable (block_indices_fit v) := by
  unfold block_indices_fit
  exact inferInstance

/-- The failure part of the contract of `_ext2_set_block_of_inode` as the claim
words it: a call that fails returns `-ENOSPC` and leaves all 15 block pointers
of the inode as they were. -/
def set_block_failure_claim (v : vfs_device_t) (d : dentry_t) (n val : Nat) : Prop :=
  (_ext2_set_block_of_inode v d n val).1 ≠ 0 →
    (_ext2_set_block_of_inode v d n val).1 = -ENOSPC ∧
    ∀ i, (_ext2_set_block_of_inode v d n val).2.2.inode.block i = d.inode.block i

/-- A device on which every block of the single group except block 9 is in use. -/
def dev_one : Disk := fun a =>
  if a = 3073 then 254 else if 3072 ≤ a ∧ a < 4096 then 255 else 0

/-- A file system with exactly one free block, block 9. -/
def vfs_one : vfs_device_t :=
  { dev := dev_one, fsdata := { sb := sb_1k, gt := gt_one 1 10 } }

/-- Byte address of entry `k` of the index block `b`. -/
def slot (sb : superblock_t) (b k : Nat) : Nat :=
  (_ext2_get_block_offset sb b + k * 4) % U32

/-- One step down of the write path (`_ext2_set_block_of_inode_lev1` and `lev2`)
at the entry stored at byte `s`: the index block found there or, when the entry
is zero, the block allocated and recorded there.  The result is the error of the
allocation, the device afterwards and the index block. -/
def descend (v : vfs_device_t) (s : Nat) : Int × vfs_device_t × Nat :=
  let res := dev_u32 v.dev s
  if res = 0 then
    let r := _ext2_allocate_block_index v res 0
    if r.1 ≠ 0 then (r.1, r.2.1, r.2.2)
    else (0, { r.2.1 with dev := _ext2_write_to_dev r.2.1.dev (buf_of_u32 r.2.2) s 4 }, r.2.2)
  else (0, v, res)

/-- The byte addresses of the index entries that `_ext2_set_block_of_inode(dentry,
n, val)` walks through, top level first: none for a direct block, one, two or
three for a single-, double- or triple-indirect block. -/
def set_slots (v : vfs_device_t) (d : dentry_t) (n : Nat) : List Nat :=
  let block_len := BLOCK_LEN v.fsdata.sb / 4
  if n < 12 then []
  else if n < (12 + block_len) % U32 then
    let a := alloc_top_block v d 12
    [slot v.fsdata.sb (a.2.2.inode.block 12) (sub32 n 12)]
  else if n < (12 + block_len + block_len * block_len) % U32 then
    let a := alloc_top_block v d 13
    let idx := sub32 (sub32 n 12) block_len
    let s1 := slot v.fsdata.sb (a.2.2.inode.block 13) (idx / block_len)
    let r1 := descend a.2.1 s1
    [s1, slot v.fsdata.sb r1.2.2 (idx % block_len)]
  else
    let a := alloc_top_block v d 14
    let idx := sub32 n (12 + block_len + block_len * block_len)
    let lev_contain := (block_len * block_len) % U32
    let s1 := slot v.fsdata.sb (a.2.2.inode.block 14) (idx / lev_contain)
    let r1 := descend a.2.1 s1
    let s2 := slot v.fsdata.sb r1.2.2 (idx % lev_contain / block_len)
    let r2 := descend r1.2.1 s2
    [s1, s2, slot v.fsdata.sb r2.2.2 (idx % lev_contain % block_len)]

/-- The four bytes at `s` lie outside the block bitmap of every group. -/
def off_bitmaps (v : vfs_device_t) (s : Nat) : Prop :=
  ∀ g, g < v.fsdata.gt.count →
    s + 4 ≤ block_bitmap_off v g ∨ block_bitmap_off v g + BLOCK_LEN v.fsdata.sb ≤ s

instance (v : vfs_device_t) (s : Nat) : Decidable (off_bitmaps v s) := by
  unfold off_bitmaps
  exact inferInstance

/-- The contract "set, then get": if `_ext2_set_block_of_inode(dentry, n, val)`
returns 0, a following `_ext2_get_block_of_inode(dentry, n)` returns `val`. -/
def set_get_claim (v : vfs_device_t) (d : dentry_t) (n val : Nat) : Prop :=
  (_ext2_set_block_of_inode v d n val).1 = 0 →
    _ext2_get_block_of_inode (_ext2_set_block_of_inode v d n val).2.1
      (_ext2_set_block_of_inode v d n val).2.2 n = val

/-- A device on which entry 0 of block 20 points to block 20 itself. -/
def dev_self : Disk := fun a => if a = 20480 then 20 else 0

/-- The file system on `dev_self`. -/
def vfs_self : vfs_device_t :=
  { dev := dev_self, fsdata := { sb := sb_1k, gt := gt_one 100 10 } }

/-- A dentry whose double-indirect pointer is block 20. -/
def dentry_self : dentry_t :=
  { dentry_empty with
    inode := { inode_empty with block := fun i => if i = 13 then 20 else 0 } }

/-- The two states have the same superblock, the same number of groups and the
same block bitmap locations. -/
def same_layout (v v' : vfs_device_t) : Prop :=
  v'.fsdata.sb = v.fsdata.sb ∧ v'.fsdata.gt.count = v.fsdata.gt.count ∧
  ∀ g, (v'.fsdata.gt.table g).block_bitmap = (v.fsdata.gt.table g).block_bitmap

/-! ## Truncation -/

/-- The `for` loop of `ext2_truncate` with `n` iterations left from
`virt_block_index` on: the device after the calls of `_ext2_free_block_index`.
The loop runs while `virt_block_index < blocks_allocated`, so the counter does
not wrap. -/
def ext2_truncate_loop (dentry : dentry_t) : Nat → Nat → vfs_device_t → vfs_device_t
  | 0, _, vfsdev => vfsdev
  | n + 1, virt_block_index, vfsdev =>
    let block_index := _ext2_get_block_of_inode vfsdev dentry virt_block_index
    ext2_truncate_loop dentry n (virt_block_index + 1)
      (_ext2_free_block_index vfsdev block_index).2

/-- Source `ext2_truncate(file, len)` on the dentry of `file`; `now` is the value
of `timeman_seconds_since_epoch()`.  `len - 1` is taken in `size_t` and stored in
a `uint32_t`, which is `sub32 len 1` on 32-bit and on 64-bit targets.  The result
is the return value, the device and the dentry afterwards. -/
def ext2_truncate (now : Nat) (vfsdev : vfs_device_t) (dentry : dentry_t) (len : Nat) :
    Int × vfs_device_t × dentry_t :=
  if dentry.inode.size ≤ len then (0, vfsdev, dentry)
  else
    let block_len := BLOCK_LEN vfsdev.fsdata.sb % U32
    let last_written_byte := sub32 len 1
    let last_written_block_index := last_written_byte / block_len
    let start_block_index := (last_written_block_index + 1) % U32
    let blocks_allocated := TO_EXT_BLOCKS_CNT vfsdev.fsdata.sb dentry.inode.blocks
    let vfsdev1 := ext2_truncate_loop dentry (blocks_allocated - start_block_index)
      start_block_index vfsdev
    (0, vfsdev1,
     { dentry with
       inode := { dentry.inode with size := len % U32, mtime := now % U32 },
       dirty := true })

/-- A device on which blocks 1..10 of the single group are in use. -/
def dev_ten : Disk := fun a => if a = 3072 then 255 else if a = 3073 then 3 else 0

/-- The file system on `dev_ten`; 8182 of the 8192 bits are cleared. -/
def vfs_ten : vfs_device_t :=
  { dev := dev_ten, fsdata := { sb := sb_1k, gt := gt_one 8182 10 } }

/-- A file of two blocks: logical block 0 is block 9, logical block 1 is
block 10. -/
def dentry_two_blocks : dentry_t :=
  { dentry_empty with
    inode := { inode_empty with
      size := 2048, blocks := 4, block := fun i => if i = 0 then 9 else if i = 1 then 10 else 0 } }

/-- A device on which blocks 1..9 of the single group are in use. -/
def dev_nine : Disk := fun a => if a = 3072 then 255 else if a = 3073 then 1 else 0

/-- The file system on `dev_nine`; 8183 of the 8192 bits are cleared. -/
def vfs_nine : vfs_device_t :=
  { dev := dev_nine, fsdata := { sb := sb_1k, gt := gt_one 8183 10 } }

/-- A file of one block, block 9, holding 1024 bytes. -/
def dentry_one_block : dentry_t :=
  { dentry_empty with
    inode := { inode_empty with
      size := 1024, blocks := 2, block := fun i => if i = 0 then 9 else 0 } }

/-! ## Freeing an inode -/

/-- An inode after `memset(dentry->inode, 0, sizeof(inode_t))`. -/
def inode_zero : inode_t :=
  { mode := 0, uid := 0, gid := 0, size := 0, mtime := 0, links_count := 0, blocks := 0,
    block := fun _ => 0 }

/-- Source `ext2_write_inode`.  `INODE_LEN`, the size of an inode record, comes
from a header that is not part of the sources and is a parameter; `image` is the
byte image of the in-memory `*dentry->inode`. -/
def ext2_write_inode (INODE_LEN : Nat) (vfsdev : vfs_device_t) (dentry : dentry_t)
    (image : Buf) : Int × vfs_device_t :=
  let inodes_per_group := vfsdev.fsdata.sb.inodes_per_group
  let holder_group := sub32 dentry.inode_indx 1 / inodes_per_group
  let pos_inside_group := sub32 dentry.inode_indx 1 % inodes_per_group
  let inode_start :=
    (_ext2_get_block_offset vfsdev.fsdata.sb (vfsdev.fsdata.gt.table holder_group).inode_table
      + pos_inside_group * INODE_LEN) % U32
  (0, { vfsdev with dev := _ext2_write_to_dev vfsdev.dev image inode_start INODE_LEN })

/-- The loop "freeing all data blocks" of `ext2_free_inode`, with `n` iterations
left from `block_index` on. -/
def ext2_free_inode_loop (dentry : dentry_t) : Nat → Nat → vfs_device_t → vfs_device_t
  | 0, _, vfsdev => vfsdev
  | n + 1, block_index, vfsdev =>
    let data_block_index := _ext2_get_block_of_inode vfsdev dentry block_index
    ext2_free_inode_loop dentry n (block_index + 1)
      (_ext2_free_block_index vfsdev data_block_index).2

/-- Source `ext2_free_inode`; `none` when the `ASSERT` fails.  The image of the
zeroed inode is all zero bytes.  The result is the return value, the device and
the dentry afterwards. -/
def ext2_free_inode (INODE_LEN : Nat) (vfsdev : vfs_device_t) (dentry : dentry_t) :
    Option (Int × vfs_device_t × dentry_t) :=
  if dentry.d_count = 0 ∧ dentry.inode.links_count = 0 then
    let block_per_dir := TO_EXT_BLOCKS_CNT vfsdev.fsdata.sb dentry.inode.blocks
    let vfsdev1 := ext2_free_inode_loop dentry block_per_dir 0 vfsdev
    let dentry1 : dentry_t := { dentry with inode := inode_zero }
    let w := ext2_write_inode INODE_LEN vfsdev1 dentry1 zero_buf
    let f := _ext2_free_inode_index w.2 dentry1.inode_indx
    some (0, f.2, dentry1)
  else none

/-- A device with blocks 1..22 in use, inode 12 in use with a non-zero record at
byte 6528 of the inode table, and an index block 21 whose entry 0 is block 22. -/
def dev_indirect : Disk := fun a =>
  if a = 3072 then 255 else if a = 3073 then 255 else if a = 3074 then 63
  else if a = 4097 then 8 else if a = 6528 then 164 else if a = 21504 then 22 else 0

/-- The file system on `dev_indirect`. -/
def vfs_indirect : vfs_device_t :=
  { dev := dev_indirect, fsdata := { sb := sb_1k, gt := gt_one 8170 9 } }

/-- An unlinked file of 13 blocks: the direct blocks 9..20 and, through the
single-indirect block 21, block 22. -/
def dentry_indirect : dentry_t :=
  { inode_indx := 12,
    inode :=
      { mode := 33188, uid := 0, gid := 0, size := 13312, mtime := 0, links_count := 0,
        blocks := 26, block := fun i => if i.val < 13 then i.val + 9 else 0 },
    dirty := false }

/-! ## Directory records -/

/-- Modelled from the spec: the errno value `EINVAL` (`libkern/bits/errno.h` is
not part of the sources). -/
def EINVAL : Int := 22

/-- Modelled from the spec: the errno value `EFAULT`. -/
def EFAULT : Int := 14

/-- Modelled from the spec: the errno value `ENOENT`. -/
def ENOENT : Int := 2

/-- Source macro `NORM_FILENAME(x)`, the result stored in a `uint32_t`. -/
def NORM_FILENAME (x : Nat) : Nat := (x + ((4 - (x &&& 3)) &&& 3)) % U32

/-- Modelled from the spec: the field `inode` of the directory record
(`dir_entry_t`, declared in a header that is not part of the sources) at byte
`off` of a buffer.  The record has an 8-byte header, little-endian: `inode`
(32 bits) at byte 0, `rec_len` (16 bits) at byte 4, `name_len` (16 bits, ext2
rev 0) at byte 6; the name follows at byte 8. -/
def entry_inode (buf : Buf) (off : Nat) : Nat :=
  (buf off).val + 256 * (buf (off + 1)).val + 65536 * (buf (off + 2)).val
    + 16777216 * (buf (off + 3)).val

/-- Modelled from the spec: the field `rec_len` of the record at byte `off`. -/
def entry_rec_len (buf : Buf) (off : Nat) : Nat :=
  (buf (off + 4)).val + 256 * (buf (off + 5)).val

/-- Modelled from the spec: the field `name_len` of the record at byte `off`. -/
def entry_name_len (buf : Buf) (off : Nat) : Nat :=
  (buf (off + 6)).val + 256 * (buf (off + 7)).val

/-- Modelled from the spec: the assignment `entry->inode = v` on the record at
byte `off`. -/
def set_entry_inode (buf : Buf) (off v : Nat) : Buf := fun i =>
  if i = off then toByte v
  else if i = off + 1 then toByte (v / 256)
  else if i = off + 2 then toByte (v / 65536)
  else if i = off + 3 then toByte (v / 16777216)
  else buf i

/-- Modelled from the spec: the assignment `entry->rec_len = v` on the record at
byte `off`. -/
def set_entry_rec_len (buf : Buf) (off v : Nat) : Buf := fun i =>
  if i = off + 4 then toByte v
  else if i = off + 5 then toByte (v / 256)
  else buf i

/-- Modelled from the spec: the assignment `entry->name_len = v` on the record
at byte `off`. -/
def set_entry_name_len (buf : Buf) (off v : Nat) : Buf := fun i =>
  if i = off + 6 then toByte v
  else if i = off + 7 then toByte (v / 256)
  else buf i

/-- The first 8 bytes of the local `dir_entry_t new_entry` after its three
fields are assigned. -/
def new_entry_bytes (inode rec_len name_len : Nat) : Buf :=
  set_entry_name_len (set_entry_rec_len (set_entry_inode zero_buf 0 inode) 0 rec_len) 0 name_len

/-- The effect of `memset(&dst[doff], c, n)` on `dst`. -/
def memset (dst : Buf) (doff : Nat) (c : Byte) (n : Nat) : Buf := fun i =>
  if doff ≤ i ∧ i < doff + n then c else dst i

/-- The inner loop of `_ext2_lookup_block` over `i < n`: `is_name_same` at its
end. -/
def is_name_same (name tmp_buf : Buf) (start_of_entry : Nat) : Nat → Bool
  | 0 => true
  | n + 1 =>
    is_name_same name tmp_buf start_of_entry n
      && decide (name n = tmp_buf (start_of_entry + 8 + n))

/-- The `for (;;)` loop of `_ext2_lookup_block` from the record at byte
`start_of_entry` of `tmp_buf` on: the return value and `*found_inode_index`
afterwards; `none` when the fuel runs out. -/
def _ext2_lookup_block_loop (tmp_buf name : Buf) (len blocklen found_inode_index : Nat) :
    Nat → Nat → Option (Int × Nat)
  | 0, _ => none
  | fuel + 1, start_of_entry =>
    if entry_inode tmp_buf start_of_entry = 0 then some (-EFAULT, found_inode_index)
    else if entry_name_len tmp_buf start_of_entry = len ∧
        is_name_same name tmp_buf start_of_entry (entry_name_len tmp_buf start_of_entry) = true
      then some (0, entry_inode tmp_buf start_of_entry)
    else
      let next := start_of_entry + entry_rec_len tmp_buf start_of_entry
      if next ≥ blocklen then some (-EFAULT, found_inode_index)
      else _ext2_lookup_block_loop tmp_buf name len blocklen found_inode_index fuel next

/-- Source `_ext2_lookup_block`; `found_inode_index` is `*found_inode_index`
before the call.  The result is the return value and `*found_inode_index`
afterwards; `none` when the loop does not end.  A loop that ends takes at most
`blocklen` iterations, because the record offset grows in each of them.  The
buffer `tmp_buf[MAX_BLOCK_LEN]` is taken to hold the whole block: the model is
that of the source for `BLOCK_LEN(sb) ≤ MAX_BLOCK_LEN`. -/
def _ext2_lookup_block (vfsdev : vfs_device_t) (block_index : Nat) (name : Buf)
    (len found_inode_index : Nat) : Option (Int × Nat) :=
  let fsdata := vfsdev.fsdata
  let blocklen := BLOCK_LEN fsdata.sb
  if block_index = 0 then some (-EINVAL, found_inode_index)
  else
    let tmp_buf := _ext2_read_from_dev vfsdev.dev zero_buf
      (_ext2_get_block_offset fsdata.sb block_index) blocklen
    _ext2_lookup_block_loop tmp_buf name len blocklen found_inode_index blocklen 0

/-- The `for (;;)` loop of `_ext2_get_dir_entries_count_in_block`; `none` when
the fuel runs out. -/
def _ext2_get_dir_entries_count_in_block_loop (tmp_buf : Buf) (block_len : Nat) :
    Nat → Nat → Int → Option Int
  | 0, _, _ => none
  | fuel + 1, internal_offset, result =>
    let start_of_entry := internal_offset
    let internal_offset := (internal_offset + entry_rec_len tmp_buf start_of_entry) % U32
    let result := if entry_inode tmp_buf start_of_entry ≠ 0 then result + 1 else result
    if internal_offset ≥ block_len then some result
    else _ext2_get_dir_entries_count_in_block_loop tmp_buf block_len fuel internal_offset result

/-- Source `_ext2_get_dir_entries_count_in_block`; `none` when the `ASSERT`
fails or the loop does not end.  The buffer `tmp_buf[MAX_BLOCK_LEN]` is taken
to hold the whole block: the model is that of the source for
`BLOCK_LEN(sb) ≤ MAX_BLOCK_LEN`. -/
def _ext2_get_dir_entries_count_in_block (vfsdev : vfs_device_t) (block_index : Nat) :
    Option Int :=
  if block_index ≠ 0 then
    let fsdata := vfsdev.fsdata
    let block_len := BLOCK_LEN fsdata.sb
    let tmp_buf := _ext2_read_from_dev vfsdev.dev zero_buf
      (_ext2_get_block_offset fsdata.sb block_index) block_len
    _ext2_get_dir_entries_count_in_block_loop tmp_buf block_len block_len 0 0
  else none

/-- Source `_ext2_add_first_entry_to_dir_block`.  `DIR_ENTRY_LEN` comes from a
header that is not part of the sources and is a parameter; the buffer
`tmp_buf[DIR_ENTRY_LEN]` is taken to hold the record written into it: the model
is that of the source for `8 + NORM_FILENAME(len) ≤ DIR_ENTRY_LEN`; a longer
record is written past the buffer in the source and the model does not describe
that call. -/
def _ext2_add_first_entry_to_dir_block (DIR_ENTRY_LEN : Nat) (vfsdev : vfs_device_t)
    (block_index : Nat) (child_dentry : dentry_t) (filename : Buf) (len : Nat) :
    Int × vfs_device_t :=
  let fsdata := vfsdev.fsdata
  if block_index = 0 then (-EINVAL, vfsdev)
  else
    let blockoff := _ext2_get_block_offset fsdata.sb block_index
    let record_name_len := NORM_FILENAME len
    let tmp_buf := _ext2_read_from_dev vfsdev.dev zero_buf blockoff DIR_ENTRY_LEN
    let new_entry := new_entry_bytes child_dentry.inode_indx (BLOCK_LEN fsdata.sb) len
    let tmp_buf := memcpy tmp_buf 0 new_entry 0 8
    let tmp_buf := memcpy tmp_buf 8 filename 0 len
    let tmp_buf := memset tmp_buf (8 + len) 0 (sub32 record_name_len len)
    (0, { vfsdev with dev := _ext2_write_to_dev vfsdev.dev tmp_buf blockoff DIR_ENTRY_LEN })

/-- The `for (;;)` loop of `_ext2_add_to_dir_block` from the record at byte
`start_of_entry` on: `some (some off)` when the record at `off` has room for
both records (`goto update_res`), `some none` when the loop returns `-EFAULT`,
`none` when the fuel runs out. -/
def _ext2_add_to_dir_block_loop (tmp_buf : Buf) (blocklen min_rec_len : Nat) :
    Nat → Nat → Option (Option Nat)
  | 0, _ => none
  | fuel + 1, start_of_entry =>
    let cur_filename_len := NORM_FILENAME (entry_name_len tmp_buf start_of_entry)
    let cur_rec_len := (8 + cur_filename_len) % U32
    if entry_rec_len tmp_buf start_of_entry ≥ (cur_rec_len + min_rec_len) % U32 then
      some (some start_of_entry)
    else
      let next := start_of_entry + entry_rec_len tmp_buf start_of_entry
      if next ≥ blocklen then some none
      else _ext2_add_to_dir_block_loop tmp_buf blocklen min_rec_len fuel next

/-- Source `_ext2_add_to_dir_block`: the return value and the device
afterwards; `none` when the call does not return (`kpanic`, or a loop that does
not end).  The buffer `tmp_buf[MAX_BLOCK_LEN]` is taken to hold the whole
block: the model is that of the source for `BLOCK_LEN(sb) ≤ MAX_BLOCK_LEN`;
with larger blocks the source writes past the buffer and the model does not
describe the call. -/
def _ext2_add_to_dir_block (vfsdev : vfs_device_t) (block_index : Nat)
    (child_dentry : dentry_t) (filename : Buf) (len : Nat) : Option (Int × vfs_device_t) :=
  let fsdata := vfsdev.fsdata
  if block_index = 0 then some (-EINVAL, vfsdev)
  else
    let blockoff := _ext2_get_block_offset fsdata.sb block_index
    let blocklen := BLOCK_LEN fsdata.sb
    let record_name_len := NORM_FILENAME len
    let min_rec_len := (8 + record_name_len) % U32
    let tmp_buf := _ext2_read_from_dev vfsdev.dev zero_buf blockoff blocklen
    if entry_inode tmp_buf 0 = 0 then none
    else
      match _ext2_add_to_dir_block_loop tmp_buf blocklen min_rec_len blocklen 0 with
      | none => none
      | some none => some (-EFAULT, vfsdev)
      | some (some start_of_entry) =>
        let cur_rec_len := (8 + NORM_FILENAME (entry_name_len tmp_buf start_of_entry)) % U32
        let new_entry := new_entry_bytes child_dentry.inode_indx
          (entry_rec_len tmp_buf start_of_entry - cur_rec_len) len
        let start_of_new_entry := start_of_entry + cur_rec_len
        let tmp_buf := set_entry_rec_len tmp_buf start_of_entry cur_rec_len
        let tmp_buf := memcpy tmp_buf start_of_new_entry new_entry 0 8
        let tmp_buf := memcpy tmp_buf (start_of_new_entry + 8) filename 0 len
        let tmp_buf := memset tmp_buf (start_of_new_entry + 8 + len) 0
          (sub32 record_name_len len)
        some (0, { vfsdev with dev := _ext2_write_to_dev vfsdev.dev tmp_buf blockoff blocklen })

/-- The `for (;;)` loop of `_ext2_rm_from_dir_block` from the record at byte
`start_of_entry` on, `prev_entry` being `none` for the null pointer:
`some (some (off, prev))` when the record at `off` holds the inode index looked
for, `some none` when the loop returns `-EFAULT`, `none` when the fuel runs
out. -/
def _ext2_rm_from_dir_block_loop (tmp_buf : Buf) (blocklen inode_indx : Nat) :
    Nat → Nat → Option Nat → Option (Option (Nat × Option Nat))
  | 0, _, _ => none
  | fuel + 1, start_of_entry, prev_entry =>
    if entry_inode tmp_buf start_of_entry = inode_indx then
      some (some (start_of_entry, prev_entry))
    else
      let next := start_of_entry + entry_rec_len tmp_buf start_of_entry
      if next ≥ blocklen then some none
      else _ext2_rm_from_dir_block_loop tmp_buf blocklen inode_indx fuel next
        (some start_of_entry)

/-- Source `_ext2_rm_from_dir_block`: the return value and the device
afterwards; `none` when the call does not return (`kpanic` on the first record,
or a loop that does not end).  The buffer `tmp_buf[MAX_BLOCK_LEN]` is taken to
hold the whole block: the model is that of the source for
`BLOCK_LEN(sb) ≤ MAX_BLOCK_LEN`. -/
def _ext2_rm_from_dir_block (vfsdev : vfs_device_t) (block_index : Nat)
    (child_dentry : dentry_t) : Option (Int × vfs_device_t) :=
  let fsdata := vfsdev.fsdata
  if block_index = 0 then some (-EINVAL, vfsdev)
  else
    let blockoff := _ext2_get_block_offset fsdata.sb block_index
    let blocklen := BLOCK_LEN fsdata.sb
    let tmp_buf := _ext2_read_from_dev vfsdev.dev zero_buf blockoff blocklen
    match _ext2_rm_from_dir_block_loop tmp_buf blocklen child_dentry.inode_indx blocklen 0
        none with
    | none => none
    | some none => some (-EFAULT, vfsdev)
    | some (some (_, none)) => none
    | some (some (start_of_entry, some prev_entry)) =>
      let tmp_buf := set_entry_inode tmp_buf start_of_entry 0
      let tmp_buf := set_entry_rec_len tmp_buf prev_entry
        ((entry_rec_len tmp_buf prev_entry + entry_rec_len tmp_buf start_of_entry) % U16)
      some (0, { vfsdev with dev := _ext2_write_to_dev vfsdev.dev tmp_buf blockoff blocklen })

/-! ## Directories and files -/

/-- Modelled from the spec: the dentry cache, which holds one canonical dentry
per inode of the device.  `cache i` is the dentry that `dentry_get(dev_indx, i)`
returns, so a `dentry_t*` of the source is an inode index here and two pointers
to the same dentry are the same index. -/
abbrev dentry_cache := Nat → dentry_t

/-- The cache with the dentry of inode `i` replaced. -/
def set_dentry (cache : dentry_cache) (i : Nat) (d : dentry_t) : dentry_cache :=
  fun j => if j = i then d else cache j

/-- The `for (i = 0; i < blocks_per_dir; i++)` loop of `_ext2_add_child`, with
`n` iterations left from `i` on: `some (some vfsdev)` when a block took the
record (`goto updated_inode`), `some none` when no block did, `none` when a call
of `_ext2_add_to_dir_block` does not return. -/
def _ext2_add_child_loop (dir child_dentry : dentry_t) (name : Buf) (len : Nat) :
    Nat → Nat → vfs_device_t → Option (Option vfs_device_t)
  | 0, _, _ => some none
  | n + 1, i, vfsdev =>
    let block_index := _ext2_get_block_of_inode vfsdev dir i
    if block_index ≠ 0 then
      match _ext2_add_to_dir_block vfsdev block_index child_dentry name len with
      | none => none
      | some r =>
        if r.1 = 0 then some (some r.2)
        else _ext2_add_child_loop dir child_dentry name len n (i + 1) r.2
    else _ext2_add_child_loop dir child_dentry name len n (i + 1) vfsdev

/-- The statements after the label `updated_inode` of `_ext2_add_child`;
`links_count` is a 16-bit field. -/
def updated_inode (cache : dentry_cache) (child_dentry : Nat) : dentry_cache :=
  let d := cache child_dentry
  set_dentry cache child_dentry
    { d with
      inode := { d.inode with links_count := (d.inode.links_count + 1) % U16 },
      dirty := true }

/-- Source `_ext2_add_child(dir, child_dentry, name, len)`; `dir` and
`child_dentry` are inode indices into the cache and `len` is a small
non-negative `int`.  The result is the return value, the device and the cache
afterwards; `none` when the call does not return. -/
def _ext2_add_child (DIR_ENTRY_LEN : Nat) (vfsdev : vfs_device_t) (cache : dentry_cache)
    (dir child_dentry : Nat) (name : Buf) (len : Nat) :
    Option (Int × vfs_device_t × dentry_cache) :=
  let blocks_per_dir := TO_EXT_BLOCKS_CNT vfsdev.fsdata.sb (cache dir).inode.blocks
  match _ext2_add_child_loop (cache dir) (cache child_dentry) name len blocks_per_dir 0
      vfsdev with
  | none => none
  | some (some vfsdev1) => some (0, vfsdev1, updated_inode cache child_dentry)
  | some none =>
    let a := _ext2_allocate_block_for_inode vfsdev (cache dir) 0 0
    let cache1 := set_dentry cache dir a.2.2.1
    if a.1 = 0 then
      let f := _ext2_add_first_entry_to_dir_block DIR_ENTRY_LEN a.2.1 a.2.2.2
        (cache1 child_dentry) name len
      if f.1 = 0 then some (0, f.2, updated_inode cache1 child_dentry)
      else some (-EFAULT, f.2, cache1)
    else some (-EFAULT, a.2.1, cache1)

/-- Source `_ext2_setup_dir(dir, parent_dir, mode, uid, gid)`; the values of
`mode`, `uid` and `gid` are taken to fit the fields of the inode. -/
def _ext2_setup_dir (DIR_ENTRY_LEN : Nat) (vfsdev : vfs_device_t) (cache : dentry_cache)
    (dir parent_dir : Nat) (mode uid gid : Nat) : Option (Int × vfs_device_t × dentry_cache) :=
  let d := cache dir
  let cache1 := set_dentry cache dir
    { d with
      inode := { d.inode with mode := mode, uid := uid, gid := gid, links_count := 0,
                              blocks := 0 },
      dirty := true }
  match _ext2_add_child DIR_ENTRY_LEN vfsdev cache1 dir dir (fun _ => 46) 1 with
  | none => none
  | some r1 =>
    if r1.1 < 0 then some (-EFAULT, r1.2.1, r1.2.2)
    else
      match _ext2_add_child DIR_ENTRY_LEN r1.2.1 r1.2.2 dir parent_dir (fun _ => 46) 2 with
      | none => none
      | some r2 =>
        if r2.1 < 0 then some (-EFAULT, r2.2.1, r2.2.2)
        else some (0, r2.2.1, r2.2.2)

/-- Source `_ext2_setup_file(file, mode, uid, gid)`. -/
def _ext2_setup_file (cache : dentry_cache) (file : Nat) (mode uid gid : Nat) :
    Int × dentry_cache :=
  let d := cache file
  (0, set_dentry cache file
    { d with
      inode := { d.inode with mode := mode, uid := uid, gid := gid, links_count := 0,
                              blocks := 0, size := 0 },
      dirty := true })

/-- Source `ext2_mkdir(path, name, len, mode, uid, gid)` with `dir` the inode
index of `path->dentry`.  The result is the return value, the device and the
cache afterwards; `none` when the call does not return. -/
def ext2_mkdir (DIR_ENTRY_LEN : Nat) (vfsdev : vfs_device_t) (cache : dentry_cache)
    (dir : Nat) (name : Buf) (len : Nat) (mode uid gid : Nat) :
    Option (Int × vfs_device_t × dentry_cache) :=
  let a := _ext2_allocate_inode_index vfsdev 0 0
  if a.1 < 0 then some (-ENOSPC, a.2.1, cache)
  else
    let new_dir := a.2.2
    match _ext2_setup_dir DIR_ENTRY_LEN a.2.1 cache new_dir dir mode uid gid with
    | none => none
    | some s =>
      if s.1 < 0 then some (-EFAULT, s.2.1, s.2.2)
      else
        match _ext2_add_child DIR_ENTRY_LEN s.2.1 s.2.2 dir new_dir name len with
        | none => none
        | some r =>
          if r.1 < 0 then some (-EFAULT, r.2.1, r.2.2)
          else some (0, r.2.1, r.2.2)

/-- Source `ext2_create(path, name, len, mode, uid, gid)` with `dir` the inode
index of `path->dentry`.  The result is the return value, the device and the
cache afterwards; `none` when the call does not return. -/
def ext2_create (DIR_ENTRY_LEN : Nat) (vfsdev : vfs_device_t) (cache : dentry_cache)
    (dir : Nat) (name : Buf) (len : Nat) (mode uid gid : Nat) :
    Option (Int × vfs_device_t × dentry_cache) :=
  let a := _ext2_allocate_inode_index vfsdev 0 0
  if a.1 < 0 then some (-ENOSPC, a.2.1, cache)
  else
    let new_file := a.2.2
    let s := _ext2_setup_file cache new_file mode uid gid
    if s.1 < 0 then some (-EFAULT, a.2.1, s.2)
    else
      match _ext2_add_child DIR_ENTRY_LEN a.2.1 s.2 dir new_file name len with
      | none => none
      | some r =>
        if r.1 < 0 then some (-EFAULT, r.2.1, r.2.2)
        else some (0, r.2.1, r.2.2)

/-! ## Specification-side reading of directory blocks -/

/-- The content of block `block_index` of the device, as a buffer. -/
def block_buf (vfsdev : vfs_device_t) (block_index : Nat) : Buf := fun i =>
  vfsdev.dev (_ext2_get_block_offset vfsdev.fsdata.sb block_index + i)

/-- The length of a name padded to a multiple of 4. -/
def pad4 (x : Nat) : Nat := 4 * ((x + 3) / 4)

/-- The records at the offsets `l`, in this order, follow one another from byte
`off` up to byte `e` of a block of `blocklen` bytes: each record starts where
the one before it ends, has `rec_len ≥ 8 + pad4(name_len)` and ends inside the
block. -/
def records_from (buf : Buf) (blocklen : Nat) : Nat → List Nat → Nat → Prop
  | off, [], e => off = e
  | off, o :: l, e =>
    o = off ∧ 8 + pad4 (entry_name_len buf off) ≤ entry_rec_len buf off ∧
    off + entry_rec_len buf off ≤ blocklen ∧
    records_from buf blocklen (off + entry_rec_len buf off) l e

instance (buf : Buf) (blocklen : Nat) :
    ∀ (l : List Nat) (off e : Nat), Decidable (records_from buf blocklen off l e)
  | [], off, e => by
    unfold records_from
    exact inferInstance
  | o :: l, off, e => by
    unfold records_from
    have := instDecidableRecords_from buf blocklen l (off + entry_rec_len buf off) e
    exact inferInstance

/-- A well-formed directory block: the records at the offsets `l` tile the block,
the chain starts at byte 0 and its last record ends at the end of the block. -/
def records_tile (buf : Buf) (blocklen : Nat) (l : List Nat) : Prop :=
  records_from buf blocklen 0 l blocklen

instance (buf : Buf) (blocklen : Nat) (l : List Nat) :
    Decidable (records_tile buf blocklen l) := by
  unfold records_tile
  exact inferInstance

/-- The name bytes of the record at byte `off`. -/
def entry_name (buf : Buf) (off : Nat) : List Nat :=
  (List.range (entry_name_len buf off)).map (fun i => (buf (off + 8 + i)).val)

/-- The records at the offsets `l`, each as `(inode, rec_len, name)`. -/
def records_at (buf : Buf) (l : List Nat) : List (Nat × Nat × List Nat) :=
  l.map (fun off => (entry_inode buf off, entry_rec_len buf off, entry_name buf off))

/-- A file name given by its bytes. -/
def name_buf (s : List Nat) : Buf := fun i => toByte (s.getD i 0)

/-- The bytes of `"longfilename"`. -/
def longfilename : List Nat := [108, 111, 110, 103, 102, 105, 108, 101, 110, 97, 109, 101]

/-- A device with blocks 1..9 and inodes 1..11 in use; block 9 is the first
block of the root directory (inode 2) and holds the records `.` and `..`. -/
def dev_root : Disk := fun a =>
  if a = 3072 then 255 else if a = 3073 then 1
  else if a = 4096 then 255 else if a = 4097 then 7
  else if a = 9216 then 2 else if a = 9220 then 12 else if a = 9222 then 1
  else if a = 9224 then 46
  else if a = 9228 then 2 else if a = 9232 then 244 else if a = 9233 then 3
  else if a = 9234 then 2 else if a = 9236 then 46 else if a = 9237 then 46
  else 0

/-- The file system on `dev_root`. -/
def vfs_root : vfs_device_t :=
  { dev := dev_root, fsdata := { sb := sb_1k, gt := gt_one 8183 53 } }

/-- A cache in which inode 2 is the root directory with its block 9 and every
other dentry is that of an unused inode. -/
def cache_root : dentry_cache := fun i =>
  if i = 2 then
    { inode_indx := 2,
      inode := { mode := 16877, uid := 0, gid := 0, size := 1024, mtime := 0, links_count := 2,
                 blocks := 2, block := fun j => if j = 0 then 9 else 0 },
      dirty := false }
  else { inode_indx := i, inode := inode_zero, dirty := false }

/-- Scenario S2: `ext2_mkdir` of `"d"` in the root directory, then `ext2_create`
of `"a"` and of `"longfilename"` in the new directory, which is inode 12. -/
def scenario_s2 (DIR_ENTRY_LEN : Nat) : Option (Int × vfs_device_t × dentry_cache) :=
  match ext2_mkdir DIR_ENTRY_LEN vfs_root cache_root 2 (name_buf [100]) 1 16877 0 0 with
  | none => none
  | some m =>
    match ext2_create DIR_ENTRY_LEN m.2.1 m.2.2 12 (name_buf [97]) 1 33188 0 0 with
    | none => none
    | some c1 => ext2_create DIR_ENTRY_LEN c1.2.1 c1.2.2 12 (name_buf longfilename) 12 33188 0 0

/-- The test `start_of_entry->rec_len >= cur_rec_len + min_rec_len` of
`_ext2_add_to_dir_block` on the record at byte `off`. -/
def has_room (buf : Buf) (min_rec_len off : Nat) : Prop :=
  entry_rec_len buf off ≥
    ((8 + NORM_FILENAME (entry_name_len buf off)) % U32 + min_rec_len) % U32

instance (buf : Buf) (min_rec_len off : Nat) : Decidable (has_room buf min_rec_len off) := by
  unfold has_room
  exact inferInstance

/-- The block buffer that `_ext2_add_to_dir_block` writes back when its loop
stops at the record at byte `start_of_entry`. -/
def add_record (buf : Buf) (start_of_entry inode_indx : Nat) (filename : Buf) (len : Nat) :
    Buf :=
  let cur_rec_len := (8 + NORM_FILENAME (entry_name_len buf start_of_entry)) % U32
  let new_entry := new_entry_bytes inode_indx
    (entry_rec_len buf start_of_entry - cur_rec_len) len
  let start_of_new_entry := start_of_entry + cur_rec_len
  let tmp_buf := set_entry_rec_len buf start_of_entry cur_rec_len
  let tmp_buf := memcpy tmp_buf start_of_new_entry new_entry 0 8
  let tmp_buf := memcpy tmp_buf (start_of_new_entry + 8) filename 0 len
  memset tmp_buf (start_of_new_entry + 8 + len) 0 (sub32 (NORM_FILENAME len) len)

/-- The block buffer that `_ext2_rm_from_dir_block` writes back when its loop
stops at the record at byte `start_of_entry` with the record at `prev_entry`
before it. -/
def rm_record (buf : Buf) (start_of_entry prev_entry : Nat) : Buf :=
  let tmp_buf := set_entry_inode buf start_of_entry 0
  set_entry_rec_len tmp_buf prev_entry
    ((entry_rec_len tmp_buf prev_entry + entry_rec_len tmp_buf start_of_entry) % U16)

/-- What an insert after the record at byte `r` does to a block, `B` before and
`B'` after: `r` is cut down to `8 + pad4(name_len)`, the new record follows it
with the inode index, the name, zero padding and the rest of the room of `r`,
and every other byte of the block is unchanged. -/
def insert_effect (B B' : Buf) (bl r inode_indx : Nat) (name : Buf) (len : Nat) : Prop :=
  entry_rec_len B' r = 8 + pad4 (entry_name_len B r) ∧
  entry_inode B' (r + (8 + pad4 (entry_name_len B r))) = inode_indx ∧
  entry_name_len B' (r + (8 + pad4 (entry_name_len B r))) = len ∧
  entry_rec_len B' (r + (8 + pad4 (entry_name_len B r)))
    = entry_rec_len B r - (8 + pad4 (entry_name_len B r)) ∧
  (∀ i, i < len → B' (r + (8 + pad4 (entry_name_len B r)) + 8 + i) = name i) ∧
  (∀ i, len ≤ i → i < pad4 len → B' (r + (8 + pad4 (entry_name_len B r)) + 8 + i) = 0) ∧
  (∀ i, i < bl → ¬ (r + 4 ≤ i ∧ i < r + 6) →
    ¬ (r + (8 + pad4 (entry_name_len B r)) ≤ i ∧
       i < r + (8 + pad4 (entry_name_len B r)) + 8 + pad4 len) →
    B' i = B i)

/-- What the removal of the record at byte `t`, which follows the record at byte
`p`, does to a block, `B` before and `B'` after: the `rec_len` of `t` is added
to that of `p`, the inode field of `t` is zero, and every other byte of the
block is unchanged. -/
def remove_effect (B B' : Buf) (bl p t : Nat) : Prop :=
  entry_rec_len B' p = entry_rec_len B p + entry_rec_len B t ∧
  entry_inode B' t = 0 ∧
  (∀ i, i < bl → ¬ (t ≤ i ∧ i < t + 4) → ¬ (p + 4 ≤ i ∧ i < p + 6) → B' i = B i)

/-- A device on which block 9 is a directory block with the records `.` and `..`
of inode 2 (`rec_len` 12 each) and `a` of inode 13 (`rec_len` 1000). -/
def dev_three : Disk := fun a =>
  if a = 3072 then 255 else if a = 3073 then 1
  else if a = 9216 then 2 else if a = 9220 then 12 else if a = 9222 then 1
  else if a = 9224 then 46
  else if a = 9228 then 2 else if a = 9232 then 12 else if a = 9234 then 2
  else if a = 9236 then 46 else if a = 9237 then 46
  else if a = 9240 then 13 else if a = 9244 then 232 else if a = 9245 then 3
  else if a = 9246 then 1 else if a = 9248 then 97
  else 0

/-- The file system on `dev_three`. -/
def vfs_three : vfs_device_t :=
  { dev := dev_three, fsdata := { sb := sb_1k, gt := gt_one 8183 51 } }

/-- The dentry of the file `a`, inode 13. -/
def dentry_a : dentry_t := { inode_indx := 13, inode := inode_empty, dirty := false }

/-- A device on which block 9 is a directory block with a single record that is
not in use: inode 0, `rec_len` 1024, no name. -/
def dev_unused : Disk := fun a =>
  if a = 3072 then 255 else if a = 3073 then 1 else if a = 9221 then 4 else 0

/-- The file system on `dev_unused`. -/
def vfs_unused : vfs_device_t :=
  { dev := dev_unused, fsdata := { sb := sb_1k, gt := gt_one 8183 51 } }

/-- The sectors that the loop of `_ext2_read_from_dev` passes to the driver's
`read`, in the order of the calls; the control flow is that of
`_ext2_read_from_dev_loop`. -/
def _ext2_read_from_dev_sectors : Nat → Nat → Nat → Nat → List Nat
  | fuel, sector, start_offset, len =>
    if len = 0 then []
    else match fuel with
      | 0 => []
      | fuel + 1 =>
        let to_read := min (512 - start_offset) len
        sector :: _ext2_read_from_dev_sectors fuel (sector + 1) 0 (len - to_read)

/-- Largest value of an `int`, the type of the counters `already_read` and
`already_written` of the sector loops. -/
def INT_MAX : Nat := 2147483647

/-! ## File mode -/

/-- Modelled from the spec: the errno value `EPERM` (`libkern/bits/errno.h` is
not part of the sources). -/
def EPERM : Int := 1

/-- Source `ext2_fchmod(file, mode)` on the dentry of `file`.  `euid` is
`RUNNING_THREAD->process->euid` and `is_su` the value of `proc_is_su` for that
process; both come from code that is not part of the sources and are
parameters.  `~(uint32_t)07777` is `0xFFFFF000`.  The result is the return value
and the dentry afterwards. -/
def ext2_fchmod (euid : Nat) (is_su : Bool) (dentry : dentry_t) (mode : Nat) :
    Int × dentry_t :=
  if dentry.inode.uid ≠ euid ∧ is_su = false then (-EPERM, dentry)
  else
    (0,
     { dentry with
       dirty := true,
       inode := { dentry.inode with
         mode := (dentry.inode.mode &&& 4294963200) ||| (mode &&& 4095) } })

/-- A superblock with 2 KiB blocks. -/
def sb_2k : superblock_t :=
  { log_block_size := 1, blocks_per_group := 16384, inodes_per_group := 64 }

/-- A device on which byte 1500 of the block bitmap of a file system with 2 KiB
blocks (block 3, at byte 5120) is 255. -/
def dev_2k : Disk := fun a => if a = 6620 then 255 else 0

/-- The file system with 2 KiB blocks on `dev_2k`. -/
def vfs_2k : vfs_device_t :=
  { dev := dev_2k, fsdata := { sb := sb_2k, gt := gt_one 100 10 } }

/-! ## Mounting -/

/-- The 16-bit little-endian word at byte `off` of a buffer. -/
def buf_u16 (buf : Buf) (off : Nat) : Nat :=
  (buf off).val + 256 * (buf (off + 1)).val

/-- The 32-bit little-endian word at byte `off` of a buffer. -/
def buf_u32 (buf : Buf) (off : Nat) : Nat :=
  (buf off).val + 256 * (buf (off + 1)).val + 65536 * (buf (off + 2)).val
    + 16777216 * (buf (off + 3)).val

/-- Modelled from the spec: the field `magic` of `superblock_t` as read from the
bytes of the superblock (the declaration is not part of the sources); in the
ext2 rev 0 superblock it is the 16-bit word at byte 56. -/
def sb_magic (superblock : Buf) : Nat := buf_u16 superblock 56

/-- Modelled from the spec: the field `rev_level` of `superblock_t`, the 32-bit
word at byte 76 of the ext2 rev 0 superblock. -/
def sb_rev_level (superblock : Buf) : Nat := buf_u32 superblock 76

/-- Modelled from the spec: the fields of `superblock_t` that the block and
inode functions use, as read from the bytes of the ext2 rev 0 superblock:
`log_block_size` at byte 24, `blocks_per_group` at byte 32, `inodes_per_group`
at byte 40. -/
def superblock_of_bytes (superblock : Buf) : superblock_t :=
  { log_block_size := buf_u32 superblock 24,
    blocks_per_group := buf_u32 superblock 32,
    inodes_per_group := buf_u32 superblock 40 }

/-- The driver's caches for one device: `_ext2_superblocks[id]` (`none` for the
null pointer) and `_ext2_group_table_info[id]`.  The cached superblock and group
table are kept as the bytes of the allocated memory. -/
structure ext2_cache_t where
  superblock : Option Buf
  count : Nat
  table : Buf

/-- Source `_ext2_get_group_len`, in `uint32_t` arithmetic. -/
def _ext2_get_group_len (sb : superblock_t) : Nat :=
  (BLOCK_LEN sb * BLOCK_LEN sb * 8) % U32

/-- Source `_ext2_get_groups_cnt`; `disk_size` is the value of
`_ext2_get_disk_size(vfsdev)`, the capacity that the storage driver reports.
For the supported block sizes the divisor is not 0; when it is 0
(`log_block_size ≥ 5`) the source divides by zero, where the `/` of the model
gives 0. -/
def _ext2_get_groups_cnt (disk_size : Nat) (sb : superblock_t) : Nat :=
  let sz := sub32 disk_size SUPERBLOCK_START
  sz / _ext2_get_group_len sb

/-- Source `ext2_recognize_drive`: the return value and the device afterwards.
`SUPERBLOCK_LEN` comes from a header that is not part of the sources and is a
parameter; `kmalloc` is taken to succeed. -/
def ext2_recognize_drive (SUPERBLOCK_LEN : Nat) (dev : Disk) : Int × Disk :=
  let superblock := _ext2_read_from_dev dev zero_buf SUPERBLOCK_START SUPERBLOCK_LEN
  if sb_magic superblock ≠ 0xEF53 then (-EINVAL, dev)
  else if sb_rev_level superblock ≠ 0 then (-EINVAL, dev)
  else (0, dev)

/-- Source `ext2_prepare_fs`: the return value and the caches afterwards; the
`fsdata` attached to the device points to the same superblock and group table.
`SUPERBLOCK_LEN` and `GROUP_LEN` are parameters; `kmalloc` is taken to
succeed. -/
def ext2_prepare_fs (SUPERBLOCK_LEN GROUP_LEN disk_size : Nat) (dev : Disk) :
    Int × ext2_cache_t :=
  let superblock := _ext2_read_from_dev dev zero_buf SUPERBLOCK_START SUPERBLOCK_LEN
  let groups_cnt := _ext2_get_groups_cnt disk_size (superblock_of_bytes superblock)
  let group_table_len := (groups_cnt * GROUP_LEN) % U32
  let group_table := _ext2_read_from_dev dev zero_buf
    (_ext2_get_block_offset (superblock_of_bytes superblock) 2) group_table_len
  (0, { superblock := some superblock, count := groups_cnt, table := group_table })

/-- Source `ext2_save_state`: the return value and the device afterwards. -/
def ext2_save_state (SUPERBLOCK_LEN GROUP_LEN : Nat) (cache : ext2_cache_t) (dev : Disk) :
    Int × Disk :=
  match cache.superblock with
  | none => (-1, dev)
  | some superblock =>
    let group_table_len := (cache.count * GROUP_LEN) % U32
    let group_table := cache.table
    let dev := _ext2_write_to_dev dev group_table
      (_ext2_get_block_offset (superblock_of_bytes superblock) 2) group_table_len
    let dev := _ext2_write_to_dev dev superblock SUPERBLOCK_START SUPERBLOCK_LEN
    (0, dev)

/-- The 16-bit little-endian word at byte address `a` of the device. -/
def dev_u16 (dev : Disk) (a : Nat) : Nat :=
  (dev a).val + 256 * (dev (a + 1)).val

/-- A device of 16 MiB whose superblock has the magic `0xEF53`, `rev_level` 0
and `log_block_size` 0, and whose group descriptor table starts with the bytes
3, 0, 0, 0, 4. -/
def dev_ext2 : Disk := fun a =>
  if a = 1080 then 83 else if a = 1081 then 239
  else if a = 2048 then 3 else if a = 2052 then 4 else 0

/-- The device `dev_ext2` with `rev_level` 1. -/
def dev_rev1 : Disk := fun a => if a = 1100 then 1 else dev_ext2 a

/-- Caches with a superblock of 1 KiB blocks filled with the byte 65 from byte
100 on, and a table of two groups filled with the byte 66. -/
def cache_two : ext2_cache_t :=
  { superblock := some (fun i => if i < 100 then 0 else 65), count := 2, table := fun _ => 66 }

/-! ## Lookup -/

/-- The `for` loop of `ext2_lookup` with `n` blocks left from `block_index` on:
the return value and the inode index given to `dentry_get` for `result->dentry`
(`none` when `result` is not written); `none` when `_ext2_lookup_block` does not
return. -/
def ext2_lookup_loop (vfsdev : vfs_device_t) (dir : dentry_t) (name : Buf) (len : Nat) :
    Nat → Nat → Option (Int × Option Nat)
  | 0, _ => some (-ENOENT, none)
  | n + 1, block_index =>
    let data_block_index := _ext2_get_block_of_inode vfsdev dir block_index
    let res_inode_indx := 0
    match _ext2_lookup_block vfsdev data_block_index name (len % U32) res_inode_indx with
    | none => none
    | some r =>
      if r.1 = 0 then some (0, some r.2)
      else ext2_lookup_loop vfsdev dir name len n (block_index + 1)

/-- Source `ext2_lookup` on the directory `dir = path->dentry`; the `size_t len`
is passed on as a `uint32_t`. -/
def ext2_lookup (vfsdev : vfs_device_t) (dir : dentry_t) (name : Buf) (len : Nat) :
    Option (Int × Option Nat) :=
  let block_per_dir := TO_EXT_BLOCKS_CNT vfsdev.fsdata.sb dir.inode.blocks
  ext2_lookup_loop vfsdev dir name len block_per_dir 0

/-- The record at byte `off` has `name_len = len` and the name bytes
`name[0..len)`. -/
def name_matches (buf name : Buf) (len off : Nat) : Prop :=
  entry_name_len buf off = len ∧ ∀ i, i < len → name i = buf (off + 8 + i)

instance (buf name : Buf) (len off : Nat) : Decidable (name_matches buf name len off) := by
  unfold name_matches
  exact inferInstance

/-- The inode of the first record in use of the chain `l` that has the given
name. -/
def first_match (buf name : Buf) (len : Nat) : List Nat → Option Nat
  | [] => none
  | o :: l =>
    if entry_inode buf o ≠ 0 ∧ name_matches buf name len o then some (entry_inode buf o)
    else first_match buf name len l

/-- The inode of the first record with the given name among the records of the
chain `l` that come before its first unused record (inode 0). -/
def match_before_unused (buf name : Buf) (len : Nat) : List Nat → Option Nat
  | [] => none
  | o :: l =>
    if entry_inode buf o = 0 then none
    else if name_matches buf name len o then some (entry_inode buf o)
    else match_before_unused buf name len l

/-- The first result among `f i, f (i + 1), ..., f (i + n - 1)`. -/
def first_in_blocks (f : Nat → Option Nat) : Nat → Nat → Option Nat
  | 0, _ => none
  | n + 1, i =>
    match f i with
    | some x => some x
    | none => first_in_blocks f n (i + 1)

/-- The result of `in_block` on logical block `i` of the directory `dir`, whose
chain of record offsets is `chains i`; nothing for a block that is not
allocated. -/
def in_dir_block (in_block : Buf → Buf → Nat → List Nat → Option Nat) (vfsdev : vfs_device_t)
    (dir : dentry_t) (name : Buf) (len : Nat) (chains : Nat → List Nat) (i : Nat) :
    Option Nat :=
  if _ext2_get_block_of_inode vfsdev dir i = 0 then none
  else in_block (block_buf vfsdev (_ext2_get_block_of_inode vfsdev dir i)) name len (chains i)

/-- A device on which block 9 is a directory block with an unused record
(inode 0, `rec_len` 12, name `x`) followed by the record `a` of inode 13
(`rec_len` 1012). -/
def dev_hidden : Disk := fun a =>
  if a = 3072 then 255 else if a = 3073 then 1
  else if a = 9220 then 12 else if a = 9222 then 1 else if a = 9224 then 120
  else if a = 9228 then 13 else if a = 9232 then 244 else if a = 9233 then 3
  else if a = 9234 then 1 else if a = 9236 then 97
  else 0

/-- The file system on `dev_hidden`. -/
def vfs_hidden : vfs_device_t :=
  { dev := dev_hidden, fsdata := { sb := sb_1k, gt := gt_one 8183 51 } }

/-! ## Locks -/

/-- The locks that the driver takes: the lock of a dentry, named by the inode
index of the dentry, and the lock of the file system (`VFSDEV_FSLOCK`,
`DENTRY_FSLOCK`). -/
inductive lock_t where
  | dentry_lock (inode_indx : Nat)
  | fs_lock
deriving DecidableEq

/-- A call of `spinlock_acquire` or of `spinlock_release`. -/
inductive lock_op where
  | acquire (l : lock_t)
  | release (l : lock_t)
deriving DecidableEq

/-- The locks held after the calls `ops`, made in this order with the locks
`held` held before. -/
def locks_held (held : List lock_t) : List lock_op → List lock_t
  | [] => held
  | .acquire l :: ops => locks_held (l :: held) ops
  | .release l :: ops => locks_held (held.erase l) ops

/-- The lock calls of `_ext2_allocate_block_for_inode`: the lock of the file
system is taken at entry and released before each of the two `return`s. -/
def _ext2_allocate_block_for_inode_locks : List lock_op :=
  [.acquire .fs_lock, .release .fs_lock]

/-- The `for` loop of `ext2_write` as in `ext2_write_loop`, with the lock calls
made in it: the error of a failed allocation, if any, `already_written` and the
lock calls; `none` when the fuel runs out. -/
def ext2_write_loop_locks (buf : Buf) (block_len end_block_index blocks_allocated : Nat) :
    Nat → Nat → vfs_device_t → dentry_t → Nat → Nat → Nat → Nat →
      Option (Option Int × Nat × List lock_op)
  | fuel, virt_block_index, vfsdev, dentry, data_block_index, to_write, write_offset,
      already_written =>
    if virt_block_index ≤ end_block_index then
      match fuel with
      | 0 => none
      | fuel + 1 =>
        let write_to_block := min to_write (sub32 block_len write_offset)
        let a : Int × vfs_device_t × dentry_t × Nat :=
          if blocks_allocated ≤ virt_block_index then
            _ext2_allocate_block_for_inode vfsdev dentry 0 data_block_index
          else (0, vfsdev, dentry, _ext2_get_block_of_inode vfsdev dentry virt_block_index)
        let ops : List lock_op :=
          if blocks_allocated ≤ virt_block_index then _ext2_allocate_block_for_inode_locks
          else []
        if a.1 ≠ 0 then some (some a.1, already_written, ops)
        else
          let dev := _ext2_user_write_to_dev a.2.1.dev (fun j => buf (already_written + j))
            ((_ext2_get_block_offset a.2.1.fsdata.sb a.2.2.2 + write_offset) % U32)
            write_to_block
          (ext2_write_loop_locks buf block_len end_block_index blocks_allocated fuel
            ((virt_block_index + 1) % U32) { a.2.1 with dev := dev } a.2.2.1 a.2.2.2
            (to_write - write_to_block) 0 ((already_written + write_to_block) % U32)).map
            (fun r => (r.1, r.2.1, ops ++ r.2.2))
    else some (none, already_written, [])

/-- Source `ext2_write` with its lock calls: the return value and the calls of
`spinlock_acquire` and `spinlock_release` made until the `return`, in their
order.  The `return err` inside the loop is not preceded by a release. -/
def ext2_write_locks (W : Nat) (vfsdev : vfs_device_t) (dentry : dentry_t) (buf : Buf)
    (start len : Nat) : Option (Int × List lock_op) :=
  let block_len := BLOCK_LEN vfsdev.fsdata.sb % U32
  let start_block_index := (start / block_len) % U32
  let end_block_index := ((start + len) % W / block_len) % U32
  let write_offset := start % block_len
  let to_write := len % U32
  let blocks_allocated := TO_EXT_BLOCKS_CNT vfsdev.fsdata.sb dentry.inode.blocks
  (ext2_write_loop_locks buf block_len end_block_index blocks_allocated
      (end_block_index + 1 - start_block_index) start_block_index vfsdev dentry 0 to_write
      write_offset 0).map
    (fun r =>
      match r.1 with
      | some err => (err, lock_op.acquire (.dentry_lock dentry.inode_indx) :: r.2.2)
      | none =>
        ((r.2.1 : Int),
         lock_op.acquire (.dentry_lock dentry.inode_indx) :: r.2.2
           ++ [lock_op.release (.dentry_lock dentry.inode_indx)]))

/-- A device on which every block of the single group is in use. -/
def dev_no_space : Disk := fun a => if 3072 ≤ a ∧ a < 4096 then 255 else 0

/-- The file system on `dev_no_space`: no free block. -/
def vfs_no_space : vfs_device_t :=
  { dev := dev_no_space, fsdata := { sb := sb_1k, gt := gt_one 0 10 } }

/-! ## Removing a directory -/

/-- Modelled from the spec: the errno value `ENOTEMPTY` (`libkern/bits/errno.h`
is not part of the sources). -/
def ENOTEMPTY : Int := 39

/-- The `for` loop of `_ext2_is_dir_empty` with `n` blocks left from
`block_index` on and the count `result` so far; `none` when
`_ext2_get_dir_entries_count_in_block` does not return. -/
def _ext2_is_dir_empty_loop (vfsdev : vfs_device_t) (dir : dentry_t) :
    Nat → Nat → Int → Option Bool
  | 0, _, _ => some true
  | n + 1, block_index, result =>
    let data_block_index := _ext2_get_block_of_inode vfsdev dir block_index
    match _ext2_get_dir_entries_count_in_block vfsdev data_block_index with
    | none => none
    | some c =>
      let result := result + c
      if result > 2 then some false
      else _ext2_is_dir_empty_loop vfsdev dir n (block_index + 1) result

/-- Source `_ext2_is_dir_empty`; `none` when the call does not return. -/
def _ext2_is_dir_empty (vfsdev : vfs_device_t) (dir : dentry_t) : Option Bool :=
  let end_block_index := TO_EXT_BLOCKS_CNT vfsdev.fsdata.sb dir.inode.blocks
  _ext2_is_dir_empty_loop vfsdev dir end_block_index 0 0

/-- The `for (i = 0; i < blocks_per_dir; i++)` loop of `_ext2_rm_child`, with
`n` iterations left from `i` on: `some (some vfsdev)` when a block gave up the
record, `some none` when no block did, `none` when a call of
`_ext2_rm_from_dir_block` does not return. -/
def _ext2_rm_child_loop (dir child_dentry : dentry_t) :
    Nat → Nat → vfs_device_t → Option (Option vfs_device_t)
  | 0, _, _ => some none
  | n + 1, i, vfsdev =>
    let block_index := _ext2_get_block_of_inode vfsdev dir i
    if block_index ≠ 0 then
      match _ext2_rm_from_dir_block vfsdev block_index child_dentry with
      | none => none
      | some r =>
        if r.1 = 0 then some (some r.2)
        else _ext2_rm_child_loop dir child_dentry n (i + 1) r.2
    else _ext2_rm_child_loop dir child_dentry n (i + 1) vfsdev

/-- The statement `dentry->inode->links_count--` on the dentry of inode `i`;
`links_count` is a 16-bit field. -/
def links_count_dec (cache : dentry_cache) (i : Nat) : dentry_cache :=
  let d := cache i
  set_dentry cache i
    { d with
      inode := { d.inode with
        links_count :=
          if d.inode.links_count = 0 then U16 - 1 else d.inode.links_count - 1 } }

/-- Source `_ext2_rm_child(dir, child_dentry)`; `dir` and `child_dentry` are
inode indices into the cache.  The result is the return value, the device and
the cache afterwards; `none` when the call does not return. -/
def _ext2_rm_child (vfsdev : vfs_device_t) (cache : dentry_cache) (dir child_dentry : Nat) :
    Option (Int × vfs_device_t × dentry_cache) :=
  let blocks_per_dir := TO_EXT_BLOCKS_CNT vfsdev.fsdata.sb (cache dir).inode.blocks
  match _ext2_rm_child_loop (cache dir) (cache child_dentry) blocks_per_dir 0 vfsdev with
  | none => none
  | some (some vfsdev1) =>
    let cache1 := links_count_dec cache child_dentry
    let d := cache1 child_dentry
    some (0, vfsdev1, set_dentry cache1 child_dentry { d with dirty := true })
  | some none => some (-ENOENT, vfsdev, cache)

/-- Source `ext2_rmdir(path)` with `dir` the inode index of `path->dentry` and
`parent_dir` that of `dentry_get_parent(dir)`, `none` for the null pointer.  The
result is the return value, the device and the cache afterwards; `none` when
the call does not return, which includes `spinlock_acquire` on the lock of
`dir`, held since the entry, when `parent_dir` is `dir` itself. -/
def ext2_rmdir (vfsdev : vfs_device_t) (cache : dentry_cache) (dir : Nat)
    (parent_dir : Option Nat) : Option (Int × vfs_device_t × dentry_cache) :=
  match parent_dir with
  | none => some (-EPERM, vfsdev, cache)
  | some parent_dir =>
    match _ext2_is_dir_empty vfsdev (cache dir) with
    | none => none
    | some true =>
      if parent_dir = dir then none
      else
        match _ext2_rm_child vfsdev cache parent_dir dir with
        | none => none
        | some r =>
          if r.1 < 0 then some (-EFAULT, r.2.1, r.2.2)
          else
            let cache1 := links_count_dec r.2.2 parent_dir
            let cache2 := links_count_dec cache1 dir
            some (0, r.2.1, cache2)
    | some false => some (-ENOTEMPTY, vfsdev, cache)

/-- The number of records in use (inode field not 0) among the records at the
offsets `l` of a block. -/
def used_records (buf : Buf) : List Nat → Nat
  | [] => 0
  | o :: l => (if entry_inode buf o ≠ 0 then 1 else 0) + used_records buf l

/-- The number of records in use in the logical blocks `i, ..., i + n - 1` of
the directory `dir`, whose chains of record offsets are `chains`. -/
def used_in_blocks (vfsdev : vfs_device_t) (dir : dentry_t) (chains : Nat → List Nat) :
    Nat → Nat → Nat
  | 0, _ => 0
  | n + 1, i =>
    used_records (block_buf vfsdev (_ext2_get_block_of_inode vfsdev dir i)) (chains i)
      + used_in_blocks vfsdev dir chains n (i + 1)

/-- Block `i` of the directory `d` does not hold a record of the inode `idx`: it
is not allocated, or it is well-formed with the chain `chains i` and none of its
records has the inode index `idx`. -/
def block_without (vfsdev : vfs_device_t) (d : dentry_t) (idx : Nat) (chains : Nat → List Nat)
    (i : Nat) : Prop :=
  _ext2_get_block_of_inode vfsdev d i = 0 ∨
  (records_tile (block_buf vfsdev (_ext2_get_block_of_inode vfsdev d i))
      (BLOCK_LEN vfsdev.fsdata.sb) (chains i) ∧
    ∀ o ∈ chains i,
      entry_inode (block_buf vfsdev (_ext2_get_block_of_inode vfsdev d i)) o ≠ idx)

/-- A device with the root directory (inode 2) in the blocks 9 and 10 and the
directory `d` (inode 12) in block 11: block 9 holds `.` and `..`, block 10
holds the record `d` of inode 12 as its only record, block 11 holds `.` of
inode 12 and `..` of inode 2. -/
def dev_second_block : Disk := fun a =>
  if a = 3072 then 255 else if a = 3073 then 7
  else if a = 9216 then 2 else if a = 9220 then 12 else if a = 9222 then 1
  else if a = 9224 then 46
  else if a = 9228 then 2 else if a = 9232 then 244 else if a = 9233 then 3
  else if a = 9234 then 2 else if a = 9236 then 46 else if a = 9237 then 46
  else if a = 10240 then 12 else if a = 10245 then 4 else if a = 10246 then 1
  else if a = 10248 then 100
  else if a = 11264 then 12 else if a = 11268 then 12 else if a = 11270 then 1
  else if a = 11272 then 46
  else if a = 11276 then 2 else if a = 11280 then 244 else if a = 11281 then 3
  else if a = 11282 then 2 else if a = 11284 then 46 else if a = 11285 then 46
  else 0

/-- The file system on `dev_second_block`. -/
def vfs_second_block : vfs_device_t :=
  { dev := dev_second_block, fsdata := { sb := sb_1k, gt := gt_one 8181 52 } }

/-- The cache for `dev_second_block`: inode 2 is the root directory with the
blocks 9 and 10 and three links, inode 12 the directory `d` with block 11 and
two links. -/
def cache_second_block : dentry_cache := fun i =>
  if i = 2 then
    { inode_indx := 2,
      inode := { mode := 16877, uid := 0, gid := 0, size := 2048, mtime := 0, links_count := 3,
                 blocks := 4, block := fun j => if j = 0 then 9 else if j = 1 then 10 else 0 },
      dirty := false }
  else if i = 12 then
    { inode_indx := 12,
      inode := { mode := 16877, uid := 0, gid := 0, size := 1024, mtime := 0, links_count := 2,
                 blocks := 2, block := fun j => if j = 0 then 11 else 0 },
      dirty := false }
  else { inode_indx := i, inode := inode_zero, dirty := false }

/-- A device as `dev_second_block`, but with the record `d` of inode 12 in
block 9 after `.` and `..`. -/
def dev_with_d : Disk := fun a =>
  if a = 3072 then 255 else if a = 3073 then 7
  else if a = 9216 then 2 else if a = 9220 then 12 else if a = 9222 then 1
  else if a = 9224 then 46
  else if a = 9228 then 2 else if a = 9232 then 12 else if a = 9234 then 2
  else if a = 9236 then 46 else if a = 9237 then 46
  else if a = 9240 then 12 else if a = 9244 then 232 else if a = 9245 then 3
  else if a = 9246 then 1 else if a = 9248 then 100
  else if a = 11264 then 12 else if a = 11268 then 12 else if a = 11270 then 1
  else if a = 11272 then 46
  else if a = 11276 then 2 else if a = 11280 then 244 else if a = 11281 then 3
  else if a = 11282 then 2 else if a = 11284 then 46 else if a = 11285 then 46
  else 0

/-- The file system on `dev_with_d`. -/
def vfs_with_d : vfs_device_t :=
  { dev := dev_with_d, fsdata := { sb := sb_1k, gt := gt_one 8181 52 } }

/-- The cache for `dev_with_d`: inode 2 is the root directory with block 9 and
three links, inode 12 the directory `d` with block 11 and two links. -/
def cache_with_d : dentry_cache := fun i =>
  if i = 2 then
    { inode_indx := 2,
      inode := { mode := 16877, uid := 0, gid := 0, size := 1024, mtime := 0, links_count := 3,
                 blocks := 2, block := fun j => if j = 0 then 9 else 0 },
      dirty := false }
  else if i = 12 then
    { inode_indx := 12,
      inode := { mode := 16877, uid := 0, gid := 0, size := 1024, mtime := 0, links_count := 2,
                 blocks := 2, block := fun j => if j = 0 then 11 else 0 },
      dirty := false }
  else { inode_indx := i, inode := inode_zero, dirty := false }

/-! ## Specification-side reading of a new directory -/

/-- A directory block starts with the record `.` of the inode `self`, of 12
bytes, followed by the record `..` of the inode `parent`. -/
def has_dot_records (buf : Buf) (self parent : Nat) : Prop :=
  entry_inode buf 0 = self ∧ entry_name buf 0 = [46] ∧ entry_rec_len buf 0 = 12 ∧
  entry_inode buf 12 = parent ∧ entry_name buf 12 = [46, 46]

instance (buf : Buf) (self parent : Nat) : Decidable (has_dot_records buf self parent) := by
  unfold has_dot_records
  exact inferInstance

/-- A device with blocks 1..9 and inodes 1..11 in use, on which block 9, the
only block of the root directory (inode 2), is full: it holds 64 records of 16
bytes, `.` and `..` of inode 2 and 62 records `a` of inode 11. -/
def dev_full_root : Disk := fun a =>
  if a = 3072 then 255 else if a = 3073 then 1
  else if a = 4096 then 255 else if a = 4097 then 7
  else if 9216 ≤ a ∧ a < 10240 then
    let k := (a - 9216) / 16
    let j := (a - 9216) % 16
    if j = 0 then (if k ≤ 1 then 2 else 11)
    else if j = 4 then 16
    else if j = 6 then (if k = 1 then 2 else 1)
    else if j = 8 then (if k ≤ 1 then 46 else 97)
    else if j = 9 ∧ k = 1 then 46
    else 0
  else 0

/-- The file system on `dev_full_root`. -/
def vfs_full_root : vfs_device_t :=
  { dev := dev_full_root, fsdata := { sb := sb_1k, gt := gt_one 8183 53 } }

/-- The allocation of a block for the directory `d` returns a block at another
place than block `b` and leaves the first 24 bytes of block `b`, the room of
the records `.` and `..`, as they are. -/
def alloc_leaves_block (vfsdev : vfs_device_t) (d : dentry_t) (b : Nat) : Prop :=
  _ext2_get_block_offset vfsdev.fsdata.sb (_ext2_allocate_block_for_inode vfsdev d 0 0).2.2.2
    ≠ _ext2_get_block_offset vfsdev.fsdata.sb b ∧
  ∀ i, i < 24 →
    block_buf (_ext2_allocate_block_for_inode vfsdev d 0 0).2.1 b i = block_buf vfsdev b i

instance (vfsdev : vfs_device_t) (d : dentry_t) (b : Nat) :
    Decidable (alloc_leaves_block vfsdev d b) := by
  unfold alloc_leaves_block
  exact inferInstance

/-- The cache `cache_root` with the largest link count of the 16-bit field on
the root directory. -/
def cache_links_max : dentry_cache := fun i =>
  if i = 2 then
    { cache_root 2 with inode := { (cache_root 2).inode with links_count := 65535 } }
  else cache_root i
end Ext2

/-!
# aarch64 MMU backend

A shallow embedding of `kernel/kernel/platform/aarch64/vmm/mmu.c`.  A page-table
entity (`ptable_entity_t`) and a frame address (`uintptr_t`) are 64-bit values,
kept as `Nat` below `2^64`.
-/

namespace Aarch64

/-- Number of values of a `uint64_t`. -/
def U64 : Nat := 18446744073709551616

/-- Modelled from the spec: `mmu_flags_t`, the architecture-neutral flag set
`{PERM_READ, PERM_WRITE, PERM_EXEC, NONPRIV, UNCACHED, DEVICE, HUGE_PAGE}`
(`mem/vmm.h` is not part of the sources).  `TEST_FLAG(flags, f)` is membership
of `f` and `flags |= f` adds `f`. -/
structure mmu_flags_t where
  PERM_READ : Bool
  PERM_WRITE : Bool
  PERM_EXEC : Bool
  NONPRIV : Bool
  UNCACHED : Bool
  DEVICE : Bool
  HUGE_PAGE : Bool
deriving DecidableEq

/-- The empty flag set, `mmu_flags_t mmu_flags = 0`. -/
def mmu_flags_none : mmu_flags_t :=
  { PERM_READ := false, PERM_WRITE := false, PERM_EXEC := false, NONPRIV := false,
    UNCACHED := false, DEVICE := false, HUGE_PAGE := false }

/-- Modelled from the spec: the page-table levels `ptable_lv_t` of this target;
`PTABLE_LV0` is the level of the leaf entries. -/
inductive ptable_lv_t where
  | PTABLE_LV0
  | PTABLE_LV1
  | PTABLE_LV2
  | PTABLE_LV3
deriving DecidableEq

/-- Modelled from the spec: the states `ptable_state_t` of a page-table entity,
`{INVALID, PRESENT, ALLOCATED_NOT_PRESENT}`; the last one is the state that
`vm_ptable_entity_is_only_allocated` asks for. -/
inductive ptable_state_t where
  | PTABLE_ENTITY_INVALID
  | PTABLE_ENTITY_PRESENT
  | PTABLE_ENTITY_ONLY_ALLOCATED
deriving DecidableEq

/-- Source `vm_ptable_entity_set_default_flags`: the entity afterwards. -/
def vm_ptable_entity_set_default_flags (_entity : Nat) (lv : ptable_lv_t) : Nat :=
  match lv with
  | .PTABLE_LV0 => 0x700
  | .PTABLE_LV1 => 0x0
  | .PTABLE_LV2 => 0x0
  | .PTABLE_LV3 => 0x0

/-- Source `vm_mmu_to_arch_flags`. -/
def vm_mmu_to_arch_flags (mmu_flags : mmu_flags_t) (lv : ptable_lv_t) : Nat :=
  let arch_flags := vm_ptable_entity_set_default_flags 0 lv
  match lv with
  | .PTABLE_LV0 =>
    let arch_flags := if mmu_flags.PERM_READ then arch_flags ||| 0b11 else arch_flags
    let arch_flags := if mmu_flags.UNCACHED then arch_flags ||| (0b001 <<< 2) else arch_flags
    let arch_flags := if mmu_flags.NONPRIV then arch_flags ||| (0b01 <<< 6) else arch_flags
    let arch_flags := if !mmu_flags.PERM_WRITE then arch_flags ||| (0b10 <<< 6) else arch_flags
    arch_flags
  | _ => if mmu_flags.PERM_READ then arch_flags ||| 0x3 else arch_flags

/-- Source `vm_arch_to_mmu_flags` on the value `*entity`. -/
def vm_arch_to_mmu_flags (entity : Nat) (lv : ptable_lv_t) : mmu_flags_t :=
  let arch_flags := entity
  let mmu_flags := mmu_flags_none
  match lv with
  | .PTABLE_LV0 =>
    let mmu_flags : mmu_flags_t :=
      if arch_flags &&& 0b11 = 0b11 then { mmu_flags with PERM_READ := true } else mmu_flags
    let mmu_flags : mmu_flags_t :=
      if (arch_flags >>> 2) &&& 0b111 = 0b001 then { mmu_flags with UNCACHED := true }
      else mmu_flags
    let mmu_flags : mmu_flags_t :=
      if (arch_flags >>> 6) &&& 0b11 = 0b00 then { mmu_flags with PERM_WRITE := true }
      else if (arch_flags >>> 6) &&& 0b11 = 0b01 then
        { mmu_flags with NONPRIV := true, PERM_WRITE := true }
      else if (arch_flags >>> 6) &&& 0b11 = 0b11 then { mmu_flags with NONPRIV := true }
      else mmu_flags
    mmu_flags
  | _ => { mmu_flags with PERM_READ := true, PERM_WRITE := true, NONPRIV := true }

/-- Source `vm_ptable_entity_state` on the value `*entity`. -/
def vm_ptable_entity_state (entity : Nat) (_lv : ptable_lv_t) : ptable_state_t :=
  let arch_flags := entity
  if arch_flags &&& 0b11 = 0b11 then .PTABLE_ENTITY_PRESENT else .PTABLE_ENTITY_INVALID

/-- Source `vm_ptable_entity_set_frame`: the entity afterwards, in `uint64_t`
arithmetic.  `(1 << frame_offset) - 1` is the `int` 4095 and the four levels run
the same statements. -/
def vm_ptable_entity_set_frame (entity : Nat) (_lv : ptable_lv_t) (frame : Nat) : Nat :=
  let frame_offset := 12
  let entity := entity &&& ((1 <<< frame_offset) - 1)
  let frame := frame >>> frame_offset
  entity ||| ((frame <<< frame_offset) % U64)

/-- Source `vm_ptable_entity_get_frame` on the value `*entity`. -/
def vm_ptable_entity_get_frame (entity : Nat) (_lv : ptable_lv_t) : Nat :=
  let frame_offset := 12
  ((entity >>> frame_offset) <<< frame_offset) % U64

/-- The flags `PERM_READ | PERM_WRITE | NONPRIV`. -/
def mmu_flags_rwn : mmu_flags_t :=
  { mmu_flags_none with PERM_READ := true, PERM_WRITE := true, NONPRIV := true }

/-- The flags of `f` among `{PERM_READ, PERM_WRITE, NONPRIV, UNCACHED}`. -/
def mmu_flags_encoded (f : mmu_flags_t) : mmu_flags_t :=
  { f with PERM_EXEC := false, DEVICE := false, HUGE_PAGE := false }

/-- The flag set with `PERM_EXEC` only. -/
def mmu_flags_exec : mmu_flags_t := { mmu_flags_none with PERM_EXEC := true }

/-- Source `vm_ptable_entity_allocated`: the entity afterwards. -/
def vm_ptable_entity_allocated (entity : Nat) (_lv : ptable_lv_t) : Nat := entity

/-- Source `vm_ptable_entity_invalidate`: the entity afterwards. -/
def vm_ptable_entity_invalidate (_entity : Nat) (_lv : ptable_lv_t) : Nat := 0

/-- Source `vm_ptable_entity_is_present`; `none` is the null pointer. -/
def vm_ptable_entity_is_present (entity : Option Nat) (lv : ptable_lv_t) : Bool :=
  match entity with
  | none => false
  | some e => decide (vm_ptable_entity_state e lv = .PTABLE_ENTITY_PRESENT)

/-- Source `vm_ptable_entity_is_only_allocated`; `none` is the null pointer. -/
def vm_ptable_entity_is_only_allocated (_entity : Option Nat) (_lv : ptable_lv_t) : Bool :=
  false

/-- Source `vm_arch_parse_pf_info`: the statements of the body that are not
commented out. -/
def vm_arch_parse_pf_info (_info : Nat) : Nat :=
  let res := 0
  res

/-- The syndrome (`ESR_EL1`) of a data abort from a lower exception level caused
by a write to a page without translation at level 3: exception class
`0b100100`, `WnR` (bit 6) set, fault status `0b000111`. -/
def esr_write_translation_fault : Nat := 0x92000047

/-- Source `clear_arch_flags`: the entity afterwards; `~x` is the complement of
the 64-bit value `x`, and the four levels run the same statements. -/
def clear_arch_flags (entity : Nat) (_lv : ptable_lv_t) : Nat :=
  let frame_offset := 12
  let entity := entity &&& (U64 - 1 - ((1 <<< frame_offset) - 1))
  entity &&& ((1 <<< 48) - 1)

/-- The flag set `a | b`. -/
def mmu_flags_or (a b : mmu_flags_t) : mmu_flags_t :=
  { PERM_READ := a.PERM_READ || b.PERM_READ,
    PERM_WRITE := a.PERM_WRITE || b.PERM_WRITE,
    PERM_EXEC := a.PERM_EXEC || b.PERM_EXEC,
    NONPRIV := a.NONPRIV || b.NONPRIV,
    UNCACHED := a.UNCACHED || b.UNCACHED,
    DEVICE := a.DEVICE || b.DEVICE,
    HUGE_PAGE := a.HUGE_PAGE || b.HUGE_PAGE }

/-- The flag set `a & ~b`. -/
def mmu_flags_andnot (a b : mmu_flags_t) : mmu_flags_t :=
  { PERM_READ := a.PERM_READ && !b.PERM_READ,
    PERM_WRITE := a.PERM_WRITE && !b.PERM_WRITE,
    PERM_EXEC := a.PERM_EXEC && !b.PERM_EXEC,
    NONPRIV := a.NONPRIV && !b.NONPRIV,
    UNCACHED := a.UNCACHED && !b.UNCACHED,
    DEVICE := a.DEVICE && !b.DEVICE,
    HUGE_PAGE := a.HUGE_PAGE && !b.HUGE_PAGE }

/-- Source `vm_ptable_entity_set_mmu_flags`: the entity afterwards. -/
def vm_ptable_entity_set_mmu_flags (entity : Nat) (lv : ptable_lv_t) (mmu_flags : mmu_flags_t) :
    Nat :=
  let old_mmu_flags := vm_arch_to_mmu_flags entity lv
  let old_mmu_flags := mmu_flags_or old_mmu_flags mmu_flags
  let arch_flags := vm_mmu_to_arch_flags old_mmu_flags lv
  let entity := clear_arch_flags entity lv
  entity ||| arch_flags

/-- Source `vm_ptable_entity_rm_mmu_flags`: the entity afterwards. -/
def vm_ptable_entity_rm_mmu_flags (entity : Nat) (lv : ptable_lv_t) (mmu_flags : mmu_flags_t) :
    Nat :=
  let old_mmu_flags := vm_arch_to_mmu_flags entity lv
  let old_mmu_flags := mmu_flags_andnot old_mmu_flags mmu_flags
  let arch_flags := vm_mmu_to_arch_flags old_mmu_flags lv
  let entity := clear_arch_flags entity lv
  entity ||| arch_flags

/-- The flags `NONPRIV | UNCACHED`. -/
def mmu_flags_nu : mmu_flags_t := { mmu_flags_none with NONPRIV := true, UNCACHED := true }

end Aarch64

/-!
# Kernel threads

A shallow embedding of `kernel/kernel/tasking/kthread.c`.  The target is a
parameter, since the file selects its constants and the register that carries
the argument of a kernel thread by `#if` guards; addresses are `uintptr_t`
values, kept as `Nat`.
-/

namespace Kthread

/-- The targets that the `#if` guards of the file tell apart. -/
inductive isa_t where
  | i386
  | x86_64
  | arm
  | aarch64
  | riscv64
deriving DecidableEq

/-- Number of values of a `uintptr_t` on the target. -/
def WORD (isa : isa_t) : Nat :=
  match isa with
  | .i386 => 4294967296
  | .x86_64 => 18446744073709551616
  | .arm => 4294967296
  | .aarch64 => 18446744073709551616
  | .riscv64 => 18446744073709551616

/-- Source macro `KSTACK_ZONE_SIZE`; `VMM_PAGE_SIZE` comes from the headers of
the target and is a parameter. -/
def KSTACK_ZONE_SIZE (isa : isa_t) (VMM_PAGE_SIZE : Nat) : Nat :=
  match isa with
  | .i386 => VMM_PAGE_SIZE
  | .x86_64 => VMM_PAGE_SIZE
  | .arm => 2 * VMM_PAGE_SIZE
  | .aarch64 => 2 * VMM_PAGE_SIZE
  | .riscv64 => 2 * VMM_PAGE_SIZE

/-- Source macro `KSTACK_TOP`. -/
def KSTACK_TOP (_isa : isa_t) (VMM_PAGE_SIZE : Nat) : Nat := VMM_PAGE_SIZE

/-- Source macro `USTACK_TOP`. -/
def USTACK_TOP (isa : isa_t) (VMM_PAGE_SIZE : Nat) : Nat :=
  match isa with
  | .i386 => VMM_PAGE_SIZE
  | .x86_64 => VMM_PAGE_SIZE
  | .arm => 2 * VMM_PAGE_SIZE
  | .aarch64 => 2 * VMM_PAGE_SIZE
  | .riscv64 => 2 * VMM_PAGE_SIZE

/-- Modelled from the spec: the errno value `EFAULT` (`libkern/bits/errno.h` is
not part of the sources). -/
def EFAULT : Int := 14

/-- Modelled from the spec: the errno value `EPERM`. -/
def EPERM : Int := 1

/-- Modelled from the spec: the registers of a `trapframe_t` that this file
reaches through the trap-frame interface: instruction pointer, stack pointer,
frame pointer and the register of the first argument (`rdi`, `r[0]`, `x[0]`,
`a0`); `other` stands for the rest of the frame. -/
structure trapframe_t where
  instruction_pointer : Nat
  stack_pointer : Nat
  frame_pointer : Nat
  first_arg : Nat
  other : Nat
deriving DecidableEq

/-- Modelled from the spec: `set_frame_pointer(tf, v)`. -/
def set_frame_pointer (tf : trapframe_t) (v : Nat) : trapframe_t :=
  { tf with frame_pointer := v }

/-- Modelled from the spec: `set_stack_pointer(tf, v)`. -/
def set_stack_pointer (tf : trapframe_t) (v : Nat) : trapframe_t :=
  { tf with stack_pointer := v }

/-- Modelled from the spec: `set_instruction_pointer(tf, v)`. -/
def set_instruction_pointer (tf : trapframe_t) (v : Nat) : trapframe_t :=
  { tf with instruction_pointer := v }

/-- Modelled from the spec: `get_stack_pointer(tf)`. -/
def get_stack_pointer (tf : trapframe_t) : Nat := tf.stack_pointer

/-- Modelled from the spec: `tf_move_stack_pointer(tf, -sizeof(data))` on i386,
where a pointer has 4 bytes: the stack pointer minus 4 in `uint32_t`
arithmetic. -/
def tf_move_stack_pointer_down (tf : trapframe_t) : trapframe_t :=
  { tf with
    stack_pointer :=
      if 4 ≤ tf.stack_pointer then tf.stack_pointer - 4 else tf.stack_pointer + 4294967296 - 4 }

/-- Modelled from the spec: a kernel memory zone, `kmemzone_t`. -/
structure kmemzone_t where
  start : Nat
  len : Nat
deriving DecidableEq

/-- Modelled from the spec: the fields of `thread_t` that the two functions
read and write; `process_is_kthread` is `thread->process->is_kthread`. -/
structure thread_t where
  tf : trapframe_t
  kstack : kmemzone_t
  process_is_kthread : Bool
deriving DecidableEq

/-- Modelled from the spec: the fields of `proc_t` that `kthread_setup_regs`
reads and writes. -/
structure proc_t where
  main_thread : thread_t
deriving DecidableEq

/-- Source `kthread_setup_regs`; `tf_setup_as_kernel_thread` is the function of
the target, which is not part of the sources.  The result is the return value
and the process afterwards. -/
def kthread_setup_regs (isa : isa_t) (VMM_PAGE_SIZE : Nat)
    (tf_setup_as_kernel_thread : trapframe_t → trapframe_t) (p : proc_t) (entry_point : Nat) :
    Int × proc_t :=
  let tf := tf_setup_as_kernel_thread p.main_thread.tf
  let stack := (p.main_thread.kstack.start + USTACK_TOP isa VMM_PAGE_SIZE) % WORD isa
  let tf := set_frame_pointer tf stack
  let tf := set_stack_pointer tf stack
  let tf := set_instruction_pointer tf entry_point
  (0, { p with main_thread := { p.main_thread with tf := tf } })

/-- Byte `k` of the value `data`, lowest byte first. -/
def byte_of (data k : Nat) : Nat := data / 256 ^ k % 256

/-- Modelled from the spec: `vmm_copy_to_address_space(aspace, &data, dest, 4)`
on i386, on the memory of the address space of the thread as a map from
addresses to bytes. -/
def vmm_copy_to_address_space (mem : Nat → Nat) (data dest : Nat) : Nat → Nat := fun a =>
  if dest ≤ a ∧ a < dest + 4 then byte_of data (a - dest) else mem a

/-- Source `kthread_fill_up_stack`; `none` is the null pointer, `IS_KERNEL_VADDR`
is the macro of the target, which is not part of the sources, and `mem` is the
memory of the address space of the thread.  The result is the return value, the
thread and the memory afterwards. -/
def kthread_fill_up_stack (isa : isa_t) (IS_KERNEL_VADDR : Nat → Bool) (thread : Option thread_t)
    (mem : Nat → Nat) (data : Nat) : Int × Option thread_t × (Nat → Nat) :=
  match thread with
  | none => (-EFAULT, thread, mem)
  | some t =>
    if !t.process_is_kthread then (-EPERM, thread, mem)
    else if !IS_KERNEL_VADDR data && data != 0 then (-EFAULT, thread, mem)
    else
      match isa with
      | .i386 =>
        let tf := tf_move_stack_pointer_down t.tf
        (0, some { t with tf := tf }, vmm_copy_to_address_space mem data (get_stack_pointer tf))
      | _ => (0, some { t with tf := { t.tf with first_arg := data } }, mem)

/-- A trap frame with the value 7 in the register of the first argument. -/
def tf_seven : trapframe_t :=
  { instruction_pointer := 0, stack_pointer := 0xc0102000, frame_pointer := 0, first_arg := 7,
    other := 0 }

/-- A thread of a kernel-thread process with the frame `tf_seven` and a kernel
stack zone at `0xc0100000`. -/
def kthread_seven : thread_t :=
  { tf := tf_seven, kstack := { start := 0xc0100000, len := 8192 }, process_is_kthread := true }

/-- The test `vaddr >= 0xc0000000`, the kernel half of a 32-bit address space. -/
def is_kernel_vaddr_3g (vaddr : Nat) : Bool := decide (vaddr ≥ 0xc0000000)

end Kthread

/-!
# x86 exception handler

A shallow embedding of `isr_handler` of
`kernel/kernel/platform/x86/interrupts/isr_handler.c`: what the handler does for
each vector, as a function of the trap frame, of the thread running on the CPU
and of the answer of the page-fault handler.
-/

namespace X86

/-- Modelled from the spec: the state of a CPU, in kernel code or in user
code. -/
inductive cpu_state_t where
  | CPU_IN_KERNEL
  | CPU_IN_USERLAND
deriving DecidableEq

/-- Modelled from the spec: the fields of the x86 `trapframe_t` that the
handler reads. -/
structure trapframe_t where
  int_no : Nat
  err : Nat
  eip : Nat
deriving DecidableEq

/-- Modelled from the spec: the fields of `thread_t` that the handler reads and
writes; `process` stands for the `proc_t*` of the thread and `tf` for the frame
it points to. -/
structure thread_t where
  tid : Nat
  process : Nat
  process_is_kthread : Bool
  tf : Option trapframe_t
deriving DecidableEq

/-- Modelled from the spec: the CPU on entry of the handler: the state in which
the exception was taken and `RUNNING_THREAD` (`none` is the null pointer). -/
structure cpu_t where
  current_state : cpu_state_t
  running_thread : Option thread_t
deriving DecidableEq

/-- What a case of the `switch` of `isr_handler` calls. -/
inductive isr_action where
  | dump_and_kill (proc : Nat)
  | kpanic_tf (frame : trapframe_t)
  | system_stop
  | fpu_handler
  | nothing
deriving DecidableEq

/-- The statements of the cases 0 and 6 and, after `SHOULD_CRASH`, of the case
14: `if (proc) dump_and_kill(proc) else kpanic_tf(err_buf, frame)`. -/
def crash_or_trap (proc : Option Nat) (frame : trapframe_t) : isr_action :=
  match proc with
  | some p => .dump_and_kill p
  | none => .kpanic_tf frame

/-- Source `isr_handler`: the call that the `switch` makes and `RUNNING_THREAD`
afterwards.  `res` is the value that `vmm_page_fault_handler` returns for this
fault; `SHOULD_CRASH` comes from a header that is not part of the sources. -/
def isr_handler (SHOULD_CRASH : Int) (cpu : cpu_t) (frame : trapframe_t) (res : Int) :
    isr_action × Option thread_t :=
  let proc : Option Nat := cpu.running_thread.map (fun t => t.process)
  let running_thread := cpu.running_thread.map
    (fun t => if t.process_is_kthread then { t with tf := some frame } else t)
  let action : isr_action :=
    if frame.int_no = 0 then crash_or_trap proc frame
    else if 1 ≤ frame.int_no ∧ frame.int_no ≤ 5 then .system_stop
    else if frame.int_no = 6 then crash_or_trap proc frame
    else if frame.int_no = 7 then .fpu_handler
    else if 8 ≤ frame.int_no ∧ frame.int_no ≤ 13 then .system_stop
    else if frame.int_no = 14 then
      if res ≠ SHOULD_CRASH then .nothing
      else crash_or_trap proc frame
    else .system_stop
  (action, running_thread)

/-- A page fault at `eip = 0xc0101234` with the error code 0: a read of a page
that is not present, in supervisor mode. -/
def frame_kernel_pf : trapframe_t := { int_no := 14, err := 0, eip := 0xc0101234 }

/-- A CPU that runs the kernel thread 5 of process 5 in kernel code. -/
def cpu_kthread : cpu_t :=
  { current_state := .CPU_IN_KERNEL,
    running_thread := some { tid := 5, process := 5, process_is_kthread := true, tf := none } }

end X86

/-! # Theorems -/

namespace Ext2

/-! ## Device layer: what the sector loops compute -/

set_option maxRecDepth 100000 in
theorem read_loop_spec (dev : Disk) :
    ∀ (fuel : Nat) (buf : Buf) (ar sector so len : Nat), len ≤ fuel → so < 512 →
      _ext2_read_from_dev_loop dev fuel buf ar sector so len =
        some (fun i => if ar ≤ i ∧ i < ar + len then dev (sector * 512 + so + (i - ar))
                       else buf i) := by
  intro fuel
  induction fuel with
  | zero =>
    intro buf ar sector so len hl _
    have : len = 0 := by omega
    subst this
    unfold _ext2_read_from_dev_loop
    simp only [if_true]
    congr 1
    funext i
    rw [if_neg (by omega)]
  | succ fuel ih =>
    intro buf ar sector so len hl hso
    unfold _ext2_read_from_dev_loop
    by_cases h0 : len = 0
    · subst h0
      simp only [if_true]
      congr 1
      funext i
      rw [if_neg (by omega)]
    · simp only [h0, if_false]
      refine (ih _ _ _ _ _ ?_ ?_).trans ?_
      · omega
      · omega
      congr 1
      funext i
      simp only [memcpy, drv_read]
      split_ifs <;> first | rfl | (congr 1; omega)

/-- The read loop always ends with the fuel `len`, and the buffer then holds the
device bytes `[start, start + len)`. -/
theorem read_from_dev_eq (dev : Disk) (buf : Buf) (start len : Nat) :
    _ext2_read_from_dev dev buf start len =
      fun i => if i < len then dev (start + i) else buf i := by
  unfold _ext2_read_from_dev
  rw [read_loop_spec dev len buf 0 (start / 512) (start % 512) len (le_refl _)
    (Nat.mod_lt _ (by decide))]
  simp only [Option.getD_some]
  funext i
  by_cases h : i < len
  · rw [if_pos (by omega), if_pos h]
    congr 1
    have := Nat.div_add_mod start 512
    omega
  · rw [if_neg (by omega), if_neg h]

theorem user_read_from_dev_eq (dev : Disk) (buf : Buf) (start len : Nat) :
    _ext2_user_read_from_dev dev buf start len =
      fun i => if i < len then dev (start + i) else buf i :=
  read_from_dev_eq dev buf start len

set_option maxRecDepth 100000 in
theorem write_loop_spec (buf : Buf) :
    ∀ (fuel : Nat) (dev : Disk) (tmp : Buf) (aw sector so len : Nat), len ≤ fuel → so < 512 →
      _ext2_write_to_dev_loop buf fuel dev tmp aw sector so len =
        some (fun a => if sector * 512 + so ≤ a ∧ a < sector * 512 + so + len
                       then buf (aw + (a - (sector * 512 + so))) else dev a) := by
  intro fuel
  induction fuel with
  | zero =>
    intro dev tmp aw sector so len hl _
    have : len = 0 := by omega
    subst this
    unfold _ext2_write_to_dev_loop
    simp only [if_true]
    congr 1
    funext i
    rw [if_neg (by omega)]
  | succ fuel ih =>
    intro dev tmp aw sector so len hl hso
    unfold _ext2_write_to_dev_loop
    by_cases h0 : len = 0
    · subst h0
      simp only [if_true]
      congr 1
      funext i
      rw [if_neg (by omega)]
    · simp only [h0, if_false]
      refine (ih _ _ _ _ _ _ ?_ ?_).trans ?_
      · omega
      · omega
      congr 1
      funext a
      simp only [memcpy, drv_write, drv_read]
      have hm := Nat.div_add_mod a 512
      have hlt := Nat.mod_lt a (show 512 > 0 by decide)
      split_ifs <;> first | rfl | (congr 1; omega) | (simp only [drv_read]; congr 1; omega)

/-- The write loop always ends with the fuel `len`; afterwards the device holds
`buf[0..len)` at `[start, start + len)` and is unchanged elsewhere. -/
theorem write_to_dev_eq (dev : Disk) (buf : Buf) (start len : Nat) :
    _ext2_write_to_dev dev buf start len =
      fun a => if start ≤ a ∧ a < start + len then buf (a - start) else dev a := by
  unfold _ext2_write_to_dev
  rw [write_loop_spec buf len dev zero_buf 0 (start / 512) (start % 512) len (le_refl _)
    (Nat.mod_lt _ (by decide))]
  simp only [Option.getD_some]
  funext a
  have hm := Nat.div_add_mod start 512
  by_cases h : start ≤ a ∧ a < start + len
  · rw [if_pos (by omega), if_pos h]
    congr 1; omega
  · rw [if_neg (by omega), if_neg h]

theorem user_write_to_dev_eq (dev : Disk) (buf : Buf) (start len : Nat) :
    _ext2_user_write_to_dev dev buf start len =
      fun a => if start ≤ a ∧ a < start + len then buf (a - start) else dev a :=
  write_to_dev_eq dev buf start len

/-! ## Block addressing -/

theorem u32_read (dev : Disk) (buf : Buf) (a : Nat) :
    u32_of_buf (_ext2_read_from_dev dev buf a 4) = dev_u32 dev a := by
  rw [read_from_dev_eq]
  simp [u32_of_buf, dev_u32]

theorem block_len_cases (sb : superblock_t) (h : sb.log_block_size ≤ 2) :
    BLOCK_LEN sb = 1024 ∨ BLOCK_LEN sb = 2048 ∨ BLOCK_LEN sb = 4096 := by
  unfold BLOCK_LEN
  have : sb.log_block_size = 0 ∨ sb.log_block_size = 1 ∨ sb.log_block_size = 2 := by omega
  rcases this with h | h | h <;> rw [h] <;> simp

/-- A block that fits the buffers of `MAX_BLOCK_LEN` bytes is a block of 1 KiB. -/
theorem block_fits (sb : superblock_t) (h : BLOCK_LEN sb ≤ MAX_BLOCK_LEN) :
    sb.log_block_size ≤ 2 ∧ BLOCK_LEN sb = 1024 := by
  unfold BLOCK_LEN MAX_BLOCK_LEN at *
  rw [Nat.shiftLeft_eq] at h ⊢
  have h0 : sb.log_block_size = 0 := by
    by_contra hne
    have := Nat.one_lt_two_pow hne
    omega
  rw [h0]
  exact ⟨by omega, rfl⟩

theorem sub32_eq (a b : Nat) (hab : b ≤ a) (ha : a < U32) : sub32 a b = a - b := by
  unfold sub32 U32 at *
  omega

theorem get_lev0_eq (vfsdev : vfs_device_t) (b k : Nat) :
    _ext2_get_block_of_inode_lev0 vfsdev b k = index_entry vfsdev b k := by
  simp only [_ext2_get_block_of_inode_lev0, index_entry, u32_read, Nat.mul_comm]

theorem get_lev1_eq (vfsdev : vfs_device_t) (b k : Nat) :
    _ext2_get_block_of_inode_lev1 vfsdev b k =
      if index_entry vfsdev b (k / (BLOCK_LEN vfsdev.fsdata.sb / 4)) ≠ 0 then
        index_entry vfsdev (index_entry vfsdev b (k / (BLOCK_LEN vfsdev.fsdata.sb / 4)))
          (k % (BLOCK_LEN vfsdev.fsdata.sb / 4))
      else 0 := by
  simp only [_ext2_get_block_of_inode_lev1, get_lev0_eq, index_entry, u32_read, Nat.mul_comm]

theorem get_lev2_eq (vfsdev : vfs_device_t) (b k : Nat) :
    _ext2_get_block_of_inode_lev2 vfsdev b k =
      if index_entry vfsdev b
          (k / ((BLOCK_LEN vfsdev.fsdata.sb / 4 * (BLOCK_LEN vfsdev.fsdata.sb / 4)) % U32)) ≠ 0 then
        _ext2_get_block_of_inode_lev1 vfsdev
          (index_entry vfsdev b
            (k / ((BLOCK_LEN vfsdev.fsdata.sb / 4 * (BLOCK_LEN vfsdev.fsdata.sb / 4)) % U32)))
          (k % ((BLOCK_LEN vfsdev.fsdata.sb / 4 * (BLOCK_LEN vfsdev.fsdata.sb / 4)) % U32))
      else 0 := by
  simp only [_ext2_get_block_of_inode_lev2, index_entry, u32_read, Nat.mul_comm]

/-- A zero entry in an intermediate index block is read as a hole by
`_ext2_get_block_of_inode_lev1`. -/
theorem get_lev1_hole (vfsdev : vfs_device_t) (b k : Nat)
    (h : index_entry vfsdev b (k / (BLOCK_LEN vfsdev.fsdata.sb / 4)) = 0) :
    _ext2_get_block_of_inode_lev1 vfsdev b k = 0 := by
  rw [get_lev1_eq, h]
  exact if_neg (fun hne => hne rfl)

/-- A zero entry in the first intermediate index block is read as a hole by
`_ext2_get_block_of_inode_lev2`. -/
theorem get_lev2_hole (vfsdev : vfs_device_t) (b k : Nat)
    (h : index_entry vfsdev b
      (k / ((BLOCK_LEN vfsdev.fsdata.sb / 4 * (BLOCK_LEN vfsdev.fsdata.sb / 4)) % U32)) = 0) :
    _ext2_get_block_of_inode_lev2 vfsdev b k = 0 := by
  rw [get_lev2_eq, h]
  exact if_neg (fun hne => hne rfl)

/-- C5 at a failing input: with all 15 block pointers zero and 1 KiB blocks, the
read path does not return the hole value 0 for the first single-, double- and
triple-indirect logical blocks; it follows the bytes found at device offset 0. -/
theorem get_block_of_inode_unallocated_top_level :
    dentry_empty.inode.block 12 = 0 ∧ dentry_empty.inode.block 13 = 0 ∧
    dentry_empty.inode.block 14 = 0 ∧
    _ext2_get_block_offset vfs_boot.fsdata.sb 0 = 0 ∧
    _ext2_get_block_of_inode vfs_boot dentry_empty 12 = 1 ∧
    _ext2_get_block_of_inode vfs_boot dentry_empty 268 = 2 ∧
    _ext2_get_block_of_inode vfs_boot dentry_empty 65804 = 5 := by
  decide

/-! ## Bitmaps -/

theorem toByte_val (x : Nat) : (toByte x).val = x % 256 := rfl

theorem bitmap_get_eq (bm : Buf) (i : Nat) :
    _ext2_bitmap_get bm i = (bm (i / 8)).val.testBit (i % 8) := by
  unfold _ext2_bitmap_get Nat.testBit
  rw [Nat.land_comm]

theorem set_bit_byte (b : Byte) (k j : Nat) (hk : k < 8) :
    (toByte (b.val ||| (toByte (1 <<< k)).val)).val.testBit j
      = (b.val.testBit j || decide (k = j)) := by
  have h1 : (1 <<< k) % 256 = 2 ^ k := by
    rw [Nat.one_shiftLeft]
    apply Nat.mod_eq_of_lt
    calc 2 ^ k < 2 ^ 8 := Nat.pow_lt_pow_right (by decide) hk
      _ = 256 := by norm_num
  have h2 : b.val ||| 2 ^ k < 256 := by
    have h3 : b.val ||| 2 ^ k < 2 ^ 8 :=
      Nat.or_lt_two_pow b.isLt (Nat.pow_lt_pow_right (by decide) hk)
    exact h3
  simp only [toByte_val, h1]
  rw [Nat.mod_eq_of_lt h2, Nat.testBit_or, Nat.testBit_two_pow]

theorem unset_bit_byte (b : Byte) (k j : Nat) :
    (toByte (b.val &&& (4294967295 ^^^ (1 <<< k)))).val.testBit j
      = (b.val.testBit j && !decide (k = j)) := by
  have hb : b.val &&& (4294967295 ^^^ (1 <<< k)) < 256 := 
    lt_of_le_of_lt Nat.and_le_left b.isLt
  simp only [toByte_val]
  rw [Nat.mod_eq_of_lt hb, Nat.testBit_and, Nat.testBit_xor, Nat.one_shiftLeft, Nat.testBit_two_pow]
  by_cases hj : j < 32
  · have : Nat.testBit 4294967295 j = true := by
      have : (4294967295 : Nat) = 2 ^ 32 - 1 := by norm_num
      rw [this, Nat.testBit_two_pow_sub_one]
      simpa using hj
    rw [this]
    by_cases h : k = j <;> simp [h]
  · have : b.val.testBit j = false := by
      apply Nat.testBit_lt_two_pow
      calc b.val < 256 := b.isLt
        _ = 2 ^ 8 := by norm_num
        _ ≤ 2 ^ j := Nat.pow_le_pow_right (by decide) (by omega)
    rw [this]
    simp

theorem first_clear_bit_some (bm : Buf) :
    ∀ (n off o : Nat), first_clear_bit bm n off = some o →
      off ≤ o ∧ o < off + n ∧ _ext2_bitmap_get bm o = false ∧
        ∀ j, off ≤ j → j < o → _ext2_bitmap_get bm j = true := by
  intro n
  induction n with
  | zero => intro off o h; simp [first_clear_bit] at h
  | succ n ih =>
    intro off o h
    unfold first_clear_bit at h
    by_cases hb : _ext2_bitmap_get bm off = false
    · rw [if_pos hb] at h
      cases h
      exact ⟨le_refl _, by omega, hb, fun j h1 h2 => by omega⟩
    · rw [if_neg hb] at h
      obtain ⟨h1, h2, h3, h4⟩ := ih _ _ h
      refine ⟨by omega, by omega, h3, ?_⟩
      intro j hj1 hj2
      by_cases e : j = off
      · subst e; simpa using hb
      · exact h4 j (by omega) hj2

theorem first_clear_bit_none (bm : Buf) :
    ∀ (n off : Nat), first_clear_bit bm n off = none →
      ∀ j, off ≤ j → j < off + n → _ext2_bitmap_get bm j = true := by
  intro n
  induction n with
  | zero => intro off _ j h1 h2; omega
  | succ n ih =>
    intro off h j hj1 hj2
    unfold first_clear_bit at h
    by_cases hb : _ext2_bitmap_get bm off = false
    · rw [if_pos hb] at h; cases h
    · rw [if_neg hb] at h
      by_cases e : j = off
      · subst e; simpa using hb
      · exact ih _ h j (by omega) (by omega)

theorem read_bitmap_get (dev : Disk) (blockoff len off : Nat) (h : off < 8 * len) :
    _ext2_bitmap_get (_ext2_read_from_dev dev zero_buf blockoff len) off
      = disk_bit dev blockoff off := by
  rw [bitmap_get_eq, read_from_dev_eq]
  unfold disk_bit
  dsimp only
  rw [if_pos (by omega)]

theorem write_set_bit (dev : Disk) (blockoff len off : Nat) (h : off < 8 * len) (a k : Nat) :
    ((_ext2_write_to_dev dev
        (_ext2_bitmap_set_bit (_ext2_read_from_dev dev zero_buf blockoff len) off)
        blockoff len) a).val.testBit k
      = ((dev a).val.testBit k || decide (a = blockoff + off / 8 ∧ k = off % 8)) := by
  rw [write_to_dev_eq, read_from_dev_eq]
  unfold _ext2_bitmap_set_bit
  dsimp only
  by_cases hr : blockoff ≤ a ∧ a < blockoff + len
  · simp only [hr, and_self, if_true]
    by_cases ha : a - blockoff = off / 8
    · rw [if_pos ha, if_pos (by omega), set_bit_byte _ _ _ (Nat.mod_lt _ (by decide))]
      have e1 : blockoff + off / 8 = a := by omega
      rw [e1]
      by_cases hk : off % 8 = k
      · simp [hk]
      · have : ¬ k = off % 8 := fun h => hk h.symm
        simp [hk, this]
    · rw [if_neg ha, if_pos (by omega)]
      have e1 : blockoff + (a - blockoff) = a := by omega
      have e2 : ¬ a = blockoff + off / 8 := by omega
      rw [e1]
      simp [e2]
  · rw [if_neg hr]
    have e2 : ¬ a = blockoff + off / 8 := by omega
    simp [e2]

/-- What `_ext2_find_free_block_index` does: it takes the lowest cleared bit of
the group's bitmap, or fails without changing anything. -/
theorem find_free_block_index_spec (v : vfs_device_t) (bi g : Nat) :
    (∃ off, lowest_clear v.dev (block_bitmap_off v g) (8 * BLOCK_LEN v.fsdata.sb) off ∧
        (_ext2_find_free_block_index v bi g).1 = 0 ∧
        (_ext2_find_free_block_index v bi g).2.2
          = (v.fsdata.sb.blocks_per_group * g + off + 1) % U32 ∧
        (_ext2_find_free_block_index v bi g).2.1.fsdata = v.fsdata ∧
        ∀ a k, ((_ext2_find_free_block_index v bi g).2.1.dev a).val.testBit k =
          ((v.dev a).val.testBit k ||
            decide (a = block_bitmap_off v g + off / 8 ∧ k = off % 8))) ∨
    ((∀ off, off < 8 * BLOCK_LEN v.fsdata.sb →
        disk_bit v.dev (block_bitmap_off v g) off = true) ∧
      _ext2_find_free_block_index v bi g = (-ENOSPC, v, bi)) := by
  unfold _ext2_find_free_block_index
  simp only
  cases hf : first_clear_bit (_ext2_read_from_dev v.dev zero_buf
      (_ext2_get_block_offset v.fsdata.sb (v.fsdata.gt.table g).block_bitmap)
      (BLOCK_LEN v.fsdata.sb)) (8 * BLOCK_LEN v.fsdata.sb) 0 with
  | none =>
    right
    refine ⟨?_, rfl⟩
    intro off hoff
    have := first_clear_bit_none _ _ _ hf off (Nat.zero_le _) (by omega)
    rwa [read_bitmap_get _ _ _ _ hoff] at this
  | some off =>
    left
    obtain ⟨_, h2, h3, h4⟩ := first_clear_bit_some _ _ _ _ hf
    have hoff : off < 8 * BLOCK_LEN v.fsdata.sb := by omega
    refine ⟨off, ⟨hoff, ?_, ?_⟩, rfl, rfl, rfl, ?_⟩
    · rwa [read_bitmap_get _ _ _ _ hoff] at h3
    · intro j hj
      have := h4 j (Nat.zero_le _) hj
      rwa [read_bitmap_get _ _ _ _ (by omega)] at this
    · intro a k
      exact write_set_bit _ _ _ _ hoff a k

/-! ## Block allocation -/

theorem enospc_ne_zero : -ENOSPC ≠ 0 := by decide

theorem allocate_block_index_loop_spec (pref : Nat) :
    ∀ (n i : Nat) (v : vfs_device_t) (bi : Nat),
      ((_ext2_allocate_block_index_loop pref n i v bi).1 ≠ 0 →
        _ext2_allocate_block_index_loop pref n i v bi = (-ENOSPC, v, bi) ∧
        ∀ j, i ≤ j → j < i + n →
          ¬ group_usable v (((pref + j) % U32) % v.fsdata.gt.count)) ∧
      ((_ext2_allocate_block_index_loop pref n i v bi).1 = 0 →
        ∃ k off, i ≤ k ∧ k < i + n ∧
          (∀ j, i ≤ j → j < k →
            ¬ group_usable v (((pref + j) % U32) % v.fsdata.gt.count)) ∧
          group_usable v (((pref + k) % U32) % v.fsdata.gt.count) ∧
          lowest_clear v.dev (block_bitmap_off v (((pref + k) % U32) % v.fsdata.gt.count))
            (8 * BLOCK_LEN v.fsdata.sb) off ∧
          alloc_block_effect v (_ext2_allocate_block_index_loop pref n i v bi)
            (((pref + k) % U32) % v.fsdata.gt.count) off) := by
  intro n
  induction n with
  | zero =>
    intro i v bi
    unfold _ext2_allocate_block_index_loop
    refine ⟨fun _ => ⟨rfl, fun j h1 h2 => by omega⟩, fun h => absurd h enospc_ne_zero⟩
  | succ n ih =>
    intro i v bi
    unfold _ext2_allocate_block_index_loop
    dsimp only
    by_cases hc : (v.fsdata.gt.table (((pref + i) % U32) % v.fsdata.gt.count)).free_blocks_count
        ≠ 0
    · rw [if_pos hc]
      rcases find_free_block_index_spec v bi (((pref + i) % U32) % v.fsdata.gt.count) with
        ⟨off, hlow, h1, h2, h3, h4⟩ | ⟨hfull, heq⟩
      · rw [if_pos h1]
        refine ⟨fun h => absurd rfl h, fun _ => ⟨i, off, le_refl _, by omega, ?_, ?_, hlow, ?_⟩⟩
        · intro j hj1 hj2; omega
        · exact ⟨hc, off, hlow.1, hlow.2.1⟩
        · refine ⟨h2, h4, ?_, ?_, ?_, ?_⟩
          · show (_ext2_find_free_block_index v bi _).2.1.fsdata.sb = _
            rw [h3]
          · show (_ext2_find_free_block_index v bi _).2.1.fsdata.gt.count = _
            rw [h3]
          · show (set_group _ _ _).table _ = _
            unfold set_group
            dsimp only
            rw [if_pos rfl, h3]
          · intro g' hg'
            show (set_group _ _ _).table _ = _
            unfold set_group
            dsimp only
            rw [if_neg hg', h3]
      · rw [heq]
        dsimp only
        rw [if_neg enospc_ne_zero]
        obtain ⟨ih1, ih2⟩ := ih (i + 1) v bi
        have hnot : ¬ group_usable v (((pref + i) % U32) % v.fsdata.gt.count) := by
          rintro ⟨_, off, hoff, hbit⟩
          rw [hfull off hoff] at hbit
          cases hbit
        constructor
        · intro h
          obtain ⟨e, hall⟩ := ih1 h
          refine ⟨e, ?_⟩
          intro j hj1 hj2
          by_cases e' : j = i
          · subst e'; exact hnot
          · exact hall j (by omega) (by omega)
        · intro h
          obtain ⟨k, off, hk1, hk2, hk3, hk4⟩ := ih2 h
          refine ⟨k, off, by omega, by omega, ?_, hk4⟩
          intro j hj1 hj2
          by_cases e' : j = i
          · subst e'; exact hnot
          · exact hk3 j (by omega) hj2
    · rw [if_neg hc]
      obtain ⟨ih1, ih2⟩ := ih (i + 1) v bi
      have hnot : ¬ group_usable v (((pref + i) % U32) % v.fsdata.gt.count) :=
        fun hu => hc hu.1
      constructor
      · intro h
        obtain ⟨e, hall⟩ := ih1 h
        refine ⟨e, ?_⟩
        intro j hj1 hj2
        by_cases e' : j = i
        · subst e'; exact hnot
        · exact hall j (by omega) (by omega)
      · intro h
        obtain ⟨k, off, hk1, hk2, hk3, hk4⟩ := ih2 h
        refine ⟨k, off, by omega, by omega, ?_, hk4⟩
        intro j hj1 hj2
        by_cases e' : j = i
        · subst e'; exact hnot
        · exact hk3 j (by omega) hj2

/-- Every failure of `_ext2_allocate_block_index` is `-ENOSPC` and changes nothing. -/
theorem allocate_block_index_fail (v : vfs_device_t) (bi pref : Nat)
    (h : (_ext2_allocate_block_index v bi pref).1 ≠ 0) :
    _ext2_allocate_block_index v bi pref = (-ENOSPC, v, bi) :=
  ((allocate_block_index_loop_spec pref _ 0 v bi).1 h).1

theorem allocate_block_success_usable (v : vfs_device_t) (bi pref : Nat)
    (hpref : pref + v.fsdata.gt.count ≤ U32) :
    allocate_block_success_claim group_usable v bi pref := by
  have hmod : ∀ j, j < v.fsdata.gt.count →
      ((pref + j) % U32) % v.fsdata.gt.count = (pref + j) % v.fsdata.gt.count := by
    intro j hj
    have e : (pref + j) % U32 = pref + j := Nat.mod_eq_of_lt (by omega)
    rw [e]
  intro h0
  obtain ⟨k, off, _, hk2, hk3, hk4, hk5, hk6⟩ :=
    (allocate_block_index_loop_spec pref v.fsdata.gt.count 0 v bi).2 h0
  have hk : k < v.fsdata.gt.count := by omega
  rw [hmod k hk] at hk4 hk5 hk6
  refine ⟨k, off, hk, ?_, hk4, hk5, hk6⟩
  intro j hj
  have := hk3 j (Nat.zero_le _) hj
  rwa [hmod j (by omega)] at this

/-- C6, as amended: on a file system whose blocks fit the bitmap buffer
(`BLOCK_LEN(sb) ≤ MAX_BLOCK_LEN`, blocks of 1 KiB) and whose groups have one
bitmap block of blocks (`blocks_per_group = 8 * block_size`), a successful
`_ext2_allocate_block_index` has taken the first group in the cyclic order from
`pref_group` whose `free_blocks_count` is not zero and whose on-disk bitmap has
a cleared bit among its `blocks_per_group` bits (a group with a non-zero counter
and a full bitmap is passed over), has returned
`blocks_per_group * g + off + 1` for the lowest cleared bit `off`, has set
exactly that bit on the device and has decremented exactly that group's counter
by one; every failure is `-ENOSPC` and changes nothing, and the call fails when
no group has a free block. -/
theorem allocate_block_index_contract (v : vfs_device_t) (bi pref : Nat)
    (hpref : pref + v.fsdata.gt.count ≤ U32) (_ : BLOCK_LEN v.fsdata.sb ≤ MAX_BLOCK_LEN)
    (hbpg : v.fsdata.sb.blocks_per_group = 8 * BLOCK_LEN v.fsdata.sb) :
    ((_ext2_allocate_block_index v bi pref).1 = 0 →
      ∃ i off, i < v.fsdata.gt.count ∧
        (∀ j, j < i → ¬ group_has_free_block v ((pref + j) % v.fsdata.gt.count)) ∧
        group_has_free_block v ((pref + i) % v.fsdata.gt.count) ∧
        lowest_clear v.dev (block_bitmap_off v ((pref + i) % v.fsdata.gt.count))
          v.fsdata.sb.blocks_per_group off ∧
        alloc_block_effect v (_ext2_allocate_block_index v bi pref)
          ((pref + i) % v.fsdata.gt.count) off) ∧
    ((_ext2_allocate_block_index v bi pref).1 ≠ 0 →
      _ext2_allocate_block_index v bi pref = (-ENOSPC, v, bi)) ∧
    ((∀ g, g < v.fsdata.gt.count → ¬ group_has_free_block v g) →
      (_ext2_allocate_block_index v bi pref).1 = -ENOSPC) := by
  have hA := allocate_block_success_usable v bi pref hpref
  have hE : ∀ g, group_has_free_block v g ↔ group_usable v g := by
    intro g
    unfold group_has_free_block group_usable
    rw [hbpg]
  refine ⟨?_, allocate_block_index_fail v bi pref, ?_⟩
  · intro h0
    obtain ⟨i, off, hi, hfirst, hu, hlow, heff⟩ := hA h0
    refine ⟨i, off, hi, fun j hj hf => hfirst j hj ((hE _).mp hf), (hE _).mpr hu, ?_, heff⟩
    rw [hbpg]
    exact hlow
  · intro hno
    by_cases h0 : (_ext2_allocate_block_index v bi pref).1 = 0
    · obtain ⟨i, off, hi, _, hu, _⟩ := hA h0
      have hc : 0 < v.fsdata.gt.count := by omega
      exact absurd ((hE _).mpr hu) (hno _ (Nat.mod_lt _ hc))
    · rw [allocate_block_index_fail v bi pref h0]

/-- Witness of C6 on a one-group file system whose blocks 1..8 are in use: the
call succeeds with block 9. -/
theorem allocate_block_index_contract_witness :
    0 + vfs_small.fsdata.gt.count ≤ U32 ∧
    BLOCK_LEN vfs_small.fsdata.sb ≤ MAX_BLOCK_LEN ∧
    vfs_small.fsdata.sb.blocks_per_group = 8 * BLOCK_LEN vfs_small.fsdata.sb ∧
    (_ext2_allocate_block_index vfs_small 0 0).1 = 0 ∧
    (_ext2_allocate_block_index vfs_small 0 0).2.2 = 9 ∧
    ∃ i off, i < vfs_small.fsdata.gt.count ∧
      (∀ j, j < i → ¬ group_has_free_block vfs_small ((0 + j) % vfs_small.fsdata.gt.count)) ∧
      group_has_free_block vfs_small ((0 + i) % vfs_small.fsdata.gt.count) ∧
      lowest_clear vfs_small.dev
        (block_bitmap_off vfs_small ((0 + i) % vfs_small.fsdata.gt.count))
        vfs_small.fsdata.sb.blocks_per_group off ∧
      alloc_block_effect vfs_small (_ext2_allocate_block_index vfs_small 0 0)
        ((0 + i) % vfs_small.fsdata.gt.count) off :=
  ⟨by decide, by decide, by decide, by decide, by decide,
   (allocate_block_index_contract vfs_small 0 0 (by decide) (by decide) (by decide)).1
     (by decide)⟩

theorem dev_full0_group0_full (off : Nat) (h : off < 8192) :
    disk_bit dev_full0 3072 off = true := by
  unfold disk_bit dev_full0
  rw [if_pos (by omega)]
  have h8 : off % 8 < 8 := Nat.mod_lt _ (by decide)
  have e : ((255 : Byte) : Nat) = 2 ^ 8 - 1 := by decide
  rw [e, Nat.testBit_two_pow_sub_one]
  simpa using h8

/-- Counterexample to C6 as stated: on `vfs_full0` group 0 is the first group
with a non-zero `free_blocks_count`, yet the successful call takes its block
from group 1, so the claim with "first group whose counter is not zero" fails. -/
theorem allocate_block_index_not_first_nonzero_counter :
    ¬ allocate_block_success_claim counter_nonzero vfs_full0 0 0 := by
  intro hclaim
  have hu1 : group_usable vfs_full0 1 :=
    ⟨by decide, 8, by decide, by decide⟩
  have hnu0 : ¬ group_usable vfs_full0 0 := by
    rintro ⟨_, off, hoff, hbit⟩
    have hoff' : off < 8192 := hoff
    have hb : block_bitmap_off vfs_full0 0 = 3072 := by decide
    rw [hb] at hbit
    have hfull : disk_bit vfs_full0.dev 3072 off = true := dev_full0_group0_full off hoff'
    rw [hfull] at hbit
    cases hbit
  have hcontract := allocate_block_success_usable vfs_full0 0 0 (by decide)
  have h0 : (_ext2_allocate_block_index vfs_full0 0 0).1 = 0 := by
    by_contra hne
    have hl := (allocate_block_index_loop_spec 0 vfs_full0.fsdata.gt.count 0 vfs_full0 0).1 hne
    exact hl.2 1 (by decide) (by decide) hu1
  -- the group the call really took is group 1
  obtain ⟨i, off, hi, hfirst, hu, hlow, heff⟩ := hcontract h0
  have hi2 : i < 2 := hi
  have hi1 : i = 1 := by
    by_contra hne
    have : i = 0 := by omega
    subst this
    exact hnu0 hu
  subst hi1
  have hval : (_ext2_allocate_block_index vfs_full0 0 0).2.2 = (8192 * 1 + off + 1) % U32 :=
    heff.1
  -- the claim as stated puts it into group 0
  obtain ⟨i', off', hi', hfirst', hu', hlow', heff'⟩ := hclaim h0
  have hi2' : i' < 2 := hi'
  have hi0 : i' = 0 := by
    by_contra hne
    have : i' = 1 := by omega
    subst this
    exact hfirst' 0 (by decide) (by unfold counter_nonzero; decide)
  subst hi0
  have hval' : (_ext2_allocate_block_index vfs_full0 0 0).2.2 = (8192 * 0 + off' + 1) % U32 :=
    heff'.1
  have hoff : off < 8192 := hlow.1
  have hoff' : off' < 8192 := hlow'.1
  rw [hval] at hval'
  unfold U32 at hval'
  omega

/-! ## Freeing blocks -/

/-- C7 at a failing input: with 1 KiB blocks and 8192 blocks per group, freeing
block 1034, whose bit is bit 1033 of group 0, leaves that bit set and clears
bit 9, the bit of block 10, which was in use. -/
theorem free_block_index_clears_wrong_bit :
    (1034 - 1) % vfs_1034b.fsdata.sb.blocks_per_group = 1033 ∧
    (1034 - 1) / vfs_1034b.fsdata.sb.blocks_per_group = 0 ∧
    disk_bit vfs_1034b.dev (block_bitmap_off vfs_1034b 0) 1033 = true ∧
    disk_bit vfs_1034b.dev (block_bitmap_off vfs_1034b 0) 9 = true ∧
    (_ext2_free_block_index vfs_1034b 1034).1 = 0 ∧
    disk_bit (_ext2_free_block_index vfs_1034b 1034).2.dev (block_bitmap_off vfs_1034b 0) 1033
      = true ∧
    disk_bit (_ext2_free_block_index vfs_1034b 1034).2.dev (block_bitmap_off vfs_1034b 0) 9
      = false := by
  decide

theorem block_len_pos (sb : superblock_t) : 0 < BLOCK_LEN sb := by
  unfold BLOCK_LEN
  rw [Nat.shiftLeft_eq]
  exact Nat.mul_pos (by decide) (Nat.pos_pow_of_pos _ (by decide))

theorem write_unset_bit (dev : Disk) (blockoff len off : Nat) (h : off < 8 * len) (a k : Nat) :
    ((_ext2_write_to_dev dev
        (_ext2_bitmap_unset_bit (_ext2_read_from_dev dev zero_buf blockoff len) off)
        blockoff len) a).val.testBit k
      = ((dev a).val.testBit k && !decide (a = blockoff + off / 8 ∧ k = off % 8)) := by
  rw [write_to_dev_eq, read_from_dev_eq]
  unfold _ext2_bitmap_unset_bit
  dsimp only
  by_cases hr : blockoff ≤ a ∧ a < blockoff + len
  · simp only [hr, and_self, if_true]
    by_cases ha : a - blockoff = off / 8
    · rw [if_pos ha, if_pos (by omega), unset_bit_byte]
      have e1 : blockoff + off / 8 = a := by omega
      rw [e1]
      by_cases hk : off % 8 = k
      · simp [hk]
      · have : ¬ k = off % 8 := fun h => hk h.symm
        simp [hk, this]
    · rw [if_neg ha, if_pos (by omega)]
      have e1 : blockoff + (a - blockoff) = a := by omega
      have e2 : ¬ a = blockoff + off / 8 := by omega
      rw [e1]
      simp [e2]
  · rw [if_neg hr]
    have e2 : ¬ a = blockoff + off / 8 := by omega
    simp [e2]

/-- The bits of the device after `_ext2_free_block_index(vfsdev, b)`: exactly
bit `(b - 1) % block_size` of the bitmap of group `(b - 1) / blocks_per_group`
is cleared. -/
theorem free_block_index_bits (v : vfs_device_t) (b a k : Nat) :
    ((_ext2_free_block_index v b).2.dev a).val.testBit k =
      ((v.dev a).val.testBit k &&
        !decide (a = block_bitmap_off v (sub32 b 1 / v.fsdata.sb.blocks_per_group)
                      + sub32 b 1 % BLOCK_LEN v.fsdata.sb / 8 ∧
                 k = sub32 b 1 % BLOCK_LEN v.fsdata.sb % 8)) := by
  unfold _ext2_free_block_index block_bitmap_off
  dsimp only
  apply write_unset_bit
  have := Nat.mod_lt (sub32 b 1) (block_len_pos v.fsdata.sb)
  omega

theorem count_clear_succ (dev : Disk) (bo n off : Nat) :
    count_clear dev bo (n + 1) off =
      (if disk_bit dev bo off then 0 else 1) + count_clear dev bo n (off + 1) := rfl

theorem count_clear_congr (dev dev' : Disk) (bo : Nat) :
    ∀ (n off : Nat), (∀ j, off ≤ j → j < off + n → disk_bit dev' bo j = disk_bit dev bo j) →
      count_clear dev' bo n off = count_clear dev bo n off := by
  intro n
  induction n with
  | zero => intro off _; rfl
  | succ n ih =>
    intro off h
    rw [count_clear_succ, count_clear_succ]
    rw [h off (le_refl _) (by omega), ih (off + 1) (fun j h1 h2 => h j (by omega) (by omega))]

theorem count_clear_split (dev : Disk) (bo : Nat) :
    ∀ (n m off : Nat),
      count_clear dev bo (n + m) off = count_clear dev bo n off + count_clear dev bo m (off + n) := by
  intro n
  induction n with
  | zero => intro m off; simp [count_clear]
  | succ n ih =>
    intro m off
    have e : n + 1 + m = (n + m) + 1 := by omega
    rw [e, count_clear_succ, count_clear_succ, ih m (off + 1)]
    have e2 : off + 1 + n = off + (n + 1) := by omega
    rw [e2]
    omega

theorem count_clear_all_clear (dev : Disk) (bo : Nat) :
    ∀ (n off : Nat), (∀ j, off ≤ j → j < off + n → disk_bit dev bo j = false) →
      count_clear dev bo n off = n := by
  intro n
  induction n with
  | zero => intro off _; rfl
  | succ n ih =>
    intro off h
    rw [count_clear_succ]
    rw [h off (le_refl _) (by omega), ih (off + 1) (fun j h1 h2 => h j (by omega) (by omega))]
    simp
    omega

theorem count_clear_all_set (dev : Disk) (bo : Nat) :
    ∀ (n off : Nat), (∀ j, off ≤ j → j < off + n → disk_bit dev bo j = true) →
      count_clear dev bo n off = 0 := by
  intro n
  induction n with
  | zero => intro off _; rfl
  | succ n ih =>
    intro off h
    rw [count_clear_succ]
    rw [h off (le_refl _) (by omega), ih (off + 1) (fun j h1 h2 => h j (by omega) (by omega))]
    simp

theorem dev_1034_count : count_clear dev_1034 3072 8192 0 = 8183 := by
  have hset : ∀ j, 0 ≤ j → j < 0 + 8 → disk_bit dev_1034 3072 j = true := by
    intro j _ hj
    have : j < 8 := by omega
    interval_cases j <;> decide
  have hclr : ∀ j, 8 ≤ j → j < 8 + 1025 → disk_bit dev_1034 3072 j = false := by
    intro j h1 h2
    unfold disk_bit dev_1034
    rw [if_neg (by omega)]
    by_cases e : j / 8 = 129
    · have : j = 1032 := by omega
      subst this
      decide
    · rw [if_neg (by omega)]
      simp
  have hone : ∀ j, 1033 ≤ j → j < 1033 + 1 → disk_bit dev_1034 3072 j = true := by
    intro j h1 h2
    have : j = 1033 := by omega
    subst this
    decide
  have hrest : ∀ j, 1034 ≤ j → j < 1034 + 7158 → disk_bit dev_1034 3072 j = false := by
    intro j h1 h2
    unfold disk_bit dev_1034
    rw [if_neg (by omega)]
    by_cases e : j / 8 = 129
    · have h8 : j % 8 < 8 := Nat.mod_lt _ (by decide)
      have e2 : 3072 + j / 8 = 3201 := by omega
      rw [if_pos e2]
      have : j % 8 = 2 ∨ j % 8 = 3 ∨ j % 8 = 4 ∨ j % 8 = 5 ∨ j % 8 = 6 ∨ j % 8 = 7 := by omega
      rcases this with h | h | h | h | h | h <;> rw [h] <;> decide
    · rw [if_neg (by omega)]
      simp
  have e : (8192 : Nat) = 8 + (1025 + (1 + 7158)) := by norm_num
  rw [e, count_clear_split, count_clear_split, count_clear_split,
    count_clear_all_set _ _ _ _ hset, count_clear_all_clear _ _ _ _ hclr,
    count_clear_all_set _ _ _ _ hone, count_clear_all_clear _ _ _ _ hrest]

/-- C8 at a failing input: on `vfs_1034` the counter equals the number of cleared
bits and block 1034 is allocated; `_ext2_free_block_index` of block 1034 clears
bit 9, which is already clear, and increments the counter, so afterwards the
counter exceeds the number of cleared bits. -/
theorem free_block_index_breaks_counter_invariant :
    counters_match_bitmaps vfs_1034 ∧
    disk_bit vfs_1034.dev (block_bitmap_off vfs_1034 0) 1033 = true ∧
    ((_ext2_free_block_index vfs_1034 1034).2.fsdata.gt.table 0).free_blocks_count = 8184 ∧
    count_clear (_ext2_free_block_index vfs_1034 1034).2.dev
      (block_bitmap_off (_ext2_free_block_index vfs_1034 1034).2 0)
      (8 * BLOCK_LEN (_ext2_free_block_index vfs_1034 1034).2.fsdata.sb) 0 = 8183 ∧
    ¬ counters_match_bitmaps (_ext2_free_block_index vfs_1034 1034).2 := by
  have hbo : block_bitmap_off vfs_1034 0 = 3072 := by decide
  have hbo' : block_bitmap_off (_ext2_free_block_index vfs_1034 1034).2 0 = 3072 := by decide
  have hbl : 8 * BLOCK_LEN (_ext2_free_block_index vfs_1034 1034).2.fsdata.sb = 8192 := by decide
  have hcnt : count_clear (_ext2_free_block_index vfs_1034 1034).2.dev 3072 8192 0 = 8183 := by
    rw [← dev_1034_count]
    apply count_clear_congr
    intro j _ _
    unfold disk_bit
    rw [free_block_index_bits]
    have e1 : sub32 1034 1 / vfs_1034.fsdata.sb.blocks_per_group = 0 := by decide
    have e2 : sub32 1034 1 % BLOCK_LEN vfs_1034.fsdata.sb = 9 := by decide
    rw [e1, e2, hbo]
    by_cases h : 3072 + j / 8 = 3072 + 9 / 8 ∧ j % 8 = 9 % 8
    · have hj : j = 9 := by omega
      subst hj
      decide
    · simp only [h, decide_False, Bool.not_false, Bool.and_true]
      rfl
  refine ⟨?_, by decide, by decide, ?_, ?_⟩
  · intro g hg
    have hg0 : g = 0 := by
      have : g < 1 := hg
      omega
    subst hg0
    rw [hbo]
    exact dev_1034_count.symm
  · rw [hbo', hbl]
    exact hcnt
  · intro h
    have h0 := h 0 (by decide)
    rw [hbo', hbl, hcnt] at h0
    revert h0
    decide

theorem dev_short_bits_set (j : Nat) (h : j < 1024) : disk_bit dev_short 3072 j = true := by
  unfold disk_bit dev_short
  rw [if_pos (by omega)]
  have h8 : j % 8 < 8 := Nat.mod_lt _ (by decide)
  have e : ((255 : Byte) : Nat) = 2 ^ 8 - 1 := by decide
  rw [e, Nat.testBit_two_pow_sub_one]
  simpa using h8

/-- C9 at a failing input: with 1024 blocks per group and the 1024 bits of group 0
set, `_ext2_find_free_block_index` for group 0 takes bit 1024 and returns block
1025, which is not a block of group 0. -/
theorem find_free_block_index_leaves_group :
    vfs_short.fsdata.sb.blocks_per_group = 1024 ∧
    (_ext2_find_free_block_index vfs_short 0 0).1 = 0 ∧
    (_ext2_find_free_block_index vfs_short 0 0).2.2 = 1025 ∧
    ¬ ((_ext2_find_free_block_index vfs_short 0 0).2.2
        ≤ (0 + 1) * vfs_short.fsdata.sb.blocks_per_group) := by
  have hbo : block_bitmap_off vfs_short 0 = 3072 := by decide
  have hval : (_ext2_find_free_block_index vfs_short 0 0).1 = 0 ∧
      (_ext2_find_free_block_index vfs_short 0 0).2.2 = 1025 := by
    rcases find_free_block_index_spec vfs_short 0 0 with
      ⟨off, ⟨_, hclr, hbelow⟩, h1, h2, _, _⟩ | ⟨hfull, _⟩
    · rw [hbo] at hclr hbelow
      have hge : 1024 ≤ off := by
        by_contra hlt
        have hs : disk_bit vfs_short.dev 3072 off = true := dev_short_bits_set off (by omega)
        rw [hs] at hclr
        cases hclr
      have hle : off ≤ 1024 := by
        by_contra hgt
        have := hbelow 1024 (by omega)
        revert this
        decide
      have e : off = 1024 := by omega
      subst e
      exact ⟨h1, h2⟩
    · have := hfull 1024 (by decide)
      rw [hbo] at this
      revert this
      decide
  refine ⟨rfl, hval.1, hval.2, ?_⟩
  rw [hval.2]
  decide

/-! ## Inode allocation -/

theorem find_free_inode_index_fsdata (v : vfs_device_t) (ii g : Nat) :
    (_ext2_find_free_inode_index v ii g).2.1.fsdata = v.fsdata := by
  unfold _ext2_find_free_inode_index
  dsimp only
  split <;> rfl

theorem allocate_inode_index_loop_fsdata (pref : Nat) :
    ∀ (n i : Nat) (v : vfs_device_t) (ii : Nat),
      (_ext2_allocate_inode_index_loop pref n i v ii).2.1.fsdata = v.fsdata := by
  intro n
  induction n with
  | zero => intro i v ii; rfl
  | succ n ih =>
    intro i v ii
    unfold _ext2_allocate_inode_index_loop
    dsimp only
    split_ifs
    · exact find_free_inode_index_fsdata _ _ _
    · rw [ih, find_free_inode_index_fsdata]
    · exact ih _ _ _

theorem allocate_inode_index_fsdata (v : vfs_device_t) (ii pref : Nat) :
    (_ext2_allocate_inode_index v ii pref).2.1.fsdata = v.fsdata :=
  allocate_inode_index_loop_fsdata pref v.fsdata.gt.count 0 v ii

theorem free_after_allocate_inode_counter (v : vfs_device_t) (ii pref i : Nat) :
    ((_ext2_free_inode_index (_ext2_allocate_inode_index v ii pref).2.1 i).2.fsdata.gt.table
        (sub32 i 1 / v.fsdata.sb.inodes_per_group)).free_inodes_count
      = ((v.fsdata.gt.table (sub32 i 1 / v.fsdata.sb.inodes_per_group)).free_inodes_count + 1)
          % U16 := by
  have h := allocate_inode_index_fsdata v ii pref
  unfold _ext2_free_inode_index
  dsimp only
  unfold set_group
  dsimp only
  rw [h, if_pos rfl]

/-- C10, the behaviour of the code: `_ext2_allocate_inode_index` never changes
the cached group table, so `free_inodes_count` is not decremented by a
successful allocation, and after a following `_ext2_free_inode_index(i)` the
counter of the group of `i` is one more (modulo `2^16`) than before the
allocation.  On `vfs_small` the call succeeds with inode 1, the counter stays
10, and freeing inode 1 makes it 11. -/
theorem allocate_inode_index_keeps_counter :
    (∀ (v : vfs_device_t) (ii pref : Nat),
      (_ext2_allocate_inode_index v ii pref).2.1.fsdata = v.fsdata ∧
      ∀ i, ((_ext2_free_inode_index (_ext2_allocate_inode_index v ii pref).2.1 i).2.fsdata.gt.table
              (sub32 i 1 / v.fsdata.sb.inodes_per_group)).free_inodes_count
            = ((v.fsdata.gt.table (sub32 i 1 / v.fsdata.sb.inodes_per_group)).free_inodes_count
                + 1) % U16) ∧
    (vfs_small.fsdata.gt.table 0).free_inodes_count = 10 ∧
    (_ext2_allocate_inode_index vfs_small 0 0).1 = 0 ∧
    (_ext2_allocate_inode_index vfs_small 0 0).2.2 = 1 ∧
    disk_bit (_ext2_allocate_inode_index vfs_small 0 0).2.1.dev (inode_bitmap_off vfs_small 0) 0
      = true ∧
    ((_ext2_allocate_inode_index vfs_small 0 0).2.1.fsdata.gt.table 0).free_inodes_count = 10 ∧
    ((_ext2_free_inode_index (_ext2_allocate_inode_index vfs_small 0 0).2.1 1).2.fsdata.gt.table
        0).free_inodes_count = 11 :=
  ⟨fun v ii pref =>
      ⟨allocate_inode_index_fsdata v ii pref,
       fun i => free_after_allocate_inode_counter v ii pref i⟩,
   by decide, by decide, by decide, by decide, by decide, by decide⟩

/-! ## Reading and writing files -/

/-- C1 at a failing input: one byte written at offset 5120 of an empty file on a
file system with 1 KiB blocks.  `ext2_write` succeeds with 1, puts the block it
allocates at logical index 0 and sets the size to 5121; the following
`ext2_read` of the same range returns 0 bytes (on 32-bit and on 64-bit
`size_t`). -/
theorem write_beyond_end_not_read_back :
    (write_then_read U32 0 vfs_small dentry_empty buf_A 5120 1).map
        (fun r => (r.1, r.2.1, r.2.2.2.inode.size, r.2.2.2.inode.blocks,
                   r.2.2.2.inode.block 0, r.2.2.2.inode.block 5))
      = some (1, 0, 5121, 2, 9, 0) ∧
    (write_then_read 18446744073709551616 0 vfs_small dentry_empty buf_A 5120 1).map
        (fun r => (r.1, r.2.1, r.2.2.2.inode.size, r.2.2.2.inode.blocks,
                   r.2.2.2.inode.block 0, r.2.2.2.inode.block 5))
      = some (1, 0, 5121, 2, 9, 0) := by
  constructor <;> rfl

/-! ## Failing allocations inside `_ext2_set_block_of_inode` -/

theorem allocate_block_index_fsdata (v : vfs_device_t) (bi pref : Nat) :
    (_ext2_allocate_block_index v bi pref).2.1.fsdata.sb = v.fsdata.sb ∧
    (_ext2_allocate_block_index v bi pref).2.1.fsdata.gt.count = v.fsdata.gt.count := by
  by_cases h : (_ext2_allocate_block_index v bi pref).1 = 0
  · obtain ⟨k, off, _, _, _, _, _, heff⟩ :=
      (allocate_block_index_loop_spec pref v.fsdata.gt.count 0 v bi).2 h
    exact ⟨heff.2.2.1, heff.2.2.2.1⟩
  · rw [allocate_block_index_fail v bi pref h]
    exact ⟨rfl, rfl⟩

theorem allocate_block_index_ret (v : vfs_device_t) (bi pref : Nat) :
    (_ext2_allocate_block_index v bi pref).1 = 0 ∨
    (_ext2_allocate_block_index v bi pref).1 = -ENOSPC := by
  by_cases h : (_ext2_allocate_block_index v bi pref).1 = 0
  · exact Or.inl h
  · right; rw [allocate_block_index_fail v bi pref h]

theorem allocate_block_index_nonzero (v : vfs_device_t) (bi : Nat) (hfit : block_indices_fit v)
    (h : (_ext2_allocate_block_index v bi 0).1 = 0) :
    (_ext2_allocate_block_index v bi 0).2.2 ≠ 0 := by
  obtain ⟨hc, hb⟩ := hfit
  obtain ⟨i, off, hi, _, _, hlow, heff⟩ :=
    allocate_block_success_usable v bi 0 (by omega) h
  rw [heff.1]
  have hg : (0 + i) % v.fsdata.gt.count < v.fsdata.gt.count := Nat.mod_lt _ (by omega)
  have hoff : off < 8 * BLOCK_LEN v.fsdata.sb := hlow.1
  have hmul : v.fsdata.sb.blocks_per_group * ((0 + i) % v.fsdata.gt.count)
      ≤ v.fsdata.sb.blocks_per_group * v.fsdata.gt.count :=
    Nat.mul_le_mul_left _ (le_of_lt hg)
  rw [Nat.mod_eq_of_lt (by omega)]
  omega

theorem set_lev1_ret (v : vfs_device_t) (cur idx val : Nat) (hfit : block_indices_fit v) :
    (_ext2_set_block_of_inode_lev1 v cur idx val).1 = 0 ∨
    (_ext2_set_block_of_inode_lev1 v cur idx val).1 = -ENOSPC := by
  unfold _ext2_set_block_of_inode_lev1
  dsimp only
  split_ifs with h1 h2 h3
  · rcases allocate_block_index_ret v _ 0 with h | h
    · exact absurd h h2
    · exact Or.inr h
  · exact Or.inl rfl
  · exact absurd (allocate_block_index_nonzero v _ hfit (not_not.mp h2)) (not_not.mpr (not_not.mp h3))
  · exact Or.inl rfl

theorem block_indices_fit_of_eq (v v' : vfs_device_t) (h1 : v'.fsdata.sb = v.fsdata.sb)
    (h2 : v'.fsdata.gt.count = v.fsdata.gt.count) (hfit : block_indices_fit v) :
    block_indices_fit v' := by
  unfold block_indices_fit at *
  rw [h1, h2]
  exact hfit

theorem set_lev2_ret (v : vfs_device_t) (cur idx val : Nat) (hfit : block_indices_fit v) :
    (_ext2_set_block_of_inode_lev2 v cur idx val).1 = 0 ∨
    (_ext2_set_block_of_inode_lev2 v cur idx val).1 = -ENOSPC := by
  unfold _ext2_set_block_of_inode_lev2
  dsimp only
  split_ifs with h1 h2 h3
  · rcases allocate_block_index_ret v _ 0 with h | h
    · exact absurd h h2
    · exact Or.inr h
  · apply set_lev1_ret
    exact block_indices_fit_of_eq v _ (allocate_block_index_fsdata v _ 0).1
      (allocate_block_index_fsdata v _ 0).2 hfit
  · exact absurd (allocate_block_index_nonzero v _ hfit (not_not.mp h2)) (not_not.mpr (not_not.mp h3))
  · exact set_lev1_ret v _ _ _ hfit

theorem alloc_top_block_spec (v : vfs_device_t) (d : dentry_t) (t : Fin 15) :
    ((alloc_top_block v d t).1 = 0 ∨ (alloc_top_block v d t).1 = -ENOSPC) ∧
    (alloc_top_block v d t).2.1.fsdata.sb = v.fsdata.sb ∧
    (alloc_top_block v d t).2.1.fsdata.gt.count = v.fsdata.gt.count ∧
    (∀ i, i ≠ t → (alloc_top_block v d t).2.2.inode.block i = d.inode.block i) ∧
    ((d.inode.block t ≠ 0 ∨ (_ext2_allocate_block_index v 0 0).1 ≠ 0) →
      ∀ i, (alloc_top_block v d t).2.2.inode.block i = d.inode.block i) ∧
    (d.inode.block t = 0 →
      (alloc_top_block v d t).2.2.inode.block t = (_ext2_allocate_block_index v 0 0).2.2) := by
  unfold alloc_top_block
  by_cases h0 : d.inode.block t = 0
  · rw [if_pos h0]
    have e : _ext2_allocate_block_index v (d.inode.block t) 0
        = _ext2_allocate_block_index v 0 0 := by rw [h0]
    rw [e]
    dsimp only
    refine ⟨allocate_block_index_ret v 0 0, (allocate_block_index_fsdata v 0 0).1,
      (allocate_block_index_fsdata v 0 0).2, ?_, ?_, ?_⟩
    · intro i hi
      show (set_block _ _ _).block i = _
      unfold set_block
      dsimp only
      rw [if_neg hi]
    · intro hor i
      rcases hor with hne | hfail
      · exact absurd h0 hne
      · show (set_block _ _ _).block i = _
        unfold set_block
        dsimp only
        by_cases hi : i = t
        · rw [if_pos hi, allocate_block_index_fail v 0 0 hfail, hi, h0]
        · rw [if_neg hi]
    · intro _
      show (set_block _ _ _).block t = _
      unfold set_block
      dsimp only
      rw [if_pos rfl]
  · rw [if_neg h0]
    exact ⟨Or.inl rfl, rfl, rfl, fun _ _ => rfl, fun _ _ => rfl, fun h => absurd h h0⟩

/-- C4, as amended: on a file system whose blocks fit the block buffers of the
allocator (`BLOCK_LEN(sb) ≤ MAX_BLOCK_LEN`, blocks of 1 KiB) and whose block
indices fit into 32 bits, every failing
`_ext2_set_block_of_inode(dentry, n, v)` returns `-ENOSPC`; the block pointers
other than the top-level pointer of the range of `n` are what they were; all 15
are what they were when that top-level pointer was already allocated or when it
is its own allocation that fails; and a top-level index block that this call
allocated before a lower level failed stays recorded in the inode. -/
theorem set_block_of_inode_failure (v : vfs_device_t) (d : dentry_t) (n val : Nat)
    (_ : BLOCK_LEN v.fsdata.sb ≤ MAX_BLOCK_LEN) (hfit : block_indices_fit v)
    (hfail : (_ext2_set_block_of_inode v d n val).1 ≠ 0) :
    (_ext2_set_block_of_inode v d n val).1 = -ENOSPC ∧
    (∀ i, i ≠ top_index v n →
      (_ext2_set_block_of_inode v d n val).2.2.inode.block i = d.inode.block i) ∧
    ((d.inode.block (top_index v n) ≠ 0 ∨ (_ext2_allocate_block_index v 0 0).1 ≠ 0) →
      ∀ i, (_ext2_set_block_of_inode v d n val).2.2.inode.block i = d.inode.block i) ∧
    (d.inode.block (top_index v n) = 0 →
      (_ext2_set_block_of_inode v d n val).2.2.inode.block (top_index v n)
        = (_ext2_allocate_block_index v 0 0).2.2) := by
  unfold _ext2_set_block_of_inode top_index at *
  dsimp only at *
  by_cases h12 : n < 12
  · rw [dif_pos h12] at hfail
    exact absurd rfl hfail
  rw [dif_neg h12] at hfail ⊢
  by_cases h1 : n < (12 + BLOCK_LEN v.fsdata.sb / 4) % U32
  · simp only [if_pos h1] at hfail ⊢
    obtain ⟨hr, hsb, hcnt, hoth, hall, htop⟩ := alloc_top_block_spec v d 12
    by_cases ha : (alloc_top_block v d 12).1 ≠ 0
    · rw [if_pos ha] at hfail ⊢
      exact ⟨hr.resolve_left ha, hoth, hall, htop⟩
    · rw [if_neg ha] at hfail ⊢
      exact absurd rfl hfail
  simp only [if_neg h1] at hfail ⊢
  by_cases h2 : n < (12 + BLOCK_LEN v.fsdata.sb / 4
      + BLOCK_LEN v.fsdata.sb / 4 * (BLOCK_LEN v.fsdata.sb / 4)) % U32
  · simp only [if_pos h2] at hfail ⊢
    obtain ⟨hr, hsb, hcnt, hoth, hall, htop⟩ := alloc_top_block_spec v d 13
    by_cases ha : (alloc_top_block v d 13).1 ≠ 0
    · rw [if_pos ha] at hfail ⊢
      exact ⟨hr.resolve_left ha, hoth, hall, htop⟩
    · rw [if_neg ha] at hfail ⊢
      refine ⟨?_, hoth, hall, htop⟩
      exact (set_lev1_ret _ _ _ _ (block_indices_fit_of_eq v _ hsb hcnt hfit)).resolve_left hfail
  · simp only [if_neg h2] at hfail ⊢
    obtain ⟨hr, hsb, hcnt, hoth, hall, htop⟩ := alloc_top_block_spec v d 14
    by_cases ha : (alloc_top_block v d 14).1 ≠ 0
    · rw [if_pos ha] at hfail ⊢
      exact ⟨hr.resolve_left ha, hoth, hall, htop⟩
    · rw [if_neg ha] at hfail ⊢
      refine ⟨?_, hoth, hall, htop⟩
      exact (set_lev2_ret _ _ _ _ (block_indices_fit_of_eq v _ hsb hcnt hfit)).resolve_left hfail

/-- Witness of C4 on the file system with one free block: the double-indirect
index 268 of an empty file fails with `-ENOSPC` at the second allocation. -/
theorem set_block_of_inode_failure_witness :
    BLOCK_LEN vfs_one.fsdata.sb ≤ MAX_BLOCK_LEN ∧ block_indices_fit vfs_one ∧
    (_ext2_set_block_of_inode vfs_one dentry_empty 268 77).1 = -ENOSPC ∧
    (∀ i, i ≠ top_index vfs_one 268 →
      (_ext2_set_block_of_inode vfs_one dentry_empty 268 77).2.2.inode.block i
        = dentry_empty.inode.block i) :=
  ⟨by decide, by decide,
   (set_block_of_inode_failure vfs_one dentry_empty 268 77 (by decide) (by decide)
     (by decide)).1,
   (set_block_of_inode_failure vfs_one dentry_empty 268 77 (by decide) (by decide)
     (by decide)).2.1⟩

/-- Counterexample to C4 as stated: on the file system with one free block the
call for the double-indirect index 268 of an empty file allocates block 9 for
`block[13]`, fails at the next allocation, returns `-ENOSPC` and leaves
`block[13] = 9`. -/
theorem set_block_of_inode_failure_changes_inode :
    ¬ set_block_failure_claim vfs_one dentry_empty 268 77 := by
  intro h
  have h13 := (h (by decide)).2 13
  revert h13
  decide

/-! ## Writing a block pointer and reading it back -/

/-- Counterexample to C3 as stated: with `block[13] = 20` and entry 0 of block 20
pointing to block 20 itself, setting logical block 268 to 7 returns 0 and
overwrites that entry, after which the read path follows 7 and returns 0. -/
theorem set_then_get_self_referential :
    ¬ set_get_claim vfs_self dentry_self 268 7 := by
  intro h
  have h1 := h (by decide)
  revert h1
  decide

theorem dev_u32_congr (dev dev' : Disk) (s : Nat)
    (h : ∀ a, s ≤ a → a < s + 4 → dev' a = dev a) : dev_u32 dev' s = dev_u32 dev s := by
  unfold dev_u32
  rw [h s (le_refl _) (by omega), h (s + 1) (by omega) (by omega),
    h (s + 2) (by omega) (by omega), h (s + 3) (by omega) (by omega)]

theorem dev_u32_lt (dev : Disk) (s : Nat) : dev_u32 dev s < U32 := by
  unfold dev_u32 U32
  have h0 := (dev s).isLt
  have h1 := (dev (s + 1)).isLt
  have h2 := (dev (s + 2)).isLt
  have h3 := (dev (s + 3)).isLt
  omega

theorem dev_u32_write_same (dev : Disk) (s val : Nat) (hv : val < U32) :
    dev_u32 (_ext2_write_to_dev dev (buf_of_u32 val) s 4) s = val := by
  have hw : ∀ i, i < 4 →
      (_ext2_write_to_dev dev (buf_of_u32 val) s 4) (s + i) = buf_of_u32 val i := by
    intro i hi
    rw [write_to_dev_eq]
    dsimp only
    rw [if_pos ⟨by omega, by omega⟩]
    congr 1
    omega
  have h0 := hw 0 (by decide)
  have h1 := hw 1 (by decide)
  have h2 := hw 2 (by decide)
  have h3 := hw 3 (by decide)
  rw [Nat.add_zero] at h0
  unfold dev_u32
  rw [h0, h1, h2, h3]
  unfold buf_of_u32
  simp only [toByte_val, if_true, if_false, OfNat.ofNat_ne_zero, Nat.succ_ne_self,
    OfNat.ofNat_ne_one, OfNat.one_ne_ofNat, one_ne_zero, OfNat.ofNat_eq_ofNat, Nat.reduceEqDiff]
  unfold U32 at hv
  omega

theorem dev_u32_write_other (dev : Disk) (buf : Buf) (s s' : Nat)
    (h : s' + 4 ≤ s ∨ s + 4 ≤ s') :
    dev_u32 (_ext2_write_to_dev dev buf s 4) s' = dev_u32 dev s' := by
  apply dev_u32_congr
  intro a h1 h2
  rw [write_to_dev_eq]
  dsimp only
  rw [if_neg (by omega)]

theorem slot_aligned (sb : superblock_t) (b k : Nat) : slot sb b k % 4 = 0 := by
  unfold slot _ext2_get_block_offset BLOCK_LEN SUPERBLOCK_START U32
  rw [Nat.shiftLeft_eq]
  have e : sub32 b 1 * (1024 * 2 ^ sb.log_block_size)
      = 4 * (sub32 b 1 * (256 * 2 ^ sb.log_block_size)) := by ring
  rw [e]
  generalize sub32 b 1 * (256 * 2 ^ sb.log_block_size) = w
  omega

theorem slot_apart (sb : superblock_t) (b b' k k' : Nat)
    (h : slot sb b k ≠ slot sb b' k') :
    slot sb b k + 4 ≤ slot sb b' k' ∨ slot sb b' k' + 4 ≤ slot sb b k := by
  have h1 := slot_aligned sb b k
  have h2 := slot_aligned sb b' k'
  omega

theorem same_layout_refl (v : vfs_device_t) : same_layout v v := ⟨rfl, rfl, fun _ => rfl⟩

theorem same_layout_trans (v v' v'' : vfs_device_t) (h1 : same_layout v v')
    (h2 : same_layout v' v'') : same_layout v v'' :=
  ⟨h2.1.trans h1.1, h2.2.1.trans h1.2.1, fun g => (h2.2.2 g).trans (h1.2.2 g)⟩

theorem index_entry_eq_slot (v : vfs_device_t) (b k : Nat) :
    index_entry v b k = dev_u32 v.dev (slot v.fsdata.sb b k) := by
  unfold index_entry slot
  rw [Nat.mul_comm]

theorem block_bitmap_off_layout (v v' : vfs_device_t) (h : same_layout v v') (g : Nat) :
    block_bitmap_off v' g = block_bitmap_off v g := by
  unfold block_bitmap_off
  rw [h.1, h.2.2 g]

theorem off_bitmaps_layout (v v' : vfs_device_t) (h : same_layout v v') (s : Nat)
    (hs : off_bitmaps v s) : off_bitmaps v' s := by
  intro g hg
  rw [block_bitmap_off_layout v v' h g, h.1]
  exact hs g (by rw [← h.2.1]; exact hg)

theorem allocate_block_index_effect (v : vfs_device_t) (bi pref : Nat)
    (h : (_ext2_allocate_block_index v bi pref).1 = 0) :
    ∃ g off, g < v.fsdata.gt.count ∧ off < 8 * BLOCK_LEN v.fsdata.sb ∧
      alloc_block_effect v (_ext2_allocate_block_index v bi pref) g off := by
  obtain ⟨k, off, _, hk, _, _, hlow, heff⟩ :=
    (allocate_block_index_loop_spec pref v.fsdata.gt.count 0 v bi).2 h
  exact ⟨_, off, Nat.mod_lt _ (by omega), hlow.1, heff⟩

theorem allocate_block_index_layout (v : vfs_device_t) (bi pref : Nat) :
    same_layout v (_ext2_allocate_block_index v bi pref).2.1 := by
  by_cases h : (_ext2_allocate_block_index v bi pref).1 = 0
  · obtain ⟨g0, off, _, _, heff⟩ := allocate_block_index_effect v bi pref h
    refine ⟨heff.2.2.1, heff.2.2.2.1, ?_⟩
    intro g
    by_cases hg : g = g0
    · rw [hg, heff.2.2.2.2.1]
    · rw [heff.2.2.2.2.2 g hg]
  · rw [allocate_block_index_fail v bi pref h]
    exact same_layout_refl v

theorem allocate_block_index_dev_frame (v : vfs_device_t) (bi pref a : Nat)
    (ha : ∀ g, g < v.fsdata.gt.count →
      a < block_bitmap_off v g ∨ block_bitmap_off v g + BLOCK_LEN v.fsdata.sb ≤ a) :
    (_ext2_allocate_block_index v bi pref).2.1.dev a = v.dev a := by
  by_cases h : (_ext2_allocate_block_index v bi pref).1 = 0
  · obtain ⟨g0, off, hg, hoff, heff⟩ := allocate_block_index_effect v bi pref h
    have hne : ¬ (a = block_bitmap_off v g0 + off / 8) := by
      have := ha _ hg
      omega
    apply Fin.ext
    apply Nat.eq_of_testBit_eq
    intro i
    rw [heff.2.1 a i]
    simp [hne]
  · rw [allocate_block_index_fail v bi pref h]

theorem allocate_block_index_u32_frame (v : vfs_device_t) (bi pref s : Nat)
    (hs : off_bitmaps v s) :
    dev_u32 (_ext2_allocate_block_index v bi pref).2.1.dev s = dev_u32 v.dev s := by
  apply dev_u32_congr
  intro a h1 h2
  apply allocate_block_index_dev_frame
  intro g hg
  have := hs g hg
  omega

theorem allocate_block_index_lt (v : vfs_device_t) (bi pref : Nat)
    (h : (_ext2_allocate_block_index v bi pref).1 = 0) :
    (_ext2_allocate_block_index v bi pref).2.2 < U32 := by
  obtain ⟨g0, off, _, _, heff⟩ := allocate_block_index_effect v bi pref h
  rw [heff.1]
  exact Nat.mod_lt _ (by decide)

theorem descend_layout (v : vfs_device_t) (s : Nat) : same_layout v (descend v s).2.1 := by
  unfold descend
  dsimp only
  split_ifs
  · exact allocate_block_index_layout v _ 0
  · exact allocate_block_index_layout v _ 0
  · exact same_layout_refl v

theorem descend_entry (v : vfs_device_t) (s : Nat) (h : (descend v s).1 = 0) :
    dev_u32 (descend v s).2.1.dev s = (descend v s).2.2 := by
  unfold descend at h ⊢
  dsimp only at h ⊢
  split_ifs at h ⊢ with h1 h2
  · exact absurd h h2
  · exact dev_u32_write_same _ _ _ (allocate_block_index_lt v _ 0 (not_not.mp h2))
  · rfl

theorem descend_frame (v : vfs_device_t) (s s' : Nat) (hap : s' + 4 ≤ s ∨ s + 4 ≤ s')
    (hbm : off_bitmaps v s') :
    dev_u32 (descend v s).2.1.dev s' = dev_u32 v.dev s' := by
  unfold descend
  dsimp only
  split_ifs
  · exact allocate_block_index_u32_frame v _ 0 s' hbm
  · show dev_u32 (_ext2_write_to_dev _ _ _ _) s' = _
    rw [dev_u32_write_other _ _ _ _ hap]
    exact allocate_block_index_u32_frame v _ 0 s' hbm
  · rfl

theorem set_lev0_layout (v : vfs_device_t) (b k val : Nat) :
    same_layout v (_ext2_set_block_of_inode_lev0 v b k val).2 :=
  ⟨rfl, rfl, fun _ => rfl⟩

theorem set_lev0_dev (v : vfs_device_t) (b k val : Nat) :
    (_ext2_set_block_of_inode_lev0 v b k val).2.dev
      = _ext2_write_to_dev v.dev (buf_of_u32 val) (slot v.fsdata.sb b k) 4 := rfl

theorem set_lev1_descend (v : vfs_device_t) (cur idx val : Nat) :
    _ext2_set_block_of_inode_lev1 v cur idx val =
      if (descend v (slot v.fsdata.sb cur (idx / (BLOCK_LEN v.fsdata.sb / 4)))).1 ≠ 0 then
        ((descend v (slot v.fsdata.sb cur (idx / (BLOCK_LEN v.fsdata.sb / 4)))).1,
         (descend v (slot v.fsdata.sb cur (idx / (BLOCK_LEN v.fsdata.sb / 4)))).2.1)
      else if (descend v (slot v.fsdata.sb cur (idx / (BLOCK_LEN v.fsdata.sb / 4)))).2.2 ≠ 0 then
        _ext2_set_block_of_inode_lev0
          (descend v (slot v.fsdata.sb cur (idx / (BLOCK_LEN v.fsdata.sb / 4)))).2.1
          (descend v (slot v.fsdata.sb cur (idx / (BLOCK_LEN v.fsdata.sb / 4)))).2.2
          (idx % (BLOCK_LEN v.fsdata.sb / 4)) val
      else (-1, (descend v (slot v.fsdata.sb cur (idx / (BLOCK_LEN v.fsdata.sb / 4)))).2.1) := by
  unfold _ext2_set_block_of_inode_lev1
  simp only [u32_read]
  rw [show ((_ext2_get_block_offset v.fsdata.sb cur + idx / (BLOCK_LEN v.fsdata.sb / 4) * 4)
      % U32) = slot v.fsdata.sb cur (idx / (BLOCK_LEN v.fsdata.sb / 4)) from rfl]
  generalize slot v.fsdata.sb cur (idx / (BLOCK_LEN v.fsdata.sb / 4)) = s
  unfold descend
  dsimp only
  by_cases h1 : dev_u32 v.dev s = 0
  · simp only [h1, if_true]
    by_cases h2 : (_ext2_allocate_block_index v 0 0).1 ≠ 0
    · simp only [h2, if_true, ne_eq, not_false_eq_true]
    · simp only [h2, if_false, ne_eq, not_true_eq_false, not_false_eq_true]
  · simp only [h1, if_false, ne_eq, not_true_eq_false, not_false_eq_true, if_true]

theorem set_lev2_descend (v : vfs_device_t) (cur idx val : Nat) :
    _ext2_set_block_of_inode_lev2 v cur idx val =
      if (descend v (slot v.fsdata.sb cur
          (idx / ((BLOCK_LEN v.fsdata.sb / 4 * (BLOCK_LEN v.fsdata.sb / 4)) % U32)))).1 ≠ 0 then
        ((descend v (slot v.fsdata.sb cur
            (idx / ((BLOCK_LEN v.fsdata.sb / 4 * (BLOCK_LEN v.fsdata.sb / 4)) % U32)))).1,
         (descend v (slot v.fsdata.sb cur
            (idx / ((BLOCK_LEN v.fsdata.sb / 4 * (BLOCK_LEN v.fsdata.sb / 4)) % U32)))).2.1)
      else if (descend v (slot v.fsdata.sb cur
          (idx / ((BLOCK_LEN v.fsdata.sb / 4 * (BLOCK_LEN v.fsdata.sb / 4)) % U32)))).2.2 ≠ 0 then
        _ext2_set_block_of_inode_lev1
          (descend v (slot v.fsdata.sb cur
            (idx / ((BLOCK_LEN v.fsdata.sb / 4 * (BLOCK_LEN v.fsdata.sb / 4)) % U32)))).2.1
          (descend v (slot v.fsdata.sb cur
            (idx / ((BLOCK_LEN v.fsdata.sb / 4 * (BLOCK_LEN v.fsdata.sb / 4)) % U32)))).2.2
          (idx % ((BLOCK_LEN v.fsdata.sb / 4 * (BLOCK_LEN v.fsdata.sb / 4)) % U32)) val
      else (-1, (descend v (slot v.fsdata.sb cur
          (idx / ((BLOCK_LEN v.fsdata.sb / 4 * (BLOCK_LEN v.fsdata.sb / 4)) % U32)))).2.1) := by
  unfold _ext2_set_block_of_inode_lev2
  simp only [u32_read]
  rw [show ((_ext2_get_block_offset v.fsdata.sb cur
      + idx / ((BLOCK_LEN v.fsdata.sb / 4 * (BLOCK_LEN v.fsdata.sb / 4)) % U32) * 4) % U32)
      = slot v.fsdata.sb cur (idx / ((BLOCK_LEN v.fsdata.sb / 4 * (BLOCK_LEN v.fsdata.sb / 4)) % U32))
      from rfl]
  generalize slot v.fsdata.sb cur
    (idx / ((BLOCK_LEN v.fsdata.sb / 4 * (BLOCK_LEN v.fsdata.sb / 4)) % U32)) = s
  unfold descend
  dsimp only
  by_cases h1 : dev_u32 v.dev s = 0
  · simp only [h1, if_true]
    by_cases h2 : (_ext2_allocate_block_index v 0 0).1 ≠ 0
    · simp only [h2, if_true, ne_eq, not_false_eq_true]
    · simp only [h2, if_false, ne_eq, not_true_eq_false, not_false_eq_true]
  · simp only [h1, if_false, ne_eq, not_true_eq_false, not_false_eq_true, if_true]

theorem set_lev0_frame (v : vfs_device_t) (b k val s' : Nat)
    (hap : s' + 4 ≤ slot v.fsdata.sb b k ∨ slot v.fsdata.sb b k + 4 ≤ s') :
    dev_u32 (_ext2_set_block_of_inode_lev0 v b k val).2.dev s' = dev_u32 v.dev s' := by
  rw [set_lev0_dev]
  exact dev_u32_write_other _ _ _ _ hap

theorem set_lev0_roundtrip (v : vfs_device_t) (b k val : Nat) (hv : val < U32) :
    _ext2_get_block_of_inode_lev0 (_ext2_set_block_of_inode_lev0 v b k val).2 b k = val := by
  rw [get_lev0_eq, index_entry_eq_slot, set_lev0_dev]
  exact dev_u32_write_same _ _ _ hv

theorem set_lev1_frame (v : vfs_device_t) (cur idx val s' : Nat)
    (hal : s' % 4 = 0)
    (h1 : s' ≠ slot v.fsdata.sb cur (idx / (BLOCK_LEN v.fsdata.sb / 4)))
    (h2 : s' ≠ slot v.fsdata.sb
      (descend v (slot v.fsdata.sb cur (idx / (BLOCK_LEN v.fsdata.sb / 4)))).2.2
      (idx % (BLOCK_LEN v.fsdata.sb / 4)))
    (hbm : off_bitmaps v s') :
    dev_u32 (_ext2_set_block_of_inode_lev1 v cur idx val).2.dev s' = dev_u32 v.dev s' := by
  rw [set_lev1_descend]
  have hsb := (descend_layout v (slot v.fsdata.sb cur (idx / (BLOCK_LEN v.fsdata.sb / 4)))).1
  have ha1 := slot_aligned v.fsdata.sb cur (idx / (BLOCK_LEN v.fsdata.sb / 4))
  have ha2 := slot_aligned v.fsdata.sb
      (descend v (slot v.fsdata.sb cur (idx / (BLOCK_LEN v.fsdata.sb / 4)))).2.2
      (idx % (BLOCK_LEN v.fsdata.sb / 4))
  have hf := descend_frame v (slot v.fsdata.sb cur (idx / (BLOCK_LEN v.fsdata.sb / 4))) s'
    (by omega) hbm
  split_ifs
  · exact hf
  · rw [set_lev0_frame _ _ _ _ _ (by rw [hsb]; omega)]
    exact hf
  · exact hf

theorem set_lev1_roundtrip (v : vfs_device_t) (cur idx val : Nat) (hv : val < U32)
    (h0 : (_ext2_set_block_of_inode_lev1 v cur idx val).1 = 0)
    (hsep : slot v.fsdata.sb cur (idx / (BLOCK_LEN v.fsdata.sb / 4)) ≠
      slot v.fsdata.sb
        (descend v (slot v.fsdata.sb cur (idx / (BLOCK_LEN v.fsdata.sb / 4)))).2.2
        (idx % (BLOCK_LEN v.fsdata.sb / 4))) :
    _ext2_get_block_of_inode_lev1 (_ext2_set_block_of_inode_lev1 v cur idx val).2 cur idx
      = val := by
  rw [set_lev1_descend] at h0 ⊢
  have hsb := (descend_layout v (slot v.fsdata.sb cur (idx / (BLOCK_LEN v.fsdata.sb / 4)))).1
  have hap := slot_apart _ _ _ _ _ hsep
  by_cases hr : (descend v (slot v.fsdata.sb cur (idx / (BLOCK_LEN v.fsdata.sb / 4)))).1 ≠ 0
  · rw [if_pos hr] at h0
    exact absurd h0 hr
  rw [if_neg hr] at h0 ⊢
  by_cases hb : (descend v (slot v.fsdata.sb cur (idx / (BLOCK_LEN v.fsdata.sb / 4)))).2.2 ≠ 0
  · rw [if_pos hb] at h0 ⊢
    rw [get_lev1_eq]
    have hsb' : (_ext2_set_block_of_inode_lev0
        (descend v (slot v.fsdata.sb cur (idx / (BLOCK_LEN v.fsdata.sb / 4)))).2.1
        (descend v (slot v.fsdata.sb cur (idx / (BLOCK_LEN v.fsdata.sb / 4)))).2.2
        (idx % (BLOCK_LEN v.fsdata.sb / 4)) val).2.fsdata.sb = v.fsdata.sb := hsb
    have he : index_entry (_ext2_set_block_of_inode_lev0
        (descend v (slot v.fsdata.sb cur (idx / (BLOCK_LEN v.fsdata.sb / 4)))).2.1
        (descend v (slot v.fsdata.sb cur (idx / (BLOCK_LEN v.fsdata.sb / 4)))).2.2
        (idx % (BLOCK_LEN v.fsdata.sb / 4)) val).2 cur (idx / (BLOCK_LEN v.fsdata.sb / 4))
        = (descend v (slot v.fsdata.sb cur (idx / (BLOCK_LEN v.fsdata.sb / 4)))).2.2 := by
      rw [index_entry_eq_slot, hsb', set_lev0_frame _ _ _ _ _ (by rw [hsb]; omega)]
      exact descend_entry _ _ (not_not.mp hr)
    rw [hsb', he, if_pos hb, ← get_lev0_eq]
    have := set_lev0_roundtrip
      (descend v (slot v.fsdata.sb cur (idx / (BLOCK_LEN v.fsdata.sb / 4)))).2.1
      (descend v (slot v.fsdata.sb cur (idx / (BLOCK_LEN v.fsdata.sb / 4)))).2.2
      (idx % (BLOCK_LEN v.fsdata.sb / 4)) val hv
    exact this
  · rw [if_neg hb] at h0
    have h0' : (-1 : Int) = 0 := h0
    exact absurd h0' (by decide)

theorem set_lev2_roundtrip (v : vfs_device_t) (cur idx val : Nat) (hv : val < U32)
    (h0 : (_ext2_set_block_of_inode_lev2 v cur idx val).1 = 0)
    (hbm : off_bitmaps v (slot v.fsdata.sb cur
      (idx / ((BLOCK_LEN v.fsdata.sb / 4 * (BLOCK_LEN v.fsdata.sb / 4)) % U32))))
    (h12 : slot v.fsdata.sb cur
        (idx / ((BLOCK_LEN v.fsdata.sb / 4 * (BLOCK_LEN v.fsdata.sb / 4)) % U32)) ≠
      slot v.fsdata.sb
        (descend v (slot v.fsdata.sb cur
          (idx / ((BLOCK_LEN v.fsdata.sb / 4 * (BLOCK_LEN v.fsdata.sb / 4)) % U32)))).2.2
        (idx % ((BLOCK_LEN v.fsdata.sb / 4 * (BLOCK_LEN v.fsdata.sb / 4)) % U32)
          / (BLOCK_LEN v.fsdata.sb / 4)))
    (h13 : slot v.fsdata.sb cur
        (idx / ((BLOCK_LEN v.fsdata.sb / 4 * (BLOCK_LEN v.fsdata.sb / 4)) % U32)) ≠
      slot v.fsdata.sb
        (descend
          (descend v (slot v.fsdata.sb cur
            (idx / ((BLOCK_LEN v.fsdata.sb / 4 * (BLOCK_LEN v.fsdata.sb / 4)) % U32)))).2.1
          (slot v.fsdata.sb
            (descend v (slot v.fsdata.sb cur
              (idx / ((BLOCK_LEN v.fsdata.sb / 4 * (BLOCK_LEN v.fsdata.sb / 4)) % U32)))).2.2
            (idx % ((BLOCK_LEN v.fsdata.sb / 4 * (BLOCK_LEN v.fsdata.sb / 4)) % U32)
              / (BLOCK_LEN v.fsdata.sb / 4)))).2.2
        (idx % ((BLOCK_LEN v.fsdata.sb / 4 * (BLOCK_LEN v.fsdata.sb / 4)) % U32)
          % (BLOCK_LEN v.fsdata.sb / 4)))
    (h23 : slot v.fsdata.sb
        (descend v (slot v.fsdata.sb cur
          (idx / ((BLOCK_LEN v.fsdata.sb / 4 * (BLOCK_LEN v.fsdata.sb / 4)) % U32)))).2.2
        (idx % ((BLOCK_LEN v.fsdata.sb / 4 * (BLOCK_LEN v.fsdata.sb / 4)) % U32)
          / (BLOCK_LEN v.fsdata.sb / 4)) ≠
      slot v.fsdata.sb
        (descend
          (descend v (slot v.fsdata.sb cur
            (idx / ((BLOCK_LEN v.fsdata.sb / 4 * (BLOCK_LEN v.fsdata.sb / 4)) % U32)))).2.1
          (slot v.fsdata.sb
            (descend v (slot v.fsdata.sb cur
              (idx / ((BLOCK_LEN v.fsdata.sb / 4 * (BLOCK_LEN v.fsdata.sb / 4)) % U32)))).2.2
            (idx % ((BLOCK_LEN v.fsdata.sb / 4 * (BLOCK_LEN v.fsdata.sb / 4)) % U32)
              / (BLOCK_LEN v.fsdata.sb / 4)))).2.2
        (idx % ((BLOCK_LEN v.fsdata.sb / 4 * (BLOCK_LEN v.fsdata.sb / 4)) % U32)
          % (BLOCK_LEN v.fsdata.sb / 4))) :
    _ext2_get_block_of_inode_lev2 (_ext2_set_block_of_inode_lev2 v cur idx val).2 cur idx
      = val := by
  rw [set_lev2_descend] at h0 ⊢
  generalize hLC : (BLOCK_LEN v.fsdata.sb / 4 * (BLOCK_LEN v.fsdata.sb / 4)) % U32 = LC
    at h0 hbm h12 h13 h23 ⊢
  generalize hs1 : slot v.fsdata.sb cur (idx / LC) = s1 at h0 hbm h12 h13 h23 ⊢
  have hlay := descend_layout v s1
  have hsb := hlay.1
  by_cases hr : (descend v s1).1 ≠ 0
  · rw [if_pos hr] at h0
    exact absurd h0 hr
  rw [if_neg hr] at h0 ⊢
  by_cases hb : (descend v s1).2.2 ≠ 0
  · rw [if_pos hb] at h0 ⊢
    have hsbF : (_ext2_set_block_of_inode_lev1 (descend v s1).2.1 (descend v s1).2.2
        (idx % LC) val).2.fsdata.sb = v.fsdata.sb := by
      rw [set_lev1_descend]
      have hl2 := (descend_layout (descend v s1).2.1
        (slot (descend v s1).2.1.fsdata.sb (descend v s1).2.2
          (idx % LC / (BLOCK_LEN (descend v s1).2.1.fsdata.sb / 4)))).1
      split_ifs
      · exact hl2.trans hsb
      · exact hl2.trans hsb
      · exact hl2.trans hsb
    rw [get_lev2_eq, hsbF, hLC]
    have hal : s1 % 4 = 0 := by rw [← hs1]; exact slot_aligned _ _ _
    have he : index_entry (_ext2_set_block_of_inode_lev1 (descend v s1).2.1 (descend v s1).2.2
        (idx % LC) val).2 cur (idx / LC) = (descend v s1).2.2 := by
      rw [index_entry_eq_slot, hsbF, hs1]
      rw [set_lev1_frame _ _ _ _ _ hal (by rw [hsb]; exact h12) (by rw [hsb]; exact h13)
        (off_bitmaps_layout v _ hlay _ hbm)]
      exact descend_entry _ _ (not_not.mp hr)
    rw [he, if_pos hb]
    apply set_lev1_roundtrip _ _ _ _ hv h0
    rw [hsb]
    exact h23
  · rw [if_neg hb] at h0
    have h0' : (-1 : Int) = 0 := h0
    exact absurd h0' (by decide)

theorem alloc_top_block_layout (v : vfs_device_t) (d : dentry_t) (t : Fin 15) :
    same_layout v (alloc_top_block v d t).2.1 := by
  unfold alloc_top_block
  split_ifs
  · exact allocate_block_index_layout v _ 0
  · exact same_layout_refl v

theorem set_lev1_sb (v : vfs_device_t) (cur idx val : Nat) :
    (_ext2_set_block_of_inode_lev1 v cur idx val).2.fsdata.sb = v.fsdata.sb := by
  rw [set_lev1_descend]
  have hl := (descend_layout v (slot v.fsdata.sb cur (idx / (BLOCK_LEN v.fsdata.sb / 4)))).1
  split_ifs
  · exact hl
  · exact hl
  · exact hl

theorem set_lev2_sb (v : vfs_device_t) (cur idx val : Nat) :
    (_ext2_set_block_of_inode_lev2 v cur idx val).2.fsdata.sb = v.fsdata.sb := by
  rw [set_lev2_descend]
  have hl := (descend_layout v (slot v.fsdata.sb cur
    (idx / ((BLOCK_LEN v.fsdata.sb / 4 * (BLOCK_LEN v.fsdata.sb / 4)) % U32)))).1
  split_ifs
  · exact hl
  · exact (set_lev1_sb _ _ _ _).trans hl
  · exact hl
theorem set_block_direct (v : vfs_device_t) (d : dentry_t) (n val : Nat) (h : n < 12) :
    _ext2_set_block_of_inode v d n val =
      (0, v, { d with inode := set_block d.inode ⟨n, by omega⟩ val, dirty := true }) := by
  unfold _ext2_set_block_of_inode
  exact dif_pos h

theorem set_block_single (v : vfs_device_t) (d : dentry_t) (n val : Nat) (h12 : ¬ n < 12)
    (h1 : n < (12 + BLOCK_LEN v.fsdata.sb / 4) % U32) :
    _ext2_set_block_of_inode v d n val =
      if (alloc_top_block v d 12).1 ≠ 0 then alloc_top_block v d 12
      else
        ((_ext2_set_block_of_inode_lev0 (alloc_top_block v d 12).2.1
            ((alloc_top_block v d 12).2.2.inode.block 12) (sub32 n 12) val).1,
         (_ext2_set_block_of_inode_lev0 (alloc_top_block v d 12).2.1
            ((alloc_top_block v d 12).2.2.inode.block 12) (sub32 n 12) val).2,
         (alloc_top_block v d 12).2.2) := by
  unfold _ext2_set_block_of_inode
  exact (dif_neg h12).trans (if_pos h1)

theorem set_block_double (v : vfs_device_t) (d : dentry_t) (n val : Nat) (h12 : ¬ n < 12)
    (h1 : ¬ n < (12 + BLOCK_LEN v.fsdata.sb / 4) % U32)
    (h2 : n < (12 + BLOCK_LEN v.fsdata.sb / 4
      + BLOCK_LEN v.fsdata.sb / 4 * (BLOCK_LEN v.fsdata.sb / 4)) % U32) :
    _ext2_set_block_of_inode v d n val =
      if (alloc_top_block v d 13).1 ≠ 0 then alloc_top_block v d 13
      else
        ((_ext2_set_block_of_inode_lev1 (alloc_top_block v d 13).2.1
            ((alloc_top_block v d 13).2.2.inode.block 13)
            (sub32 (sub32 n 12) (BLOCK_LEN v.fsdata.sb / 4)) val).1,
         (_ext2_set_block_of_inode_lev1 (alloc_top_block v d 13).2.1
            ((alloc_top_block v d 13).2.2.inode.block 13)
            (sub32 (sub32 n 12) (BLOCK_LEN v.fsdata.sb / 4)) val).2,
         (alloc_top_block v d 13).2.2) := by
  unfold _ext2_set_block_of_inode
  exact (dif_neg h12).trans ((if_neg h1).trans (if_pos h2))

theorem set_block_triple (v : vfs_device_t) (d : dentry_t) (n val : Nat) (h12 : ¬ n < 12)
    (h1 : ¬ n < (12 + BLOCK_LEN v.fsdata.sb / 4) % U32)
    (h2 : ¬ n < (12 + BLOCK_LEN v.fsdata.sb / 4
      + BLOCK_LEN v.fsdata.sb / 4 * (BLOCK_LEN v.fsdata.sb / 4)) % U32) :
    _ext2_set_block_of_inode v d n val =
      if (alloc_top_block v d 14).1 ≠ 0 then alloc_top_block v d 14
      else
        ((_ext2_set_block_of_inode_lev2 (alloc_top_block v d 14).2.1
            ((alloc_top_block v d 14).2.2.inode.block 14)
            (sub32 n (12 + BLOCK_LEN v.fsdata.sb / 4
              + BLOCK_LEN v.fsdata.sb / 4 * (BLOCK_LEN v.fsdata.sb / 4))) val).1,
         (_ext2_set_block_of_inode_lev2 (alloc_top_block v d 14).2.1
            ((alloc_top_block v d 14).2.2.inode.block 14)
            (sub32 n (12 + BLOCK_LEN v.fsdata.sb / 4
              + BLOCK_LEN v.fsdata.sb / 4 * (BLOCK_LEN v.fsdata.sb / 4))) val).2,
         (alloc_top_block v d 14).2.2) := by
  unfold _ext2_set_block_of_inode
  exact (dif_neg h12).trans ((if_neg h1).trans (if_neg h2))

theorem get_block_direct (v : vfs_device_t) (d : dentry_t) (n : Nat) (h : n < 12) :
    _ext2_get_block_of_inode v d n = d.inode.block ⟨n, by omega⟩ := by
  unfold _ext2_get_block_of_inode
  exact dif_pos h

theorem get_block_single (v : vfs_device_t) (d : dentry_t) (n : Nat) (h12 : ¬ n < 12)
    (h1 : n < (12 + BLOCK_LEN v.fsdata.sb / 4) % U32) :
    _ext2_get_block_of_inode v d n =
      _ext2_get_block_of_inode_lev0 v (d.inode.block 12) (sub32 n 12) := by
  unfold _ext2_get_block_of_inode
  exact (dif_neg h12).trans (if_pos h1)

theorem get_block_double (v : vfs_device_t) (d : dentry_t) (n : Nat) (h12 : ¬ n < 12)
    (h1 : ¬ n < (12 + BLOCK_LEN v.fsdata.sb / 4) % U32)
    (h2 : n < (12 + BLOCK_LEN v.fsdata.sb / 4
      + BLOCK_LEN v.fsdata.sb / 4 * (BLOCK_LEN v.fsdata.sb / 4)) % U32) :
    _ext2_get_block_of_inode v d n =
      _ext2_get_block_of_inode_lev1 v (d.inode.block 13)
        (sub32 (sub32 n 12) (BLOCK_LEN v.fsdata.sb / 4)) := by
  unfold _ext2_get_block_of_inode
  exact (dif_neg h12).trans ((if_neg h1).trans (if_pos h2))

theorem get_block_triple (v : vfs_device_t) (d : dentry_t) (n : Nat) (h12 : ¬ n < 12)
    (h1 : ¬ n < (12 + BLOCK_LEN v.fsdata.sb / 4) % U32)
    (h2 : ¬ n < (12 + BLOCK_LEN v.fsdata.sb / 4
      + BLOCK_LEN v.fsdata.sb / 4 * (BLOCK_LEN v.fsdata.sb / 4)) % U32) :
    _ext2_get_block_of_inode v d n =
      _ext2_get_block_of_inode_lev2 v (d.inode.block 14)
        (sub32 n (12 + BLOCK_LEN v.fsdata.sb / 4
          + BLOCK_LEN v.fsdata.sb / 4 * (BLOCK_LEN v.fsdata.sb / 4))) := by
  unfold _ext2_get_block_of_inode
  exact (dif_neg h12).trans ((if_neg h1).trans (if_neg h2))

theorem set_slots_double (v : vfs_device_t) (d : dentry_t) (n : Nat) (h12 : ¬ n < 12)
    (h1 : ¬ n < (12 + BLOCK_LEN v.fsdata.sb / 4) % U32)
    (h2 : n < (12 + BLOCK_LEN v.fsdata.sb / 4
      + BLOCK_LEN v.fsdata.sb / 4 * (BLOCK_LEN v.fsdata.sb / 4)) % U32) :
    set_slots v d n =
      [slot v.fsdata.sb ((alloc_top_block v d 13).2.2.inode.block 13)
          (sub32 (sub32 n 12) (BLOCK_LEN v.fsdata.sb / 4) / (BLOCK_LEN v.fsdata.sb / 4)),
       slot v.fsdata.sb
          (descend (alloc_top_block v d 13).2.1
            (slot v.fsdata.sb ((alloc_top_block v d 13).2.2.inode.block 13)
              (sub32 (sub32 n 12) (BLOCK_LEN v.fsdata.sb / 4)
                / (BLOCK_LEN v.fsdata.sb / 4)))).2.2
          (sub32 (sub32 n 12) (BLOCK_LEN v.fsdata.sb / 4) % (BLOCK_LEN v.fsdata.sb / 4))] := by
  unfold set_slots
  exact (if_neg h12).trans ((if_neg h1).trans (if_pos h2))

theorem set_slots_triple (v : vfs_device_t) (d : dentry_t) (n : Nat) (h12 : ¬ n < 12)
    (h1 : ¬ n < (12 + BLOCK_LEN v.fsdata.sb / 4) % U32)
    (h2 : ¬ n < (12 + BLOCK_LEN v.fsdata.sb / 4
      + BLOCK_LEN v.fsdata.sb / 4 * (BLOCK_LEN v.fsdata.sb / 4)) % U32) :
    ∃ s1 s2 s3, set_slots v d n = [s1, s2, s3] ∧
      s1 = slot v.fsdata.sb ((alloc_top_block v d 14).2.2.inode.block 14)
        (sub32 n (12 + BLOCK_LEN v.fsdata.sb / 4
            + BLOCK_LEN v.fsdata.sb / 4 * (BLOCK_LEN v.fsdata.sb / 4))
          / ((BLOCK_LEN v.fsdata.sb / 4 * (BLOCK_LEN v.fsdata.sb / 4)) % U32)) ∧
      s2 = slot v.fsdata.sb (descend (alloc_top_block v d 14).2.1 s1).2.2
        (sub32 n (12 + BLOCK_LEN v.fsdata.sb / 4
            + BLOCK_LEN v.fsdata.sb / 4 * (BLOCK_LEN v.fsdata.sb / 4))
          % ((BLOCK_LEN v.fsdata.sb / 4 * (BLOCK_LEN v.fsdata.sb / 4)) % U32)
          / (BLOCK_LEN v.fsdata.sb / 4)) ∧
      s3 = slot v.fsdata.sb
        (descend (descend (alloc_top_block v d 14).2.1 s1).2.1 s2).2.2
        (sub32 n (12 + BLOCK_LEN v.fsdata.sb / 4
            + BLOCK_LEN v.fsdata.sb / 4 * (BLOCK_LEN v.fsdata.sb / 4))
          % ((BLOCK_LEN v.fsdata.sb / 4 * (BLOCK_LEN v.fsdata.sb / 4)) % U32)
          % (BLOCK_LEN v.fsdata.sb / 4)) := by
  refine ⟨_, _, _, ?_, rfl, rfl, rfl⟩
  unfold set_slots
  exact (if_neg h12).trans ((if_neg h1).trans (if_neg h2))

theorem set_lev0_sb (v : vfs_device_t) (b k val : Nat) :
    (_ext2_set_block_of_inode_lev0 v b k val).2.fsdata.sb = v.fsdata.sb := rfl

theorem get_of_triple (a : Int) (v : vfs_device_t) (d : dentry_t) (n : Nat) :
    _ext2_get_block_of_inode (a, v, d).2.1 (a, v, d).2.2 n = _ext2_get_block_of_inode v d n :=
  rfl

theorem fst_of_triple (a : Int) (v : vfs_device_t) (d : dentry_t) : (a, v, d).1 = a := rfl

/-- C3, as amended: on a file system whose blocks fit the block buffers of the
allocator (`BLOCK_LEN(sb) ≤ MAX_BLOCK_LEN`, blocks of 1 KiB), for every logical
index `n` and every 32-bit value `val`, if
`_ext2_set_block_of_inode(dentry, n, val)` returns 0 and the index entries that
the call walks through (found or allocated, at most three) lie at pairwise
different device addresses, none of them inside a block bitmap, then a following
`_ext2_get_block_of_inode(dentry, n)` returns `val`. -/
theorem set_then_get_block_of_inode (v : vfs_device_t) (d : dentry_t) (n val : Nat)
    (_ : BLOCK_LEN v.fsdata.sb ≤ MAX_BLOCK_LEN) (hv : val < U32)
    (hsep : (set_slots v d n).Nodup)
    (hbm : ∀ s, s ∈ set_slots v d n → off_bitmaps v s) :
    set_get_claim v d n val := by
  intro h0
  by_cases h12 : n < 12
  · rw [set_block_direct v d n val h12, get_of_triple, get_block_direct _ _ _ h12]
    unfold set_block
    exact if_pos rfl
  by_cases h1 : n < (12 + BLOCK_LEN v.fsdata.sb / 4) % U32
  · rw [set_block_single v d n val h12 h1] at h0 ⊢
    have hsb := (alloc_top_block_layout v d 12).1
    by_cases ha : (alloc_top_block v d 12).1 ≠ 0
    · rw [if_pos ha] at h0
      exact absurd h0 ha
    rw [if_neg ha, get_of_triple]
    have hsbF := (set_lev0_sb (alloc_top_block v d 12).2.1
        ((alloc_top_block v d 12).2.2.inode.block 12) (sub32 n 12) val).trans hsb
    rw [get_block_single _ _ _ h12 (by rw [hsbF]; exact h1)]
    exact set_lev0_roundtrip _ _ _ _ hv
  by_cases h2 : n < (12 + BLOCK_LEN v.fsdata.sb / 4
      + BLOCK_LEN v.fsdata.sb / 4 * (BLOCK_LEN v.fsdata.sb / 4)) % U32
  · rw [set_block_double v d n val h12 h1 h2] at h0 ⊢
    rw [set_slots_double v d n h12 h1 h2] at hsep
    have hsb := (alloc_top_block_layout v d 13).1
    by_cases ha : (alloc_top_block v d 13).1 ≠ 0
    · rw [if_pos ha] at h0
      exact absurd h0 ha
    rw [if_neg ha, fst_of_triple] at h0
    rw [if_neg ha, get_of_triple]
    have hsbF := (set_lev1_sb (alloc_top_block v d 13).2.1
        ((alloc_top_block v d 13).2.2.inode.block 13)
        (sub32 (sub32 n 12) (BLOCK_LEN v.fsdata.sb / 4)) val).trans hsb
    rw [get_block_double _ _ _ h12 (by rw [hsbF]; exact h1) (by rw [hsbF]; exact h2)]
    rw [hsbF]
    rw [← hsb] at h0 hsep ⊢
    apply set_lev1_roundtrip _ _ _ _ hv h0
    intro e
    exact (List.nodup_cons.mp hsep).1 (List.mem_singleton.mpr e)
  · rw [set_block_triple v d n val h12 h1 h2] at h0 ⊢
    obtain ⟨s1, s2, s3, hslots, hs1, hs2, hs3⟩ := set_slots_triple v d n h12 h1 h2
    rw [hslots] at hsep hbm
    have hlay := alloc_top_block_layout v d 14
    have hsb := hlay.1
    by_cases ha : (alloc_top_block v d 14).1 ≠ 0
    · rw [if_pos ha] at h0
      exact absurd h0 ha
    rw [if_neg ha, fst_of_triple] at h0
    rw [if_neg ha, get_of_triple]
    have hsbF := (set_lev2_sb (alloc_top_block v d 14).2.1
        ((alloc_top_block v d 14).2.2.inode.block 14)
        (sub32 n (12 + BLOCK_LEN v.fsdata.sb / 4
          + BLOCK_LEN v.fsdata.sb / 4 * (BLOCK_LEN v.fsdata.sb / 4))) val).trans hsb
    rw [get_block_triple _ _ _ h12 (by rw [hsbF]; exact h1) (by rw [hsbF]; exact h2)]
    rw [hsbF]
    have hn1 := List.nodup_cons.mp hsep
    have hn2 := List.nodup_cons.mp hn1.2
    have h12' : s1 ≠ s2 := fun e => hn1.1 (List.mem_cons.mpr (Or.inl e))
    have h13' : s1 ≠ s3 := fun e =>
      hn1.1 (List.mem_cons.mpr (Or.inr (List.mem_singleton.mpr e)))
    have h23' : s2 ≠ s3 := fun e => hn2.1 (List.mem_singleton.mpr e)
    have hbm1 : off_bitmaps (alloc_top_block v d 14).2.1 s1 :=
      off_bitmaps_layout v _ hlay _ (hbm s1 (List.mem_cons_self _ _))
    rw [hs3, hs2, hs1] at h13' h23'
    rw [hs2, hs1] at h12'
    rw [hs1] at hbm1
    rw [← hsb] at h0 h12' h13' h23' hbm1 ⊢
    exact set_lev2_roundtrip _ _ _ _ hv h0 hbm1 h12' h13' h23'

/-- Witness of C3: setting the first triple-indirect logical block of an empty
file allocates three index blocks, and the value is read back. -/
theorem set_then_get_block_of_inode_witness :
    BLOCK_LEN vfs_small.fsdata.sb ≤ MAX_BLOCK_LEN ∧
    (_ext2_set_block_of_inode vfs_small dentry_empty 65804 77).1 = 0 ∧
    set_slots vfs_small dentry_empty 65804 = [9216, 10240, 11264] ∧
    _ext2_get_block_of_inode (_ext2_set_block_of_inode vfs_small dentry_empty 65804 77).2.1
      (_ext2_set_block_of_inode vfs_small dentry_empty 65804 77).2.2 65804 = 77 :=
  ⟨by decide, by decide, by decide,
   set_then_get_block_of_inode vfs_small dentry_empty 65804 77 (by decide) (by decide)
     (by decide) (by decide) (by decide)⟩

/-! ## Truncation -/

/-- The size after `ext2_truncate`: the call always returns 0; a length that is
not below the size leaves the inode as it is. -/
theorem truncate_size (now : Nat) (v : vfs_device_t) (d : dentry_t) (L : Nat) :
    (ext2_truncate now v d L).1 = 0 ∧
    (ext2_truncate now v d L).2.2.inode.size =
      if d.inode.size ≤ L then d.inode.size else L % U32 := by
  unfold ext2_truncate
  by_cases h : d.inode.size ≤ L
  · rw [if_pos h, if_pos h]
    exact ⟨rfl, rfl⟩
  · rw [if_neg h, if_neg h]
    exact ⟨rfl, rfl⟩

/-- For a length of at least 1 the first logical index that `ext2_truncate`
frees is `⌈len / block_size⌉`. -/
theorem truncate_start_index (sb : superblock_t) (len : Nat) (h1 : 1 ≤ len) (h2 : len < U32)
    (hlog : sb.log_block_size ≤ 2) :
    (sub32 len 1 / (BLOCK_LEN sb % U32) + 1) % U32 = (len + BLOCK_LEN sb - 1) / BLOCK_LEN sb := by
  have hb := block_len_cases sb hlog
  have hs : sub32 len 1 = len - 1 := by
    unfold sub32 U32 at *
    omega
  rw [hs]
  unfold U32 at *
  rcases hb with hb | hb | hb <;> rw [hb] <;> simp only [Nat.reduceMod] <;> omega

/-- C17 at a failing input: a file of one block (block 9) truncated to length 0.
The first index of the loop is `(2^32 - 1) / 1024 + 1 = 4194304`, not
`⌈0 / 1024⌉ = 0`: no block is freed, the device and the free counters are what
they were and block 9 stays marked in use, while the size becomes 0. -/
theorem truncate_to_zero_frees_nothing :
    0 < dentry_one_block.inode.size ∧
    TO_EXT_BLOCKS_CNT vfs_nine.fsdata.sb dentry_one_block.inode.blocks = 1 ∧
    _ext2_get_block_of_inode vfs_nine dentry_one_block 0 = 9 ∧
    (sub32 0 1 / (BLOCK_LEN vfs_nine.fsdata.sb % U32) + 1) % U32 = 4194304 ∧
    ext2_truncate 7 vfs_nine dentry_one_block 0 =
      (0, vfs_nine,
       { dentry_one_block with
         inode := { dentry_one_block.inode with size := 0, mtime := 7 }, dirty := true }) ∧
    disk_bit (ext2_truncate 7 vfs_nine dentry_one_block 0).2.1.dev
      (block_bitmap_off vfs_nine 0) 8 = true ∧
    ((ext2_truncate 7 vfs_nine dentry_one_block 0).2.1.fsdata.gt.table 0).free_blocks_count
      = 8183 := by
  refine ⟨by decide, by decide, by decide, by decide, rfl, by decide, by decide⟩

/-- C11 at a failing input: a file of two blocks (blocks 9 and 10) truncated from
2048 to 1024 bytes.  The call clears the bitmap bit of block 10, but
`inode.blocks` stays 4 and `block[1]` stays 10, so logical block 1 is still
reachable from the inode while its bit is cleared, and the next allocation hands
out block 10 again. -/
theorem truncate_leaves_freed_block_reachable :
    1024 < dentry_two_blocks.inode.size ∧
    disk_bit vfs_ten.dev (block_bitmap_off vfs_ten 0) 9 = true ∧
    (ext2_truncate 0 vfs_ten dentry_two_blocks 1024).1 = 0 ∧
    (ext2_truncate 0 vfs_ten dentry_two_blocks 1024).2.2.inode.blocks = 4 ∧
    (ext2_truncate 0 vfs_ten dentry_two_blocks 1024).2.2.inode.block 1 = 10 ∧
    1 < TO_EXT_BLOCKS_CNT (ext2_truncate 0 vfs_ten dentry_two_blocks 1024).2.1.fsdata.sb
          (ext2_truncate 0 vfs_ten dentry_two_blocks 1024).2.2.inode.blocks ∧
    _ext2_get_block_of_inode (ext2_truncate 0 vfs_ten dentry_two_blocks 1024).2.1
      (ext2_truncate 0 vfs_ten dentry_two_blocks 1024).2.2 1 = 10 ∧
    disk_bit (ext2_truncate 0 vfs_ten dentry_two_blocks 1024).2.1.dev
      (block_bitmap_off (ext2_truncate 0 vfs_ten dentry_two_blocks 1024).2.1 0) 9 = false ∧
    (_ext2_allocate_block_index
      (ext2_truncate 0 vfs_ten dentry_two_blocks 1024).2.1 0 0).2.2 = 10 := by
  decide

/-! ## Writing full blocks -/

/-- C18 at a failing input, k = 1: one full block written at offset 0 of an empty
file on a file system with 1 KiB blocks.  `end_block_index = (0 + 1024) / 1024 = 1`,
so the loop runs for the logical blocks 0 and 1 and allocates two blocks, 9 and
10: `inode.blocks` is 4 (two blocks of data) and the group has two free blocks
less, while the size is 1024 (on 32-bit and on 64-bit `size_t`). -/
theorem write_one_block_allocates_two :
    (ext2_write U32 0 vfs_small dentry_empty buf_A 0 1024).map
        (fun r => (r.1, r.2.2.inode.size, r.2.2.inode.blocks, r.2.2.inode.block 0,
                   r.2.2.inode.block 1, (r.2.1.fsdata.gt.table 0).free_blocks_count,
                   disk_bit r.2.1.dev (block_bitmap_off r.2.1 0) 8,
                   disk_bit r.2.1.dev (block_bitmap_off r.2.1 0) 9))
      = some (1024, 1024, 4, 9, 10, 98, true, true) ∧
    (ext2_write 18446744073709551616 0 vfs_small dentry_empty buf_A 0 1024).map
        (fun r => (r.1, r.2.2.inode.size, r.2.2.inode.blocks, r.2.2.inode.block 0,
                   r.2.2.inode.block 1, (r.2.1.fsdata.gt.table 0).free_blocks_count,
                   disk_bit r.2.1.dev (block_bitmap_off r.2.1 0) 8,
                   disk_bit r.2.1.dev (block_bitmap_off r.2.1 0) 9))
      = some (1024, 1024, 4, 9, 10, 98, true, true) ∧
    (vfs_small.fsdata.gt.table 0).free_blocks_count = 100 ∧
    BLOCK_LEN vfs_small.fsdata.sb = 1024 := by
  refine ⟨rfl, rfl, rfl, rfl⟩

/-! ## Freeing an inode -/

set_option maxHeartbeats 4000000 in
theorem free_inode_indirect_eval :
    dentry_indirect.inode.block 12 = 21 ∧
    _ext2_get_block_of_inode vfs_indirect dentry_indirect 12 = 22 ∧
    disk_bit vfs_indirect.dev (inode_bitmap_off vfs_indirect 0) 11 = true ∧
    disk_bit vfs_indirect.dev (block_bitmap_off vfs_indirect 0) 20 = true ∧
    (ext2_free_inode 128 vfs_indirect dentry_indirect).map (fun r => r.1) = some 0 ∧
    (ext2_free_inode 128 vfs_indirect dentry_indirect).map
      (fun r => (r.2.1.dev 6528).val) = some 0 ∧
    (ext2_free_inode 128 vfs_indirect dentry_indirect).map
      (fun r => disk_bit r.2.1.dev (inode_bitmap_off r.2.1 0) 11) = some false ∧
    (ext2_free_inode 128 vfs_indirect dentry_indirect).map
      (fun r => (r.2.1.fsdata.gt.table 0).free_inodes_count) = some 10 ∧
    (ext2_free_inode 128 vfs_indirect dentry_indirect).map
      (fun r => (r.2.1.dev 3073).val) = some 0 ∧
    (ext2_free_inode 128 vfs_indirect dentry_indirect).map
      (fun r => disk_bit r.2.1.dev (block_bitmap_off r.2.1 0) 21) = some false ∧
    (ext2_free_inode 128 vfs_indirect dentry_indirect).map
      (fun r => disk_bit r.2.1.dev (block_bitmap_off r.2.1 0) 20) = some true := by
  refine ⟨by decide, by decide, by decide, by decide, by decide, by decide, by decide,
    by decide, by decide, by decide, by decide⟩

/-- C12 at a failing input: an unlinked file of 13 blocks whose block 22 hangs
off the single-indirect block 21.  `ext2_free_inode` returns 0, zeroes the inode
record, clears the inode's bit, increments `free_inodes_count` and clears the
bits of the 13 data blocks, but the bit of the index block 21 stays set: the
loop frees the logical blocks only. -/
theorem free_inode_keeps_index_block :
    dentry_indirect.inode.block 12 = 21 ∧
    _ext2_get_block_of_inode vfs_indirect dentry_indirect 12 = 22 ∧
    disk_bit vfs_indirect.dev (inode_bitmap_off vfs_indirect 0) 11 = true ∧
    disk_bit vfs_indirect.dev (block_bitmap_off vfs_indirect 0) 20 = true ∧
    (ext2_free_inode 128 vfs_indirect dentry_indirect).map (fun r => r.1) = some 0 ∧
    (ext2_free_inode 128 vfs_indirect dentry_indirect).map
      (fun r => (r.2.1.dev 6528).val) = some 0 ∧
    (ext2_free_inode 128 vfs_indirect dentry_indirect).map
      (fun r => disk_bit r.2.1.dev (inode_bitmap_off r.2.1 0) 11) = some false ∧
    (ext2_free_inode 128 vfs_indirect dentry_indirect).map
      (fun r => (r.2.1.fsdata.gt.table 0).free_inodes_count) = some 10 ∧
    (ext2_free_inode 128 vfs_indirect dentry_indirect).map
      (fun r => (r.2.1.dev 3073).val) = some 0 ∧
    (ext2_free_inode 128 vfs_indirect dentry_indirect).map
      (fun r => disk_bit r.2.1.dev (block_bitmap_off r.2.1 0) 21) = some false ∧
    (ext2_free_inode 128 vfs_indirect dentry_indirect).map
      (fun r => disk_bit r.2.1.dev (block_bitmap_off r.2.1 0) 20) = some true :=
  free_inode_indirect_eval

/-! ## Directories -/

/-- C16, scenario S2: on a file system with 1 KiB blocks, `ext2_mkdir` creates
the directory with inode 12 and first block 10, holding `.` (`rec_len` 12) and
`..` (`rec_len` 1012); after `ext2_create` of `"a"` and of `"longfilename"` in it
all calls have returned 0 and block 10 holds exactly the chain `.`, `..`, `a`,
`longfilename` at the offsets 0, 12, 24, 36, with `rec_len` 12, 12, 12 and 988,
which tile the 1024 bytes of the block.  `DIR_ENTRY_LEN` is 12 or 16. -/
theorem scenario_s2_directory_split :
    BLOCK_LEN vfs_root.fsdata.sb = 1024 ∧
    (ext2_mkdir 12 vfs_root cache_root 2 (name_buf [100]) 1 16877 0 0).map
      (fun m => (m.1, _ext2_get_block_of_inode m.2.1 (m.2.2 12) 0)) = some (0, 10) ∧
    (ext2_mkdir 12 vfs_root cache_root 2 (name_buf [100]) 1 16877 0 0).map
      (fun m => records_at (block_buf m.2.1 10) [0, 12]) =
      some [(12, 12, [46]), (2, 1012, [46, 46])] ∧
    (ext2_mkdir 12 vfs_root cache_root 2 (name_buf [100]) 1 16877 0 0).map
      (fun m => decide (records_tile (block_buf m.2.1 10) 1024 [0, 12])) = some true ∧
    (scenario_s2 12).map (fun r => r.1) = some 0 ∧
    (scenario_s2 12).map (fun r => (r.2.2 12).inode.blocks) = some 2 ∧
    (scenario_s2 12).map (fun r => _ext2_get_block_of_inode r.2.1 (r.2.2 12) 0) = some 10 ∧
    (scenario_s2 12).map
      (fun r => decide (records_tile (block_buf r.2.1 10) 1024 [0, 12, 24, 36])) = some true ∧
    (scenario_s2 12).map (fun r => records_at (block_buf r.2.1 10) [0, 12, 24, 36]) =
      some [(12, 12, [46]), (2, 12, [46, 46]), (13, 12, [97]), (14, 988, longfilename)] ∧
    (scenario_s2 16).map (fun r => r.1) = some 0 ∧
    (scenario_s2 16).map (fun r => _ext2_get_block_of_inode r.2.1 (r.2.2 12) 0) = some 10 ∧
    (scenario_s2 16).map
      (fun r => decide (records_tile (block_buf r.2.1 10) 1024 [0, 12, 24, 36])) = some true ∧
    (scenario_s2 16).map (fun r => records_at (block_buf r.2.1 10) [0, 12, 24, 36]) =
      some [(12, 12, [46]), (2, 12, [46, 46]), (13, 12, [97]), (14, 988, longfilename)] := by
  refine ⟨by decide!, by decide!, by decide!, by decide!, by decide!, by decide!, by decide!,
    by decide!, by decide!, by decide!, by decide!, by decide!, by decide!⟩

/-! ## Directory blocks: fields, buffers and record chains -/

theorem norm_filename_eq (x : Nat) (h : x + 4 ≤ U32) : NORM_FILENAME x = pad4 x := by
  unfold NORM_FILENAME pad4
  have e1 : x &&& 3 = x % 4 := Nat.and_pow_two_sub_one_eq_mod x 2
  have e2 : (4 - x % 4) &&& 3 = (4 - x % 4) % 4 := Nat.and_pow_two_sub_one_eq_mod _ 2
  rw [e1, e2]
  unfold U32 at *
  omega

theorem pad4_ge (x : Nat) : x ≤ pad4 x := by
  unfold pad4
  omega

theorem byte_lt (b : Byte) : b.val < 256 := b.isLt

theorem entry_rec_len_lt (buf : Buf) (o : Nat) : entry_rec_len buf o < U16 := by
  unfold entry_rec_len U16
  have h1 := byte_lt (buf (o + 4))
  have h2 := byte_lt (buf (o + 5))
  omega

theorem entry_name_len_lt (buf : Buf) (o : Nat) : entry_name_len buf o < U16 := by
  unfold entry_name_len U16
  have h1 := byte_lt (buf (o + 6))
  have h2 := byte_lt (buf (o + 7))
  omega

theorem entry_inode_congr (buf buf' : Buf) (o : Nat)
    (h : ∀ i, o ≤ i → i < o + 4 → buf' i = buf i) :
    entry_inode buf' o = entry_inode buf o := by
  unfold entry_inode
  rw [h o (by omega) (by omega), h (o + 1) (by omega) (by omega),
    h (o + 2) (by omega) (by omega), h (o + 3) (by omega) (by omega)]

theorem entry_rec_len_congr (buf buf' : Buf) (o : Nat)
    (h : ∀ i, o + 4 ≤ i → i < o + 6 → buf' i = buf i) :
    entry_rec_len buf' o = entry_rec_len buf o := by
  unfold entry_rec_len
  rw [h (o + 4) (by omega) (by omega), h (o + 5) (by omega) (by omega)]

theorem entry_name_len_congr (buf buf' : Buf) (o : Nat)
    (h : ∀ i, o + 6 ≤ i → i < o + 8 → buf' i = buf i) :
    entry_name_len buf' o = entry_name_len buf o := by
  unfold entry_name_len
  rw [h (o + 6) (by omega) (by omega), h (o + 7) (by omega) (by omega)]

theorem set_entry_inode_other (buf : Buf) (o v i : Nat) (h : i < o ∨ o + 4 ≤ i) :
    set_entry_inode buf o v i = buf i := by
  unfold set_entry_inode
  rw [if_neg (by omega), if_neg (by omega), if_neg (by omega), if_neg (by omega)]

theorem set_entry_rec_len_other (buf : Buf) (o v i : Nat) (h : i < o + 4 ∨ o + 6 ≤ i) :
    set_entry_rec_len buf o v i = buf i := by
  unfold set_entry_rec_len
  rw [if_neg (by omega), if_neg (by omega)]

theorem set_entry_name_len_other (buf : Buf) (o v i : Nat) (h : i < o + 6 ∨ o + 8 ≤ i) :
    set_entry_name_len buf o v i = buf i := by
  unfold set_entry_name_len
  rw [if_neg (by omega), if_neg (by omega)]

theorem entry_inode_set (buf : Buf) (o v : Nat) :
    entry_inode (set_entry_inode buf o v) o = v % U32 := by
  unfold entry_inode set_entry_inode U32
  rw [if_pos rfl, if_neg (by omega), if_pos rfl, if_neg (by omega), if_neg (by omega),
    if_pos rfl, if_neg (by omega), if_neg (by omega), if_neg (by omega), if_pos rfl,
    toByte_val, toByte_val, toByte_val, toByte_val]
  omega

theorem entry_rec_len_set (buf : Buf) (o v : Nat) :
    entry_rec_len (set_entry_rec_len buf o v) o = v % U16 := by
  unfold entry_rec_len set_entry_rec_len U16
  rw [if_pos rfl, if_neg (by omega), if_pos rfl, toByte_val, toByte_val]
  omega

theorem entry_name_len_set (buf : Buf) (o v : Nat) :
    entry_name_len (set_entry_name_len buf o v) o = v % U16 := by
  unfold entry_name_len set_entry_name_len U16
  rw [if_pos rfl, if_neg (by omega), if_pos rfl, toByte_val, toByte_val]
  omega

theorem memcpy_other (dst : Buf) (doff : Nat) (src : Buf) (soff n i : Nat)
    (h : i < doff ∨ doff + n ≤ i) : memcpy dst doff src soff n i = dst i := by
  unfold memcpy
  rw [if_neg (by omega)]

theorem memcpy_in (dst : Buf) (doff : Nat) (src : Buf) (soff n i : Nat)
    (h : doff ≤ i ∧ i < doff + n) : memcpy dst doff src soff n i = src (soff + (i - doff)) := by
  unfold memcpy
  rw [if_pos h]

theorem memset_other (dst : Buf) (doff : Nat) (c : Byte) (n i : Nat)
    (h : i < doff ∨ doff + n ≤ i) : memset dst doff c n i = dst i := by
  unfold memset
  rw [if_neg (by omega)]

theorem memset_in (dst : Buf) (doff : Nat) (c : Byte) (n i : Nat)
    (h : doff ≤ i ∧ i < doff + n) : memset dst doff c n i = c := by
  unfold memset
  rw [if_pos h]

/-- The header that `memcpy(start_of_new_entry, &new_entry, 8)` leaves at byte
`o`. -/
theorem new_entry_fields (buf : Buf) (o a b c : Nat) :
    entry_inode (memcpy buf o (new_entry_bytes a b c) 0 8) o = a % U32 ∧
    entry_rec_len (memcpy buf o (new_entry_bytes a b c) 0 8) o = b % U16 ∧
    entry_name_len (memcpy buf o (new_entry_bytes a b c) 0 8) o = c % U16 := by
  have hi : entry_inode (memcpy buf o (new_entry_bytes a b c) 0 8) o
      = entry_inode (set_entry_inode zero_buf 0 a) 0 := by
    unfold entry_inode
    rw [memcpy_in _ _ _ _ _ _ (by omega), memcpy_in _ _ _ _ _ _ (by omega),
      memcpy_in _ _ _ _ _ _ (by omega), memcpy_in _ _ _ _ _ _ (by omega)]
    unfold new_entry_bytes
    rw [set_entry_name_len_other _ _ _ _ (by omega), set_entry_name_len_other _ _ _ _ (by omega),
      set_entry_name_len_other _ _ _ _ (by omega), set_entry_name_len_other _ _ _ _ (by omega),
      set_entry_rec_len_other _ _ _ _ (by omega), set_entry_rec_len_other _ _ _ _ (by omega),
      set_entry_rec_len_other _ _ _ _ (by omega), set_entry_rec_len_other _ _ _ _ (by omega)]
    have e0 : 0 + (o - o) = 0 := by omega
    have e1 : 0 + (o + 1 - o) = 0 + 1 := by omega
    have e2 : 0 + (o + 2 - o) = 0 + 2 := by omega
    have e3 : 0 + (o + 3 - o) = 0 + 3 := by omega
    rw [e0, e1, e2, e3]
  have hr : entry_rec_len (memcpy buf o (new_entry_bytes a b c) 0 8) o
      = entry_rec_len (set_entry_rec_len (set_entry_inode zero_buf 0 a) 0 b) 0 := by
    unfold entry_rec_len
    rw [memcpy_in _ _ _ _ _ _ (by omega), memcpy_in _ _ _ _ _ _ (by omega)]
    unfold new_entry_bytes
    rw [set_entry_name_len_other _ _ _ _ (by omega), set_entry_name_len_other _ _ _ _ (by omega)]
    have e4 : 0 + (o + 4 - o) = 0 + 4 := by omega
    have e5 : 0 + (o + 5 - o) = 0 + 5 := by omega
    rw [e4, e5]
  have hn : entry_name_len (memcpy buf o (new_entry_bytes a b c) 0 8) o
      = entry_name_len (new_entry_bytes a b c) 0 := by
    unfold entry_name_len
    rw [memcpy_in _ _ _ _ _ _ (by omega), memcpy_in _ _ _ _ _ _ (by omega)]
    have e6 : 0 + (o + 6 - o) = 0 + 6 := by omega
    have e7 : 0 + (o + 7 - o) = 0 + 7 := by omega
    rw [e6, e7]
  refine ⟨?_, ?_, ?_⟩
  · rw [hi, entry_inode_set]
  · rw [hr, entry_rec_len_set]
  · rw [hn]
    unfold new_entry_bytes
    rw [entry_name_len_set]

theorem records_from_bounds (buf : Buf) (bl : Nat) :
    ∀ (l : List Nat) (off e : Nat), records_from buf bl off l e →
      off + 8 * l.length ≤ e ∧ (l ≠ [] → e ≤ bl)
  | [], off, e, h => by
    unfold records_from at h
    refine ⟨?_, fun hne => absurd rfl hne⟩
    simp only [List.length_nil]
    omega
  | o :: l, off, e, h => by
    unfold records_from at h
    obtain ⟨_, h1, h2, h3⟩ := h
    have ih := records_from_bounds buf bl l _ e h3
    have hp : 0 ≤ pad4 (entry_name_len buf off) := Nat.zero_le _
    refine ⟨?_, fun _ => ?_⟩
    · simp only [List.length_cons]
      omega
    · by_cases hl : l = []
      · subst hl
        unfold records_from at h3
        omega
      · exact ih.2 hl

theorem records_from_congr (buf buf' : Buf) (bl : Nat) :
    ∀ (l : List Nat) (off e : Nat), (∀ i, off ≤ i → i < e → buf' i = buf i) →
      records_from buf bl off l e → records_from buf' bl off l e
  | [], off, e, _, h => by
    unfold records_from at h ⊢
    exact h
  | o :: l, off, e, hb, h => by
    have hbd := (records_from_bounds buf bl (o :: l) off e h).1
    simp only [List.length_cons] at hbd
    unfold records_from at h ⊢
    obtain ⟨h0, h1, h2, h3⟩ := h
    have en : entry_name_len buf' off = entry_name_len buf off :=
      entry_name_len_congr buf buf' off (fun i hi1 hi2 => hb i (by omega) (by omega))
    have er : entry_rec_len buf' off = entry_rec_len buf off :=
      entry_rec_len_congr buf buf' off (fun i hi1 hi2 => hb i (by omega) (by omega))
    rw [en, er]
    exact ⟨h0, h1, h2,
      records_from_congr buf buf' bl l _ e (fun i hi1 hi2 => hb i (by omega) hi2) h3⟩

theorem records_from_append (buf : Buf) (bl : Nat) :
    ∀ (l1 l2 : List Nat) (off e : Nat),
      records_from buf bl off (l1 ++ l2) e ↔
        ∃ m, records_from buf bl off l1 m ∧ records_from buf bl m l2 e
  | [], l2, off, e => by
    constructor
    · intro h
      exact ⟨off, by unfold records_from; rfl, h⟩
    · rintro ⟨m, h1, h2⟩
      unfold records_from at h1
      subst h1
      exact h2
  | o :: l1, l2, off, e => by
    have ih := records_from_append buf bl l1 l2 (off + entry_rec_len buf off) e
    constructor
    · intro h
      rw [List.cons_append] at h
      unfold records_from at h
      obtain ⟨h0, h1, h2, h3⟩ := h
      obtain ⟨m, hm1, hm2⟩ := ih.mp h3
      refine ⟨m, ?_, hm2⟩
      unfold records_from
      exact ⟨h0, h1, h2, hm1⟩
    · rintro ⟨m, h1, h2⟩
      unfold records_from at h1
      obtain ⟨h0, h1', h2', h3⟩ := h1
      rw [List.cons_append]
      unfold records_from
      exact ⟨h0, h1', h2', ih.mpr ⟨m, h3, h2⟩⟩

theorem first_split (P : Nat → Prop) [DecidablePred P] :
    ∀ l : List Nat, (∀ o ∈ l, ¬ P o) ∨
      ∃ l1 r l2, l = l1 ++ r :: l2 ∧ (∀ o ∈ l1, ¬ P o) ∧ P r
  | [] => Or.inl (fun _ h => absurd h (List.not_mem_nil _))
  | o :: l => by
    by_cases ho : P o
    · exact Or.inr ⟨[], o, l, rfl, fun _ h => absurd h (List.not_mem_nil _), ho⟩
    · rcases first_split P l with h | ⟨l1, r, l2, e, h1, h2⟩
      · left
        intro x hx
        rcases List.mem_cons.mp hx with hx | hx
        · rw [hx]
          exact ho
        · exact h x hx
      · right
        refine ⟨o :: l1, r, l2, by rw [e, List.cons_append], ?_, h2⟩
        intro x hx
        rcases List.mem_cons.mp hx with hx | hx
        · rw [hx]
          exact ho
        · exact h1 x hx

/-! ## Directory blocks: the record-walking loops -/

theorem add_loop_step (buf : Buf) (bl m fuel off : Nat) :
    _ext2_add_to_dir_block_loop buf bl m (fuel + 1) off =
      if has_room buf m off then some (some off)
      else if off + entry_rec_len buf off ≥ bl then some none
      else _ext2_add_to_dir_block_loop buf bl m fuel (off + entry_rec_len buf off) := rfl

theorem rm_loop_step (buf : Buf) (bl idx fuel off : Nat) (prev : Option Nat) :
    _ext2_rm_from_dir_block_loop buf bl idx (fuel + 1) off prev =
      if entry_inode buf off = idx then some (some (off, prev))
      else if off + entry_rec_len buf off ≥ bl then some none
      else _ext2_rm_from_dir_block_loop buf bl idx fuel (off + entry_rec_len buf off)
        (some off) := rfl

theorem lookup_loop_step (buf name : Buf) (len bl fi fuel off : Nat) :
    _ext2_lookup_block_loop buf name len bl fi (fuel + 1) off =
      if entry_inode buf off = 0 then some (-EFAULT, fi)
      else if entry_name_len buf off = len ∧
          is_name_same name buf off (entry_name_len buf off) = true
        then some (0, entry_inode buf off)
      else if off + entry_rec_len buf off ≥ bl then some (-EFAULT, fi)
      else _ext2_lookup_block_loop buf name len bl fi fuel (off + entry_rec_len buf off) := rfl

theorem count_loop_step (buf : Buf) (bl fuel off : Nat) (result : Int) :
    _ext2_get_dir_entries_count_in_block_loop buf bl (fuel + 1) off result =
      if (off + entry_rec_len buf off) % U32 ≥ bl then
        some (if entry_inode buf off ≠ 0 then result + 1 else result)
      else _ext2_get_dir_entries_count_in_block_loop buf bl fuel
        ((off + entry_rec_len buf off) % U32)
        (if entry_inode buf off ≠ 0 then result + 1 else result) := rfl

/-- What the head of a chain says about the loop variables: the record starts at
`off`, and the next record starts inside the block exactly when the chain goes
on. -/
theorem records_from_head (buf : Buf) (bl o off : Nat) (l : List Nat)
    (h : records_from buf bl off (o :: l) bl) :
    o = off ∧ records_from buf bl (off + entry_rec_len buf off) l bl ∧
    (l = [] → off + entry_rec_len buf off = bl) ∧
    (l ≠ [] → off + entry_rec_len buf off < bl) := by
  unfold records_from at h
  obtain ⟨h0, _, _, h3⟩ := h
  refine ⟨h0, h3, ?_, ?_⟩
  · intro hl
    subst hl
    unfold records_from at h3
    exact h3
  · intro hl
    have hb := (records_from_bounds buf bl l _ bl h3).1
    have : 0 < l.length := List.length_pos.mpr hl
    omega

theorem add_loop_found (buf : Buf) (bl m r : Nat) (l2 : List Nat) :
    ∀ (l1 : List Nat) (off fuel : Nat),
      records_from buf bl off (l1 ++ r :: l2) bl →
      (∀ o ∈ l1, ¬ has_room buf m o) → has_room buf m r → l1.length < fuel →
      _ext2_add_to_dir_block_loop buf bl m fuel off = some (some r)
  | [], off, fuel, h, _, hr, hf => by
    obtain ⟨fuel, rfl⟩ : ∃ f, fuel = f + 1 := ⟨fuel - 1, by simp at hf; omega⟩
    have h0 := (records_from_head buf bl r off l2 h).1
    subst h0
    rw [add_loop_step, if_pos hr]
  | o :: l1, off, fuel, h, hn, hr, hf => by
    obtain ⟨fuel, rfl⟩ : ∃ f, fuel = f + 1 := ⟨fuel - 1, by simp at hf; omega⟩
    rw [List.cons_append] at h
    obtain ⟨h0, h3, _, h5⟩ := records_from_head buf bl o off _ h
    subst h0
    have hlt := h5 (by simp)
    rw [add_loop_step, if_neg (hn o (List.mem_cons_self _ _)), if_neg (by omega)]
    exact add_loop_found buf bl m r l2 l1 _ fuel h3
      (fun x hx => hn x (List.mem_cons_of_mem _ hx)) hr (by simp at hf; omega)

theorem add_loop_full (buf : Buf) (bl m : Nat) :
    ∀ (l : List Nat) (off fuel : Nat),
      records_from buf bl off l bl → l ≠ [] →
      (∀ o ∈ l, ¬ has_room buf m o) → l.length ≤ fuel →
      _ext2_add_to_dir_block_loop buf bl m fuel off = some none
  | [], _, _, _, hne, _, _ => absurd rfl hne
  | o :: l, off, fuel, h, _, hn, hf => by
    obtain ⟨fuel, rfl⟩ : ∃ f, fuel = f + 1 := ⟨fuel - 1, by simp at hf; omega⟩
    obtain ⟨h0, h3, h4, h5⟩ := records_from_head buf bl o off _ h
    subst h0
    rw [add_loop_step, if_neg (hn o (List.mem_cons_self _ _))]
    by_cases hl : l = []
    · rw [if_pos (by have := h4 hl; omega)]
    · rw [if_neg (by have := h5 hl; omega)]
      exact add_loop_full buf bl m l _ fuel h3 hl
        (fun x hx => hn x (List.mem_cons_of_mem _ hx)) (by simp at hf; omega)

theorem rm_loop_at_head (buf : Buf) (bl idx t off fuel : Nat) (l2 : List Nat)
    (prev : Option Nat) (h : records_from buf bl off (t :: l2) bl)
    (ht : entry_inode buf t = idx) (hf : 0 < fuel) :
    _ext2_rm_from_dir_block_loop buf bl idx fuel off prev = some (some (t, prev)) := by
  obtain ⟨fuel, rfl⟩ : ∃ f, fuel = f + 1 := ⟨fuel - 1, by omega⟩
  have h0 := (records_from_head buf bl t off l2 h).1
  subst h0
  rw [rm_loop_step, if_pos ht]

theorem rm_loop_found (buf : Buf) (bl idx p t : Nat) (l2 : List Nat) :
    ∀ (l1 : List Nat) (off fuel : Nat) (prev : Option Nat),
      records_from buf bl off (l1 ++ p :: t :: l2) bl →
      (∀ o ∈ l1, entry_inode buf o ≠ idx) → entry_inode buf p ≠ idx →
      entry_inode buf t = idx → l1.length + 1 < fuel →
      _ext2_rm_from_dir_block_loop buf bl idx fuel off prev = some (some (t, some p))
  | [], off, fuel, prev, h, _, hp, ht, hf => by
    obtain ⟨fuel, rfl⟩ : ∃ f, fuel = f + 1 := ⟨fuel - 1, by simp at hf; omega⟩
    obtain ⟨h0, h3, _, h5⟩ := records_from_head buf bl p off _ h
    subst h0
    have hlt := h5 (by simp)
    rw [rm_loop_step, if_neg hp, if_neg (by omega)]
    exact rm_loop_at_head buf bl idx t _ fuel l2 (some p) h3 ht (by simp at hf; omega)
  | o :: l1, off, fuel, prev, h, hn, hp, ht, hf => by
    obtain ⟨fuel, rfl⟩ : ∃ f, fuel = f + 1 := ⟨fuel - 1, by simp at hf; omega⟩
    rw [List.cons_append] at h
    obtain ⟨h0, h3, _, h5⟩ := records_from_head buf bl o off _ h
    subst h0
    have hlt := h5 (by simp)
    rw [rm_loop_step, if_neg (hn o (List.mem_cons_self _ _)), if_neg (by omega)]
    exact rm_loop_found buf bl idx p t l2 l1 _ fuel (some o) h3
      (fun x hx => hn x (List.mem_cons_of_mem _ hx)) hp ht (by simp at hf; omega)

theorem rm_loop_none (buf : Buf) (bl idx : Nat) :
    ∀ (l : List Nat) (off fuel : Nat) (prev : Option Nat),
      records_from buf bl off l bl → l ≠ [] →
      (∀ o ∈ l, entry_inode buf o ≠ idx) → l.length ≤ fuel →
      _ext2_rm_from_dir_block_loop buf bl idx fuel off prev = some none
  | [], _, _, _, _, hne, _, _ => absurd rfl hne
  | o :: l, off, fuel, prev, h, _, hn, hf => by
    obtain ⟨fuel, rfl⟩ : ∃ f, fuel = f + 1 := ⟨fuel - 1, by simp at hf; omega⟩
    obtain ⟨h0, h3, h4, h5⟩ := records_from_head buf bl o off _ h
    subst h0
    rw [rm_loop_step, if_neg (hn o (List.mem_cons_self _ _))]
    by_cases hl : l = []
    · rw [if_pos (by have := h4 hl; omega)]
    · rw [if_neg (by have := h5 hl; omega)]
      exact rm_loop_none buf bl idx l _ fuel (some o) h3 hl
        (fun x hx => hn x (List.mem_cons_of_mem _ hx)) (by simp at hf; omega)

theorem lookup_loop_ends (buf name : Buf) (len bl fi : Nat) :
    ∀ (l : List Nat) (off fuel : Nat),
      records_from buf bl off l bl → l ≠ [] → l.length ≤ fuel →
      (_ext2_lookup_block_loop buf name len bl fi fuel off).isSome = true
  | [], _, _, _, hne, _ => absurd rfl hne
  | o :: l, off, fuel, h, _, hf => by
    obtain ⟨fuel, rfl⟩ : ∃ f, fuel = f + 1 := ⟨fuel - 1, by simp at hf; omega⟩
    obtain ⟨h0, h3, h4, h5⟩ := records_from_head buf bl o off _ h
    subst h0
    rw [lookup_loop_step]
    by_cases c1 : entry_inode buf o = 0
    · rw [if_pos c1]
      rfl
    · rw [if_neg c1]
      by_cases c2 : entry_name_len buf o = len ∧
          is_name_same name buf o (entry_name_len buf o) = true
      · rw [if_pos c2]
        rfl
      · rw [if_neg c2]
        by_cases hl : l = []
        · rw [if_pos (by have := h4 hl; omega)]
          rfl
        · rw [if_neg (by have := h5 hl; omega)]
          exact lookup_loop_ends buf name len bl fi l _ fuel h3 hl (by simp at hf; omega)

theorem count_loop_ends (buf : Buf) (bl : Nat) (hbl : bl < U32) :
    ∀ (l : List Nat) (off fuel : Nat) (result : Int),
      records_from buf bl off l bl → l ≠ [] → l.length ≤ fuel →
      (_ext2_get_dir_entries_count_in_block_loop buf bl fuel off result).isSome = true
  | [], _, _, _, _, hne, _ => absurd rfl hne
  | o :: l, off, fuel, result, h, _, hf => by
    obtain ⟨fuel, rfl⟩ : ∃ f, fuel = f + 1 := ⟨fuel - 1, by simp at hf; omega⟩
    obtain ⟨h0, h3, h4, h5⟩ := records_from_head buf bl o off _ h
    subst h0
    rw [count_loop_step]
    by_cases hl : l = []
    · have e := h4 hl
      rw [e, Nat.mod_eq_of_lt hbl, if_pos (le_refl _)]
      rfl
    · have e := h5 hl
      rw [Nat.mod_eq_of_lt (by omega), if_neg (by omega)]
      exact count_loop_ends buf bl hbl l _ fuel _ h3 hl (by simp at hf; omega)

/-! ## Directory blocks: the buffer written back -/

theorem cur_rec_len_eq (buf : Buf) (o : Nat) :
    (8 + NORM_FILENAME (entry_name_len buf o)) % U32 = 8 + pad4 (entry_name_len buf o) := by
  have h := entry_name_len_lt buf o
  rw [norm_filename_eq _ (by unfold U16 at h; unfold U32; omega)]
  apply Nat.mod_eq_of_lt
  unfold pad4 U32
  unfold U16 at h
  omega

theorem min_rec_len_eq (len : Nat) (hlen : len < U16) :
    (8 + NORM_FILENAME len) % U32 = 8 + pad4 len := by
  rw [norm_filename_eq _ (by unfold U16 at hlen; unfold U32; omega)]
  apply Nat.mod_eq_of_lt
  unfold pad4 U32
  unfold U16 at hlen
  omega

theorem has_room_iff (buf : Buf) (len o : Nat) (hlen : len < U16) :
    has_room buf ((8 + NORM_FILENAME len) % U32) o ↔
      8 + pad4 (entry_name_len buf o) + (8 + pad4 len) ≤ entry_rec_len buf o := by
  unfold has_room
  rw [cur_rec_len_eq, min_rec_len_eq len hlen]
  have h := entry_name_len_lt buf o
  have e : (8 + pad4 (entry_name_len buf o) + (8 + pad4 len)) % U32
      = 8 + pad4 (entry_name_len buf o) + (8 + pad4 len) := by
    apply Nat.mod_eq_of_lt
    unfold pad4 U32
    unfold U16 at h hlen
    omega
  rw [e]

/-- The buffer that `_ext2_rm_from_dir_block` writes back: the record `t` is
folded into the record `p` before it. -/
theorem rm_record_spec (buf : Buf) (bl p t : Nat) (l1 l2 : List Nat) (hbl : bl < U16)
    (h : records_from buf bl 0 (l1 ++ p :: t :: l2) bl) :
    entry_rec_len (rm_record buf t p) p = entry_rec_len buf p + entry_rec_len buf t ∧
    entry_inode (rm_record buf t p) t = 0 ∧
    (∀ i, ¬ (t ≤ i ∧ i < t + 4) → ¬ (p + 4 ≤ i ∧ i < p + 6) → rm_record buf t p i = buf i) ∧
    records_from (rm_record buf t p) bl 0 (l1 ++ p :: l2) bl := by
  obtain ⟨m, hl1, hrest⟩ := (records_from_append buf bl l1 (p :: t :: l2) 0 bl).mp h
  have hm1 := (records_from_bounds buf bl l1 0 m hl1).1
  unfold records_from at hrest
  obtain ⟨hpm, hp1, hp2, hrest⟩ := hrest
  subst hpm
  unfold records_from at hrest
  obtain ⟨htp, ht1, ht2, hl2⟩ := hrest
  rw [← htp] at ht1 ht2 hl2
  have hpad1 : 0 ≤ pad4 (entry_name_len buf p) := Nat.zero_le _
  have hpad2 : 0 ≤ pad4 (entry_name_len buf t) := Nat.zero_le _
  have hother : ∀ i, ¬ (t ≤ i ∧ i < t + 4) → ¬ (p + 4 ≤ i ∧ i < p + 6) →
      rm_record buf t p i = buf i := by
    intro i hi1 hi2
    unfold rm_record
    rw [set_entry_rec_len_other _ _ _ _ (by omega), set_entry_inode_other _ _ _ _ (by omega)]
  have e1 : entry_rec_len (set_entry_inode buf t 0) p = entry_rec_len buf p :=
    entry_rec_len_congr _ _ _ (fun i hi1 hi2 => set_entry_inode_other _ _ _ _ (by omega))
  have e2 : entry_rec_len (set_entry_inode buf t 0) t = entry_rec_len buf t :=
    entry_rec_len_congr _ _ _ (fun i hi1 hi2 => set_entry_inode_other _ _ _ _ (by omega))
  have hs : entry_rec_len buf p + entry_rec_len buf t < U16 := by omega
  have hrl : entry_rec_len (rm_record buf t p) p = entry_rec_len buf p + entry_rec_len buf t := by
    unfold rm_record
    rw [entry_rec_len_set, e1, e2, Nat.mod_eq_of_lt hs, Nat.mod_eq_of_lt hs]
  have hin : entry_inode (rm_record buf t p) t = 0 := by
    have e3 : entry_inode (rm_record buf t p) t = entry_inode (set_entry_inode buf t 0) t := by
      unfold rm_record
      exact entry_inode_congr _ _ _
        (fun i hi1 hi2 => set_entry_rec_len_other _ _ _ _ (by omega))
    rw [e3, entry_inode_set]
    rfl
  have hnl : entry_name_len (rm_record buf t p) p = entry_name_len buf p :=
    entry_name_len_congr _ _ _ (fun i hi1 hi2 => hother i (by omega) (by omega))
  refine ⟨hrl, hin, hother, ?_⟩
  apply (records_from_append _ bl l1 (p :: l2) 0 bl).mpr
  refine ⟨p, ?_, ?_⟩
  · exact records_from_congr buf _ bl l1 0 p
      (fun i hi1 hi2 => hother i (by omega) (by omega)) hl1
  · have e4 : p + (entry_rec_len buf p + entry_rec_len buf t) = t + entry_rec_len buf t := by
      omega
    have htail : records_from (rm_record buf t p) bl (t + entry_rec_len buf t) l2 bl :=
      records_from_congr buf _ bl l2 _ bl
        (fun i hi1 hi2 => hother i (by omega) (by omega)) hl2
    have hgoal : p = p ∧
        8 + pad4 (entry_name_len (rm_record buf t p) p) ≤ entry_rec_len (rm_record buf t p) p ∧
        p + entry_rec_len (rm_record buf t p) p ≤ bl ∧
        records_from (rm_record buf t p) bl (p + entry_rec_len (rm_record buf t p) p) l2 bl := by
      rw [hnl, hrl, e4]
      exact ⟨rfl, by omega, by omega, htail⟩
    unfold records_from
    exact hgoal

theorem records_from_cons (buf : Buf) (bl off o e : Nat) (l : List Nat) :
    records_from buf bl off (o :: l) e ↔
      (o = off ∧ 8 + pad4 (entry_name_len buf off) ≤ entry_rec_len buf off ∧
       off + entry_rec_len buf off ≤ bl ∧
       records_from buf bl (off + entry_rec_len buf off) l e) := Iff.rfl

theorem add_record_eq (buf : Buf) (r idx : Nat) (name : Buf) (len : Nat) (hlen : len < U16) :
    add_record buf r idx name len =
      memset
        (memcpy
          (memcpy (set_entry_rec_len buf r (8 + pad4 (entry_name_len buf r)))
            (r + (8 + pad4 (entry_name_len buf r)))
            (new_entry_bytes idx (entry_rec_len buf r - (8 + pad4 (entry_name_len buf r))) len)
            0 8)
          (r + (8 + pad4 (entry_name_len buf r)) + 8) name 0 len)
        (r + (8 + pad4 (entry_name_len buf r)) + 8 + len) 0 (pad4 len - len) := by
  unfold add_record
  have hl : len + 4 ≤ U32 := by
    unfold U16 at hlen
    unfold U32
    omega
  have hp : pad4 len < U32 := by
    unfold pad4 U32
    unfold U16 at hlen
    omega
  rw [cur_rec_len_eq, norm_filename_eq len hl, sub32_eq _ _ (pad4_ge len) hp]

/-- The buffer that `_ext2_add_to_dir_block` writes back: the record `r` is cut
down to its own size and the new record takes the rest of its room. -/
theorem add_record_spec (buf : Buf) (bl r idx : Nat) (name : Buf) (len : Nat)
    (l1 l2 : List Nat) (hbl : bl < U16) (hlen : len < U16)
    (h : records_from buf bl 0 (l1 ++ r :: l2) bl)
    (hfit : 8 + pad4 (entry_name_len buf r) + (8 + pad4 len) ≤ entry_rec_len buf r) :
    entry_rec_len (add_record buf r idx name len) r = 8 + pad4 (entry_name_len buf r) ∧
    entry_inode (add_record buf r idx name len) (r + (8 + pad4 (entry_name_len buf r)))
      = idx % U32 ∧
    entry_name_len (add_record buf r idx name len) (r + (8 + pad4 (entry_name_len buf r)))
      = len ∧
    entry_rec_len (add_record buf r idx name len) (r + (8 + pad4 (entry_name_len buf r)))
      = entry_rec_len buf r - (8 + pad4 (entry_name_len buf r)) ∧
    (∀ i, i < len →
      add_record buf r idx name len (r + (8 + pad4 (entry_name_len buf r)) + 8 + i) = name i) ∧
    (∀ i, len ≤ i → i < pad4 len →
      add_record buf r idx name len (r + (8 + pad4 (entry_name_len buf r)) + 8 + i) = 0) ∧
    (∀ i, ¬ (r + 4 ≤ i ∧ i < r + 6) →
      ¬ (r + (8 + pad4 (entry_name_len buf r)) ≤ i ∧
         i < r + (8 + pad4 (entry_name_len buf r)) + 8 + pad4 len) →
      add_record buf r idx name len i = buf i) ∧
    records_from (add_record buf r idx name len) bl 0
      (l1 ++ r :: (r + (8 + pad4 (entry_name_len buf r))) :: l2) bl := by
  obtain ⟨m, hl1, hrest⟩ := (records_from_append buf bl l1 (r :: l2) 0 bl).mp h
  obtain ⟨hrm, hr1, hr2, hl2⟩ := (records_from_cons buf bl m r bl l2).mp hrest
  subst hrm
  have hX := add_record_eq buf r idx name len hlen
  generalize add_record buf r idx name len = X at hX ⊢
  generalize hc : 8 + pad4 (entry_name_len buf r) = c at *
  have hpl := pad4_ge len
  have hc8 : 8 ≤ c := by omega
  -- bytes
  have hother : ∀ i, ¬ (r + 4 ≤ i ∧ i < r + 6) → ¬ (r + c ≤ i ∧ i < r + c + 8 + pad4 len) →
      X i = buf i := by
    intro i hi1 hi2
    rw [hX, memset_other _ _ _ _ _ (by omega), memcpy_other _ _ _ _ _ _ (by omega),
      memcpy_other _ _ _ _ _ _ (by omega), set_entry_rec_len_other _ _ _ _ (by omega)]
  have hhead : ∀ i, r + c ≤ i → i < r + c + 8 →
      X i = memcpy (set_entry_rec_len buf r c) (r + c)
        (new_entry_bytes idx (entry_rec_len buf r - c) len) 0 8 i := by
    intro i hi1 hi2
    rw [hX, memset_other _ _ _ _ _ (by omega), memcpy_other _ _ _ _ _ _ (by omega)]
  have hlow : ∀ i, i < r + c → X i = set_entry_rec_len buf r c i := by
    intro i hi
    rw [hX, memset_other _ _ _ _ _ (by omega), memcpy_other _ _ _ _ _ _ (by omega),
      memcpy_other _ _ _ _ _ _ (by omega)]
  have hf := new_entry_fields (set_entry_rec_len buf r c) (r + c) idx
    (entry_rec_len buf r - c) len
  have hrl : entry_rec_len X r = c := by
    rw [entry_rec_len_congr _ X r (fun i hi1 hi2 => hlow i (by omega)), entry_rec_len_set]
    exact Nat.mod_eq_of_lt (by omega)
  have hnl : entry_name_len X r = entry_name_len buf r :=
    entry_name_len_congr _ X r (fun i hi1 hi2 => hother i (by omega) (by omega))
  have hin2 : entry_inode X (r + c) = idx % U32 := by
    rw [entry_inode_congr _ X (r + c) (fun i hi1 hi2 => hhead i (by omega) (by omega))]
    exact hf.1
  have hrl2 : entry_rec_len X (r + c) = entry_rec_len buf r - c := by
    rw [entry_rec_len_congr _ X (r + c) (fun i hi1 hi2 => hhead i (by omega) (by omega)),
      hf.2.1]
    exact Nat.mod_eq_of_lt (by omega)
  have hnl2 : entry_name_len X (r + c) = len := by
    rw [entry_name_len_congr _ X (r + c) (fun i hi1 hi2 => hhead i (by omega) (by omega)),
      hf.2.2]
    exact Nat.mod_eq_of_lt hlen
  have hname : ∀ i, i < len → X (r + c + 8 + i) = name i := by
    intro i hi
    rw [hX, memset_other _ _ _ _ _ (by omega), memcpy_in _ _ _ _ _ _ (by omega)]
    have e : 0 + (r + c + 8 + i - (r + c + 8)) = i := by omega
    rw [e]
  have hpadz : ∀ i, len ≤ i → i < pad4 len → X (r + c + 8 + i) = 0 := by
    intro i hi1 hi2
    rw [hX, memset_in _ _ _ _ _ (by omega)]
  refine ⟨hrl, hin2, hnl2, hrl2, hname, hpadz, hother, ?_⟩
  apply (records_from_append X bl l1 (r :: (r + c) :: l2) 0 bl).mpr
  refine ⟨r, ?_, ?_⟩
  · exact records_from_congr buf X bl l1 0 r
      (fun i hi1 hi2 => hother i (by omega) (by omega)) hl1
  · have htail : records_from X bl (r + entry_rec_len buf r) l2 bl :=
      records_from_congr buf X bl l2 _ bl
        (fun i hi1 hi2 => hother i (by omega) (by omega)) hl2
    apply (records_from_cons X bl r r bl _).mpr
    rw [hnl, hrl]
    refine ⟨rfl, by omega, by omega, ?_⟩
    apply (records_from_cons X bl (r + c) (r + c) bl _).mpr
    rw [hnl2, hrl2]
    have e : r + c + (entry_rec_len buf r - c) = r + entry_rec_len buf r := by omega
    rw [e]
    exact ⟨rfl, by omega, by omega, htail⟩

/-! ## Directory blocks: the calls on the device -/

theorem records_from_mem (buf : Buf) (bl : Nat) :
    ∀ (l : List Nat) (off e o : Nat), records_from buf bl off l e → o ∈ l →
      off ≤ o ∧ o + 8 ≤ e ∧ o + entry_rec_len buf o ≤ e
  | [], _, _, _, _, ho => absurd ho (List.not_mem_nil _)
  | x :: l, off, e, o, h, ho => by
    obtain ⟨h0, h1, _, h3⟩ := (records_from_cons buf bl off x e l).mp h
    have hb := (records_from_bounds buf bl l _ e h3).1
    rcases List.mem_cons.mp ho with ho | ho
    · subst ho
      subst h0
      omega
    · have := records_from_mem buf bl l _ e o h3 ho
      omega

theorem fields_agree (buf buf' : Buf) (n o : Nat) (h : ∀ i, i < n → buf' i = buf i)
    (ho : o + 8 ≤ n) :
    entry_inode buf' o = entry_inode buf o ∧ entry_rec_len buf' o = entry_rec_len buf o ∧
    entry_name_len buf' o = entry_name_len buf o :=
  ⟨entry_inode_congr buf buf' o (fun i _ hi2 => h i (by omega)),
   entry_rec_len_congr buf buf' o (fun i _ hi2 => h i (by omega)),
   entry_name_len_congr buf buf' o (fun i _ hi2 => h i (by omega))⟩

theorem tmp_buf_eq (v : vfs_device_t) (b i : Nat) (hi : i < BLOCK_LEN v.fsdata.sb) :
    _ext2_read_from_dev v.dev zero_buf (_ext2_get_block_offset v.fsdata.sb b)
      (BLOCK_LEN v.fsdata.sb) i = block_buf v b i := by
  rw [read_from_dev_eq]
  dsimp only
  rw [if_pos hi]
  rfl

theorem block_buf_write (v : vfs_device_t) (b : Nat) (X : Buf) (i : Nat)
    (hi : i < BLOCK_LEN v.fsdata.sb) :
    block_buf
      { v with
        dev := _ext2_write_to_dev v.dev X (_ext2_get_block_offset v.fsdata.sb b)
          (BLOCK_LEN v.fsdata.sb) } b i = X i := by
  unfold block_buf
  dsimp only
  rw [write_to_dev_eq]
  dsimp only
  rw [if_pos ⟨by omega, by omega⟩]
  congr 1
  omega

theorem write_outside (dev : Disk) (X : Buf) (bo bl a : Nat) (ha : a < bo ∨ bo + bl ≤ a) :
    _ext2_write_to_dev dev X bo bl a = dev a := by
  rw [write_to_dev_eq]
  dsimp only
  rw [if_neg (by omega)]

theorem efault_ne_zero : -EFAULT ≠ 0 := by decide

theorem add_to_dir_block_of_loop (v : vfs_device_t) (b : Nat) (child : dentry_t) (name : Buf)
    (len : Nat) (hb : b ≠ 0)
    (h0 : entry_inode (_ext2_read_from_dev v.dev zero_buf
      (_ext2_get_block_offset v.fsdata.sb b) (BLOCK_LEN v.fsdata.sb)) 0 ≠ 0) :
    _ext2_add_to_dir_block v b child name len =
      match _ext2_add_to_dir_block_loop
          (_ext2_read_from_dev v.dev zero_buf (_ext2_get_block_offset v.fsdata.sb b)
            (BLOCK_LEN v.fsdata.sb))
          (BLOCK_LEN v.fsdata.sb) ((8 + NORM_FILENAME len) % U32) (BLOCK_LEN v.fsdata.sb) 0 with
      | none => none
      | some none => some (-EFAULT, v)
      | some (some r) =>
        some (0,
          { v with
            dev := _ext2_write_to_dev v.dev
              (add_record (_ext2_read_from_dev v.dev zero_buf
                (_ext2_get_block_offset v.fsdata.sb b) (BLOCK_LEN v.fsdata.sb)) r
                child.inode_indx name len)
              (_ext2_get_block_offset v.fsdata.sb b) (BLOCK_LEN v.fsdata.sb) }) := by
  unfold _ext2_add_to_dir_block
  dsimp only
  rw [if_neg hb, if_neg h0]
  rfl

theorem add_to_dir_block_panics (v : vfs_device_t) (b : Nat) (child : dentry_t) (name : Buf)
    (len : Nat) (hb : b ≠ 0)
    (h0 : entry_inode (_ext2_read_from_dev v.dev zero_buf
      (_ext2_get_block_offset v.fsdata.sb b) (BLOCK_LEN v.fsdata.sb)) 0 = 0) :
    _ext2_add_to_dir_block v b child name len = none := by
  unfold _ext2_add_to_dir_block
  dsimp only
  rw [if_neg hb, if_pos h0]

theorem rm_from_dir_block_of_loop (v : vfs_device_t) (b : Nat) (child : dentry_t)
    (hb : b ≠ 0) :
    _ext2_rm_from_dir_block v b child =
      match _ext2_rm_from_dir_block_loop
          (_ext2_read_from_dev v.dev zero_buf (_ext2_get_block_offset v.fsdata.sb b)
            (BLOCK_LEN v.fsdata.sb))
          (BLOCK_LEN v.fsdata.sb) child.inode_indx (BLOCK_LEN v.fsdata.sb) 0 none with
      | none => none
      | some none => some (-EFAULT, v)
      | some (some (_, none)) => none
      | some (some (t, some p)) =>
        some (0,
          { v with
            dev := _ext2_write_to_dev v.dev
              (rm_record (_ext2_read_from_dev v.dev zero_buf
                (_ext2_get_block_offset v.fsdata.sb b) (BLOCK_LEN v.fsdata.sb)) t p)
              (_ext2_get_block_offset v.fsdata.sb b) (BLOCK_LEN v.fsdata.sb) }) := by
  unfold _ext2_rm_from_dir_block
  dsimp only
  rw [if_neg hb]
  rfl

theorem block_len_lt (sb : superblock_t) (hlog : sb.log_block_size ≤ 2) :
    1024 ≤ BLOCK_LEN sb ∧ BLOCK_LEN sb < U16 := by
  unfold U16
  rcases block_len_cases sb hlog with h | h | h <;> rw [h] <;> omega

/-- An insert into a well-formed block whose first record is in use: the call
returns 0, the first record with room is split and the chain gains the new
record after it. -/
theorem add_to_dir_block_found (v : vfs_device_t) (b : Nat) (child : dentry_t) (name : Buf)
    (len : Nat) (l1 l2 : List Nat) (r : Nat) (hb : b ≠ 0)
    (hlog : v.fsdata.sb.log_block_size ≤ 2) (hlen : len < U16)
    (hidx : child.inode_indx < U32)
    (htile : records_tile (block_buf v b) (BLOCK_LEN v.fsdata.sb) (l1 ++ r :: l2))
    (hfirst : entry_inode (block_buf v b) 0 ≠ 0)
    (hl1 : ∀ o ∈ l1, entry_rec_len (block_buf v b) o <
      8 + pad4 (entry_name_len (block_buf v b) o) + (8 + pad4 len))
    (hr : 8 + pad4 (entry_name_len (block_buf v b) r) + (8 + pad4 len) ≤
      entry_rec_len (block_buf v b) r) :
    ∃ v', _ext2_add_to_dir_block v b child name len = some (0, v') ∧
      v'.fsdata = v.fsdata ∧
      (∀ a, a < _ext2_get_block_offset v.fsdata.sb b ∨
          _ext2_get_block_offset v.fsdata.sb b + BLOCK_LEN v.fsdata.sb ≤ a →
        v'.dev a = v.dev a) ∧
      insert_effect (block_buf v b) (block_buf v' b) (BLOCK_LEN v.fsdata.sb) r
        child.inode_indx name len ∧
      records_tile (block_buf v' b) (BLOCK_LEN v.fsdata.sb)
        (l1 ++ r :: (r + (8 + pad4 (entry_name_len (block_buf v b) r))) :: l2) := by
  obtain ⟨hbl1, hbl2⟩ := block_len_lt v.fsdata.sb hlog
  have hT := tmp_buf_eq v b
  have hW := fun X => block_buf_write v b X
  have hO := fun X => write_outside v.dev X (_ext2_get_block_offset v.fsdata.sb b)
    (BLOCK_LEN v.fsdata.sb)
  have hF := add_to_dir_block_of_loop v b child name len hb
  unfold records_tile at htile ⊢
  generalize _ext2_read_from_dev v.dev zero_buf (_ext2_get_block_offset v.fsdata.sb b)
    (BLOCK_LEN v.fsdata.sb) = T at hT hF
  generalize block_buf v b = B at *
  generalize BLOCK_LEN v.fsdata.sb = bl at *
  have htT : records_from T bl 0 (l1 ++ r :: l2) bl :=
    records_from_congr B T bl _ 0 bl (fun i _ hi => hT i hi) htile
  have hfld : ∀ o, o ∈ l1 ++ r :: l2 →
      entry_inode T o = entry_inode B o ∧ entry_rec_len T o = entry_rec_len B o ∧
      entry_name_len T o = entry_name_len B o := by
    intro o ho
    have := records_from_mem B bl _ 0 bl o htile ho
    exact fields_agree B T bl o hT (by omega)
  have hrin : r ∈ l1 ++ r :: l2 := List.mem_append_right _ (List.mem_cons_self _ _)
  obtain ⟨_, hrr, hrn⟩ := hfld r hrin
  have hrb := records_from_mem B bl _ 0 bl r htile hrin
  have h0T : entry_inode T 0 ≠ 0 := by
    rw [(fields_agree B T bl 0 hT (by omega)).1]
    exact hfirst
  have hroom_r : has_room T ((8 + NORM_FILENAME len) % U32) r := by
    rw [has_room_iff T len r hlen, hrr, hrn]
    exact hr
  have hroom_l1 : ∀ o ∈ l1, ¬ has_room T ((8 + NORM_FILENAME len) % U32) o := by
    intro o ho
    obtain ⟨_, e1, e2⟩ := hfld o (List.mem_append_left _ ho)
    rw [has_room_iff T len o hlen, e1, e2]
    have := hl1 o ho
    omega
  have hlenl : l1.length < bl := by
    have := (records_from_bounds B bl _ 0 bl htile).1
    simp only [List.length_append, List.length_cons] at this
    omega
  have hloop := add_loop_found T bl ((8 + NORM_FILENAME len) % U32) r l2 l1 0 bl htT
    hroom_l1 hroom_r hlenl
  have hS := add_record_spec T bl r child.inode_indx name len l1 l2 hbl2 hlen htT
    (by rw [hrr, hrn]; exact hr)
  rw [hrr, hrn] at hS
  obtain ⟨s1, s2, s3, s4, s5, s6, s7, s8⟩ := hS
  have hpl := pad4_ge len
  refine ⟨{ v with
    dev := _ext2_write_to_dev v.dev (add_record T r child.inode_indx name len)
      (_ext2_get_block_offset v.fsdata.sb b) bl }, ?_, rfl, ?_, ?_, ?_⟩
  · rw [hF h0T, hloop]
  · intro a ha
    exact hO _ a ha
  · generalize add_record T r child.inode_indx name len = X at *
    have hWX := hW X
    generalize block_buf _ b = B' at hWX
    have a1 := fields_agree X B' bl r hWX (by omega)
    have a2 := fields_agree X B' bl (r + (8 + pad4 (entry_name_len B r))) hWX (by omega)
    unfold insert_effect
    refine ⟨by rw [a1.2.1]; exact s1, ?_, by rw [a2.2.2]; exact s3,
      by rw [a2.2.1]; exact s4, ?_, ?_, ?_⟩
    · rw [a2.1, s2]
      exact Nat.mod_eq_of_lt hidx
    · intro i hi
      rw [hWX _ (by omega)]
      exact s5 i hi
    · intro i hi1 hi2
      rw [hWX _ (by omega)]
      exact s6 i hi1 hi2
    · intro i hi h1 h2
      rw [hWX i hi, s7 i h1 h2]
      exact hT i hi
  · exact records_from_congr _ _ bl _ 0 bl (fun i _ hi => hW _ i hi) s8

/-- An insert into a well-formed block none of whose records has room: the call
returns `-EFAULT` and the device is unchanged. -/
theorem add_to_dir_block_full (v : vfs_device_t) (b : Nat) (child : dentry_t) (name : Buf)
    (len : Nat) (l : List Nat) (hb : b ≠ 0)
    (hlog : v.fsdata.sb.log_block_size ≤ 2) (hlen : len < U16)
    (htile : records_tile (block_buf v b) (BLOCK_LEN v.fsdata.sb) l)
    (hfirst : entry_inode (block_buf v b) 0 ≠ 0)
    (hl : ∀ o ∈ l, entry_rec_len (block_buf v b) o <
      8 + pad4 (entry_name_len (block_buf v b) o) + (8 + pad4 len)) :
    _ext2_add_to_dir_block v b child name len = some (-EFAULT, v) := by
  obtain ⟨hbl1, hbl2⟩ := block_len_lt v.fsdata.sb hlog
  have hT := tmp_buf_eq v b
  have hF := add_to_dir_block_of_loop v b child name len hb
  unfold records_tile at htile
  generalize _ext2_read_from_dev v.dev zero_buf (_ext2_get_block_offset v.fsdata.sb b)
    (BLOCK_LEN v.fsdata.sb) = T at hT hF
  generalize block_buf v b = B at *
  generalize BLOCK_LEN v.fsdata.sb = bl at *
  have htT : records_from T bl 0 l bl :=
    records_from_congr B T bl _ 0 bl (fun i _ hi => hT i hi) htile
  have h0T : entry_inode T 0 ≠ 0 := by
    rw [(fields_agree B T bl 0 hT (by omega)).1]
    exact hfirst
  have hne : l ≠ [] := by
    intro hl0
    subst hl0
    unfold records_from at htile
    omega
  have hroom : ∀ o ∈ l, ¬ has_room T ((8 + NORM_FILENAME len) % U32) o := by
    intro o ho
    have hm := records_from_mem B bl _ 0 bl o htile ho
    obtain ⟨_, e1, e2⟩ := fields_agree B T bl o hT (by omega)
    rw [has_room_iff T len o hlen, e1, e2]
    have := hl o ho
    omega
  have hlenl : l.length ≤ bl := by
    have := (records_from_bounds B bl _ 0 bl htile).1
    omega
  rw [hF h0T, add_loop_full T bl _ l 0 bl htT hne hroom hlenl]

/-- A removal from a well-formed block in which the first record with the
inode index of the child is `t` and follows the record `p`: the call returns 0,
`t` is folded into `p` and the chain loses `t`. -/
theorem rm_from_dir_block_found (v : vfs_device_t) (b : Nat) (child : dentry_t)
    (l1 l2 : List Nat) (p t : Nat) (hb : b ≠ 0) (hlog : v.fsdata.sb.log_block_size ≤ 2)
    (htile : records_tile (block_buf v b) (BLOCK_LEN v.fsdata.sb) (l1 ++ p :: t :: l2))
    (hl1 : ∀ o ∈ l1, entry_inode (block_buf v b) o ≠ child.inode_indx)
    (hp : entry_inode (block_buf v b) p ≠ child.inode_indx)
    (ht : entry_inode (block_buf v b) t = child.inode_indx) :
    ∃ v', _ext2_rm_from_dir_block v b child = some (0, v') ∧
      v'.fsdata = v.fsdata ∧
      (∀ a, a < _ext2_get_block_offset v.fsdata.sb b ∨
          _ext2_get_block_offset v.fsdata.sb b + BLOCK_LEN v.fsdata.sb ≤ a →
        v'.dev a = v.dev a) ∧
      remove_effect (block_buf v b) (block_buf v' b) (BLOCK_LEN v.fsdata.sb) p t ∧
      records_tile (block_buf v' b) (BLOCK_LEN v.fsdata.sb) (l1 ++ p :: l2) := by
  obtain ⟨hbl1, hbl2⟩ := block_len_lt v.fsdata.sb hlog
  have hT := tmp_buf_eq v b
  have hW := fun X => block_buf_write v b X
  have hO := fun X => write_outside v.dev X (_ext2_get_block_offset v.fsdata.sb b)
    (BLOCK_LEN v.fsdata.sb)
  have hF := rm_from_dir_block_of_loop v b child hb
  unfold records_tile at htile ⊢
  generalize _ext2_read_from_dev v.dev zero_buf (_ext2_get_block_offset v.fsdata.sb b)
    (BLOCK_LEN v.fsdata.sb) = T at hT hF
  generalize block_buf v b = B at *
  generalize BLOCK_LEN v.fsdata.sb = bl at *
  have htT : records_from T bl 0 (l1 ++ p :: t :: l2) bl :=
    records_from_congr B T bl _ 0 bl (fun i _ hi => hT i hi) htile
  have hfld : ∀ o, o ∈ l1 ++ p :: t :: l2 →
      entry_inode T o = entry_inode B o ∧ entry_rec_len T o = entry_rec_len B o ∧
      entry_name_len T o = entry_name_len B o := by
    intro o ho
    have := records_from_mem B bl _ 0 bl o htile ho
    exact fields_agree B T bl o hT (by omega)
  have hpin : p ∈ l1 ++ p :: t :: l2 := List.mem_append_right _ (List.mem_cons_self _ _)
  have htin : t ∈ l1 ++ p :: t :: l2 :=
    List.mem_append_right _ (List.mem_cons_of_mem _ (List.mem_cons_self _ _))
  obtain ⟨hpi, hpr, _⟩ := hfld p hpin
  obtain ⟨hti, htr, _⟩ := hfld t htin
  have hpb := records_from_mem B bl _ 0 bl p htile hpin
  have htb := records_from_mem B bl _ 0 bl t htile htin
  have hlenl : l1.length + 1 < bl := by
    have := (records_from_bounds B bl _ 0 bl htile).1
    simp only [List.length_append, List.length_cons] at this
    omega
  have hloop := rm_loop_found T bl child.inode_indx p t l2 l1 0 bl none htT
    (fun o ho => by rw [(hfld o (List.mem_append_left _ ho)).1]; exact hl1 o ho)
    (by rw [hpi]; exact hp) (by rw [hti]; exact ht) hlenl
  obtain ⟨s1, s2, s3, s4⟩ := rm_record_spec T bl p t l1 l2 hbl2 htT
  rw [hpr, htr] at s1
  refine ⟨{ v with
    dev := _ext2_write_to_dev v.dev (rm_record T t p)
      (_ext2_get_block_offset v.fsdata.sb b) bl }, ?_, rfl, ?_, ?_, ?_⟩
  · rw [hF, hloop]
  · intro a ha
    exact hO _ a ha
  · generalize rm_record T t p = X at *
    have hWX := hW X
    generalize block_buf _ b = B' at hWX
    have a1 := fields_agree X B' bl p hWX (by omega)
    have a2 := fields_agree X B' bl t hWX (by omega)
    unfold remove_effect
    refine ⟨by rw [a1.2.1]; exact s1, by rw [a2.1]; exact s2, ?_⟩
    intro i hi h1 h2
    rw [hWX i hi, s3 i h1 h2]
    exact hT i hi
  · exact records_from_congr _ _ bl _ 0 bl (fun i _ hi => hW _ i hi) s4

theorem tmp_inode_first (v : vfs_device_t) (b : Nat) (hlog : v.fsdata.sb.log_block_size ≤ 2) :
    entry_inode (_ext2_read_from_dev v.dev zero_buf (_ext2_get_block_offset v.fsdata.sb b)
      (BLOCK_LEN v.fsdata.sb)) 0 = entry_inode (block_buf v b) 0 := by
  obtain ⟨hbl1, _⟩ := block_len_lt v.fsdata.sb hlog
  exact (fields_agree _ _ (BLOCK_LEN v.fsdata.sb) 0 (tmp_buf_eq v b) (by omega)).1

theorem records_tile_ne_nil (buf : Buf) (bl : Nat) (l : List Nat) (hbl : 0 < bl)
    (h : records_tile buf bl l) : l ≠ [] := by
  intro hl
  subst hl
  unfold records_tile records_from at h
  omega

/-- Every successful insert keeps the block well-formed. -/
theorem add_to_dir_block_keeps_tile (v v' : vfs_device_t) (b : Nat) (child : dentry_t)
    (name : Buf) (len : Nat) (l : List Nat) (hb : b ≠ 0)
    (hlog : v.fsdata.sb.log_block_size ≤ 2) (hlen : len < U16)
    (hidx : child.inode_indx < U32)
    (htile : records_tile (block_buf v b) (BLOCK_LEN v.fsdata.sb) l)
    (hok : _ext2_add_to_dir_block v b child name len = some (0, v')) :
    ∃ l', records_tile (block_buf v' b) (BLOCK_LEN v.fsdata.sb) l' := by
  by_cases hfirst : entry_inode (block_buf v b) 0 = 0
  · rw [add_to_dir_block_panics v b child name len hb
      (by rw [tmp_inode_first v b hlog]; exact hfirst)] at hok
    exact absurd hok (by simp)
  · rcases first_split
      (fun o => 8 + pad4 (entry_name_len (block_buf v b) o) + (8 + pad4 len) ≤
        entry_rec_len (block_buf v b) o) l with hno | ⟨l1, r, l2, e, h1, h2⟩
    · rw [add_to_dir_block_full v b child name len l hb hlog hlen htile hfirst
        (fun o ho => Nat.lt_of_not_le (hno o ho))] at hok
      have h0 : -EFAULT = (0 : Int) := congrArg Prod.fst (Option.some.inj hok)
      exact absurd h0 efault_ne_zero
    · subst e
      obtain ⟨v'', hv, _, _, _, ht⟩ := add_to_dir_block_found v b child name len l1 l2 r hb
        hlog hlen hidx htile hfirst (fun o ho => Nat.lt_of_not_le (h1 o ho)) h2
      rw [hv] at hok
      have e2 : v'' = v' := congrArg Prod.snd (Option.some.inj hok)
      subst e2
      exact ⟨_, ht⟩

theorem rm_from_dir_block_first (v : vfs_device_t) (b : Nat) (child : dentry_t)
    (l2 : List Nat) (t : Nat) (hb : b ≠ 0) (hlog : v.fsdata.sb.log_block_size ≤ 2)
    (htile : records_tile (block_buf v b) (BLOCK_LEN v.fsdata.sb) (t :: l2))
    (ht : entry_inode (block_buf v b) t = child.inode_indx) :
    _ext2_rm_from_dir_block v b child = none := by
  obtain ⟨hbl1, hbl2⟩ := block_len_lt v.fsdata.sb hlog
  have hT := tmp_buf_eq v b
  have hF := rm_from_dir_block_of_loop v b child hb
  unfold records_tile at htile
  generalize _ext2_read_from_dev v.dev zero_buf (_ext2_get_block_offset v.fsdata.sb b)
    (BLOCK_LEN v.fsdata.sb) = T at hT hF
  generalize block_buf v b = B at *
  generalize BLOCK_LEN v.fsdata.sb = bl at *
  have htT : records_from T bl 0 (t :: l2) bl :=
    records_from_congr B T bl _ 0 bl (fun i _ hi => hT i hi) htile
  have hm := records_from_mem B bl _ 0 bl t htile (List.mem_cons_self _ _)
  have hti := (fields_agree B T bl t hT (by omega)).1
  rw [hF, rm_loop_at_head T bl child.inode_indx t 0 bl l2 none htT (by rw [hti]; exact ht)
    (by omega)]

theorem rm_from_dir_block_none (v : vfs_device_t) (b : Nat) (child : dentry_t)
    (l : List Nat) (hb : b ≠ 0) (hlog : v.fsdata.sb.log_block_size ≤ 2)
    (htile : records_tile (block_buf v b) (BLOCK_LEN v.fsdata.sb) l)
    (hl : ∀ o ∈ l, entry_inode (block_buf v b) o ≠ child.inode_indx) :
    _ext2_rm_from_dir_block v b child = some (-EFAULT, v) := by
  obtain ⟨hbl1, hbl2⟩ := block_len_lt v.fsdata.sb hlog
  have hne := records_tile_ne_nil _ _ l (by omega) htile
  have hT := tmp_buf_eq v b
  have hF := rm_from_dir_block_of_loop v b child hb
  unfold records_tile at htile
  generalize _ext2_read_from_dev v.dev zero_buf (_ext2_get_block_offset v.fsdata.sb b)
    (BLOCK_LEN v.fsdata.sb) = T at hT hF
  generalize block_buf v b = B at *
  generalize BLOCK_LEN v.fsdata.sb = bl at *
  have htT : records_from T bl 0 l bl :=
    records_from_congr B T bl _ 0 bl (fun i _ hi => hT i hi) htile
  have hn : ∀ o ∈ l, entry_inode T o ≠ child.inode_indx := by
    intro o ho
    have hm := records_from_mem B bl _ 0 bl o htile ho
    rw [(fields_agree B T bl o hT (by omega)).1]
    exact hl o ho
  have hlenl : l.length ≤ bl := by
    have := (records_from_bounds B bl _ 0 bl htile).1
    omega
  rw [hF, rm_loop_none T bl child.inode_indx l 0 bl none htT hne hn hlenl]

/-- Every successful removal keeps the block well-formed. -/
theorem rm_from_dir_block_keeps_tile (v v' : vfs_device_t) (b : Nat) (child : dentry_t)
    (l : List Nat) (hb : b ≠ 0) (hlog : v.fsdata.sb.log_block_size ≤ 2)
    (htile : records_tile (block_buf v b) (BLOCK_LEN v.fsdata.sb) l)
    (hok : _ext2_rm_from_dir_block v b child = some (0, v')) :
    ∃ l', records_tile (block_buf v' b) (BLOCK_LEN v.fsdata.sb) l' := by
  rcases first_split (fun o => entry_inode (block_buf v b) o = child.inode_indx) l with
    hno | ⟨l1, t, l2, e, h1, h2⟩
  · rw [rm_from_dir_block_none v b child l hb hlog htile hno] at hok
    have h0 : -EFAULT = (0 : Int) := congrArg Prod.fst (Option.some.inj hok)
    exact absurd h0 efault_ne_zero
  · subst e
    rcases List.eq_nil_or_concat l1 with hl1 | ⟨L, p, hl1⟩
    · subst hl1
      rw [rm_from_dir_block_first v b child l2 t hb hlog htile h2] at hok
      exact absurd hok (by simp)
    · subst hl1
      rw [List.concat_eq_append] at htile h1
      have e3 : L ++ [p] ++ t :: l2 = L ++ p :: t :: l2 := by simp
      rw [e3] at htile
      obtain ⟨v'', hv, _, _, _, ht⟩ := rm_from_dir_block_found v b child L l2 p t hb hlog
        htile (fun o ho => h1 o (List.mem_append_left _ ho))
        (h1 p (List.mem_append_right _ (List.mem_singleton_self _))) h2
      rw [hv] at hok
      have e2 : v'' = v' := congrArg Prod.snd (Option.some.inj hok)
      subst e2
      exact ⟨_, ht⟩

theorem add_loop_ends (buf : Buf) (bl m : Nat) (l : List Nat) (hne : l ≠ [])
    (h : records_from buf bl 0 l bl) :
    (_ext2_add_to_dir_block_loop buf bl m bl 0).isSome = true := by
  have hlen := (records_from_bounds buf bl l 0 bl h).1
  rcases first_split (fun o => has_room buf m o) l with hno | ⟨l1, r, l2, e, h1, h2⟩
  · rw [add_loop_full buf bl m l 0 bl h hne hno (by omega)]
    rfl
  · subst e
    simp only [List.length_append, List.length_cons] at hlen
    rw [add_loop_found buf bl m r l2 l1 0 bl h h1 h2 (by omega)]
    rfl

theorem rm_loop_ends (buf : Buf) (bl idx : Nat) (l : List Nat) (hne : l ≠ [])
    (h : records_from buf bl 0 l bl) :
    (_ext2_rm_from_dir_block_loop buf bl idx bl 0 none).isSome = true := by
  have hlen := (records_from_bounds buf bl l 0 bl h).1
  rcases first_split (fun o => entry_inode buf o = idx) l with hno | ⟨l1, t, l2, e, h1, h2⟩
  · rw [rm_loop_none buf bl idx l 0 bl none h hne hno (by omega)]
    rfl
  · subst e
    simp only [List.length_append, List.length_cons] at hlen
    rcases List.eq_nil_or_concat l1 with hl1 | ⟨L, p, hl1⟩
    · subst hl1
      rw [rm_loop_at_head buf bl idx t 0 bl l2 none h h2 (by omega)]
      rfl
    · subst hl1
      rw [List.concat_eq_append] at h h1 hlen
      have e3 : L ++ [p] ++ t :: l2 = L ++ p :: t :: l2 := by simp
      rw [e3] at h
      simp only [List.length_append, List.length_cons, List.length_nil] at hlen
      rw [rm_loop_found buf bl idx p t l2 L 0 bl none h
        (fun o ho => h1 o (List.mem_append_left _ ho))
        (h1 p (List.mem_append_right _ (List.mem_singleton_self _))) h2 (by omega)]
      rfl

/-- The block that `_ext2_add_first_entry_to_dir_block` initialises holds one
record whose `rec_len` is the block size. -/
theorem add_first_entry_tile (D : Nat) (v : vfs_device_t) (b : Nat) (child : dentry_t)
    (name : Buf) (len : Nat) (hb : b ≠ 0) (hlog : v.fsdata.sb.log_block_size ≤ 2)
    (hlen : len < U16) (hD : 8 ≤ D) (hfit : 8 + pad4 len ≤ BLOCK_LEN v.fsdata.sb) :
    (_ext2_add_first_entry_to_dir_block D v b child name len).1 = 0 ∧
    entry_rec_len (block_buf (_ext2_add_first_entry_to_dir_block D v b child name len).2 b) 0
      = BLOCK_LEN v.fsdata.sb ∧
    records_tile (block_buf (_ext2_add_first_entry_to_dir_block D v b child name len).2 b)
      (BLOCK_LEN v.fsdata.sb) [0] := by
  obtain ⟨hbl1, hbl2⟩ := block_len_lt v.fsdata.sb hlog
  have hpl := pad4_ge len
  have hE : _ext2_add_first_entry_to_dir_block D v b child name len =
      (0, { v with
        dev := _ext2_write_to_dev v.dev
          (memset
            (memcpy
              (memcpy
                (_ext2_read_from_dev v.dev zero_buf (_ext2_get_block_offset v.fsdata.sb b) D)
                0 (new_entry_bytes child.inode_indx (BLOCK_LEN v.fsdata.sb) len) 0 8)
              8 name 0 len)
            (8 + len) 0 (sub32 (NORM_FILENAME len) len))
          (_ext2_get_block_offset v.fsdata.sb b) D }) := by
    unfold _ext2_add_first_entry_to_dir_block
    dsimp only
    rw [if_neg hb]
  rw [hE]
  generalize _ext2_read_from_dev v.dev zero_buf (_ext2_get_block_offset v.fsdata.sb b) D = T
  have hf := new_entry_fields T 0 child.inode_indx (BLOCK_LEN v.fsdata.sb) len
  generalize hX : memset (memcpy (memcpy T 0
    (new_entry_bytes child.inode_indx (BLOCK_LEN v.fsdata.sb) len) 0 8) 8 name 0 len)
    (8 + len) 0 (sub32 (NORM_FILENAME len) len) = X
  have hhead : ∀ i, i < 8 → X i = memcpy T 0
      (new_entry_bytes child.inode_indx (BLOCK_LEN v.fsdata.sb) len) 0 8 i := by
    intro i hi
    rw [← hX, memset_other _ _ _ _ _ (by omega), memcpy_other _ _ _ _ _ _ (by omega)]
  have hB : ∀ i, i < 8 →
      block_buf { v with
        dev := _ext2_write_to_dev v.dev X (_ext2_get_block_offset v.fsdata.sb b) D } b i
        = X i := by
    intro i hi
    unfold block_buf
    dsimp only
    rw [write_to_dev_eq]
    dsimp only
    rw [if_pos ⟨by omega, by omega⟩]
    congr 1
    omega
  generalize block_buf { v with
    dev := _ext2_write_to_dev v.dev X (_ext2_get_block_offset v.fsdata.sb b) D } b = B' at hB
  have hrl : entry_rec_len B' 0 = BLOCK_LEN v.fsdata.sb := by
    rw [entry_rec_len_congr X B' 0 (fun i _ hi => hB i (by omega)),
      entry_rec_len_congr _ X 0 (fun i _ hi => hhead i (by omega)), hf.2.1]
    exact Nat.mod_eq_of_lt hbl2
  have hnl : entry_name_len B' 0 = len := by
    rw [entry_name_len_congr X B' 0 (fun i _ hi => hB i (by omega)),
      entry_name_len_congr _ X 0 (fun i _ hi => hhead i (by omega)), hf.2.2]
    exact Nat.mod_eq_of_lt hlen
  refine ⟨rfl, hrl, ?_⟩
  unfold records_tile
  apply (records_from_cons B' _ 0 0 _ []).mpr
  rw [hnl, hrl]
  refine ⟨rfl, by omega, by omega, ?_⟩
  unfold records_from
  omega

/-! ## Directory blocks: insert, remove, well-formedness -/

/-- C13, amended: on a well-formed block (chain `l`) that fits the block buffer
(`BLOCK_LEN(sb) ≤ MAX_BLOCK_LEN`, blocks of 1 KiB) and whose first record is in
use, `_ext2_add_to_dir_block(block, child, name, len)` with a name shorter than
2^16 takes the first record `r` in chain order with
`rec_len ≥ (8 + pad4(name_len)) + (8 + pad4(len))`, returns 0, cuts `r` down to
`8 + pad4(name_len)` and writes right after it a new record with the inode index
of the child, `name_len = len`, the name, zero padding and the rest of the old
`rec_len` of `r`; every other byte of the block and of the device is unchanged
and the chain gains the new record after `r`.  When no record has room the call
returns `-EFAULT` and nothing is written. -/
theorem add_to_dir_block_contract (v : vfs_device_t) (b : Nat) (child : dentry_t) (name : Buf)
    (len : Nat) (l : List Nat) (hb : b ≠ 0) (hbuf : BLOCK_LEN v.fsdata.sb ≤ MAX_BLOCK_LEN)
    (hlen : len < U16) (hidx : child.inode_indx < U32)
    (htile : records_tile (block_buf v b) (BLOCK_LEN v.fsdata.sb) l)
    (hfirst : entry_inode (block_buf v b) 0 ≠ 0) :
    (∀ l1 r l2, l = l1 ++ r :: l2 →
      (∀ o ∈ l1, entry_rec_len (block_buf v b) o <
        8 + pad4 (entry_name_len (block_buf v b) o) + (8 + pad4 len)) →
      8 + pad4 (entry_name_len (block_buf v b) r) + (8 + pad4 len) ≤
        entry_rec_len (block_buf v b) r →
      ∃ v', _ext2_add_to_dir_block v b child name len = some (0, v') ∧
        v'.fsdata = v.fsdata ∧
        (∀ a, a < _ext2_get_block_offset v.fsdata.sb b ∨
            _ext2_get_block_offset v.fsdata.sb b + BLOCK_LEN v.fsdata.sb ≤ a →
          v'.dev a = v.dev a) ∧
        insert_effect (block_buf v b) (block_buf v' b) (BLOCK_LEN v.fsdata.sb) r
          child.inode_indx name len ∧
        records_tile (block_buf v' b) (BLOCK_LEN v.fsdata.sb)
          (l1 ++ r :: (r + (8 + pad4 (entry_name_len (block_buf v b) r))) :: l2)) ∧
    ((∀ o ∈ l, entry_rec_len (block_buf v b) o <
        8 + pad4 (entry_name_len (block_buf v b) o) + (8 + pad4 len)) →
      _ext2_add_to_dir_block v b child name len = some (-EFAULT, v)) := by
  have hlog := (block_fits v.fsdata.sb hbuf).1
  refine ⟨?_, ?_⟩
  · intro l1 r l2 e h1 h2
    subst e
    exact add_to_dir_block_found v b child name len l1 l2 r hb hlog hlen hidx htile hfirst
      h1 h2
  · intro hl
    exact add_to_dir_block_full v b child name len l hb hlog hlen htile hfirst hl

/-- Witness of C13 on the root directory block of `vfs_root` (records `.` and
`..` with `rec_len` 12 and 1012): the record `a` of inode 13 goes after `..`. -/
theorem add_to_dir_block_contract_witness :
    (9 : Nat) ≠ 0 ∧ BLOCK_LEN vfs_root.fsdata.sb ≤ MAX_BLOCK_LEN ∧ 1 < U16 ∧
    dentry_a.inode_indx < U32 ∧
    records_tile (block_buf vfs_root 9) (BLOCK_LEN vfs_root.fsdata.sb) [0, 12] ∧
    entry_inode (block_buf vfs_root 9) 0 ≠ 0 ∧
    ∃ v', _ext2_add_to_dir_block vfs_root 9 dentry_a (name_buf [97]) 1 = some (0, v') ∧
      v'.fsdata = vfs_root.fsdata ∧
      (∀ a, a < _ext2_get_block_offset vfs_root.fsdata.sb 9 ∨
          _ext2_get_block_offset vfs_root.fsdata.sb 9 + BLOCK_LEN vfs_root.fsdata.sb ≤ a →
        v'.dev a = vfs_root.dev a) ∧
      insert_effect (block_buf vfs_root 9) (block_buf v' 9) (BLOCK_LEN vfs_root.fsdata.sb) 12
        dentry_a.inode_indx (name_buf [97]) 1 ∧
      records_tile (block_buf v' 9) (BLOCK_LEN vfs_root.fsdata.sb)
        ([0] ++ 12 :: (12 + (8 + pad4 (entry_name_len (block_buf vfs_root 9) 12))) :: []) :=
  ⟨by decide, by decide, by decide, by decide, by decide, by decide,
   (add_to_dir_block_contract vfs_root 9 dentry_a (name_buf [97]) 1 [0, 12] (by decide)
      (by decide) (by decide) (by decide) (by decide) (by decide)).1 [0] 12 [] rfl
      (by decide) (by decide)⟩

/-- C13 as stated fails: a block whose only record is not in use (inode 0,
`rec_len` 1024) is well-formed and the record has room for the new one, but the
call does not return: it stops in `kpanic`. -/
theorem add_to_dir_block_unused_first_record :
    records_tile (block_buf vfs_unused 9) (BLOCK_LEN vfs_unused.fsdata.sb) [0] ∧
    8 + pad4 (entry_name_len (block_buf vfs_unused 9) 0) + (8 + pad4 1) ≤
      entry_rec_len (block_buf vfs_unused 9) 0 ∧
    entry_inode (block_buf vfs_unused 9) 0 = 0 ∧
    _ext2_add_to_dir_block vfs_unused 9 dentry_a (name_buf [97]) 1 = none :=
  ⟨by decide, by decide, by decide,
   add_to_dir_block_panics vfs_unused 9 dentry_a (name_buf [97]) 1 (by decide) (by decide)⟩

theorem read_sectors_mem (s : Nat) :
    ∀ (fuel sector so len : Nat), len ≤ fuel → so < 512 →
      (s ∈ _ext2_read_from_dev_sectors fuel sector so len ↔
        (0 < len ∧ sector ≤ s ∧ s * 512 < sector * 512 + so + len)) := by
  intro fuel
  induction fuel with
  | zero =>
    intro sector so len hl _
    have : len = 0 := by omega
    subst this
    unfold _ext2_read_from_dev_sectors
    simp
  | succ fuel ih =>
    intro sector so len hl hso
    unfold _ext2_read_from_dev_sectors
    by_cases h0 : len = 0
    · subst h0
      simp
    · rw [if_neg h0]
      dsimp only
      rw [List.mem_cons, ih (sector + 1) 0 (len - min (512 - so) len) (by omega) (by omega)]
      by_cases hc : 512 - so ≤ len
      · rw [Nat.min_eq_left hc]
        omega
      · rw [Nat.min_eq_right (by omega)]
        omega

/-- C22: for every start and every length that the `int` counter of the loop can
hold, `_ext2_read_from_dev(vfsdev, buf, start, len)` ends, leaves in
`buf[0..len)` exactly the device bytes `[start, start + len)`, whatever the
alignment, leaves the rest of the buffer alone, and calls the driver's `read`
exactly for the sectors `start / 512, ..., (start + len - 1) / 512`.  The device
is an input of the call only. -/
theorem read_from_dev_contract (dev : Disk) (buf : Buf) (start len : Nat)
    (_ : len ≤ INT_MAX) :
    (_ext2_read_from_dev_loop dev len buf 0 (start / 512) (start % 512) len).isSome = true ∧
    (∀ i, i < len → _ext2_read_from_dev dev buf start len i = dev (start + i)) ∧
    (∀ i, len ≤ i → _ext2_read_from_dev dev buf start len i = buf i) ∧
    (∀ s, s ∈ _ext2_read_from_dev_sectors len (start / 512) (start % 512) len ↔
      (0 < len ∧ start / 512 ≤ s ∧ s ≤ (start + len - 1) / 512)) := by
  have hso : start % 512 < 512 := Nat.mod_lt _ (by decide)
  refine ⟨?_, ?_, ?_, ?_⟩
  · rw [read_loop_spec dev len buf 0 (start / 512) (start % 512) len (le_refl _) hso]
    rfl
  · intro i hi
    rw [read_from_dev_eq]
    dsimp only
    rw [if_pos hi]
  · intro i hi
    rw [read_from_dev_eq]
    dsimp only
    rw [if_neg (by omega)]
  · intro s
    rw [read_sectors_mem s len (start / 512) (start % 512) len (le_refl _) hso]
    have hm := Nat.div_add_mod start 512
    constructor
    · rintro ⟨h1, h2, h3⟩
      refine ⟨h1, h2, ?_⟩
      rw [Nat.le_div_iff_mul_le (by decide)]
      omega
    · rintro ⟨h1, h2, h3⟩
      rw [Nat.le_div_iff_mul_le (by decide)] at h3
      exact ⟨h1, h2, by omega⟩

/-- Witness of C22: three bytes read across the boundary of the sectors 2 and
3. -/
theorem read_from_dev_contract_witness :
    3 ≤ INT_MAX ∧
    (∀ i, i < 3 → _ext2_read_from_dev dev_root zero_buf 1535 3 i = dev_root (1535 + i)) ∧
    (∀ s, s ∈ _ext2_read_from_dev_sectors 3 (1535 / 512) (1535 % 512) 3 ↔
      (0 < 3 ∧ 1535 / 512 ≤ s ∧ s ≤ (1535 + 3 - 1) / 512)) :=
  ⟨by decide,
   (read_from_dev_contract dev_root zero_buf 1535 3 (by decide)).2.1,
   (read_from_dev_contract dev_root zero_buf 1535 3 (by decide)).2.2.2⟩

/-- C21: for every start and every length that the `int` counter of the loop can
hold, the loop of `_ext2_write_to_dev(vfsdev, buf, start, len)` ends; afterwards
the device bytes `[start, start + len)` are `buf[0..len)` and every other byte
of the device, the head of the first sector and the tail of the last one
included, is what it was. -/
theorem write_to_dev_contract (dev : Disk) (buf : Buf) (start len : Nat)
    (_ : len ≤ INT_MAX) :
    (_ext2_write_to_dev_loop buf len dev zero_buf 0 (start / 512) (start % 512) len).isSome
      = true ∧
    (∀ a, start ≤ a → a < start + len →
      _ext2_write_to_dev dev buf start len a = buf (a - start)) ∧
    (∀ a, a < start ∨ start + len ≤ a → _ext2_write_to_dev dev buf start len a = dev a) := by
  have hso : start % 512 < 512 := Nat.mod_lt _ (by decide)
  refine ⟨?_, ?_, ?_⟩
  · rw [write_loop_spec buf len dev zero_buf 0 (start / 512) (start % 512) len (le_refl _) hso]
    rfl
  · intro a h1 h2
    rw [write_to_dev_eq]
    dsimp only
    rw [if_pos ⟨h1, h2⟩]
  · intro a ha
    rw [write_to_dev_eq]
    dsimp only
    rw [if_neg (by omega)]

/-- Witness of C21: three bytes written across the boundary of the sectors 2 and
3. -/
theorem write_to_dev_contract_witness :
    3 ≤ INT_MAX ∧
    (_ext2_write_to_dev_loop buf_A 3 dev_root zero_buf 0 (1535 / 512) (1535 % 512) 3).isSome
      = true ∧
    (∀ a, 1535 ≤ a → a < 1535 + 3 →
      _ext2_write_to_dev dev_root buf_A 1535 3 a = buf_A (a - 1535)) ∧
    (∀ a, a < 1535 ∨ 1535 + 3 ≤ a → _ext2_write_to_dev dev_root buf_A 1535 3 a = dev_root a) :=
  ⟨by decide, write_to_dev_contract dev_root buf_A 1535 3 (by decide)⟩

/-! ## The on-stack block buffers -/

/-- C27 at a failing input: with 2 KiB blocks (`log_block_size = 1`) the block
size is 2048, twice `MAX_BLOCK_LEN`.  The transfer of the block bitmap in
`_ext2_find_free_block_index` fills the indices up to 2047 of the buffer
`block_bitmap[MAX_BLOCK_LEN]` (index 1500 receives the device byte 6620), and the
bit index 8192, which is below `8 * blocklen`, addresses byte 1024, the first
byte behind the buffer.  With 4 KiB blocks the block size is 4096.  Only 1 KiB
blocks fit. -/
theorem block_buffer_too_small :
    sb_2k.log_block_size = 1 ∧ BLOCK_LEN sb_2k = 2048 ∧ MAX_BLOCK_LEN = 1024 ∧
    ¬ (BLOCK_LEN sb_2k ≤ MAX_BLOCK_LEN) ∧
    _ext2_get_block_offset vfs_2k.fsdata.sb (vfs_2k.fsdata.gt.table 0).block_bitmap = 5120 ∧
    MAX_BLOCK_LEN ≤ 1500 ∧
    (_ext2_read_from_dev vfs_2k.dev zero_buf
      (_ext2_get_block_offset vfs_2k.fsdata.sb (vfs_2k.fsdata.gt.table 0).block_bitmap)
      (BLOCK_LEN vfs_2k.fsdata.sb) 1500).val = 255 ∧
    8192 < 8 * BLOCK_LEN sb_2k ∧ MAX_BLOCK_LEN ≤ 8192 / 8 ∧
    BLOCK_LEN { sb_2k with log_block_size := 2 } = 4096 ∧
    BLOCK_LEN sb_1k = 1024 ∧ (∀ off, off < 8 * BLOCK_LEN sb_1k → off / 8 < MAX_BLOCK_LEN) := by
  refine ⟨rfl, by decide, rfl, by decide, by decide, by decide, by decide, by decide,
    by decide, by decide, by decide, ?_⟩
  intro off h
  have e : BLOCK_LEN sb_1k = 1024 := by decide
  rw [e] at h
  unfold MAX_BLOCK_LEN
  omega

/-! ## File mode -/

theorem and_high_mask (x : Nat) (hx : x < 2 ^ 32) : x &&& 4294963200 = x / 4096 * 4096 := by
  have e1 : (4294963200 : Nat) = (2 ^ 20 - 1) <<< 12 := by decide
  have e2 : x / 4096 * 4096 = (x >>> 12) <<< 12 := by
    rw [Nat.shiftRight_eq_div_pow, Nat.shiftLeft_eq]
  rw [e1, e2]
  apply Nat.eq_of_testBit_eq
  intro i
  rw [Nat.testBit_and, Nat.testBit_shiftLeft, Nat.testBit_shiftLeft,
    Nat.testBit_two_pow_sub_one, Nat.testBit_shiftRight]
  by_cases h12 : i ≥ 12
  · have e3 : 12 + (i - 12) = i := by omega
    rw [e3]
    by_cases h32 : i < 32
    · simp [h12, show i - 12 < 20 by omega]
    · have hf : x.testBit i = false :=
        Nat.testBit_lt_two_pow (Nat.lt_of_lt_of_le hx (Nat.pow_le_pow_right (by decide)
          (by omega)))
      simp [hf]
  · simp [h12]

/-- C26: `ext2_fchmod(file, mode)` returns `-EPERM` exactly when the uid of the
inode differs from the euid of the caller and the caller is not superuser, and
then the dentry is unchanged; otherwise it returns 0, the new mode is
`(old_mode & ~07777) | (mode & 07777)`, whose bits above `07777` are those of
the old mode and whose low 12 bits are those of `mode`, the dentry is marked
dirty and nothing else of the inode changes. -/
theorem fchmod_contract (euid : Nat) (is_su : Bool) (d : dentry_t) (mode : Nat)
    (hmode : d.inode.mode < U32) :
    ((ext2_fchmod euid is_su d mode).1 = -EPERM ↔ (d.inode.uid ≠ euid ∧ is_su = false)) ∧
    ((ext2_fchmod euid is_su d mode).1 = -EPERM → (ext2_fchmod euid is_su d mode).2 = d) ∧
    (¬ (d.inode.uid ≠ euid ∧ is_su = false) →
      (ext2_fchmod euid is_su d mode).1 = 0 ∧
      (ext2_fchmod euid is_su d mode).2.inode.mode
        = (d.inode.mode &&& 4294963200) ||| (mode &&& 4095) ∧
      (ext2_fchmod euid is_su d mode).2.inode.mode / 4096 = d.inode.mode / 4096 ∧
      (ext2_fchmod euid is_su d mode).2.inode.mode % 4096 = mode % 4096 ∧
      (ext2_fchmod euid is_su d mode).2.dirty = true ∧
      (ext2_fchmod euid is_su d mode).2 =
        { d with
          dirty := true,
          inode := { d.inode with
            mode := (ext2_fchmod euid is_su d mode).2.inode.mode } }) := by
  by_cases h : d.inode.uid ≠ euid ∧ is_su = false
  · have e : ext2_fchmod euid is_su d mode = (-EPERM, d) := by
      unfold ext2_fchmod
      rw [if_pos h]
    rw [e]
    exact ⟨⟨fun _ => h, fun _ => rfl⟩, fun _ => rfl, fun hn => absurd h hn⟩
  · have e : ext2_fchmod euid is_su d mode =
        (0, { d with
          dirty := true,
          inode := { d.inode with
            mode := (d.inode.mode &&& 4294963200) ||| (mode &&& 4095) } }) := by
      unfold ext2_fchmod
      rw [if_neg h]
    rw [e]
    have hne : ¬ ((0 : Int) = -EPERM) := by decide
    refine ⟨⟨fun h0 => absurd h0 hne, fun h1 => absurd h1 h⟩, fun h0 => absurd h0 hne, ?_⟩
    intro _
    have e1 : d.inode.mode &&& 4294963200 = d.inode.mode / 4096 * 4096 :=
      and_high_mask _ (by unfold U32 at hmode; omega)
    have e2 : mode &&& 4095 = mode % 4096 := Nat.and_pow_two_sub_one_eq_mod mode 12
    have e3 : (d.inode.mode &&& 4294963200) ||| (mode &&& 4095)
        = d.inode.mode / 4096 * 4096 + mode % 4096 := by
      rw [e1, e2]
      have hlt : mode % 4096 < 2 ^ 12 := Nat.mod_lt _ (by decide)
      have e4 : d.inode.mode / 4096 * 4096 = 2 ^ 12 * (d.inode.mode / 4096) := by ring
      rw [e4]
      exact (Nat.mul_add_lt_is_or hlt (d.inode.mode / 4096)).symm
    refine ⟨rfl, rfl, ?_, ?_, rfl, rfl⟩
    · show ((d.inode.mode &&& 4294963200) ||| (mode &&& 4095)) / 4096 = d.inode.mode / 4096
      rw [e3]
      omega
    · show ((d.inode.mode &&& 4294963200) ||| (mode &&& 4095)) % 4096 = mode % 4096
      rw [e3]
      omega

/-- Witness of C26: the owner of a regular file with mode `0100644` sets the
mode `0755`; the result is `0100755`. -/
theorem fchmod_contract_witness :
    dentry_empty.inode.mode < U32 ∧
    (ext2_fchmod 0 false dentry_empty 493).1 = 0 ∧
    (ext2_fchmod 0 false dentry_empty 493).2.inode.mode = 33261 ∧
    ((ext2_fchmod 7 false dentry_empty 493).1 = -EPERM ↔
      (dentry_empty.inode.uid ≠ 7 ∧ false = false)) :=
  ⟨by decide, by decide, by decide,
   (fchmod_contract 7 false dentry_empty 493 (by decide)).1⟩

/-! ## Mounting -/

theorem buf_u16_read (dev : Disk) (buf : Buf) (start len off : Nat) (h : off + 2 ≤ len) :
    buf_u16 (_ext2_read_from_dev dev buf start len) off = dev_u16 dev (start + off) := by
  rw [read_from_dev_eq]
  unfold buf_u16 dev_u16
  dsimp only
  rw [if_pos (by omega), if_pos (by omega)]
  rfl

theorem buf_u32_read (dev : Disk) (buf : Buf) (start len off : Nat) (h : off + 4 ≤ len) :
    buf_u32 (_ext2_read_from_dev dev buf start len) off = dev_u32 dev (start + off) := by
  rw [read_from_dev_eq]
  unfold buf_u32 dev_u32
  dsimp only
  rw [if_pos (by omega), if_pos (by omega), if_pos (by omega), if_pos (by omega)]
  rfl

/-- C23: `ext2_recognize_drive` returns 0 exactly when the superblock at byte
1024 of the device has `magic = 0xEF53` (the 16-bit word at byte 1024 + 56) and
`rev_level = 0` (the 32-bit word at byte 1024 + 76); for every other content it
returns `-EINVAL`; the device is what it was in both cases. -/
theorem recognize_drive_contract (SUPERBLOCK_LEN : Nat) (dev : Disk)
    (hlen : 80 ≤ SUPERBLOCK_LEN) :
    ((ext2_recognize_drive SUPERBLOCK_LEN dev).1 = 0 ↔
      (dev_u16 dev (SUPERBLOCK_START + 56) = 0xEF53 ∧
       dev_u32 dev (SUPERBLOCK_START + 76) = 0)) ∧
    (¬ (dev_u16 dev (SUPERBLOCK_START + 56) = 0xEF53 ∧
        dev_u32 dev (SUPERBLOCK_START + 76) = 0) →
      (ext2_recognize_drive SUPERBLOCK_LEN dev).1 = -EINVAL) ∧
    (ext2_recognize_drive SUPERBLOCK_LEN dev).2 = dev := by
  have hm := buf_u16_read dev zero_buf SUPERBLOCK_START SUPERBLOCK_LEN 56 (by omega)
  have hr := buf_u32_read dev zero_buf SUPERBLOCK_START SUPERBLOCK_LEN 76 (by omega)
  have hne : ¬ (-EINVAL = (0 : Int)) := by decide
  unfold ext2_recognize_drive sb_magic sb_rev_level
  dsimp only
  rw [hm, hr]
  by_cases h1 : dev_u16 dev (SUPERBLOCK_START + 56) = 0xEF53
  · by_cases h2 : dev_u32 dev (SUPERBLOCK_START + 76) = 0
    · rw [if_neg (fun h => h h1), if_neg (fun h => h h2)]
      exact ⟨⟨fun _ => ⟨h1, h2⟩, fun _ => rfl⟩, fun h => absurd ⟨h1, h2⟩ h, rfl⟩
    · rw [if_neg (fun h => h h1), if_pos h2]
      exact ⟨⟨fun h => absurd h hne, fun h => absurd h.2 h2⟩, fun _ => rfl, rfl⟩
  · rw [if_pos h1]
    exact ⟨⟨fun h => absurd h hne, fun h => absurd h.1 h1⟩, fun _ => rfl, rfl⟩

/-- Witness of C23: a device with the magic and `rev_level` 0 is recognised, the
same device with `rev_level` 1 is not. -/
theorem recognize_drive_contract_witness :
    80 ≤ 1024 ∧
    (ext2_recognize_drive 1024 dev_ext2).1 = 0 ∧
    (ext2_recognize_drive 1024 dev_rev1).1 = -EINVAL ∧
    ((ext2_recognize_drive 1024 dev_ext2).1 = 0 ↔
      (dev_u16 dev_ext2 (SUPERBLOCK_START + 56) = 0xEF53 ∧
       dev_u32 dev_ext2 (SUPERBLOCK_START + 76) = 0)) :=
  ⟨by decide, by decide, by decide, (recognize_drive_contract 1024 dev_ext2 (by decide)).1⟩

theorem write_back_same (dev : Disk) (buf : Buf) (start len : Nat)
    (h : ∀ i, i < len → buf i = dev (start + i)) :
    _ext2_write_to_dev dev buf start len = dev := by
  rw [write_to_dev_eq]
  funext a
  by_cases ha : start ≤ a ∧ a < start + len
  · rw [if_pos ha, h (a - start) (by omega)]
    congr 1
    omega
  · rw [if_neg ha]

theorem is_name_same_iff (name buf : Buf) (o : Nat) :
    ∀ n, is_name_same name buf o n = true ↔ ∀ i, i < n → name i = buf (o + 8 + i)
  | 0 => by
    unfold is_name_same
    exact ⟨fun _ i hi => absurd hi (Nat.not_lt_zero i), fun _ => rfl⟩
  | n + 1 => by
    unfold is_name_same
    rw [Bool.and_eq_true, is_name_same_iff name buf o n, decide_eq_true_iff]
    constructor
    · rintro ⟨h1, h2⟩ i hi
      rcases Nat.lt_succ_iff_lt_or_eq.mp hi with h | h
      · exact h1 i h
      · rw [h]
        exact h2
    · intro h
      exact ⟨fun i hi => h i (Nat.lt_succ_of_lt hi), h n (Nat.lt_succ_self n)⟩

theorem lookup_loop_spec (B T name : Buf) (len bl fi : Nat) (hT : ∀ i, i < bl → T i = B i) :
    ∀ (l : List Nat) (off fuel : Nat),
      records_from B bl off l bl → l ≠ [] → l.length ≤ fuel →
      _ext2_lookup_block_loop T name len bl fi fuel off =
        some (match match_before_unused B name len l with
              | some idx => (0, idx)
              | none => (-EFAULT, fi))
  | [], _, _, _, hne, _ => absurd rfl hne
  | o :: l, off, fuel, h, _, hf => by
    obtain ⟨fuel, rfl⟩ : ∃ f, fuel = f + 1 := ⟨fuel - 1, by simp at hf; omega⟩
    obtain ⟨h0, h3, h4, h5⟩ := records_from_head B bl o off _ h
    obtain ⟨_, h1, h2, _⟩ := (records_from_cons B bl off o bl l).mp h
    subst h0
    have hp := pad4_ge (entry_name_len B o)
    obtain ⟨fi1, fi2, fi3⟩ := fields_agree B T bl o hT (by omega)
    have hnm : (entry_name_len T o = len ∧
        is_name_same name T o (entry_name_len T o) = true) ↔ name_matches B name len o := by
      unfold name_matches
      rw [fi3, is_name_same_iff]
      constructor
      · rintro ⟨e, hs⟩
        refine ⟨e, fun i hi => ?_⟩
        rw [← hT (o + 8 + i) (by omega)]
        exact hs i (by omega)
      · rintro ⟨e, hs⟩
        refine ⟨e, fun i hi => ?_⟩
        rw [hT (o + 8 + i) (by omega)]
        exact hs i (by omega)
    rw [lookup_loop_step, fi1, fi2]
    unfold match_before_unused
    by_cases c1 : entry_inode B o = 0
    · rw [if_pos c1, if_pos c1]
    · rw [if_neg c1, if_neg c1]
      by_cases c2 : name_matches B name len o
      · rw [if_pos (hnm.mpr c2), if_pos c2]
      · rw [if_neg (fun hc => c2 (hnm.mp hc)), if_neg c2]
        by_cases hl : l = []
        · rw [if_pos (by have := h4 hl; omega)]
          subst hl
          rfl
        · rw [if_neg (by have := h5 hl; omega)]
          exact lookup_loop_spec B T name len bl fi hT l _ fuel h3 hl (by simp at hf; omega)

theorem lookup_block_spec (v : vfs_device_t) (b : Nat) (name : Buf) (len fi : Nat)
    (l : List Nat) (hb : b ≠ 0) (hlog : v.fsdata.sb.log_block_size ≤ 2)
    (htile : records_tile (block_buf v b) (BLOCK_LEN v.fsdata.sb) l) :
    _ext2_lookup_block v b name len fi =
      some (match match_before_unused (block_buf v b) name len l with
            | some idx => (0, idx)
            | none => (-EFAULT, fi)) := by
  obtain ⟨hbl1, hbl2⟩ := block_len_lt v.fsdata.sb hlog
  have hne := records_tile_ne_nil _ _ l (by omega) htile
  have hlenl : l.length ≤ BLOCK_LEN v.fsdata.sb := by
    have := (records_from_bounds _ _ _ 0 _ htile).1
    omega
  unfold _ext2_lookup_block
  dsimp only
  rw [if_neg hb]
  exact lookup_loop_spec (block_buf v b) _ name len _ fi (tmp_buf_eq v b) l 0 _ htile hne hlenl

theorem lookup_block_zero (v : vfs_device_t) (name : Buf) (len fi : Nat) :
    _ext2_lookup_block v 0 name len fi = some (-EINVAL, fi) := rfl

theorem lookup_dir_loop (v : vfs_device_t) (dir : dentry_t) (name : Buf) (len : Nat)
    (chains : Nat → List Nat) (hlog : v.fsdata.sb.log_block_size ≤ 2) (hlen : len < U32) :
    ∀ (n i : Nat),
      (∀ j, i ≤ j → j < i + n → _ext2_get_block_of_inode v dir j ≠ 0 →
        records_tile (block_buf v (_ext2_get_block_of_inode v dir j)) (BLOCK_LEN v.fsdata.sb)
          (chains j)) →
      ext2_lookup_loop v dir name len n i =
        some (match first_in_blocks (in_dir_block match_before_unused v dir name len chains)
                n i with
              | some idx => (0, some idx)
              | none => (-ENOENT, none))
  | 0, _, _ => rfl
  | n + 1, i, h => by
    have ih := lookup_dir_loop v dir name len chains hlog hlen n (i + 1)
      (fun j h1 h2 => h j (by omega) (by omega))
    have hfb : first_in_blocks (in_dir_block match_before_unused v dir name len chains)
        (n + 1) i =
        match in_dir_block match_before_unused v dir name len chains i with
        | some x => some x
        | none => first_in_blocks (in_dir_block match_before_unused v dir name len chains)
            n (i + 1) := rfl
    have hF : in_dir_block match_before_unused v dir name len chains i =
        if _ext2_get_block_of_inode v dir i = 0 then none
        else match_before_unused (block_buf v (_ext2_get_block_of_inode v dir i)) name len
          (chains i) := rfl
    rw [hfb, hF]
    unfold ext2_lookup_loop
    dsimp only
    rw [Nat.mod_eq_of_lt hlen]
    by_cases hb : _ext2_get_block_of_inode v dir i = 0
    · rw [hb, lookup_block_zero, if_pos rfl]
      dsimp only
      rw [if_neg (by decide), ih]
    · rw [if_neg hb, lookup_block_spec v _ name len 0 (chains i) hb hlog
        (h i (Nat.le_refl i) (by omega) hb)]
      cases hm : match_before_unused (block_buf v (_ext2_get_block_of_inode v dir i)) name len
          (chains i) with
      | some idx =>
        dsimp only
        rw [if_pos rfl]
      | none =>
        dsimp only
        rw [if_neg efault_ne_zero, ih]

theorem match_before_unused_eq (buf name : Buf) (len : Nat) :
    ∀ l : List Nat, (∀ o ∈ l, entry_inode buf o ≠ 0) →
      match_before_unused buf name len l = first_match buf name len l
  | [], _ => rfl
  | o :: l, h => by
    have h0 := h o (List.mem_cons_self o l)
    have ih := match_before_unused_eq buf name len l
      (fun x hx => h x (List.mem_cons_of_mem o hx))
    unfold match_before_unused first_match
    rw [if_neg h0, ih]
    by_cases c : name_matches buf name len o
    · rw [if_pos c, if_pos ⟨h0, c⟩]
    · rw [if_neg c, if_neg (fun hc => c hc.2)]

theorem first_in_blocks_congr (f g : Nat → Option Nat) :
    ∀ (n i : Nat), (∀ j, i ≤ j → j < i + n → f j = g j) →
      first_in_blocks f n i = first_in_blocks g n i
  | 0, _, _ => rfl
  | n + 1, i, h => by
    unfold first_in_blocks
    rw [h i (Nat.le_refl i) (by omega),
      first_in_blocks_congr f g n (i + 1) (fun j h1 h2 => h j (by omega) (by omega))]

/-- C25, amended: on a directory whose allocated blocks are well-formed,
`ext2_lookup` returns 0 and the inode index of the first record with the name,
in block order then chain order, among the records that come before the first
unused record of their block; it returns `-ENOENT` without writing `result`
exactly when there is no such record.  When no record of the directory is
unused, that record is the first record of the directory with the name. -/
theorem lookup_contract (v : vfs_device_t) (dir : dentry_t) (name : Buf) (len : Nat)
    (chains : Nat → List Nat) (hlog : v.fsdata.sb.log_block_size ≤ 2) (hlen : len < U32)
    (htile : ∀ i, i < TO_EXT_BLOCKS_CNT v.fsdata.sb dir.inode.blocks →
      _ext2_get_block_of_inode v dir i ≠ 0 →
      records_tile (block_buf v (_ext2_get_block_of_inode v dir i)) (BLOCK_LEN v.fsdata.sb)
        (chains i)) :
    ext2_lookup v dir name len =
      some (match first_in_blocks (in_dir_block match_before_unused v dir name len chains)
              (TO_EXT_BLOCKS_CNT v.fsdata.sb dir.inode.blocks) 0 with
            | some idx => (0, some idx)
            | none => (-ENOENT, none)) ∧
    (ext2_lookup v dir name len = some (-ENOENT, none) ↔
      first_in_blocks (in_dir_block match_before_unused v dir name len chains)
        (TO_EXT_BLOCKS_CNT v.fsdata.sb dir.inode.blocks) 0 = none) ∧
    ((∀ i, i < TO_EXT_BLOCKS_CNT v.fsdata.sb dir.inode.blocks →
        _ext2_get_block_of_inode v dir i ≠ 0 →
        ∀ o ∈ chains i, entry_inode (block_buf v (_ext2_get_block_of_inode v dir i)) o ≠ 0) →
      first_in_blocks (in_dir_block match_before_unused v dir name len chains)
          (TO_EXT_BLOCKS_CNT v.fsdata.sb dir.inode.blocks) 0 =
        first_in_blocks (in_dir_block first_match v dir name len chains)
          (TO_EXT_BLOCKS_CNT v.fsdata.sb dir.inode.blocks) 0) := by
  have hE : ext2_lookup v dir name len =
      some (match first_in_blocks (in_dir_block match_before_unused v dir name len chains)
              (TO_EXT_BLOCKS_CNT v.fsdata.sb dir.inode.blocks) 0 with
            | some idx => (0, some idx)
            | none => (-ENOENT, none)) :=
    lookup_dir_loop v dir name len chains hlog hlen _ 0
      (fun j _ h2 => htile j (by omega))
  refine ⟨hE, ?_, ?_⟩
  · rw [hE]
    cases first_in_blocks (in_dir_block match_before_unused v dir name len chains)
        (TO_EXT_BLOCKS_CNT v.fsdata.sb dir.inode.blocks) 0 with
    | some idx =>
      dsimp only
      constructor
      · intro h
        have h0 : (0 : Int) = -ENOENT := congrArg Prod.fst (Option.some.inj h)
        exact absurd h0 (by decide)
      · intro h
        exact absurd h (by simp)
    | none => exact ⟨fun _ => rfl, fun _ => rfl⟩
  · intro hused
    apply first_in_blocks_congr
    intro j _ h2
    unfold in_dir_block
    by_cases hb : _ext2_get_block_of_inode v dir j = 0
    · rw [if_pos hb, if_pos hb]
    · rw [if_neg hb, if_neg hb]
      exact match_before_unused_eq _ name len (chains j) (hused j (by omega) hb)

/-- Witness of C25: the name `a` is found as inode 13 in the directory whose
block 9 holds the records `.`, `..` and `a`. -/
theorem lookup_contract_witness :
    vfs_three.fsdata.sb.log_block_size ≤ 2 ∧ 1 < U32 ∧
    (∀ i, i < TO_EXT_BLOCKS_CNT vfs_three.fsdata.sb (cache_root 2).inode.blocks →
      _ext2_get_block_of_inode vfs_three (cache_root 2) i ≠ 0 →
      records_tile (block_buf vfs_three (_ext2_get_block_of_inode vfs_three (cache_root 2) i))
        (BLOCK_LEN vfs_three.fsdata.sb) [0, 12, 24]) ∧
    ext2_lookup vfs_three (cache_root 2) (name_buf [97]) 1 = some (0, some 13) :=
  ⟨by decide, by decide, by decide,
   (lookup_contract vfs_three (cache_root 2) (name_buf [97]) 1 (fun _ => [0, 12, 24])
      (by decide) (by decide) (by decide)).1.trans (by decide)⟩

theorem lookup_hidden_eval :
    records_tile (block_buf vfs_hidden 9) (BLOCK_LEN vfs_hidden.fsdata.sb) [0, 12] ∧
    _ext2_get_block_of_inode vfs_hidden (cache_root 2) 0 = 9 ∧
    TO_EXT_BLOCKS_CNT vfs_hidden.fsdata.sb (cache_root 2).inode.blocks = 1 ∧
    first_match (block_buf vfs_hidden 9) (name_buf [97]) 1 [0, 12] = some 13 ∧
    ext2_lookup vfs_hidden (cache_root 2) (name_buf [97]) 1 = some (-ENOENT, none) := by
  decide

/-- C25 as stated fails: the only block of the directory is well-formed and
holds the record `a` of inode 13 after an unused record, and `ext2_lookup` of
`a` returns `-ENOENT`. -/
theorem lookup_misses_record_after_unused :
    records_tile (block_buf vfs_hidden 9) (BLOCK_LEN vfs_hidden.fsdata.sb) [0, 12] ∧
    _ext2_get_block_of_inode vfs_hidden (cache_root 2) 0 = 9 ∧
    TO_EXT_BLOCKS_CNT vfs_hidden.fsdata.sb (cache_root 2).inode.blocks = 1 ∧
    first_match (block_buf vfs_hidden 9) (name_buf [97]) 1 [0, 12] = some 13 ∧
    ext2_lookup vfs_hidden (cache_root 2) (name_buf [97]) 1 = some (-ENOENT, none) :=
  lookup_hidden_eval

/-! ## Locks -/

theorem locks_held_append (ops1 : List lock_op) :
    ∀ (held : List lock_t) (ops2 : List lock_op),
      locks_held held (ops1 ++ ops2) = locks_held (locks_held held ops1) ops2 := by
  induction ops1 with
  | nil => intro held ops2; rfl
  | cons op ops1 ih =>
    intro held ops2
    cases op with
    | acquire l => exact ih (l :: held) ops2
    | release l => exact ih (held.erase l) ops2

theorem allocate_block_for_inode_locks_balanced (held : List lock_t) :
    locks_held held _ext2_allocate_block_for_inode_locks = held := by
  unfold _ext2_allocate_block_for_inode_locks locks_held locks_held locks_held
  exact List.erase_cons_head _ _

theorem allocate_block_for_inode_ret (v : vfs_device_t) (d : dentry_t) (pref bi : Nat) :
    (_ext2_allocate_block_for_inode v d pref bi).1 = 0 ∨
    (_ext2_allocate_block_for_inode v d pref bi).1 = -ENOSPC := by
  unfold _ext2_allocate_block_for_inode
  dsimp only
  split_ifs
  · exact Or.inl rfl
  · exact Or.inr rfl
  · exact Or.inr rfl

/-- The loop of `ext2_write` leaves the held locks as they were, and an error
that ends it is `-ENOSPC`. -/
theorem write_loop_locks_balanced (buf : Buf) (bl e ba : Nat) :
    ∀ (fuel vbi : Nat) (v : vfs_device_t) (d : dentry_t) (dbi tw wo aw : Nat)
      (r : Option Int × Nat × List lock_op) (held : List lock_t),
      ext2_write_loop_locks buf bl e ba fuel vbi v d dbi tw wo aw = some r →
      locks_held held r.2.2 = held ∧ (∀ err, r.1 = some err → err = -ENOSPC) := by
  intro fuel
  induction fuel with
  | zero =>
    intro vbi v d dbi tw wo aw r held h
    unfold ext2_write_loop_locks at h
    by_cases hc : vbi ≤ e
    · rw [if_pos hc] at h
      exact Option.noConfusion h
    · rw [if_neg hc] at h
      rw [← Option.some.inj h]
      exact ⟨rfl, fun err he => Option.noConfusion he⟩
  | succ fuel ih =>
    intro vbi v d dbi tw wo aw r held h
    unfold ext2_write_loop_locks at h
    by_cases hc : vbi ≤ e
    · rw [if_pos hc] at h
      dsimp only at h
      have hops : ∀ H : List lock_t,
          locks_held H (if ba ≤ vbi then _ext2_allocate_block_for_inode_locks else []) = H := by
        intro H
        by_cases hb : ba ≤ vbi
        · rw [if_pos hb]
          exact allocate_block_for_inode_locks_balanced H
        · rw [if_neg hb]
          rfl
      split_ifs at h with h1 h2 h2
      · rw [← Option.some.inj h]
        refine ⟨allocate_block_for_inode_locks_balanced held, fun err he => ?_⟩
        have he2 : (_ext2_allocate_block_for_inode v d 0 dbi).1 = err := Option.some.inj he
        rcases allocate_block_for_inode_ret v d 0 dbi with h0 | h0
        · exact absurd h0 h2
        · rw [← he2, h0]
      · rw [Option.map_eq_some'] at h
        obtain ⟨r', hr', e'⟩ := h
        rw [← e']
        obtain ⟨k1, k2⟩ := ih _ _ _ _ _ _ _ r' held hr'
        refine ⟨?_, k2⟩
        dsimp only
        rw [locks_held_append, allocate_block_for_inode_locks_balanced, k1]
      · exact absurd rfl h2
      · rw [Option.map_eq_some'] at h
        obtain ⟨r', hr', e'⟩ := h
        rw [← e']
        obtain ⟨k1, k2⟩ := ih _ _ _ _ _ _ _ r' held hr'
        exact ⟨k1, k2⟩
    · rw [if_neg hc] at h
      rw [← Option.some.inj h]
      exact ⟨rfl, fun err he => Option.noConfusion he⟩

/-- The loop with lock calls returns what the loop of `ext2_write` returns. -/
theorem write_loop_locks_ret (buf : Buf) (bl e ba : Nat) :
    ∀ (fuel vbi : Nat) (v : vfs_device_t) (d : dentry_t) (dbi tw wo aw : Nat),
      (ext2_write_loop_locks buf bl e ba fuel vbi v d dbi tw wo aw).map
          (fun r => (r.1, r.2.1))
        = (ext2_write_loop buf bl e ba fuel vbi v d dbi tw wo aw).map
          (fun r => (r.1, r.2.2.2)) := by
  intro fuel
  induction fuel with
  | zero =>
    intro vbi v d dbi tw wo aw
    unfold ext2_write_loop_locks ext2_write_loop
    by_cases hc : vbi ≤ e
    · rw [if_pos hc, if_pos hc]
      rfl
    · rw [if_neg hc, if_neg hc]
      rfl
  | succ fuel ih =>
    intro vbi v d dbi tw wo aw
    unfold ext2_write_loop_locks ext2_write_loop
    by_cases hc : vbi ≤ e
    · rw [if_pos hc, if_pos hc]
      dsimp only
      split_ifs with h1 h2
      · rfl
      · rw [Option.map_map]
        exact ih _ _ _ _ _ _ _
      · rfl
      · rw [Option.map_map]
        exact ih _ _ _ _ _ _ _
    · rw [if_neg hc, if_neg hc]
      rfl

/-- The model with lock calls returns what `ext2_write` returns. -/
theorem write_locks_ret (W now : Nat) (v : vfs_device_t) (d : dentry_t) (buf : Buf)
    (start len : Nat) :
    (ext2_write_locks W v d buf start len).map Prod.fst
      = (ext2_write W now v d buf start len).map Prod.fst := by
  have h := write_loop_locks_ret buf (BLOCK_LEN v.fsdata.sb % U32)
    (((start + len) % W / (BLOCK_LEN v.fsdata.sb % U32)) % U32)
    (TO_EXT_BLOCKS_CNT v.fsdata.sb d.inode.blocks)
    (((start + len) % W / (BLOCK_LEN v.fsdata.sb % U32)) % U32 + 1
      - (start / (BLOCK_LEN v.fsdata.sb % U32)) % U32)
    ((start / (BLOCK_LEN v.fsdata.sb % U32)) % U32) v d 0 (len % U32)
    (start % (BLOCK_LEN v.fsdata.sb % U32)) 0
  unfold ext2_write_locks ext2_write
  dsimp only
  rw [Option.map_map, Option.map_map]
  generalize ext2_write_loop_locks buf _ _ _ _ _ v d 0 _ _ 0 = A at h ⊢
  generalize ext2_write_loop buf _ _ _ _ _ v d 0 _ _ 0 = B at h ⊢
  cases A with
  | none =>
    cases B with
    | none => rfl
    | some y => exact Option.noConfusion h
  | some x =>
    cases B with
    | none => exact Option.noConfusion h
    | some y =>
      have h2 : (x.1, x.2.1) = (y.1, y.2.2.2) := Option.some.inj h
      have h3 : x.1 = y.1 := congrArg Prod.fst h2
      have h4 : x.2.1 = y.2.2.2 := congrArg Prod.snd h2
      show some _ = some _
      congr 1
      dsimp only [Function.comp]
      rw [← h3]
      cases x.1 with
      | some err => rfl
      | none =>
        dsimp only
        rw [h4]

/-- What `ext2_write` holds when it returns: nothing more than before when it
returns a count, and the lock of the dentry when it returns the error of a
failed allocation. -/
theorem write_locks_held (W : Nat) (v : vfs_device_t) (d : dentry_t) (buf : Buf)
    (start len : Nat) (r : Int × List lock_op) (held : List lock_t)
    (h : ext2_write_locks W v d buf start len = some r) :
    (0 ≤ r.1 ∧ locks_held held r.2 = held) ∨
    (r.1 = -ENOSPC ∧ locks_held held r.2 = lock_t.dentry_lock d.inode_indx :: held) := by
  unfold ext2_write_locks at h
  dsimp only at h
  rw [Option.map_eq_some'] at h
  obtain ⟨r', hr', e'⟩ := h
  rw [← e']
  cases hr1 : r'.1 with
  | some err =>
    dsimp only
    right
    obtain ⟨k1, k2⟩ := write_loop_locks_balanced _ _ _ _ _ _ _ _ _ _ _ _ r'
      (lock_t.dentry_lock d.inode_indx :: held) hr'
    exact ⟨k2 err hr1, k1⟩
  | none =>
    dsimp only
    left
    obtain ⟨k1, _⟩ := write_loop_locks_balanced _ _ _ _ _ _ _ _ _ _ _ _ r'
      (lock_t.dentry_lock d.inode_indx :: held) hr'
    refine ⟨Int.ofNat_nonneg _, ?_⟩
    have e1 : lock_op.acquire (lock_t.dentry_lock d.inode_indx) :: r'.2.2
        ++ [lock_op.release (lock_t.dentry_lock d.inode_indx)]
        = [lock_op.acquire (lock_t.dentry_lock d.inode_indx)] ++ (r'.2.2
          ++ [lock_op.release (lock_t.dentry_lock d.inode_indx)]) := rfl
    have a1 : locks_held held [lock_op.acquire (lock_t.dentry_lock d.inode_indx)]
        = lock_t.dentry_lock d.inode_indx :: held := rfl
    have a2 : ∀ H : List lock_t,
        locks_held H [lock_op.release (lock_t.dentry_lock d.inode_indx)]
          = H.erase (lock_t.dentry_lock d.inode_indx) := fun _ => rfl
    rw [e1, locks_held_append, locks_held_append, a1, k1, a2, List.erase_cons_head]

/-- C37 fails for `ext2_write`: one byte written to an empty file on a file
system without a free block.  The call returns `-ENOSPC` from inside the loop
after `spinlock_acquire(&dentry->lock)` and the balanced calls of
`_ext2_allocate_block_for_inode`, without `spinlock_release`: the lock of the
dentry, which was not held on entry, is held on return. -/
theorem write_error_return_keeps_lock :
    (ext2_write U32 0 vfs_no_space dentry_empty zero_buf 0 1).map Prod.fst = some (-ENOSPC) ∧
    ext2_write_locks U32 vfs_no_space dentry_empty zero_buf 0 1
      = some (-ENOSPC,
          [.acquire (.dentry_lock 12), .acquire .fs_lock, .release .fs_lock]) ∧
    locks_held [] [.acquire (.dentry_lock 12), .acquire .fs_lock, .release .fs_lock]
      = [.dentry_lock 12] := by
  decide

/-! ## Reading up to the end of the file -/

/-- C38 fails when `start + len - 1` wraps in `size_t`: a file of two blocks
and 2048 bytes read from offset 1024 with `len = 2^32 - 1023` on a 32-bit target
(with `len = 2^64 - 1023` on a 64-bit target).  `start + len - 1` is 0, so
`end_block_index` is 0, below `start_block_index = 1`: the loop does not run and
the call returns 0, where `min(len, size - start)` is 1024. -/
theorem read_len_wraps_returns_zero :
    TO_EXT_BLOCKS_CNT vfs_ten.fsdata.sb dentry_two_blocks.inode.blocks * BLOCK_LEN vfs_ten.fsdata.sb
      = dentry_two_blocks.inode.size ∧
    1024 < dentry_two_blocks.inode.size ∧
    (4294966273 : Nat) < U32 ∧
    min 4294966273 (dentry_two_blocks.inode.size - 1024) = 1024 ∧
    (ext2_read U32 vfs_ten dentry_two_blocks zero_buf 1024 4294966273).map Prod.fst
      = some 0 ∧
    (ext2_read 18446744073709551616 vfs_ten dentry_two_blocks zero_buf 1024
      18446744073709550593).map Prod.fst = some 0 ∧
    (ext2_read U32 vfs_ten dentry_two_blocks zero_buf 1024 1024).map Prod.fst = some 1024 := by
  decide

/-! ## Removing a directory -/

theorem used_records_congr (buf buf' : Buf) (bl : Nat) (h : ∀ i, i < bl → buf' i = buf i) :
    ∀ (l : List Nat) (off e : Nat), records_from buf bl off l e → e ≤ bl →
      used_records buf' l = used_records buf l
  | [], _, _, _, _ => rfl
  | o :: l, off, e, hr, he => by
    obtain ⟨h0, h1, h2, h3⟩ := (records_from_cons buf bl off o e l).mp hr
    have hm := records_from_mem buf bl (o :: l) off e o hr (List.mem_cons_self o l)
    unfold used_records
    rw [(fields_agree buf buf' bl o h (by omega)).1,
      used_records_congr buf buf' bl h l _ e h3 he]

theorem count_loop_spec (buf : Buf) (bl : Nat) (hbl : bl < U32) :
    ∀ (l : List Nat) (off fuel : Nat) (result : Int),
      records_from buf bl off l bl → l ≠ [] → l.length ≤ fuel →
      _ext2_get_dir_entries_count_in_block_loop buf bl fuel off result
        = some (result + (used_records buf l : Nat))
  | [], _, _, _, _, hne, _ => absurd rfl hne
  | o :: l, off, fuel, result, h, _, hf => by
    obtain ⟨fuel, rfl⟩ : ∃ f, fuel = f + 1 := ⟨fuel - 1, by simp at hf; omega⟩
    obtain ⟨h0, h3, h4, h5⟩ := records_from_head buf bl o off _ h
    subst h0
    rw [count_loop_step]
    unfold used_records
    by_cases hl : l = []
    · have e := h4 hl
      rw [e, Nat.mod_eq_of_lt hbl, if_pos (le_refl _)]
      subst hl
      unfold used_records
      by_cases hi : entry_inode buf o ≠ 0
      · rw [if_pos hi, if_pos hi]
        rfl
      · rw [if_neg hi, if_neg hi]
        simp
    · have e := h5 hl
      rw [Nat.mod_eq_of_lt (by omega), if_neg (by omega),
        count_loop_spec buf bl hbl l _ fuel _ h3 hl (by simp at hf; omega)]
      by_cases hi : entry_inode buf o ≠ 0
      · rw [if_pos hi, if_pos hi]
        congr 1
        push_cast
        ring
      · rw [if_neg hi, if_neg hi]
        congr 1
        push_cast
        ring

/-- On a well-formed block `_ext2_get_dir_entries_count_in_block` returns the
number of records in use of the chain. -/
theorem count_block_spec (v : vfs_device_t) (b : Nat) (l : List Nat) (hb : b ≠ 0)
    (hlog : v.fsdata.sb.log_block_size ≤ 2)
    (htile : records_tile (block_buf v b) (BLOCK_LEN v.fsdata.sb) l) :
    _ext2_get_dir_entries_count_in_block v b
      = some ((used_records (block_buf v b) l : Nat) : Int) := by
  obtain ⟨hbl1, hbl2⟩ := block_len_lt v.fsdata.sb hlog
  have hne := records_tile_ne_nil _ _ l (by omega) htile
  have hT := tmp_buf_eq v b
  unfold _ext2_get_dir_entries_count_in_block
  rw [if_pos hb]
  dsimp only
  unfold records_tile at htile
  generalize _ext2_read_from_dev v.dev zero_buf (_ext2_get_block_offset v.fsdata.sb b)
    (BLOCK_LEN v.fsdata.sb) = T at hT ⊢
  generalize block_buf v b = B at *
  generalize BLOCK_LEN v.fsdata.sb = bl at *
  have htT : records_from T bl 0 l bl :=
    records_from_congr B T bl _ 0 bl (fun i _ hi => hT i hi) htile
  have hlenl : l.length ≤ bl := by
    have := (records_from_bounds B bl _ 0 bl htile).1
    omega
  rw [count_loop_spec T bl (by unfold U16 at hbl2; unfold U32; omega) l 0 bl 0 htT hne hlenl,
    used_records_congr B T bl hT l 0 bl htile (le_refl _), Int.zero_add]

theorem is_dir_empty_loop_spec (v : vfs_device_t) (dir : dentry_t) (chains : Nat → List Nat)
    (hlog : v.fsdata.sb.log_block_size ≤ 2) :
    ∀ (n i k : Nat), k ≤ 2 →
      (∀ j, i ≤ j → j < i + n → _ext2_get_block_of_inode v dir j ≠ 0 ∧
        records_tile (block_buf v (_ext2_get_block_of_inode v dir j)) (BLOCK_LEN v.fsdata.sb)
          (chains j)) →
      _ext2_is_dir_empty_loop v dir n i (k : Int)
        = some (decide (k + used_in_blocks v dir chains n i ≤ 2))
  | 0, i, k, hk, _ => by
    unfold _ext2_is_dir_empty_loop used_in_blocks
    rw [Nat.add_zero, decide_eq_true hk]
  | n + 1, i, k, hk, h => by
    obtain ⟨hb, ht⟩ := h i (le_refl i) (by omega)
    unfold _ext2_is_dir_empty_loop used_in_blocks
    dsimp only
    rw [count_block_spec v _ (chains i) hb hlog ht]
    dsimp only
    generalize used_records (block_buf v (_ext2_get_block_of_inode v dir i)) (chains i) = c
    by_cases hc : k + c ≤ 2
    · have e1 : ¬ ((k : Int) + (c : Int) > 2) := by omega
      rw [if_neg e1]
      have e2 : (k : Int) + (c : Int) = ((k + c : Nat) : Int) := by push_cast; rfl
      rw [e2, is_dir_empty_loop_spec v dir chains hlog n (i + 1) (k + c) hc
        (fun j h1 h2 => h j (by omega) (by omega)), Nat.add_assoc]
    · have e1 : (k : Int) + (c : Int) > 2 := by omega
      rw [if_pos e1]
      have e3 : ¬ (k + (c + used_in_blocks v dir chains n (i + 1)) ≤ 2) := by omega
      rw [decide_eq_false e3]

/-- On a directory whose blocks are allocated and well-formed
`_ext2_is_dir_empty` returns whether at most two records are in use. -/
theorem is_dir_empty_spec (v : vfs_device_t) (dir : dentry_t) (chains : Nat → List Nat)
    (hlog : v.fsdata.sb.log_block_size ≤ 2)
    (h : ∀ j, j < TO_EXT_BLOCKS_CNT v.fsdata.sb dir.inode.blocks →
      _ext2_get_block_of_inode v dir j ≠ 0 ∧
      records_tile (block_buf v (_ext2_get_block_of_inode v dir j)) (BLOCK_LEN v.fsdata.sb)
        (chains j)) :
    _ext2_is_dir_empty v dir = some (decide (used_in_blocks v dir chains
      (TO_EXT_BLOCKS_CNT v.fsdata.sb dir.inode.blocks) 0 ≤ 2)) := by
  have e := is_dir_empty_loop_spec v dir chains hlog
    (TO_EXT_BLOCKS_CNT v.fsdata.sb dir.inode.blocks) 0 0 (by omega)
    (fun j _ h2 => h j (by omega))
  unfold _ext2_is_dir_empty
  dsimp only
  rw [Nat.zero_add] at e
  exact e

theorem rm_child_loop_step (pd cd : dentry_t) (n i : Nat) (v : vfs_device_t) :
    _ext2_rm_child_loop pd cd (n + 1) i v =
      if _ext2_get_block_of_inode v pd i ≠ 0 then
        match _ext2_rm_from_dir_block v (_ext2_get_block_of_inode v pd i) cd with
        | none => none
        | some r =>
          if r.1 = 0 then some (some r.2)
          else _ext2_rm_child_loop pd cd n (i + 1) r.2
      else _ext2_rm_child_loop pd cd n (i + 1) v := rfl

theorem rm_child_loop_without (v : vfs_device_t) (pd cd : dentry_t) (chains : Nat → List Nat)
    (hlog : v.fsdata.sb.log_block_size ≤ 2) (i : Nat) (n : Nat)
    (h : block_without v pd cd.inode_indx chains i) :
    _ext2_rm_child_loop pd cd (n + 1) i v = _ext2_rm_child_loop pd cd n (i + 1) v := by
  rw [rm_child_loop_step]
  rcases h with h0 | ⟨ht, hn⟩
  · rw [if_neg (fun hc => hc h0)]
  · by_cases hb : _ext2_get_block_of_inode v pd i = 0
    · rw [if_neg (fun hc => hc hb)]
    · rw [if_pos hb, rm_from_dir_block_none v _ cd (chains i) hb hlog ht hn]
      dsimp only
      rw [if_neg efault_ne_zero]

/-- When no block of the directory holds a record of the child, the loop of
`_ext2_rm_child` ends without a removal and the device is untouched. -/
theorem rm_child_loop_absent (v : vfs_device_t) (pd cd : dentry_t) (chains : Nat → List Nat)
    (hlog : v.fsdata.sb.log_block_size ≤ 2) :
    ∀ (n i : Nat), (∀ k, i ≤ k → k < i + n → block_without v pd cd.inode_indx chains k) →
      _ext2_rm_child_loop pd cd n i v = some none
  | 0, _, _ => rfl
  | n + 1, i, h => by
    rw [rm_child_loop_without v pd cd chains hlog i n (h i (le_refl i) (by omega))]
    exact rm_child_loop_absent v pd cd chains hlog n (i + 1)
      (fun k h1 h2 => h k (by omega) (by omega))

/-- The loop of `_ext2_rm_child` passes the blocks without a record of the child
and does at block `j` what `_ext2_rm_from_dir_block` does there. -/
theorem rm_child_loop_reach (v : vfs_device_t) (pd cd : dentry_t) (chains : Nat → List Nat)
    (hlog : v.fsdata.sb.log_block_size ≤ 2) (j : Nat)
    (hbj : _ext2_get_block_of_inode v pd j ≠ 0) :
    ∀ (n i : Nat), i ≤ j → j < i + n →
      (∀ k, i ≤ k → k < j → block_without v pd cd.inode_indx chains k) →
      _ext2_rm_child_loop pd cd n i v =
        match _ext2_rm_from_dir_block v (_ext2_get_block_of_inode v pd j) cd with
        | none => none
        | some r =>
          if r.1 = 0 then some (some r.2)
          else _ext2_rm_child_loop pd cd (i + n - j - 1) (j + 1) r.2
  | 0, i, h1, h2, _ => absurd h2 (by omega)
  | n + 1, i, h1, h2, h => by
    by_cases hij : i = j
    · subst hij
      rw [rm_child_loop_step, if_pos hbj]
      have e : i + (n + 1) - i - 1 = n := by omega
      rw [e]
    · rw [rm_child_loop_without v pd cd chains hlog i n (h i (le_refl i) (by omega)),
        rm_child_loop_reach v pd cd chains hlog j hbj n (i + 1) (by omega) (by omega)
          (fun k k1 k2 => h k (by omega) k2)]
      have e : i + 1 + n - j - 1 = i + (n + 1) - j - 1 := by omega
      rw [e]

theorem enotempty_ne : ¬ (-EFAULT = -ENOTEMPTY) ∧ ¬ ((0 : Int) = -ENOTEMPTY) := by decide

/-- C36, amended: `ext2_rmdir` on a directory whose blocks are allocated and
well-formed, on a file system whose blocks fit the block buffers
(`BLOCK_LEN(sb) ≤ MAX_BLOCK_LEN`, blocks of 1 KiB).  Without a parent it returns `-EPERM`.  With a parent it returns
`-ENOTEMPTY` exactly when the blocks hold more than two records in use, and
then nothing has changed.  With at most two such records it returns 0 when the
first record of the directory in the blocks of the parent follows another
record of its block: that record is folded into its predecessor, the links of
the parent go down by one and those of the directory by two.  When that record
is the first of its block the call does not return (`kpanic`), and when the
parent has no such record it returns `-EFAULT`. -/
theorem rmdir_contract (v : vfs_device_t) (cache : dentry_cache) (dir parent : Nat)
    (chains pchains : Nat → List Nat) (hbuf : BLOCK_LEN v.fsdata.sb ≤ MAX_BLOCK_LEN)
    (hidx : (cache dir).inode_indx = dir)
    (hdir : ∀ j, j < TO_EXT_BLOCKS_CNT v.fsdata.sb (cache dir).inode.blocks →
      _ext2_get_block_of_inode v (cache dir) j ≠ 0 ∧
      records_tile (block_buf v (_ext2_get_block_of_inode v (cache dir) j))
        (BLOCK_LEN v.fsdata.sb) (chains j)) :
    ext2_rmdir v cache dir none = some (-EPERM, v, cache) ∧
    (2 < used_in_blocks v (cache dir) chains
        (TO_EXT_BLOCKS_CNT v.fsdata.sb (cache dir).inode.blocks) 0 →
      ext2_rmdir v cache dir (some parent) = some (-ENOTEMPTY, v, cache)) ∧
    (used_in_blocks v (cache dir) chains
        (TO_EXT_BLOCKS_CNT v.fsdata.sb (cache dir).inode.blocks) 0 ≤ 2 →
      ∀ r, ext2_rmdir v cache dir (some parent) = some r → r.1 ≠ -ENOTEMPTY) ∧
    (used_in_blocks v (cache dir) chains
        (TO_EXT_BLOCKS_CNT v.fsdata.sb (cache dir).inode.blocks) 0 ≤ 2 → parent ≠ dir →
      ∀ (j : Nat) (l1 l2 : List Nat) (q t : Nat),
        j < TO_EXT_BLOCKS_CNT v.fsdata.sb (cache parent).inode.blocks →
        (∀ k, k < j → block_without v (cache parent) dir pchains k) →
        _ext2_get_block_of_inode v (cache parent) j ≠ 0 →
        records_tile (block_buf v (_ext2_get_block_of_inode v (cache parent) j))
          (BLOCK_LEN v.fsdata.sb) (l1 ++ q :: t :: l2) →
        (∀ o ∈ l1, entry_inode (block_buf v (_ext2_get_block_of_inode v (cache parent) j)) o
          ≠ dir) →
        entry_inode (block_buf v (_ext2_get_block_of_inode v (cache parent) j)) q ≠ dir →
        entry_inode (block_buf v (_ext2_get_block_of_inode v (cache parent) j)) t = dir →
        ∃ v', ext2_rmdir v cache dir (some parent)
            = some (0, v',
                links_count_dec
                  (links_count_dec
                    (set_dentry (links_count_dec cache dir) dir
                      { links_count_dec cache dir dir with dirty := true })
                    parent)
                  dir) ∧
          v'.fsdata = v.fsdata ∧
          (∀ a, a < _ext2_get_block_offset v.fsdata.sb
                  (_ext2_get_block_of_inode v (cache parent) j) ∨
              _ext2_get_block_offset v.fsdata.sb (_ext2_get_block_of_inode v (cache parent) j)
                + BLOCK_LEN v.fsdata.sb ≤ a →
            v'.dev a = v.dev a) ∧
          remove_effect (block_buf v (_ext2_get_block_of_inode v (cache parent) j))
            (block_buf v' (_ext2_get_block_of_inode v (cache parent) j))
            (BLOCK_LEN v.fsdata.sb) q t ∧
          records_tile (block_buf v' (_ext2_get_block_of_inode v (cache parent) j))
            (BLOCK_LEN v.fsdata.sb) (l1 ++ q :: l2)) ∧
    (used_in_blocks v (cache dir) chains
        (TO_EXT_BLOCKS_CNT v.fsdata.sb (cache dir).inode.blocks) 0 ≤ 2 → parent ≠ dir →
      ∀ (j : Nat) (l2 : List Nat) (t : Nat),
        j < TO_EXT_BLOCKS_CNT v.fsdata.sb (cache parent).inode.blocks →
        (∀ k, k < j → block_without v (cache parent) dir pchains k) →
        _ext2_get_block_of_inode v (cache parent) j ≠ 0 →
        records_tile (block_buf v (_ext2_get_block_of_inode v (cache parent) j))
          (BLOCK_LEN v.fsdata.sb) (t :: l2) →
        entry_inode (block_buf v (_ext2_get_block_of_inode v (cache parent) j)) t = dir →
        ext2_rmdir v cache dir (some parent) = none) ∧
    (used_in_blocks v (cache dir) chains
        (TO_EXT_BLOCKS_CNT v.fsdata.sb (cache dir).inode.blocks) 0 ≤ 2 → parent ≠ dir →
      (∀ k, k < TO_EXT_BLOCKS_CNT v.fsdata.sb (cache parent).inode.blocks →
        block_without v (cache parent) dir pchains k) →
      ext2_rmdir v cache dir (some parent) = some (-EFAULT, v, cache)) := by
  have hlog := (block_fits v.fsdata.sb hbuf).1
  have hE := is_dir_empty_spec v (cache dir) chains hlog hdir
  generalize used_in_blocks v (cache dir) chains
    (TO_EXT_BLOCKS_CNT v.fsdata.sb (cache dir).inode.blocks) 0 = u at hE ⊢
  have hT : u ≤ 2 → parent ≠ dir →
      ext2_rmdir v cache dir (some parent) =
        match _ext2_rm_child v cache parent dir with
        | none => none
        | some r =>
          if r.1 < 0 then some (-EFAULT, r.2.1, r.2.2)
          else some (0, r.2.1, links_count_dec (links_count_dec r.2.2 parent) dir) := by
    intro hu hp
    unfold ext2_rmdir
    dsimp only
    rw [hE, decide_eq_true hu]
    dsimp only
    rw [if_neg hp]
  have hC : ∀ x : Option (Option vfs_device_t),
      _ext2_rm_child_loop (cache parent) (cache dir)
        (TO_EXT_BLOCKS_CNT v.fsdata.sb (cache parent).inode.blocks) 0 v = x →
      _ext2_rm_child v cache parent dir =
        match x with
        | none => none
        | some (some vfsdev1) =>
          some (0, vfsdev1,
            set_dentry (links_count_dec cache dir) dir
              { links_count_dec cache dir dir with dirty := true })
        | some none => some (-ENOENT, v, cache) := by
    intro x hx
    unfold _ext2_rm_child
    dsimp only
    rw [hx]
  refine ⟨rfl, ?_, ?_, ?_, ?_, ?_⟩
  · intro hu
    unfold ext2_rmdir
    dsimp only
    rw [hE, decide_eq_false (by omega)]
  · intro hu r hr
    unfold ext2_rmdir at hr
    dsimp only at hr
    rw [hE, decide_eq_true hu] at hr
    dsimp only at hr
    split at hr
    · exact Option.noConfusion hr
    · split at hr
      · exact Option.noConfusion hr
      · split at hr
        · rw [← Option.some.inj hr]
          exact enotempty_ne.1
        · rw [← Option.some.inj hr]
          exact enotempty_ne.2
  · intro hu hp j l1 l2 q t hj hbefore hbj htile hl1 hq ht
    obtain ⟨v', h1, h2, h3, h4, h5⟩ := rm_from_dir_block_found v _ (cache dir) l1 l2 q t hbj hlog
      htile (by rw [hidx]; exact hl1) (by rw [hidx]; exact hq) (by rw [hidx]; exact ht)
    have hL := rm_child_loop_reach v (cache parent) (cache dir) pchains hlog j hbj
      (TO_EXT_BLOCKS_CNT v.fsdata.sb (cache parent).inode.blocks) 0 (Nat.zero_le j)
      (by omega) (fun k _ k2 => by rw [hidx]; exact hbefore k k2)
    rw [h1] at hL
    dsimp only at hL
    rw [if_pos rfl] at hL
    refine ⟨v', ?_, h2, h3, h4, h5⟩
    rw [hT hu hp, hC _ hL]
    dsimp only
    rw [if_neg (by decide)]
  · intro hu hp j l2 t hj hbefore hbj htile ht
    have h1 := rm_from_dir_block_first v _ (cache dir) l2 t hbj hlog htile
      (by rw [hidx]; exact ht)
    have hL := rm_child_loop_reach v (cache parent) (cache dir) pchains hlog j hbj
      (TO_EXT_BLOCKS_CNT v.fsdata.sb (cache parent).inode.blocks) 0 (Nat.zero_le j)
      (by omega) (fun k _ k2 => by rw [hidx]; exact hbefore k k2)
    rw [h1] at hL
    dsimp only at hL
    rw [hT hu hp, hC _ hL]
  · intro hu hp hall
    have hL := rm_child_loop_absent v (cache parent) (cache dir) pchains hlog
      (TO_EXT_BLOCKS_CNT v.fsdata.sb (cache parent).inode.blocks) 0
      (fun k _ k2 => by rw [hidx]; exact hall k (by omega))
    rw [hT hu hp, hC _ hL]
    dsimp only
    rw [if_pos (by decide)]

/-- Witness of C36: the directory `d` (inode 12, records `.` and `..`) removed
from the root directory, whose block 9 holds `.`, `..` and `d`. -/
theorem rmdir_contract_witness :
    BLOCK_LEN vfs_with_d.fsdata.sb ≤ MAX_BLOCK_LEN ∧
    (cache_with_d 12).inode_indx = 12 ∧
    used_in_blocks vfs_with_d (cache_with_d 12) (fun _ => [0, 12])
      (TO_EXT_BLOCKS_CNT vfs_with_d.fsdata.sb (cache_with_d 12).inode.blocks) 0 ≤ 2 ∧
    records_tile (block_buf vfs_with_d 9) 1024 [0, 12, 24] ∧
    entry_inode (block_buf vfs_with_d 9) 24 = 12 ∧
    ∃ v', ext2_rmdir vfs_with_d cache_with_d 12 (some 2)
        = some (0, v',
            links_count_dec
              (links_count_dec
                (set_dentry (links_count_dec cache_with_d 12) 12
                  { links_count_dec cache_with_d 12 12 with dirty := true })
                2)
              12) ∧
      remove_effect (block_buf vfs_with_d 9) (block_buf v' 9) 1024 12 24 :=
  ⟨by decide, rfl, by decide, by decide, by decide,
   let ⟨v', h1, _, _, h4, _⟩ :=
     (rmdir_contract vfs_with_d cache_with_d 12 2 (fun _ => [0, 12]) (fun _ => [0, 12, 24])
        (by decide) rfl (by decide)).2.2.2.1 (by decide) (by decide) 0 [0] [] 12 24
        (by decide) (fun k hk => absurd hk (Nat.not_lt_zero k)) (by decide) (by decide)
        (by decide) (by decide) (by decide)
   ⟨v', h1, h4⟩⟩

theorem rmdir_second_block_eval :
    records_tile (block_buf vfs_second_block 11) 1024 [0, 12] ∧
    used_in_blocks vfs_second_block (cache_second_block 12) (fun _ => [0, 12])
      (TO_EXT_BLOCKS_CNT vfs_second_block.fsdata.sb (cache_second_block 12).inode.blocks) 0
      = 2 ∧
    _ext2_get_block_of_inode vfs_second_block (cache_second_block 2) 1 = 10 ∧
    records_tile (block_buf vfs_second_block 10) 1024 [0] ∧
    entry_inode (block_buf vfs_second_block 10) 0 = 12 ∧
    (ext2_rmdir vfs_second_block cache_second_block 12 (some 2)).isNone = true := by
  decide!

/-- C36 as stated fails: the directory `d` (inode 12) holds only `.` and `..`,
its record is in the second block of the parent, where it is the first record,
and `ext2_rmdir` does not return 0: it does not return at all
(`kpanic("Ext2: can't delete first entry!")`). -/
theorem rmdir_panics_on_first_record :
    records_tile (block_buf vfs_second_block 11) 1024 [0, 12] ∧
    used_in_blocks vfs_second_block (cache_second_block 12) (fun _ => [0, 12])
      (TO_EXT_BLOCKS_CNT vfs_second_block.fsdata.sb (cache_second_block 12).inode.blocks) 0
      = 2 ∧
    _ext2_get_block_of_inode vfs_second_block (cache_second_block 2) 1 = 10 ∧
    records_tile (block_buf vfs_second_block 10) 1024 [0] ∧
    entry_inode (block_buf vfs_second_block 10) 0 = 12 ∧
    (ext2_rmdir vfs_second_block cache_second_block 12 (some 2)).isNone = true :=
  rmdir_second_block_eval

/-! ## Link counts of directories -/

theorem alloc_top_block_dentry (v : vfs_device_t) (d : dentry_t) (t : Fin 15) :
    (alloc_top_block v d t).2.2.inode.links_count = d.inode.links_count ∧
    (alloc_top_block v d t).2.2.inode.blocks = d.inode.blocks ∧
    (alloc_top_block v d t).2.2.inode_indx = d.inode_indx := by
  unfold alloc_top_block
  split_ifs
  · exact ⟨rfl, rfl, rfl⟩
  · exact ⟨rfl, rfl, rfl⟩

theorem snd_of_triple (a : Int) (v : vfs_device_t) (d : dentry_t) : (a, v, d).2.2 = d := rfl

/-- Setting a block pointer changes neither the link count, nor the block count,
nor the inode index of the dentry. -/
theorem set_block_of_inode_dentry (v : vfs_device_t) (d : dentry_t) (n val : Nat) :
    (_ext2_set_block_of_inode v d n val).2.2.inode.links_count = d.inode.links_count ∧
    (_ext2_set_block_of_inode v d n val).2.2.inode.blocks = d.inode.blocks ∧
    (_ext2_set_block_of_inode v d n val).2.2.inode_indx = d.inode_indx := by
  by_cases h12 : n < 12
  · rw [set_block_direct v d n val h12, snd_of_triple]
    exact ⟨rfl, rfl, rfl⟩
  by_cases h1 : n < (12 + BLOCK_LEN v.fsdata.sb / 4) % U32
  · rw [set_block_single v d n val h12 h1]
    by_cases ha : (alloc_top_block v d 12).1 ≠ 0
    · rw [if_pos ha]
      exact alloc_top_block_dentry v d 12
    · rw [if_neg ha, snd_of_triple]
      exact alloc_top_block_dentry v d 12
  by_cases h2 : n < (12 + BLOCK_LEN v.fsdata.sb / 4
      + BLOCK_LEN v.fsdata.sb / 4 * (BLOCK_LEN v.fsdata.sb / 4)) % U32
  · rw [set_block_double v d n val h12 h1 h2]
    by_cases ha : (alloc_top_block v d 13).1 ≠ 0
    · rw [if_pos ha]
      exact alloc_top_block_dentry v d 13
    · rw [if_neg ha, snd_of_triple]
      exact alloc_top_block_dentry v d 13
  · rw [set_block_triple v d n val h12 h1 h2]
    by_cases ha : (alloc_top_block v d 14).1 ≠ 0
    · rw [if_pos ha]
      exact alloc_top_block_dentry v d 14
    · rw [if_neg ha, snd_of_triple]
      exact alloc_top_block_dentry v d 14
theorem mid_of_triple (a : Int) (v : vfs_device_t) (d : dentry_t) : (a, v, d).2.1 = v := rfl

theorem set_block_of_inode_sb (v : vfs_device_t) (d : dentry_t) (n val : Nat) :
    (_ext2_set_block_of_inode v d n val).2.1.fsdata.sb = v.fsdata.sb := by
  by_cases h12 : n < 12
  · rw [set_block_direct v d n val h12]
  by_cases h1 : n < (12 + BLOCK_LEN v.fsdata.sb / 4) % U32
  · rw [set_block_single v d n val h12 h1]
    by_cases ha : (alloc_top_block v d 12).1 ≠ 0
    · rw [if_pos ha]
      exact (alloc_top_block_layout v d 12).1
    · rw [if_neg ha, mid_of_triple]
      exact (set_lev0_sb _ _ _ _).trans (alloc_top_block_layout v d 12).1
  by_cases h2 : n < (12 + BLOCK_LEN v.fsdata.sb / 4
      + BLOCK_LEN v.fsdata.sb / 4 * (BLOCK_LEN v.fsdata.sb / 4)) % U32
  · rw [set_block_double v d n val h12 h1 h2]
    by_cases ha : (alloc_top_block v d 13).1 ≠ 0
    · rw [if_pos ha]
      exact (alloc_top_block_layout v d 13).1
    · rw [if_neg ha, mid_of_triple]
      exact (set_lev1_sb _ _ _ _).trans (alloc_top_block_layout v d 13).1
  · rw [set_block_triple v d n val h12 h1 h2]
    by_cases ha : (alloc_top_block v d 14).1 ≠ 0
    · rw [if_pos ha]
      exact (alloc_top_block_layout v d 14).1
    · rw [if_neg ha, mid_of_triple]
      exact (set_lev2_sb _ _ _ _).trans (alloc_top_block_layout v d 14).1
/-- What `_ext2_allocate_block_for_inode` does to the dentry: the link count and
the inode index stay, and on success the block count grows by one block. -/
theorem allocate_block_for_inode_dentry (v : vfs_device_t) (d : dentry_t) (pref bi : Nat) :
    (_ext2_allocate_block_for_inode v d pref bi).2.2.1.inode.links_count
      = d.inode.links_count ∧
    (_ext2_allocate_block_for_inode v d pref bi).2.2.1.inode_indx = d.inode_indx ∧
    (_ext2_allocate_block_for_inode v d pref bi).2.1.fsdata.sb = v.fsdata.sb ∧
    ((_ext2_allocate_block_for_inode v d pref bi).1 = 0 →
      (_ext2_allocate_block_for_inode v d pref bi).2.2.1.inode.blocks
        = (d.inode.blocks + BLOCK_LEN v.fsdata.sb / 512) % U32) := by
  have hs := fun n val => set_block_of_inode_dentry (_ext2_allocate_block_index v bi pref).2.1
    d n val
  have hb := fun n val => set_block_of_inode_sb (_ext2_allocate_block_index v bi pref).2.1
    d n val
  have ha := (allocate_block_index_fsdata v bi pref).1
  unfold _ext2_allocate_block_for_inode
  dsimp only
  split_ifs with h1 h2
  · refine ⟨(hs _ _).1, (hs _ _).2.2, (hb _ _).trans ha, fun _ => ?_⟩
    dsimp only
    rw [(hs _ _).2.1, hb, ha]
  · exact ⟨(hs _ _).1, (hs _ _).2.2, (hb _ _).trans ha, fun h => absurd h enospc_ne_zero⟩
  · exact ⟨rfl, rfl, ha, fun h => absurd h enospc_ne_zero⟩

/-- The outcomes of `_ext2_add_child` that are not an error: either a block of
the directory took the record, or a block was allocated for the directory and
initialised with the record. -/
theorem add_child_ok (D : Nat) (v : vfs_device_t) (c : dentry_cache) (d ch : Nat) (name : Buf)
    (len : Nat) (r : Int × vfs_device_t × dentry_cache)
    (hr : _ext2_add_child D v c d ch name len = some r) (h0 : ¬ r.1 < 0) :
    (_ext2_add_child_loop (c d) (c ch) name len
        (TO_EXT_BLOCKS_CNT v.fsdata.sb (c d).inode.blocks) 0 v = some (some r.2.1) ∧
      r.2.2 = updated_inode c ch) ∨
    (_ext2_add_child_loop (c d) (c ch) name len
        (TO_EXT_BLOCKS_CNT v.fsdata.sb (c d).inode.blocks) 0 v = some none ∧
      (_ext2_allocate_block_for_inode v (c d) 0 0).1 = 0 ∧
      (_ext2_add_first_entry_to_dir_block D (_ext2_allocate_block_for_inode v (c d) 0 0).2.1
        (_ext2_allocate_block_for_inode v (c d) 0 0).2.2.2
        (set_dentry c d (_ext2_allocate_block_for_inode v (c d) 0 0).2.2.1 ch) name len).1
        = 0 ∧
      r.2.1 = (_ext2_add_first_entry_to_dir_block D
        (_ext2_allocate_block_for_inode v (c d) 0 0).2.1
        (_ext2_allocate_block_for_inode v (c d) 0 0).2.2.2
        (set_dentry c d (_ext2_allocate_block_for_inode v (c d) 0 0).2.2.1 ch) name len).2 ∧
      r.2.2 = updated_inode (set_dentry c d (_ext2_allocate_block_for_inode v (c d) 0 0).2.2.1)
        ch) := by
  have hneg : (-EFAULT : Int) < 0 := by decide
  unfold _ext2_add_child at hr
  dsimp only at hr
  generalize _ext2_add_child_loop (c d) (c ch) name len
    (TO_EXT_BLOCKS_CNT v.fsdata.sb (c d).inode.blocks) 0 v = x at hr ⊢
  generalize _ext2_allocate_block_for_inode v (c d) 0 0 = a at hr ⊢
  match x, hr with
  | none, hr => exact Option.noConfusion hr
  | some (some v1), hr =>
    left
    rw [← Option.some.inj hr]
    exact ⟨rfl, rfl⟩
  | some none, hr =>
    right
    dsimp only at hr
    by_cases ha : a.1 = 0
    · rw [if_pos ha] at hr
      by_cases hf : (_ext2_add_first_entry_to_dir_block D a.2.1 a.2.2.2
          (set_dentry c d a.2.2.1 ch) name len).1 = 0
      · rw [if_pos hf] at hr
        rw [← Option.some.inj hr]
        exact ⟨rfl, ha, hf, rfl, rfl⟩
      · rw [if_neg hf] at hr
        rw [← Option.some.inj hr] at h0
        exact absurd hneg h0
    · rw [if_neg ha] at hr
      rw [← Option.some.inj hr] at h0
      exact absurd hneg h0
theorem updated_inode_spec (c : dentry_cache) (ch : Nat) :
    (updated_inode c ch ch).inode.links_count = ((c ch).inode.links_count + 1) % U16 ∧
    (∀ k, k ≠ ch → updated_inode c ch k = c k) ∧
    (∀ k, (updated_inode c ch k).inode_indx = (c k).inode_indx) ∧
    (∀ k, (updated_inode c ch k).inode.blocks = (c k).inode.blocks) ∧
    (∀ k, (updated_inode c ch k).inode.block = (c k).inode.block) := by
  unfold updated_inode set_dentry
  dsimp only
  refine ⟨by rw [if_pos rfl], fun k hk => by rw [if_neg hk], fun k => ?_, fun k => ?_,
    fun k => ?_⟩
  · by_cases hk : k = ch
    · rw [if_pos hk, hk]
    · rw [if_neg hk]
  · by_cases hk : k = ch
    · rw [if_pos hk, hk]
    · rw [if_neg hk]
  · by_cases hk : k = ch
    · rw [if_pos hk, hk]
    · rw [if_neg hk]

/-- What a call of `_ext2_add_to_dir_block` that returns leaves behind: the file
system data are the same, a call that does not return 0 has not written, and a
call that returns 0 has written inside the block only. -/
theorem add_to_dir_block_frame (v : vfs_device_t) (b : Nat) (child : dentry_t) (name : Buf)
    (len : Nat) (r : Int × vfs_device_t)
    (h : _ext2_add_to_dir_block v b child name len = some r) :
    r.2.fsdata = v.fsdata ∧ (r.1 ≠ 0 → r.2 = v) ∧
    (r.1 = 0 → b ≠ 0 ∧
      ∀ a, a < _ext2_get_block_offset v.fsdata.sb b ∨
          _ext2_get_block_offset v.fsdata.sb b + BLOCK_LEN v.fsdata.sb ≤ a →
        r.2.dev a = v.dev a) := by
  have e1 : ¬ (-EINVAL : Int) = 0 := by decide
  have e2 : ¬ (-EFAULT : Int) = 0 := by decide
  unfold _ext2_add_to_dir_block at h
  dsimp only at h
  by_cases hb : b = 0
  · rw [if_pos hb] at h
    rw [← Option.some.inj h]
    exact ⟨rfl, fun _ => rfl, fun h0 => absurd h0 e1⟩
  rw [if_neg hb] at h
  by_cases hi : entry_inode (_ext2_read_from_dev v.dev zero_buf
      (_ext2_get_block_offset v.fsdata.sb b) (BLOCK_LEN v.fsdata.sb)) 0 = 0
  · rw [if_pos hi] at h
    exact Option.noConfusion h
  rw [if_neg hi] at h
  generalize _ext2_add_to_dir_block_loop (_ext2_read_from_dev v.dev zero_buf
      (_ext2_get_block_offset v.fsdata.sb b) (BLOCK_LEN v.fsdata.sb))
    (BLOCK_LEN v.fsdata.sb) ((8 + NORM_FILENAME len) % U32) (BLOCK_LEN v.fsdata.sb) 0 = x at h
  match x, h with
  | none, h => exact Option.noConfusion h
  | some none, h =>
    rw [← Option.some.inj h]
    exact ⟨rfl, fun _ => rfl, fun h0 => absurd h0 e2⟩
  | some (some s), h =>
    rw [← Option.some.inj h]
    exact ⟨rfl, fun h0 => absurd rfl h0, fun _ => ⟨hb, fun a ha => write_outside _ _ _ _ a ha⟩⟩

/-- When the loop of `_ext2_add_child` ends at `updated_inode`, one call of
`_ext2_add_to_dir_block` on a block of the directory has returned 0, and no call
before it has written. -/
theorem add_child_loop_some (d ch : dentry_t) (name : Buf) (len : Nat) (v v1 : vfs_device_t) :
    ∀ (n i : Nat), _ext2_add_child_loop d ch name len n i v = some (some v1) →
      ∃ j, i ≤ j ∧ j < i + n ∧ _ext2_get_block_of_inode v d j ≠ 0 ∧
        _ext2_add_to_dir_block v (_ext2_get_block_of_inode v d j) ch name len = some (0, v1)
  | 0, i, h => by
    have hz : _ext2_add_child_loop d ch name len 0 i v = some none := rfl
    rw [hz] at h
    exact absurd (Option.some.inj h) (by intro e; exact Option.noConfusion e)
  | n + 1, i, h => by
    have hstep : _ext2_add_child_loop d ch name len (n + 1) i v =
        if _ext2_get_block_of_inode v d i ≠ 0 then
          match _ext2_add_to_dir_block v (_ext2_get_block_of_inode v d i) ch name len with
          | none => none
          | some r =>
            if r.1 = 0 then some (some r.2)
            else _ext2_add_child_loop d ch name len n (i + 1) r.2
        else _ext2_add_child_loop d ch name len n (i + 1) v := rfl
    rw [hstep] at h
    by_cases hb : _ext2_get_block_of_inode v d i ≠ 0
    · rw [if_pos hb] at h
      generalize hA : _ext2_add_to_dir_block v (_ext2_get_block_of_inode v d i) ch name len
        = x at h
      match x, h, hA with
      | none, h, _ => exact Option.noConfusion h
      | some r, h, hA =>
        dsimp only at h
        by_cases hr0 : r.1 = 0
        · rw [if_pos hr0] at h
          refine ⟨i, Nat.le_refl i, by omega, hb, ?_⟩
          rw [hA, ← Option.some.inj (Option.some.inj h), ← hr0]
        · rw [if_neg hr0, (add_to_dir_block_frame v _ ch name len r hA).2.1 hr0] at h
          obtain ⟨j, h1, h2, h3⟩ := add_child_loop_some d ch name len v v1 n (i + 1) h
          exact ⟨j, by omega, by omega, h3⟩
    · rw [if_neg hb] at h
      obtain ⟨j, h1, h2, h3⟩ := add_child_loop_some d ch name len v v1 n (i + 1) h
      exact ⟨j, by omega, by omega, h3⟩
theorem add_first_entry_sb (D : Nat) (v : vfs_device_t) (b : Nat) (child : dentry_t)
    (name : Buf) (len : Nat) :
    (_ext2_add_first_entry_to_dir_block D v b child name len).2.fsdata = v.fsdata := by
  unfold _ext2_add_first_entry_to_dir_block
  dsimp only
  by_cases hb : b = 0
  · rw [if_pos hb]
  · rw [if_neg hb]

/-- What a call of `_ext2_add_child` that returns without an error does to the
cache: the link count of the child has grown by one (in the 16-bit field), no
other link count has changed, and every dentry keeps its inode index. -/
theorem add_child_links (D : Nat) (v : vfs_device_t) (c : dentry_cache) (d ch : Nat)
    (name : Buf) (len : Nat) (r : Int × vfs_device_t × dentry_cache)
    (hr : _ext2_add_child D v c d ch name len = some r) (h0 : ¬ r.1 < 0) :
    (r.2.2 ch).inode.links_count = ((c ch).inode.links_count + 1) % U16 ∧
    (∀ k, k ≠ ch → (r.2.2 k).inode.links_count = (c k).inode.links_count) ∧
    (∀ k, (r.2.2 k).inode_indx = (c k).inode_indx) ∧
    r.2.1.fsdata.sb = v.fsdata.sb := by
  rcases add_child_ok D v c d ch name len r hr h0 with ⟨hL, hc⟩ | ⟨_, _, _, hv, hc⟩
  · obtain ⟨j, _, _, _, hA⟩ := add_child_loop_some _ _ name len v r.2.1 _ 0 hL
    have hU := updated_inode_spec c ch
    rw [hc]
    refine ⟨hU.1, fun k hk => by rw [hU.2.1 k hk], hU.2.2.1,
      congrArg ext2_fsdata_t.sb (add_to_dir_block_frame v _ _ name len _ hA).1⟩
  · have hD := allocate_block_for_inode_dentry v (c d) 0 0
    generalize _ext2_allocate_block_for_inode v (c d) 0 0 = a at hD hv hc
    have hU := updated_inode_spec (set_dentry c d a.2.2.1) ch
    have hS : ∀ k, (set_dentry c d a.2.2.1 k).inode.links_count = (c k).inode.links_count ∧
        (set_dentry c d a.2.2.1 k).inode_indx = (c k).inode_indx := by
      intro k
      unfold set_dentry
      by_cases hk : k = d
      · rw [if_pos hk, hk]
        exact ⟨hD.1, hD.2.1⟩
      · rw [if_neg hk]
        exact ⟨rfl, rfl⟩
    rw [hc, hv]
    refine ⟨by rw [hU.1, (hS ch).1], fun k hk => by rw [hU.2.1 k hk, (hS k).1],
      fun k => by rw [hU.2.2.1 k, (hS k).2], ?_⟩
    rw [add_first_entry_sb]
    exact hD.2.2.1
/-- A call of `_ext2_setup_dir` that returns without an error has made its two
calls of `_ext2_add_child`, both without an error. -/
theorem setup_dir_ok (D : Nat) (v : vfs_device_t) (c : dentry_cache) (dir parent : Nat)
    (mode uid gid : Nat) (s : Int × vfs_device_t × dentry_cache)
    (hs : _ext2_setup_dir D v c dir parent mode uid gid = some s) (h0 : ¬ s.1 < 0) :
    ∃ r1 r2 : Int × vfs_device_t × dentry_cache,
      _ext2_add_child D v
        (set_dentry c dir
          { c dir with
            inode := { (c dir).inode with mode := mode, uid := uid, gid := gid,
                                          links_count := 0, blocks := 0 },
            dirty := true })
        dir dir (fun _ => 46) 1 = some r1 ∧ ¬ r1.1 < 0 ∧
      _ext2_add_child D r1.2.1 r1.2.2 dir parent (fun _ => 46) 2 = some r2 ∧ ¬ r2.1 < 0 ∧
      s.2.1 = r2.2.1 ∧ s.2.2 = r2.2.2 := by
  have hneg : (-EFAULT : Int) < 0 := by decide
  unfold _ext2_setup_dir at hs
  dsimp only at hs
  generalize hA : _ext2_add_child D v
    (set_dentry c dir
      { c dir with
        inode := { (c dir).inode with mode := mode, uid := uid, gid := gid,
                                      links_count := 0, blocks := 0 },
        dirty := true })
    dir dir (fun _ => 46) 1 = x at hs
  match x, hs, hA with
  | none, hs, _ => exact Option.noConfusion hs
  | some r1, hs, hA =>
    dsimp only at hs
    by_cases h1 : r1.1 < 0
    · rw [if_pos h1] at hs
      rw [← Option.some.inj hs] at h0
      exact absurd hneg h0
    rw [if_neg h1] at hs
    generalize hB : _ext2_add_child D r1.2.1 r1.2.2 dir parent (fun _ => 46) 2 = y at hs
    match y, hs, hB with
    | none, hs, _ => exact Option.noConfusion hs
    | some r2, hs, hB =>
      dsimp only at hs
      by_cases h2 : r2.1 < 0
      · rw [if_pos h2] at hs
        rw [← Option.some.inj hs] at h0
        exact absurd hneg h0
      rw [if_neg h2] at hs
      refine ⟨r1, r2, rfl, h1, hB, h2, ?_, ?_⟩
      · rw [← Option.some.inj hs]
      · rw [← Option.some.inj hs]

/-- A call of `ext2_mkdir` that returns 0 has allocated an inode, set the new
directory up and added it to the parent. -/
theorem mkdir_ok (D : Nat) (v : vfs_device_t) (c : dentry_cache) (dir : Nat) (name : Buf)
    (len mode uid gid : Nat) (m : Int × vfs_device_t × dentry_cache)
    (hm : ext2_mkdir D v c dir name len mode uid gid = some m) (h0 : m.1 = 0) :
    ∃ s r : Int × vfs_device_t × dentry_cache,
      _ext2_setup_dir D (_ext2_allocate_inode_index v 0 0).2.1 c
        (_ext2_allocate_inode_index v 0 0).2.2 dir mode uid gid = some s ∧ ¬ s.1 < 0 ∧
      _ext2_add_child D s.2.1 s.2.2 dir (_ext2_allocate_inode_index v 0 0).2.2 name len
        = some r ∧ ¬ r.1 < 0 ∧
      m.2.1 = r.2.1 ∧ m.2.2 = r.2.2 := by
  have e1 : ¬ (-ENOSPC : Int) = 0 := by decide
  have e2 : ¬ (-EFAULT : Int) = 0 := by decide
  unfold ext2_mkdir at hm
  dsimp only at hm
  generalize _ext2_allocate_inode_index v 0 0 = a at hm ⊢
  by_cases ha : a.1 < 0
  · rw [if_pos ha] at hm
    rw [← Option.some.inj hm] at h0
    exact absurd h0 e1
  rw [if_neg ha] at hm
  generalize hA : _ext2_setup_dir D a.2.1 c a.2.2 dir mode uid gid = x at hm
  match x, hm, hA with
  | none, hm, _ => exact Option.noConfusion hm
  | some s, hm, hA =>
    dsimp only at hm
    by_cases h1 : s.1 < 0
    · rw [if_pos h1] at hm
      rw [← Option.some.inj hm] at h0
      exact absurd h0 e2
    rw [if_neg h1] at hm
    generalize hB : _ext2_add_child D s.2.1 s.2.2 dir a.2.2 name len = y at hm
    match y, hm, hB with
    | none, hm, _ => exact Option.noConfusion hm
    | some r, hm, hB =>
      dsimp only at hm
      by_cases h2 : r.1 < 0
      · rw [if_pos h2] at hm
        rw [← Option.some.inj hm] at h0
        exact absurd h0 e2
      rw [if_neg h2] at hm
      refine ⟨s, r, rfl, h1, hB, h2, ?_, ?_⟩
      · rw [← Option.some.inj hm]
      · rw [← Option.some.inj hm]
/-- The link counts after a call of `ext2_mkdir` that returns 0 and whose new
inode is not the parent: 2 for the new directory, one more (in the 16-bit
field) for the parent, unchanged for every other inode. -/
theorem mkdir_links (D : Nat) (v : vfs_device_t) (c : dentry_cache) (dir : Nat) (name : Buf)
    (len mode uid gid : Nat) (m : Int × vfs_device_t × dentry_cache)
    (hm : ext2_mkdir D v c dir name len mode uid gid = some m) (h0 : m.1 = 0)
    (hne : (_ext2_allocate_inode_index v 0 0).2.2 ≠ dir) :
    (m.2.2 (_ext2_allocate_inode_index v 0 0).2.2).inode.links_count = 2 ∧
    (m.2.2 dir).inode.links_count = ((c dir).inode.links_count + 1) % U16 ∧
    (∀ k, k ≠ (_ext2_allocate_inode_index v 0 0).2.2 → k ≠ dir →
      (m.2.2 k).inode.links_count = (c k).inode.links_count) ∧
    (∀ k, (m.2.2 k).inode_indx = (c k).inode_indx) ∧
    m.2.1.fsdata.sb = v.fsdata.sb := by
  obtain ⟨s, r, hs, hs0, hr, hr0, e1, e2⟩ := mkdir_ok D v c dir name len mode uid gid m hm h0
  obtain ⟨r1, r2, h1, h10, h2, h20, e3, e4⟩ := setup_dir_ok D _ c _ dir mode uid gid s hs hs0
  have hsb := allocate_inode_index_fsdata v 0 0
  generalize (_ext2_allocate_inode_index v 0 0).2.2 = new at *
  generalize (_ext2_allocate_inode_index v 0 0).2.1 = va at *
  rw [e3, e4] at hr
  obtain ⟨a1, a2, a3, a4⟩ := add_child_links D _ _ new new _ 1 r1 h1 h10
  obtain ⟨b1, b2, b3, b4⟩ := add_child_links D _ _ new dir _ 2 r2 h2 h20
  obtain ⟨c1, c2, c3, c4⟩ := add_child_links D _ _ dir new name len r hr hr0
  have hne2 : dir ≠ new := fun e => hne e.symm
  have s0 : ∀ k, k ≠ new →
      (set_dentry c new
        { c new with
          inode := { (c new).inode with mode := mode, uid := uid, gid := gid,
                                        links_count := 0, blocks := 0 },
          dirty := true } k) = c k := by
    intro k hk
    unfold set_dentry
    rw [if_neg hk]
  have s1 : (set_dentry c new
        { c new with
          inode := { (c new).inode with mode := mode, uid := uid, gid := gid,
                                        links_count := 0, blocks := 0 },
          dirty := true } new) =
        { c new with
          inode := { (c new).inode with mode := mode, uid := uid, gid := gid,
                                        links_count := 0, blocks := 0 },
          dirty := true } := by
    unfold set_dentry
    rw [if_pos rfl]
  rw [e2]
  refine ⟨?_, ?_, ?_, ?_, ?_⟩
  · rw [c1, b2 new hne, a1, s1]
    rfl
  · rw [c2 dir hne2, b1, a2 dir hne2, s0 dir hne2]
  · intro k hk1 hk2
    rw [c2 k hk1, b2 k hk2, a2 k hk1, s0 k hk1]
  · intro k
    rw [c3, b3, a3]
    by_cases hk : k = new
    · rw [hk, s1]
    · rw [s0 k hk]
  · rw [e1, c4, b4, a4]
    exact congrArg ext2_fsdata_t.sb hsb
theorem links_count_dec_spec (c : dentry_cache) (i : Nat) :
    (links_count_dec c i i).inode.links_count =
      (if (c i).inode.links_count = 0 then U16 - 1 else (c i).inode.links_count - 1) ∧
    (∀ k, k ≠ i → links_count_dec c i k = c k) := by
  unfold links_count_dec set_dentry
  dsimp only
  exact ⟨by rw [if_pos rfl], fun k hk => by rw [if_neg hk]⟩

/-- A call of `ext2_rmdir` that returns 0 has removed the record of the
directory from a parent other than the directory itself, and has decremented
the link count of the directory twice and that of the parent once. -/
theorem rmdir_ok (v : vfs_device_t) (c : dentry_cache) (dir parent : Nat)
    (r : Int × vfs_device_t × dentry_cache)
    (hr : ext2_rmdir v c dir (some parent) = some r) (h0 : r.1 = 0) :
    parent ≠ dir ∧
    r.2.2 = links_count_dec
      (links_count_dec
        (set_dentry (links_count_dec c dir) dir { links_count_dec c dir dir with dirty := true })
        parent)
      dir := by
  have e1 : ¬ (-ENOTEMPTY : Int) = 0 := by decide
  have e2 : ¬ (-EFAULT : Int) = 0 := by decide
  have e3 : (-ENOENT : Int) < 0 := by decide
  have e4 : ¬ ((0 : Int) < 0) := by decide
  unfold ext2_rmdir at hr
  dsimp only at hr
  generalize _ext2_is_dir_empty v (c dir) = x at hr
  match x, hr with
  | none, hr => exact Option.noConfusion hr
  | some false, hr =>
    rw [← Option.some.inj hr] at h0
    exact absurd h0 e1
  | some true, hr =>
    dsimp only at hr
    by_cases hp : parent = dir
    · rw [if_pos hp] at hr
      exact Option.noConfusion hr
    rw [if_neg hp] at hr
    refine ⟨hp, ?_⟩
    unfold _ext2_rm_child at hr
    dsimp only at hr
    generalize _ext2_rm_child_loop (c parent) (c dir)
      (TO_EXT_BLOCKS_CNT v.fsdata.sb (c parent).inode.blocks) 0 v = y at hr
    match y, hr with
    | none, hr => exact Option.noConfusion hr
    | some none, hr =>
      dsimp only at hr
      rw [if_pos e3] at hr
      rw [← Option.some.inj hr] at h0
      exact absurd h0 e2
    | some (some v1), hr =>
      dsimp only at hr
      rw [if_neg e4] at hr
      rw [← Option.some.inj hr]

/-- The link counts after a call of `ext2_rmdir` that returns 0, for a directory
with link count 2 whose parent has one link more than `x`. -/
theorem rmdir_links (v : vfs_device_t) (c : dentry_cache) (dir parent : Nat)
    (r : Int × vfs_device_t × dentry_cache) (x : Nat)
    (hr : ext2_rmdir v c dir (some parent) = some r) (h0 : r.1 = 0)
    (hd : (c dir).inode.links_count = 2)
    (hp : (c parent).inode.links_count = (x + 1) % U16) (hx : x < U16) :
    (r.2.2 parent).inode.links_count = x ∧ (r.2.2 dir).inode.links_count = 0 := by
  obtain ⟨hne, hc⟩ := rmdir_ok v c dir parent r hr h0
  have hne2 : dir ≠ parent := fun e => hne e.symm
  have d1 := links_count_dec_spec c dir
  have hS : (set_dentry (links_count_dec c dir) dir
        { links_count_dec c dir dir with dirty := true } dir).inode.links_count = 1 ∧
      (set_dentry (links_count_dec c dir) dir
        { links_count_dec c dir dir with dirty := true } parent).inode.links_count
        = (x + 1) % U16 := by
    unfold set_dentry
    rw [if_pos rfl, if_neg hne]
    dsimp only
    rw [d1.1, d1.2 parent hne, hd, hp]
    exact ⟨rfl, rfl⟩
  generalize set_dentry (links_count_dec c dir) dir
    { links_count_dec c dir dir with dirty := true } = c1 at hc hS
  have d2 := links_count_dec_spec c1 parent
  have d3 := links_count_dec_spec (links_count_dec c1 parent) dir
  rw [hc]
  constructor
  · rw [d3.2 parent hne, d2.1, hS.2]
    unfold U16 at hx ⊢
    split_ifs with h <;> omega
  · rw [d3.1, d2.2 dir hne2, hS.1]
    rfl
/-- The record that `_ext2_add_first_entry_to_dir_block` writes at the start of
the block: the inode index of the child, the length of the name and the name. -/
theorem add_first_entry_fields (D : Nat) (v : vfs_device_t) (b : Nat) (child : dentry_t)
    (name : Buf) (len : Nat) (hb : b ≠ 0) (hlen : len < U16) (hD : 8 + len ≤ D) :
    entry_inode (block_buf (_ext2_add_first_entry_to_dir_block D v b child name len).2 b) 0
      = child.inode_indx % U32 ∧
    entry_name_len (block_buf (_ext2_add_first_entry_to_dir_block D v b child name len).2 b) 0
      = len ∧
    ∀ i, i < len →
      block_buf (_ext2_add_first_entry_to_dir_block D v b child name len).2 b (8 + i)
        = name i := by
  have hE : _ext2_add_first_entry_to_dir_block D v b child name len =
      (0, { v with
        dev := _ext2_write_to_dev v.dev
          (memset
            (memcpy
              (memcpy
                (_ext2_read_from_dev v.dev zero_buf (_ext2_get_block_offset v.fsdata.sb b) D)
                0 (new_entry_bytes child.inode_indx (BLOCK_LEN v.fsdata.sb) len) 0 8)
              8 name 0 len)
            (8 + len) 0 (sub32 (NORM_FILENAME len) len))
          (_ext2_get_block_offset v.fsdata.sb b) D }) := by
    unfold _ext2_add_first_entry_to_dir_block
    dsimp only
    rw [if_neg hb]
  rw [hE]
  generalize _ext2_read_from_dev v.dev zero_buf (_ext2_get_block_offset v.fsdata.sb b) D = T
  have hf := new_entry_fields T 0 child.inode_indx (BLOCK_LEN v.fsdata.sb) len
  generalize hX : memset (memcpy (memcpy T 0
    (new_entry_bytes child.inode_indx (BLOCK_LEN v.fsdata.sb) len) 0 8) 8 name 0 len)
    (8 + len) 0 (sub32 (NORM_FILENAME len) len) = X
  have hhead : ∀ i, i < 8 → X i = memcpy T 0
      (new_entry_bytes child.inode_indx (BLOCK_LEN v.fsdata.sb) len) 0 8 i := by
    intro i hi
    rw [← hX, memset_other _ _ _ _ _ (by omega), memcpy_other _ _ _ _ _ _ (by omega)]
  have hname : ∀ i, i < len → X (8 + i) = name i := by
    intro i hi
    rw [← hX, memset_other _ _ _ _ _ (by omega), memcpy_in _ _ _ _ _ _ (by omega)]
    congr 1
    omega
  have hB : ∀ i, i < D →
      block_buf { v with
        dev := _ext2_write_to_dev v.dev X (_ext2_get_block_offset v.fsdata.sb b) D } b i
        = X i := by
    intro i hi
    unfold block_buf
    dsimp only
    rw [write_to_dev_eq]
    dsimp only
    rw [if_pos ⟨by omega, by omega⟩]
    congr 1
    omega
  generalize block_buf { v with
    dev := _ext2_write_to_dev v.dev X (_ext2_get_block_offset v.fsdata.sb b) D } b = B' at hB
  refine ⟨?_, ?_, ?_⟩
  · rw [entry_inode_congr X B' 0 (fun i _ hi => hB i (by omega)),
      entry_inode_congr _ X 0 (fun i _ hi => hhead i (by omega)), hf.1]
  · rw [entry_name_len_congr X B' 0 (fun i _ hi => hB i (by omega)),
      entry_name_len_congr _ X 0 (fun i _ hi => hhead i (by omega)), hf.2.2]
    exact Nat.mod_eq_of_lt hlen
  · intro i hi
    rw [hB _ (by omega)]
    exact hname i hi

theorem to_ext_blocks_cnt_zero (sb : superblock_t) : TO_EXT_BLOCKS_CNT sb 0 = 0 := by
  unfold TO_EXT_BLOCKS_CNT
  exact Nat.zero_div _

/-- The first block that `_ext2_allocate_block_for_inode` gives to an inode
without blocks is stored in `block[0]`. -/
theorem allocate_block_for_inode_first (v : vfs_device_t) (d : dentry_t) (pref bi : Nat)
    (hb : d.inode.blocks = 0) (ha : (_ext2_allocate_block_for_inode v d pref bi).1 = 0) :
    (_ext2_allocate_block_for_inode v d pref bi).2.2.1.inode.block 0
      = (_ext2_allocate_block_for_inode v d pref bi).2.2.2 := by
  have hs := set_block_direct (_ext2_allocate_block_index v bi pref).2.1 d 0
    (_ext2_allocate_block_index v bi pref).2.2 (by omega)
  unfold _ext2_allocate_block_for_inode at ha ⊢
  dsimp only at ha ⊢
  rw [hb, to_ext_blocks_cnt_zero, hs] at ha ⊢
  by_cases h1 : (_ext2_allocate_block_index v bi pref).1 = 0
  · rw [if_pos h1] at ha ⊢
    dsimp only
    rw [if_pos rfl]
    unfold set_block
    dsimp only
    exact if_pos rfl
  · rw [if_neg h1] at ha
    exact absurd ha enospc_ne_zero
/-- The first `_ext2_add_child` into a directory without blocks: a block is
allocated, stored in `block[0]` and initialised with the one record, which fills
the block. -/
theorem add_child_first_block (D : Nat) (v : vfs_device_t) (c : dentry_cache) (d ch : Nat)
    (name : Buf) (len : Nat) (r : Int × vfs_device_t × dentry_cache)
    (hlog : v.fsdata.sb.log_block_size ≤ 2) (hlen : len < U16) (hD : 8 + len ≤ D)
    (hfit : 8 + pad4 len ≤ 1024) (hb : (c d).inode.blocks = 0)
    (hr : _ext2_add_child D v c d ch name len = some r) (h0 : ¬ r.1 < 0) :
    r.2.1.fsdata.sb = v.fsdata.sb ∧
    (r.2.2 d).inode.block 0 ≠ 0 ∧
    (r.2.2 d).inode.blocks = BLOCK_LEN v.fsdata.sb / 512 ∧
    entry_inode (block_buf r.2.1 ((r.2.2 d).inode.block 0)) 0
      = (if ch = d then (c d).inode_indx else (c ch).inode_indx) % U32 ∧
    entry_name_len (block_buf r.2.1 ((r.2.2 d).inode.block 0)) 0 = len ∧
    (∀ i, i < len → block_buf r.2.1 ((r.2.2 d).inode.block 0) (8 + i) = name i) ∧
    entry_rec_len (block_buf r.2.1 ((r.2.2 d).inode.block 0)) 0 = BLOCK_LEN v.fsdata.sb ∧
    records_tile (block_buf r.2.1 ((r.2.2 d).inode.block 0)) (BLOCK_LEN v.fsdata.sb) [0] := by
  obtain ⟨hbl1, hbl2⟩ := block_len_lt v.fsdata.sb hlog
  rcases add_child_ok D v c d ch name len r hr h0 with ⟨hL, _⟩ | ⟨_, ha, hf, hv, hc⟩
  · rw [hb, to_ext_blocks_cnt_zero] at hL
    have hz : _ext2_add_child_loop (c d) (c ch) name len 0 0 v = some none := rfl
    rw [hz] at hL
    exact absurd (Option.some.inj hL) (by intro e; exact Option.noConfusion e)
  have hD1 := allocate_block_for_inode_dentry v (c d) 0 0
  have hF1 := allocate_block_for_inode_first v (c d) 0 0 hb ha
  have hlt : BLOCK_LEN v.fsdata.sb / 512 < U32 := by
    unfold U16 at hbl2
    unfold U32
    omega
  rw [hb, Nat.zero_add, Nat.mod_eq_of_lt hlt] at hD1
  generalize _ext2_allocate_block_for_inode v (c d) 0 0 = a at *
  have hU := updated_inode_spec (set_dentry c d a.2.2.1) ch
  have hS : set_dentry c d a.2.2.1 d = a.2.2.1 := by
    unfold set_dentry
    exact if_pos rfl
  have hch : (set_dentry c d a.2.2.1 ch).inode_indx
      = if ch = d then (c d).inode_indx else (c ch).inode_indx := by
    unfold set_dentry
    by_cases e : ch = d
    · rw [if_pos e, if_pos e]
      exact hD1.2.1
    · rw [if_neg e, if_neg e]
  have hblock : (r.2.2 d).inode.block 0 = a.2.2.2 := by
    rw [hc, hU.2.2.2.2 d, hS]
    exact hF1
  have hblocks : (r.2.2 d).inode.blocks = BLOCK_LEN v.fsdata.sb / 512 := by
    rw [hc, hU.2.2.2.1 d, hS]
    exact hD1.2.2.2 ha
  have hnz : a.2.2.2 ≠ 0 := by
    intro e
    have : (_ext2_add_first_entry_to_dir_block D a.2.1 a.2.2.2
        (set_dentry c d a.2.2.1 ch) name len).1 = -EINVAL := by
      unfold _ext2_add_first_entry_to_dir_block
      dsimp only
      rw [if_pos e]
    rw [this] at hf
    exact absurd hf (by decide)
  have hsb := hD1.2.2.1
  have hT := add_first_entry_tile D a.2.1 a.2.2.2 (set_dentry c d a.2.2.1 ch) name len hnz
    (by rw [hsb]; exact hlog) hlen (by omega) (by rw [hsb]; omega)
  have hFl := add_first_entry_fields D a.2.1 a.2.2.2 (set_dentry c d a.2.2.1 ch) name len hnz
    hlen hD
  rw [hsb] at hT
  rw [hblock, hblocks, hv, add_first_entry_sb, hsb]
  rw [hch] at hFl
  exact ⟨rfl, hnz, rfl, hFl.1, hFl.2.1, hFl.2.2, hT.2.1, hT.2.2⟩
theorem get_block_zero (v : vfs_device_t) (d : dentry_t) :
    _ext2_get_block_of_inode v d 0 = d.inode.block 0 :=
  get_block_direct v d 0 (by omega)

theorem to_ext_blocks_cnt_one (sb : superblock_t) (hlog : sb.log_block_size ≤ 2) :
    TO_EXT_BLOCKS_CNT sb (BLOCK_LEN sb / 512) = 1 := by
  unfold TO_EXT_BLOCKS_CNT BLOCK_LEN
  have : sb.log_block_size = 0 ∨ sb.log_block_size = 1 ∨ sb.log_block_size = 2 := by omega
  rcases this with h | h | h <;> rw [h] <;> rfl

theorem add_child_loop_one (d ch : dentry_t) (name : Buf) (len : Nat) (v : vfs_device_t) :
    _ext2_add_child_loop d ch name len 1 0 v =
      if _ext2_get_block_of_inode v d 0 ≠ 0 then
        match _ext2_add_to_dir_block v (_ext2_get_block_of_inode v d 0) ch name len with
        | none => none
        | some r =>
          if r.1 = 0 then some (some r.2)
          else _ext2_add_child_loop d ch name len 0 (0 + 1) r.2
      else _ext2_add_child_loop d ch name len 0 (0 + 1) v := rfl

/-- The second `_ext2_add_child` into a directory whose only block holds one
record with room: the record is split and the new record follows it. -/
theorem add_child_second_record (D : Nat) (v : vfs_device_t) (c : dentry_cache) (d ch : Nat)
    (name : Buf) (len : Nat) (r : Int × vfs_device_t × dentry_cache)
    (hlog : v.fsdata.sb.log_block_size ≤ 2) (hlen : len < U16)
    (hidx : (c ch).inode_indx < U32) (hne : d ≠ ch)
    (hblocks : (c d).inode.blocks = BLOCK_LEN v.fsdata.sb / 512)
    (hb0 : (c d).inode.block 0 ≠ 0)
    (htile : records_tile (block_buf v ((c d).inode.block 0)) (BLOCK_LEN v.fsdata.sb) [0])
    (hroom : 8 + pad4 (entry_name_len (block_buf v ((c d).inode.block 0)) 0) + (8 + pad4 len)
      ≤ entry_rec_len (block_buf v ((c d).inode.block 0)) 0)
    (hr : _ext2_add_child D v c d ch name len = some r) (h0 : ¬ r.1 < 0) :
    r.2.1.fsdata.sb = v.fsdata.sb ∧ r.2.2 d = c d ∧
    entry_inode (block_buf v ((c d).inode.block 0)) 0 ≠ 0 ∧
    insert_effect (block_buf v ((c d).inode.block 0))
      (block_buf r.2.1 ((c d).inode.block 0)) (BLOCK_LEN v.fsdata.sb) 0
      (c ch).inode_indx name len ∧
    records_tile (block_buf r.2.1 ((c d).inode.block 0)) (BLOCK_LEN v.fsdata.sb)
      [0, 0 + (8 + pad4 (entry_name_len (block_buf v ((c d).inode.block 0)) 0))] := by
  have hL1 := add_child_loop_one (c d) (c ch) name len v
  rw [get_block_zero, if_pos hb0] at hL1
  have hok := add_child_ok D v c d ch name len r hr h0
  rw [hblocks, to_ext_blocks_cnt_one _ hlog, hL1] at hok
  by_cases hfirst : entry_inode (block_buf v ((c d).inode.block 0)) 0 = 0
  · rw [add_to_dir_block_panics v _ (c ch) name len hb0
      ((tmp_inode_first v _ hlog).trans hfirst)] at hok
    rcases hok with ⟨e, _⟩ | ⟨e, _⟩
    · exact Option.noConfusion e
    · exact Option.noConfusion e
  obtain ⟨v1, h1, h2, _, h4, h5⟩ := add_to_dir_block_found v _ (c ch) name len [] [] 0 hb0 hlog
    hlen hidx htile hfirst (fun o ho => absurd ho (List.not_mem_nil o)) hroom
  rw [h1] at hok
  dsimp only at hok
  rw [if_pos rfl] at hok
  rcases hok with ⟨e, hc⟩ | ⟨e, _⟩
  · have ev : v1 = r.2.1 := Option.some.inj (Option.some.inj e)
    rw [← ev, hc, (updated_inode_spec c ch).2.1 d hne]
    exact ⟨congrArg ext2_fsdata_t.sb h2, rfl, hfirst, h4, h5⟩
  · exact absurd (Option.some.inj e) (by intro e2; exact Option.noConfusion e2)
theorem entry_name_length (buf : Buf) (o : Nat) :
    (entry_name buf o).length = entry_name_len buf o := by
  unfold entry_name
  rw [List.length_map, List.length_range]

theorem entry_name_congr (buf buf' : Buf) (o : Nat)
    (hn : entry_name_len buf' o = entry_name_len buf o)
    (h : ∀ i, i < entry_name_len buf o → buf' (o + 8 + i) = buf (o + 8 + i)) :
    entry_name buf' o = entry_name buf o := by
  unfold entry_name
  rw [hn]
  apply List.map_congr_left
  intro i hi
  rw [h i (List.mem_range.mp hi)]

theorem entry_name_one (buf : Buf) (o : Nat) (x : Byte) (hn : entry_name_len buf o = 1)
    (h0 : buf (o + 8) = x) : entry_name buf o = [x.val] := by
  unfold entry_name
  rw [hn, ← h0]
  rfl

theorem entry_name_two (buf : Buf) (o : Nat) (x y : Byte) (hn : entry_name_len buf o = 2)
    (h0 : buf (o + 8) = x) (h1 : buf (o + 9) = y) : entry_name buf o = [x.val, y.val] := by
  unfold entry_name
  rw [hn, ← h0, ← h1]
  rfl

/-- The records `.` and `..` read the bytes 0 to 15 and 18 to 21 of the block. -/
theorem has_dot_records_congr (B B' : Buf) (self parent : Nat)
    (h : ∀ i, i < 24 → ¬ (16 ≤ i ∧ i < 18) → B' i = B i)
    (hd : has_dot_records B self parent) : has_dot_records B' self parent := by
  obtain ⟨d1, d2, d3, d4, d5⟩ := hd
  have n0 : entry_name_len B 0 = 1 := by rw [← entry_name_length, d2]; rfl
  have n12 : entry_name_len B 12 = 2 := by rw [← entry_name_length, d5]; rfl
  have m0 := entry_name_len_congr B B' 0 (fun i _ _ => h i (by omega) (by omega))
  have m12 := entry_name_len_congr B B' 12 (fun i _ _ => h i (by omega) (by omega))
  refine ⟨?_, ?_, ?_, ?_, ?_⟩
  · rw [entry_inode_congr B B' 0 (fun i _ _ => h i (by omega) (by omega))]
    exact d1
  · rw [entry_name_congr B B' 0 m0 (fun i hi => h _ (by omega) (by omega))]
    exact d2
  · rw [entry_rec_len_congr B B' 0 (fun i _ _ => h i (by omega) (by omega))]
    exact d3
  · rw [entry_inode_congr B B' 12 (fun i _ _ => h i (by omega) (by omega))]
    exact d4
  · rw [entry_name_congr B B' 12 m12 (fun i hi => h _ (by omega) (by omega))]
    exact d5

/-- The record `..` inserted after the record `.` that fills the block. -/
theorem dots_of_insert (B B' : Buf) (bl self parent : Nat) (hbl : 24 ≤ bl)
    (h1 : entry_inode B 0 = self) (h2 : entry_name_len B 0 = 1) (h3 : B 8 = 46)
    (hins : insert_effect B B' bl 0 parent (fun _ => 46) 2) :
    has_dot_records B' self parent := by
  have p1 : pad4 1 = 4 := rfl
  have p2 : pad4 2 = 4 := rfl
  unfold insert_effect at hins
  rw [h2, p1, p2] at hins
  obtain ⟨i1, i2, i3, _, i5, _, i7⟩ := hins
  have e0 := i5 0 (by omega)
  have e1 := i5 1 (by omega)
  have hk : ∀ i, i < 12 → ¬ (4 ≤ i ∧ i < 6) → B' i = B i := by
    intro i hi1 hi2
    exact i7 i (by omega) (by omega) (by omega)
  refine ⟨?_, ?_, i1, i2, ?_⟩
  · rw [entry_inode_congr B B' 0 (fun i _ _ => hk i (by omega) (by omega))]
    exact h1
  · apply entry_name_one B' 0 46
    · rw [entry_name_len_congr B B' 0 (fun i _ _ => hk i (by omega) (by omega))]
      exact h2
    · rw [hk 8 (by omega) (by omega)]
      exact h3
  · exact entry_name_two B' 12 46 46 i3 e0 e1

theorem block_offset_mod (sb : superblock_t) (hlog : sb.log_block_size ≤ 2) (b : Nat) :
    _ext2_get_block_offset sb b % BLOCK_LEN sb = 1024 % BLOCK_LEN sb := by
  unfold _ext2_get_block_offset SUPERBLOCK_START U32
  rcases block_len_cases sb hlog with h | h | h <;> rw [h] <;> omega
/-- An insert that returns 0, into whatever block of the device, keeps the
records `.` and `..` at the start of a block that holds just these two: another
block is not written, and in the block itself the new record goes behind
`..`. -/
theorem add_to_dir_block_keeps_dots (v : vfs_device_t) (b b0 : Nat) (child : dentry_t)
    (name : Buf) (len : Nat) (v1 : vfs_device_t) (self parent : Nat)
    (hlog : v.fsdata.sb.log_block_size ≤ 2) (hlen : len < U16)
    (hidx : child.inode_indx < U32)
    (hA : _ext2_add_to_dir_block v b child name len = some (0, v1))
    (hd : has_dot_records (block_buf v b0) self parent)
    (htile : records_tile (block_buf v b0) (BLOCK_LEN v.fsdata.sb) [0, 12]) :
    has_dot_records (block_buf v1 b0) self parent := by
  obtain ⟨hbl1, _⟩ := block_len_lt v.fsdata.sb hlog
  obtain ⟨fs, _, hfr⟩ := add_to_dir_block_frame v b child name len (0, v1) hA
  obtain ⟨hb, hout⟩ := hfr rfl
  dsimp only at fs hout
  by_cases hoff : _ext2_get_block_offset v.fsdata.sb b = _ext2_get_block_offset v.fsdata.sb b0
  · have eB : block_buf v b = block_buf v b0 := by
      funext i
      unfold block_buf
      rw [hoff]
    have eB1 : block_buf v1 b = block_buf v1 b0 := by
      funext i
      unfold block_buf
      rw [fs, hoff]
    rw [← eB] at hd htile
    rw [← eB1]
    by_cases hfirst : entry_inode (block_buf v b) 0 = 0
    · rw [add_to_dir_block_panics v b child name len hb
        ((tmp_inode_first v b hlog).trans hfirst)] at hA
      exact Option.noConfusion hA
    have n0 : entry_name_len (block_buf v b) 0 = 1 := by
      rw [← entry_name_length, hd.2.1]
      rfl
    have n12 : entry_name_len (block_buf v b) 12 = 2 := by
      rw [← entry_name_length, hd.2.2.2.2]
      rfl
    have r0 := hd.2.2.1
    have p1 : pad4 1 = 4 := rfl
    have p2 : pad4 2 = 4 := rfl
    by_cases hroom : 8 + pad4 (entry_name_len (block_buf v b) 12) + (8 + pad4 len)
        ≤ entry_rec_len (block_buf v b) 12
    · obtain ⟨v', h1, _, _, h4, _⟩ := add_to_dir_block_found v b child name len [0] [] 12 hb
        hlog hlen hidx htile hfirst
        (fun o ho => by
          rw [List.mem_singleton.mp ho, n0, r0, p1]
          omega)
        hroom
      rw [hA] at h1
      have ev : v1 = v' := congrArg Prod.snd (Option.some.inj h1)
      rw [← ev] at h4
      unfold insert_effect at h4
      rw [n12, p2] at h4
      exact has_dot_records_congr _ _ self parent
        (fun i hi1 hi2 => h4.2.2.2.2.2.2 i (by omega) (by omega) (by omega)) hd
    · have hF := add_to_dir_block_full v b child name len [0, 12] hb hlog hlen htile hfirst
        (fun o ho => by
          rcases List.mem_cons.mp ho with e | e
          · rw [e, n0, r0, p1]
            omega
          · rw [List.mem_singleton.mp e]
            omega)
      rw [hA] at hF
      have e0 : (0 : Int) = -EFAULT := congrArg Prod.fst (Option.some.inj hF)
      exact absurd e0 (by decide)
  · have m1 := block_offset_mod v.fsdata.sb hlog b
    have m2 := block_offset_mod v.fsdata.sb hlog b0
    apply has_dot_records_congr (block_buf v b0) (block_buf v1 b0) self parent _ hd
    intro i hi _
    unfold block_buf
    rw [fs]
    apply hout
    rcases block_len_cases v.fsdata.sb hlog with h | h | h <;> rw [h] at m1 m2 ⊢ <;> omega
theorem allocate_inode_index_loop_lt (pref : Nat) :
    ∀ (n i : Nat) (v : vfs_device_t) (ii : Nat), ii < U32 →
      (_ext2_allocate_inode_index_loop pref n i v ii).2.2 < U32 := by
  intro n
  induction n with
  | zero => intro i v ii h; exact h
  | succ n ih =>
    intro i v ii h
    have hf : ∀ g, (_ext2_find_free_inode_index v ii g).2.2 < U32 := by
      intro g
      unfold _ext2_find_free_inode_index
      dsimp only
      split
      · exact Nat.mod_lt _ (by decide)
      · exact h
    unfold _ext2_allocate_inode_index_loop
    dsimp only
    split_ifs
    · exact hf _
    · exact ih _ _ _ (hf _)
    · exact ih _ _ _ h

/-- The inode index that `_ext2_allocate_inode_index` leaves in `*inode_index`,
which was 0 before, is a 32-bit value. -/
theorem allocate_inode_index_lt (v : vfs_device_t) (pref : Nat) :
    (_ext2_allocate_inode_index v 0 pref).2.2 < U32 :=
  allocate_inode_index_loop_lt pref v.fsdata.gt.count 0 v 0 (by decide)

/-- A call of `_ext2_add_child` that returns without an error leaves the block
pointers and the block count of every dentry but the directory as they were. -/
theorem add_child_others (D : Nat) (v : vfs_device_t) (c : dentry_cache) (d ch : Nat)
    (name : Buf) (len : Nat) (r : Int × vfs_device_t × dentry_cache)
    (hr : _ext2_add_child D v c d ch name len = some r) (h0 : ¬ r.1 < 0) (k : Nat)
    (hk : k ≠ d) :
    (r.2.2 k).inode.blocks = (c k).inode.blocks ∧ (r.2.2 k).inode.block = (c k).inode.block := by
  rcases add_child_ok D v c d ch name len r hr h0 with ⟨_, hc⟩ | ⟨_, _, _, _, hc⟩
  · have hU := updated_inode_spec c ch
    rw [hc]
    exact ⟨hU.2.2.2.1 k, hU.2.2.2.2 k⟩
  · have hU := updated_inode_spec
      (set_dentry c d (_ext2_allocate_block_for_inode v (c d) 0 0).2.2.1) ch
    have hS : set_dentry c d (_ext2_allocate_block_for_inode v (c d) 0 0).2.2.1 k = c k := by
      unfold set_dentry
      exact if_neg hk
    rw [hc, hU.2.2.2.1 k, hU.2.2.2.2 k, hS]
    exact ⟨rfl, rfl⟩

/-- A call of `_ext2_add_child` that returns without an error and leaves the
block count of the directory as it was has put the record into one of the
blocks of the directory. -/
theorem add_child_no_grow (D : Nat) (v : vfs_device_t) (c : dentry_cache) (d ch : Nat)
    (name : Buf) (len : Nat) (r : Int × vfs_device_t × dentry_cache)
    (hlog : v.fsdata.sb.log_block_size ≤ 2)
    (hr : _ext2_add_child D v c d ch name len = some r) (h0 : ¬ r.1 < 0)
    (hng : (r.2.2 d).inode.blocks = (c d).inode.blocks) :
    _ext2_add_child_loop (c d) (c ch) name len
        (TO_EXT_BLOCKS_CNT v.fsdata.sb (c d).inode.blocks) 0 v = some (some r.2.1) ∧
      r.2.2 = updated_inode c ch := by
  rcases add_child_ok D v c d ch name len r hr h0 with h | ⟨_, ha, _, _, hc⟩
  · exact h
  · exfalso
    have hD := (allocate_block_for_inode_dentry v (c d) 0 0).2.2.2 ha
    have hU := updated_inode_spec
      (set_dentry c d (_ext2_allocate_block_for_inode v (c d) 0 0).2.2.1) ch
    have hS : set_dentry c d (_ext2_allocate_block_for_inode v (c d) 0 0).2.2.1 d
        = (_ext2_allocate_block_for_inode v (c d) 0 0).2.2.1 := by
      unfold set_dentry
      exact if_pos rfl
    rw [hc, hU.2.2.2.1 d, hS, hD] at hng
    unfold U32 at hng
    rcases block_len_cases v.fsdata.sb hlog with h | h | h <;> rw [h] at hng <;> omega
theorem add_first_entry_frame (D : Nat) (v : vfs_device_t) (b : Nat) (child : dentry_t)
    (name : Buf) (len a : Nat)
    (ha : a < _ext2_get_block_offset v.fsdata.sb b ∨
      _ext2_get_block_offset v.fsdata.sb b + D ≤ a) :
    (_ext2_add_first_entry_to_dir_block D v b child name len).2.dev a = v.dev a := by
  unfold _ext2_add_first_entry_to_dir_block
  dsimp only
  by_cases hb : b = 0
  · rw [if_pos hb]
  · rw [if_neg hb]
    exact write_outside _ _ _ _ a ha

/-- The first block of the directory made by a call of `ext2_mkdir` that
returns 0: it is `block[0]` of the new inode, not 0, the only block, and it
starts with `.` of the new inode and `..` of the parent, when the record of the
new directory went into a block that the parent had, or when the allocation of
a block for the parent left the block alone. -/
theorem mkdir_first_block (D : Nat) (v : vfs_device_t) (c : dentry_cache) (dir : Nat)
    (name : Buf) (len mode uid gid : Nat) (m : Int × vfs_device_t × dentry_cache)
    (hbuf : BLOCK_LEN v.fsdata.sb ≤ MAX_BLOCK_LEN) (hD : 12 ≤ D)
    (hD2 : D ≤ BLOCK_LEN v.fsdata.sb) (hlen : len < U16)
    (hdir : dir < U32) (hidx : (c dir).inode_indx = dir)
    (hnew : (c (_ext2_allocate_inode_index v 0 0).2.2).inode_indx
      = (_ext2_allocate_inode_index v 0 0).2.2)
    (hne : (_ext2_allocate_inode_index v 0 0).2.2 ≠ dir)
    (hm : ext2_mkdir D v c dir name len mode uid gid = some m) (h0 : m.1 = 0)
    (hpar : (m.2.2 dir).inode.blocks = (c dir).inode.blocks ∨
      ∀ s : Int × vfs_device_t × dentry_cache,
        _ext2_setup_dir D (_ext2_allocate_inode_index v 0 0).2.1 c
          (_ext2_allocate_inode_index v 0 0).2.2 dir mode uid gid = some s →
        alloc_leaves_block s.2.1 (s.2.2 dir)
          ((s.2.2 (_ext2_allocate_inode_index v 0 0).2.2).inode.block 0)) :
    (m.2.2 (_ext2_allocate_inode_index v 0 0).2.2).inode.block 0 ≠ 0 ∧
    (m.2.2 (_ext2_allocate_inode_index v 0 0).2.2).inode.blocks
      = BLOCK_LEN v.fsdata.sb / 512 ∧
    has_dot_records
      (block_buf m.2.1 ((m.2.2 (_ext2_allocate_inode_index v 0 0).2.2).inode.block 0))
      (_ext2_allocate_inode_index v 0 0).2.2 dir := by
  obtain ⟨hlog, hbl⟩ := block_fits v.fsdata.sb hbuf
  obtain ⟨hbl1, _⟩ := block_len_lt v.fsdata.sb hlog
  obtain ⟨s, r, hs, hs0, hr, hr0, e1, e2⟩ := mkdir_ok D v c dir name len mode uid gid m hm h0
  obtain ⟨r1, r2, h1, h10, h2, h20, e3, e4⟩ := setup_dir_ok D _ c _ dir mode uid gid s hs hs0
  have hsb := congrArg ext2_fsdata_t.sb (allocate_inode_index_fsdata v 0 0)
  have hlt := allocate_inode_index_lt v 0
  generalize (_ext2_allocate_inode_index v 0 0).2.2 = new at *
  generalize (_ext2_allocate_inode_index v 0 0).2.1 = va at *
  rw [e3, e4] at hr
  have hne2 : dir ≠ new := fun e => hne e.symm
  have p1 : pad4 1 = 4 := rfl
  have p2 : pad4 2 = 4 := rfl
  have s0 : ∀ k, k ≠ new →
      (set_dentry c new
        { c new with
          inode := { (c new).inode with mode := mode, uid := uid, gid := gid,
                                        links_count := 0, blocks := 0 },
          dirty := true } k) = c k := by
    intro k hk
    unfold set_dentry
    rw [if_neg hk]
  have s1 : (set_dentry c new
        { c new with
          inode := { (c new).inode with mode := mode, uid := uid, gid := gid,
                                        links_count := 0, blocks := 0 },
          dirty := true } new) =
        { c new with
          inode := { (c new).inode with mode := mode, uid := uid, gid := gid,
                                        links_count := 0, blocks := 0 },
          dirty := true } := by
    unfold set_dentry
    rw [if_pos rfl]
  -- the record `.`
  obtain ⟨f1, f2, f3, f4, f5, f6, f7, f8⟩ := add_child_first_block D va _ new new _ 1 r1
    (by rw [hsb]; exact hlog) (by decide) (by omega) (by decide) (by rw [s1]) h1 h10
  rw [if_pos rfl, s1] at f4
  dsimp only at f4
  rw [hnew, Nat.mod_eq_of_lt hlt] at f4
  have f6' := f6 0 (by omega)
  obtain ⟨a1, a2, a3, a4⟩ := add_child_links D _ _ new new _ 1 r1 h1 h10
  -- the record `..`
  have hidx1 : (r1.2.2 dir).inode_indx < U32 := by
    rw [a3 dir, s0 dir hne2, hidx]
    exact hdir
  obtain ⟨g1, g2, _, g4, g5⟩ := add_child_second_record D r1.2.1 r1.2.2 new dir _ 2 r2
    (by rw [f1, hsb]; exact hlog) (by decide) hidx1 hne (by rw [f1]; exact f3) f2
    (by rw [f1]; exact f8) (by rw [f5, f7, p1, p2, hsb]; omega) h2 h20
  rw [f1] at g4 g5
  rw [a3 dir, s0 dir hne2, hidx] at g4
  rw [f5, p1] at g5
  have hdots := dots_of_insert _ _ (BLOCK_LEN va.fsdata.sb) new dir (by rw [hsb]; omega) f4 f5
    f6' g4
  -- the record of the new directory in the parent
  have hb2 := add_child_others D r1.2.1 r1.2.2 new dir _ 2 r2 h2 h20 dir hne2
  have hb1 := add_child_others D va _ new new _ 1 r1 h1 h10 dir hne2
  have hsb2 : r2.2.1.fsdata.sb = v.fsdata.sb := by rw [g1, f1, hsb]
  have hlog2 : r2.2.1.fsdata.sb.log_block_size ≤ 2 := by
    rw [hsb2]
    exact hlog
  have hblk := add_child_others D r2.2.1 r2.2.2 dir new name len r hr hr0 new hne
  have hgoal : has_dot_records (block_buf r.2.1 ((r1.2.2 new).inode.block 0)) new dir := by
    rcases add_child_ok D r2.2.1 r2.2.2 dir new name len r hr hr0 with
      ⟨hL, _⟩ | ⟨hLn, ha, _, hv, _⟩
    · obtain ⟨j, _, _, _, hA⟩ := add_child_loop_some _ _ name len r2.2.1 r.2.1 _ 0 hL
      obtain ⟨b1, b2, b3, b4⟩ := add_child_links D _ _ new dir _ 2 r2 h2 h20
      have hidx2 : (r2.2.2 new).inode_indx < U32 := by
        rw [b3 new, a3 new, s1]
        dsimp only
        rw [hnew]
        exact hlt
      exact add_to_dir_block_keeps_dots r2.2.1 _ ((r1.2.2 new).inode.block 0)
        (r2.2.2 new) name len r.2.1 new dir hlog2 hlen hidx2 hA hdots
        (by rw [g1, f1]; exact g5)
    · rcases hpar with hng | hfr
      · exfalso
        have hng2 : (r.2.2 dir).inode.blocks = (r2.2.2 dir).inode.blocks := by
          rw [← e2, hng, hb2.1, hb1.1, s0 dir hne2]
        have hL := (add_child_no_grow D r2.2.1 r2.2.2 dir new name len r hlog2 hr hr0 hng2).1
        rw [hLn] at hL
        exact absurd (Option.some.inj hL) (by intro e; exact Option.noConfusion e)
      · obtain ⟨q1, q2⟩ := hfr s hs
        rw [e3, e4, g2] at q1 q2
        have hsba := (allocate_block_for_inode_dentry r2.2.1 (r2.2.2 dir) 0 0).2.2.1
        generalize _ext2_allocate_block_for_inode r2.2.1 (r2.2.2 dir) 0 0 = a at *
        have m1 := block_offset_mod r2.2.1.fsdata.sb hlog2 a.2.2.2
        have m2 := block_offset_mod r2.2.1.fsdata.sb hlog2 ((r1.2.2 new).inode.block 0)
        have hbl2 : BLOCK_LEN r2.2.1.fsdata.sb = 1024 := by rw [hsb2]; exact hbl
        rw [hbl2] at m1 m2
        apply has_dot_records_congr (block_buf r2.2.1 ((r1.2.2 new).inode.block 0)) _ new dir _
          hdots
        intro i hi _
        rw [← q2 i hi]
        unfold block_buf
        rw [hv, add_first_entry_sb, hsba]
        apply add_first_entry_frame
        rw [hsba]
        rw [hbl] at hD2
        omega
  rw [e1, e2, hblk.1, hblk.2, g2, ← hsb]
  exact ⟨f2, f3, hgoal⟩

theorem mkdir_root_eval :
    (_ext2_allocate_inode_index vfs_root 0 0).2.2 = 12 ∧
    (ext2_mkdir 12 vfs_root cache_root 2 (name_buf [100]) 1 16877 0 0).map (fun m => m.1)
      = some 0 ∧
    (ext2_mkdir 12 vfs_root cache_root 2 (name_buf [100]) 1 16877 0 0).map
      (fun m => (m.2.2 2).inode.blocks) = some 2 ∧
    (ext2_mkdir 12 vfs_root cache_root 2 (name_buf [100]) 1 16877 0 0).map
      (fun m => _ext2_get_block_of_inode m.2.1 (m.2.2 12) 0) = some 10 ∧
    ((ext2_mkdir 12 vfs_root cache_root 2 (name_buf [100]) 1 16877 0 0).bind
      (fun m => ext2_rmdir m.2.1 m.2.2 12 (some 2))).map (fun r => r.1) = some 0 := by
  refine ⟨by decide!, by decide!, by decide!, by decide!, by decide!⟩

/-- An `ext2_mkdir` for which the parent takes a new block: the root directory
of `vfs_full_root` has no room in its block 9, the call returns 0, the root has
two blocks afterwards, and the new directory (inode 12, first block 10) has
link count 2 and the records `.` and `..`; the allocation of block 11 for the
root leaves block 10 alone; the record of the new directory is the first of
block 11, so that `ext2_rmdir` of it does not return. -/
theorem mkdir_into_full_parent_eval :
    records_tile (block_buf vfs_full_root 9) 1024 (List.map (fun k => 16 * k) (List.range 64)) ∧
    (_ext2_allocate_inode_index vfs_full_root 0 0).2.2 = 12 ∧
    (ext2_mkdir 12 vfs_full_root cache_root 2 (name_buf [100]) 1 16877 0 0).map (fun m => m.1)
      = some 0 ∧
    (ext2_mkdir 12 vfs_full_root cache_root 2 (name_buf [100]) 1 16877 0 0).map
      (fun m => ((cache_root 2).inode.blocks, (m.2.2 2).inode.blocks)) = some (2, 4) ∧
    (ext2_mkdir 12 vfs_full_root cache_root 2 (name_buf [100]) 1 16877 0 0).map
      (fun m => ((m.2.2 12).inode.links_count, (m.2.2 2).inode.links_count)) = some (2, 3) ∧
    (ext2_mkdir 12 vfs_full_root cache_root 2 (name_buf [100]) 1 16877 0 0).map
      (fun m => _ext2_get_block_of_inode m.2.1 (m.2.2 12) 0) = some 10 ∧
    (ext2_mkdir 12 vfs_full_root cache_root 2 (name_buf [100]) 1 16877 0 0).map
      (fun m => decide (has_dot_records (block_buf m.2.1 10) 12 2)) = some true ∧
    (ext2_mkdir 12 vfs_full_root cache_root 2 (name_buf [100]) 1 16877 0 0).map
      (fun m => (_ext2_get_block_of_inode m.2.1 (m.2.2 2) 1,
        entry_inode (block_buf m.2.1 11) 0)) = some (11, 12) ∧
    (_ext2_setup_dir 12 (_ext2_allocate_inode_index vfs_full_root 0 0).2.1 cache_root
        (_ext2_allocate_inode_index vfs_full_root 0 0).2.2 2 16877 0 0).map
      (fun s => decide (alloc_leaves_block s.2.1 (s.2.2 2)
        ((s.2.2 (_ext2_allocate_inode_index vfs_full_root 0 0).2.2).inode.block 0)))
      = some true ∧
    ((ext2_mkdir 12 vfs_full_root cache_root 2 (name_buf [100]) 1 16877 0 0).bind
      (fun m => ext2_rmdir m.2.1 m.2.2 12 (some 2))).isNone = true := by
  refine ⟨by decide!, by decide!, by decide!, by decide!, by decide!, by decide!, by decide!,
    by decide!, by decide!, by decide!⟩

end Ext2

namespace Aarch64

/-! ## Translation of the flags -/

/-- C28, amended: decoding what `vm_mmu_to_arch_flags` encoded gives back, at
`PTABLE_LV0`, the flags of `f` among `{PERM_READ, PERM_WRITE, NONPRIV, UNCACHED}`,
so the round trip is the identity exactly for the flag sets without `PERM_EXEC`,
`DEVICE` and `HUGE_PAGE`; at the levels 1 to 3 it gives
`PERM_READ | PERM_WRITE | NONPRIV` whatever `f` was. -/
theorem arch_to_mmu_of_mmu_to_arch (f : mmu_flags_t) (lv : ptable_lv_t) :
    (lv = .PTABLE_LV0 →
      vm_arch_to_mmu_flags (vm_mmu_to_arch_flags f lv) lv = mmu_flags_encoded f ∧
      (vm_arch_to_mmu_flags (vm_mmu_to_arch_flags f lv) lv = f ↔
        (f.PERM_EXEC = false ∧ f.DEVICE = false ∧ f.HUGE_PAGE = false))) ∧
    (lv ≠ .PTABLE_LV0 →
      vm_arch_to_mmu_flags (vm_mmu_to_arch_flags f lv) lv = mmu_flags_rwn) := by
  obtain ⟨r, w, x, n, u, d, h⟩ := f
  cases lv <;> cases r <;> cases w <;> cases x <;> cases n <;> cases u <;> cases d <;>
    cases h <;> decide

/-- C28 as stated fails: `{PERM_EXEC}` at `PTABLE_LV0` is encoded as `0x780` and
decoded as the empty set, and the empty set at `PTABLE_LV1` is encoded as 0 and
decoded as `PERM_READ | PERM_WRITE | NONPRIV`. -/
theorem mmu_flags_round_trip_lossy :
    vm_mmu_to_arch_flags mmu_flags_exec .PTABLE_LV0 = 0x780 ∧
    vm_arch_to_mmu_flags (vm_mmu_to_arch_flags mmu_flags_exec .PTABLE_LV0) .PTABLE_LV0
      = mmu_flags_none ∧
    vm_arch_to_mmu_flags (vm_mmu_to_arch_flags mmu_flags_exec .PTABLE_LV0) .PTABLE_LV0
      ≠ mmu_flags_exec ∧
    vm_mmu_to_arch_flags mmu_flags_none .PTABLE_LV1 = 0 ∧
    vm_arch_to_mmu_flags (vm_mmu_to_arch_flags mmu_flags_none .PTABLE_LV1) .PTABLE_LV1
      = mmu_flags_rwn ∧
    vm_arch_to_mmu_flags (vm_mmu_to_arch_flags mmu_flags_none .PTABLE_LV1) .PTABLE_LV1
      ≠ mmu_flags_none := by
  decide

/-- C29, amended: at `PTABLE_LV0` encoding the decoded encoding of `f` gives the
encoding of `f` again, for every `f`; at the levels 1 to 3 it gives `0x3`, which
is the encoding of `f` exactly when `f` has `PERM_READ`. -/
theorem mmu_to_arch_idempotent (f : mmu_flags_t) (lv : ptable_lv_t) :
    (lv = .PTABLE_LV0 →
      vm_mmu_to_arch_flags (vm_arch_to_mmu_flags (vm_mmu_to_arch_flags f lv) lv) lv
        = vm_mmu_to_arch_flags f lv) ∧
    (lv ≠ .PTABLE_LV0 →
      vm_mmu_to_arch_flags (vm_arch_to_mmu_flags (vm_mmu_to_arch_flags f lv) lv) lv = 0x3 ∧
      (vm_mmu_to_arch_flags (vm_arch_to_mmu_flags (vm_mmu_to_arch_flags f lv) lv) lv
        = vm_mmu_to_arch_flags f lv ↔ f.PERM_READ = true)) := by
  obtain ⟨r, w, x, n, u, d, h⟩ := f
  cases lv <;> cases r <;> cases w <;> cases x <;> cases n <;> cases u <;> cases d <;>
    cases h <;> decide

/-- C29 as stated fails: at `PTABLE_LV1` the empty flag set is encoded as 0, and
the encoding of the decoded encoding is `0x3`. -/
theorem mmu_to_arch_not_idempotent :
    vm_mmu_to_arch_flags mmu_flags_none .PTABLE_LV1 = 0 ∧
    vm_mmu_to_arch_flags
      (vm_arch_to_mmu_flags (vm_mmu_to_arch_flags mmu_flags_none .PTABLE_LV1) .PTABLE_LV1)
      .PTABLE_LV1 = 0x3 := by
  decide

/-! ## Frames -/

/-- C30: for every entity `e`, every level and every page-aligned 64-bit
address `p`, `vm_ptable_entity_get_frame` after `vm_ptable_entity_set_frame(e,
lv, p)` returns `p`, the low 12 bits of the entity are what they were, and so is
`vm_ptable_entity_state`. -/
theorem set_frame_get_frame (e p : Nat) (lv : ptable_lv_t) (hp : p < U64)
    (hal : p % 4096 = 0) :
    vm_ptable_entity_get_frame (vm_ptable_entity_set_frame e lv p) lv = p ∧
    vm_ptable_entity_set_frame e lv p % 4096 = e % 4096 ∧
    vm_ptable_entity_set_frame e lv p < U64 ∧
    vm_ptable_entity_state (vm_ptable_entity_set_frame e lv p) lv
      = vm_ptable_entity_state e lv := by
  have e1 : e &&& ((1 <<< 12) - 1) = e % 4096 := Nat.and_pow_two_sub_one_eq_mod e 12
  have e2 : (p >>> 12) <<< 12 = p := by
    rw [Nat.shiftRight_eq_div_pow, Nat.shiftLeft_eq]
    omega
  have hlt : e % 4096 < 2 ^ 12 := Nat.mod_lt _ (by decide)
  have e3 : e % 4096 ||| p = p + e % 4096 := by
    have h1 := Nat.mul_add_lt_is_or hlt (p / 4096)
    have h2 : 2 ^ 12 * (p / 4096) = p := by omega
    rw [h2] at h1
    rw [Nat.or_comm, h1]
  have hs : vm_ptable_entity_set_frame e lv p = p + e % 4096 := by
    unfold vm_ptable_entity_set_frame
    dsimp only
    rw [e1, e2, Nat.mod_eq_of_lt hp, e3]
  have q3 : ∀ y : Nat, y &&& 0b11 = y % 4 := fun y => Nat.and_pow_two_sub_one_eq_mod y 2
  rw [hs]
  refine ⟨?_, by omega, by unfold U64 at *; omega, ?_⟩
  · unfold vm_ptable_entity_get_frame
    dsimp only
    rw [Nat.shiftRight_eq_div_pow, Nat.shiftLeft_eq]
    unfold U64 at *
    omega
  · unfold vm_ptable_entity_state
    dsimp only
    rw [q3, q3]
    have : (p + e % 4096) % 4 = e % 4 := by omega
    rw [this]

/-- Witness of C30: the frame `0x40203000` set in the entity `0x783`. -/
theorem set_frame_get_frame_witness :
    0x40203000 < U64 ∧ 0x40203000 % 4096 = 0 ∧
    vm_ptable_entity_get_frame
      (vm_ptable_entity_set_frame 0x783 .PTABLE_LV0 0x40203000) .PTABLE_LV0 = 0x40203000 ∧
    vm_ptable_entity_set_frame 0x783 .PTABLE_LV0 0x40203000 % 4096 = 0x783 % 4096 :=
  ⟨by decide, by decide,
   (set_frame_get_frame 0x783 0x40203000 .PTABLE_LV0 (by decide) (by decide)).1,
   (set_frame_get_frame 0x783 0x40203000 .PTABLE_LV0 (by decide) (by decide)).2.1⟩

/-! ## States of an entity -/

/-- C31: for every entity and every level `vm_ptable_entity_state` is
`PTABLE_ENTITY_PRESENT` exactly when the two low bits of the entity are `0b11`
and `PTABLE_ENTITY_INVALID` otherwise, so it is never the allocated-only state;
`vm_ptable_entity_is_only_allocated` is false for every input, also after
`vm_ptable_entity_allocated`; `vm_ptable_entity_invalidate` gives an entity
whose state is `PTABLE_ENTITY_INVALID`. -/
theorem ptable_entity_state_contract (e : Nat) (lv : ptable_lv_t) :
    (vm_ptable_entity_state e lv = .PTABLE_ENTITY_PRESENT ↔ e % 4 = 3) ∧
    (vm_ptable_entity_state e lv = .PTABLE_ENTITY_INVALID ↔ e % 4 ≠ 3) ∧
    vm_ptable_entity_state e lv ≠ .PTABLE_ENTITY_ONLY_ALLOCATED ∧
    vm_ptable_entity_is_only_allocated (some e) lv = false ∧
    vm_ptable_entity_is_only_allocated none lv = false ∧
    vm_ptable_entity_is_only_allocated (some (vm_ptable_entity_allocated e lv)) lv = false ∧
    vm_ptable_entity_state (vm_ptable_entity_allocated e lv) lv = vm_ptable_entity_state e lv ∧
    vm_ptable_entity_state (vm_ptable_entity_invalidate e lv) lv = .PTABLE_ENTITY_INVALID ∧
    (vm_ptable_entity_is_present (some e) lv = true ↔ e % 4 = 3) := by
  have q3 : e &&& 0b11 = e % 4 := Nat.and_pow_two_sub_one_eq_mod e 2
  unfold vm_ptable_entity_is_present vm_ptable_entity_state vm_ptable_entity_is_only_allocated
    vm_ptable_entity_allocated vm_ptable_entity_invalidate
  dsimp only
  rw [q3]
  by_cases h : e % 4 = 3
  · simp [h]
  · simp [h]

/-! ## Fault information -/

/-- C32 fails: `vm_arch_parse_pf_info` returns the empty flag set for every
fault information, so no flag is contained in its result; in particular for the
syndrome of a write to a page without translation. -/
theorem parse_pf_info_decodes_nothing :
    vm_arch_parse_pf_info esr_write_translation_fault = 0 ∧
    (esr_write_translation_fault >>> 26) &&& 0x3f = 0b100100 ∧
    (esr_write_translation_fault >>> 6) &&& 1 = 1 ∧
    esr_write_translation_fault &&& 0x3f = 0b000111 ∧
    (∀ info flag : Nat, vm_arch_parse_pf_info info &&& flag = 0) := by
  refine ⟨rfl, by decide, by decide, by decide, ?_⟩
  intro info flag
  unfold vm_arch_parse_pf_info
  exact Nat.zero_and flag

/-! ## Setting and removing flags -/

theorem clear_arch_flags_eq (e : Nat) (lv : ptable_lv_t) (he : e < 2 ^ 48) :
    clear_arch_flags e lv = e / 4096 * 4096 := by
  have e1 : U64 - 1 - ((1 <<< 12) - 1) = (2 ^ 52 - 1) <<< 12 := by decide
  have e2 : e / 4096 * 4096 = (e >>> 12) <<< 12 := by
    rw [Nat.shiftRight_eq_div_pow, Nat.shiftLeft_eq]
  have e4 : (1 <<< 48) - 1 = 2 ^ 48 - 1 := by decide
  unfold clear_arch_flags
  dsimp only
  rw [e1, e2, e4]
  apply Nat.eq_of_testBit_eq
  intro i
  rw [Nat.testBit_and, Nat.testBit_and, Nat.testBit_shiftLeft, Nat.testBit_shiftLeft,
    Nat.testBit_two_pow_sub_one, Nat.testBit_two_pow_sub_one, Nat.testBit_shiftRight]
  by_cases h12 : i ≥ 12
  · have e3 : 12 + (i - 12) = i := by omega
    rw [e3]
    by_cases h48 : i < 48
    · simp [h12, h48, show i - 12 < 52 by omega]
    · have hf : e.testBit i = false :=
        Nat.testBit_lt_two_pow (Nat.lt_of_lt_of_le he (Nat.pow_le_pow_right (by decide)
          (by omega)))
      simp [hf]
  · simp [h12]

theorem arch_flags_lt (f : mmu_flags_t) : vm_mmu_to_arch_flags f .PTABLE_LV0 < 4096 := by
  obtain ⟨r, w, x, n, u, d, h⟩ := f
  cases r <;> cases w <;> cases x <;> cases n <;> cases u <;> cases d <;> cases h <;> decide

theorem decode_encode_lv0 (f : mmu_flags_t) :
    vm_arch_to_mmu_flags (vm_mmu_to_arch_flags f .PTABLE_LV0) .PTABLE_LV0
      = mmu_flags_encoded f := by
  obtain ⟨r, w, x, n, u, d, h⟩ := f
  cases r <;> cases w <;> cases x <;> cases n <;> cases u <;> cases d <;> cases h <;> decide

theorem decode_mod (e : Nat) :
    vm_arch_to_mmu_flags e .PTABLE_LV0 = vm_arch_to_mmu_flags (e % 4096) .PTABLE_LV0 := by
  have q1 : ∀ y : Nat, y &&& 0b11 = y % 4 := fun y => Nat.and_pow_two_sub_one_eq_mod y 2
  have q2 : ∀ y : Nat, y &&& 0b111 = y % 8 := fun y => Nat.and_pow_two_sub_one_eq_mod y 3
  have a1 : e % 4096 % 4 = e % 4 := by omega
  have a2 : e % 4096 / 4 % 8 = e / 4 % 8 := by omega
  have a3 : e % 4096 / 64 % 4 = e / 64 % 4 := by omega
  unfold vm_arch_to_mmu_flags
  simp only [q1, q2, Nat.shiftRight_eq_div_pow, Nat.reducePow, a1, a2, a3]

theorem decode_restricted (e : Nat) :
    mmu_flags_encoded (vm_arch_to_mmu_flags e .PTABLE_LV0) = vm_arch_to_mmu_flags e .PTABLE_LV0 := by
  unfold vm_arch_to_mmu_flags mmu_flags_encoded mmu_flags_none
  dsimp only
  split_ifs <;> rfl

theorem encoded_or (g f : mmu_flags_t) (hg : mmu_flags_encoded g = g)
    (hf : mmu_flags_encoded f = f) :
    mmu_flags_encoded (mmu_flags_or g f) = mmu_flags_or g f := by
  obtain ⟨r, w, x, n, u, d, h⟩ := f
  obtain ⟨r', w', x', n', u', d', h'⟩ := g
  unfold mmu_flags_encoded at hg hf
  simp only [mmu_flags_t.mk.injEq, true_and, and_true] at hg hf
  obtain ⟨rfl, rfl, rfl⟩ := hf
  obtain ⟨rfl, rfl, rfl⟩ := hg
  rfl

theorem encoded_andnot (g f : mmu_flags_t) (hg : mmu_flags_encoded g = g) :
    mmu_flags_encoded (mmu_flags_andnot g f) = mmu_flags_andnot g f := by
  obtain ⟨r, w, x, n, u, d, h⟩ := f
  obtain ⟨r', w', x', n', u', d', h'⟩ := g
  unfold mmu_flags_encoded at hg
  simp only [mmu_flags_t.mk.injEq, true_and, and_true] at hg
  obtain ⟨rfl, rfl, rfl⟩ := hg
  rfl

theorem or_or_self (g f : mmu_flags_t) : mmu_flags_or (mmu_flags_or g f) f = mmu_flags_or g f := by
  obtain ⟨r, w, x, n, u, d, h⟩ := f
  obtain ⟨r', w', x', n', u', d', h'⟩ := g
  simp [mmu_flags_or]

theorem andnot_andnot_self (g f : mmu_flags_t) :
    mmu_flags_andnot (mmu_flags_andnot g f) f = mmu_flags_andnot g f := by
  obtain ⟨r, w, x, n, u, d, h⟩ := f
  obtain ⟨r', w', x', n', u', d', h'⟩ := g
  simp [mmu_flags_andnot]

/-- The entity that the two operations write: the bits from 12 on of `e` and,
below them, the encoding of the flag set `g`. -/
theorem with_arch_flags (e : Nat) (g : mmu_flags_t) (he : e < 2 ^ 48) :
    clear_arch_flags e .PTABLE_LV0 ||| vm_mmu_to_arch_flags g .PTABLE_LV0
      = 4096 * (e / 4096) + vm_mmu_to_arch_flags g .PTABLE_LV0 ∧
    4096 * (e / 4096) + vm_mmu_to_arch_flags g .PTABLE_LV0 < 2 ^ 48 := by
  have hlt := arch_flags_lt g
  have h1 := Nat.mul_add_lt_is_or (show vm_mmu_to_arch_flags g .PTABLE_LV0 < 2 ^ 12 from hlt)
    (e / 4096)
  rw [clear_arch_flags_eq e _ he, Nat.mul_comm (e / 4096) 4096]
  refine ⟨h1.symm, ?_⟩
  have : e / 4096 < 2 ^ 36 := by omega
  omega

theorem decode_with_arch_flags (q : Nat) (g : mmu_flags_t) (hg : mmu_flags_encoded g = g) :
    vm_arch_to_mmu_flags (4096 * q + vm_mmu_to_arch_flags g .PTABLE_LV0) .PTABLE_LV0 = g := by
  have hlt := arch_flags_lt g
  rw [decode_mod, Nat.mul_add_mod, Nat.mod_eq_of_lt hlt, decode_encode_lv0, hg]

theorem get_frame_with_arch_flags (e a : Nat) (ha : a < 4096) :
    vm_ptable_entity_get_frame (4096 * (e / 4096) + a) .PTABLE_LV0
      = vm_ptable_entity_get_frame e .PTABLE_LV0 := by
  unfold vm_ptable_entity_get_frame
  dsimp only
  rw [Nat.shiftRight_eq_div_pow, Nat.shiftRight_eq_div_pow]
  congr 2
  omega

/-- C40: at `PTABLE_LV0`, for every entity `e` below `2^48` and every flag set
`f` within `{PERM_READ, PERM_WRITE, NONPRIV, UNCACHED}`: the decoded flags after
`vm_ptable_entity_set_mmu_flags(e, f)` are those of `e` united with `f`, after
`vm_ptable_entity_rm_mmu_flags(e, f)` those of `e` without `f`; both leave
`vm_ptable_entity_get_frame` as it was, and a second application with the same
`f` gives the same entity. -/
theorem set_rm_mmu_flags_contract (e : Nat) (f : mmu_flags_t) (he : e < 2 ^ 48)
    (hf : f.PERM_EXEC = false ∧ f.DEVICE = false ∧ f.HUGE_PAGE = false) :
    vm_arch_to_mmu_flags (vm_ptable_entity_set_mmu_flags e .PTABLE_LV0 f) .PTABLE_LV0
      = mmu_flags_or (vm_arch_to_mmu_flags e .PTABLE_LV0) f ∧
    vm_arch_to_mmu_flags (vm_ptable_entity_rm_mmu_flags e .PTABLE_LV0 f) .PTABLE_LV0
      = mmu_flags_andnot (vm_arch_to_mmu_flags e .PTABLE_LV0) f ∧
    vm_ptable_entity_get_frame (vm_ptable_entity_set_mmu_flags e .PTABLE_LV0 f) .PTABLE_LV0
      = vm_ptable_entity_get_frame e .PTABLE_LV0 ∧
    vm_ptable_entity_get_frame (vm_ptable_entity_rm_mmu_flags e .PTABLE_LV0 f) .PTABLE_LV0
      = vm_ptable_entity_get_frame e .PTABLE_LV0 ∧
    vm_ptable_entity_set_mmu_flags (vm_ptable_entity_set_mmu_flags e .PTABLE_LV0 f)
        .PTABLE_LV0 f
      = vm_ptable_entity_set_mmu_flags e .PTABLE_LV0 f ∧
    vm_ptable_entity_rm_mmu_flags (vm_ptable_entity_rm_mmu_flags e .PTABLE_LV0 f)
        .PTABLE_LV0 f
      = vm_ptable_entity_rm_mmu_flags e .PTABLE_LV0 f := by
  have hfe : mmu_flags_encoded f = f := by
    obtain ⟨r, w, x, n, u, d, h⟩ := f
    obtain ⟨h1, h2, h3⟩ := hf
    simp only at h1 h2 h3
    subst h1 h2 h3
    rfl
  have hge := decode_restricted e
  have hor := encoded_or _ f hge hfe
  have han := encoded_andnot _ f hge
  have hs : ∀ (x : Nat) (_ : x < 2 ^ 48), vm_ptable_entity_set_mmu_flags x .PTABLE_LV0 f
      = 4096 * (x / 4096)
        + vm_mmu_to_arch_flags (mmu_flags_or (vm_arch_to_mmu_flags x .PTABLE_LV0) f)
            .PTABLE_LV0 := by
    intro x hx
    unfold vm_ptable_entity_set_mmu_flags
    exact (with_arch_flags x _ hx).1
  have hr : ∀ (x : Nat) (_ : x < 2 ^ 48), vm_ptable_entity_rm_mmu_flags x .PTABLE_LV0 f
      = 4096 * (x / 4096)
        + vm_mmu_to_arch_flags (mmu_flags_andnot (vm_arch_to_mmu_flags x .PTABLE_LV0) f)
            .PTABLE_LV0 := by
    intro x hx
    unfold vm_ptable_entity_rm_mmu_flags
    exact (with_arch_flags x _ hx).1
  have hdiv : ∀ (q a : Nat), a < 4096 → (4096 * q + a) / 4096 = q := by
    intro q a ha
    omega
  have d1 := decode_with_arch_flags (e / 4096) _ hor
  have d2 := decode_with_arch_flags (e / 4096) _ han
  refine ⟨?_, ?_, ?_, ?_, ?_, ?_⟩
  · rw [hs e he, d1]
  · rw [hr e he, d2]
  · rw [hs e he]
    exact get_frame_with_arch_flags e _ (arch_flags_lt _)
  · rw [hr e he]
    exact get_frame_with_arch_flags e _ (arch_flags_lt _)
  · rw [hs e he, hs _ (with_arch_flags e _ he).2, d1, or_or_self, hdiv _ _ (arch_flags_lt _)]
  · rw [hr e he, hr _ (with_arch_flags e _ he).2, d2, andnot_andnot_self,
      hdiv _ _ (arch_flags_lt _)]

/-- Witness of C40: `NONPRIV | UNCACHED` set in and removed from the entity
`0x40203783`. -/
theorem set_rm_mmu_flags_contract_witness :
    0x40203783 < 2 ^ 48 ∧
    (mmu_flags_nu.PERM_EXEC = false ∧ mmu_flags_nu.DEVICE = false ∧
      mmu_flags_nu.HUGE_PAGE = false) ∧
    vm_arch_to_mmu_flags (vm_ptable_entity_set_mmu_flags 0x40203783 .PTABLE_LV0 mmu_flags_nu)
        .PTABLE_LV0
      = mmu_flags_or (vm_arch_to_mmu_flags 0x40203783 .PTABLE_LV0) mmu_flags_nu ∧
    vm_ptable_entity_set_mmu_flags 0x40203783 .PTABLE_LV0 mmu_flags_nu = 0x402037c7 :=
  ⟨by decide, by decide,
   (set_rm_mmu_flags_contract 0x40203783 mmu_flags_nu (by decide) (by decide)).1,
   by decide⟩

end Aarch64

namespace Kthread

/-! ## Registers of a new kernel thread -/

/-- C34: on each of the five targets, after `kthread_setup_regs(p, entry)` the
trap frame of the main thread has the instruction pointer `entry` and the stack
pointer and the frame pointer `kstack.start + KSTACK_ZONE_SIZE` (in `uintptr_t`
arithmetic), the top of the kernel-stack zone, because `USTACK_TOP` and
`KSTACK_ZONE_SIZE` are the same number of pages on every target; the call
returns 0 and leaves the zone as it was. -/
theorem kthread_setup_regs_contract (isa : isa_t) (PAGE : Nat)
    (setup : trapframe_t → trapframe_t) (p : proc_t) (entry : Nat) :
    (kthread_setup_regs isa PAGE setup p entry).1 = (0 : Int) ∧
    (kthread_setup_regs isa PAGE setup p entry).2.main_thread.tf.instruction_pointer = entry ∧
    (kthread_setup_regs isa PAGE setup p entry).2.main_thread.tf.stack_pointer
      = (p.main_thread.kstack.start + KSTACK_ZONE_SIZE isa PAGE) % WORD isa ∧
    (kthread_setup_regs isa PAGE setup p entry).2.main_thread.tf.frame_pointer
      = (p.main_thread.kstack.start + KSTACK_ZONE_SIZE isa PAGE) % WORD isa ∧
    USTACK_TOP isa PAGE = KSTACK_ZONE_SIZE isa PAGE ∧
    (kthread_setup_regs isa PAGE setup p entry).2.main_thread.kstack = p.main_thread.kstack ∧
    (p.main_thread.kstack.start + KSTACK_ZONE_SIZE isa PAGE < WORD isa →
      (kthread_setup_regs isa PAGE setup p entry).2.main_thread.tf.stack_pointer
        = p.main_thread.kstack.start + KSTACK_ZONE_SIZE isa PAGE) := by
  have hU : USTACK_TOP isa PAGE = KSTACK_ZONE_SIZE isa PAGE := by
    cases isa <;> rfl
  unfold kthread_setup_regs set_instruction_pointer set_stack_pointer set_frame_pointer
  dsimp only
  rw [hU]
  exact ⟨rfl, rfl, rfl, rfl, rfl, rfl, fun h => Nat.mod_eq_of_lt h⟩

/-- Witness of C34: on i386 with pages of 4096 bytes and the zone at
`0xc0100000` the stack pointer is `0xc0101000`; on aarch64, with two pages,
`0xc0102000`. -/
theorem kthread_setup_regs_contract_witness :
    kthread_seven.kstack.start + KSTACK_ZONE_SIZE .i386 4096 < WORD .i386 ∧
    (kthread_setup_regs .i386 4096 id (proc_t.mk kthread_seven) 0xc0005000).2.main_thread.tf.stack_pointer
      = 0xc0101000 ∧
    (kthread_setup_regs .aarch64 4096 id (proc_t.mk kthread_seven) 0xc0005000).2.main_thread.tf.stack_pointer
      = 0xc0102000 :=
  ⟨by decide,
   ((kthread_setup_regs_contract .i386 4096 id (proc_t.mk kthread_seven) 0xc0005000).2.2.2.2.2.2
      (by decide)).trans (by decide),
   ((kthread_setup_regs_contract .aarch64 4096 id (proc_t.mk kthread_seven) 0xc0005000).2.2.2.2.2.2
      (by decide)).trans (by decide)⟩

/-! ## The argument of a kernel thread -/

theorem copy_to_address_space_bytes (mem : Nat → Nat) (data dest k : Nat) (hk : k < 4) :
    vmm_copy_to_address_space mem data dest (dest + k) = byte_of data k := by
  unfold vmm_copy_to_address_space
  rw [if_pos ⟨by omega, by omega⟩, Nat.add_sub_cancel_left]

theorem fill_up_stack_null (isa : isa_t) (IS_KERNEL_VADDR : Nat → Bool) (mem : Nat → Nat)
    (data : Nat) :
    kthread_fill_up_stack isa IS_KERNEL_VADDR none mem data = (-EFAULT, none, mem) := rfl

theorem fill_up_stack_not_kthread (isa : isa_t) (IS_KERNEL_VADDR : Nat → Bool) (t : thread_t)
    (mem : Nat → Nat) (data : Nat) (hk : t.process_is_kthread = false) :
    kthread_fill_up_stack isa IS_KERNEL_VADDR (some t) mem data = (-EPERM, some t, mem) := by
  unfold kthread_fill_up_stack
  simp [hk]

theorem fill_up_stack_bad_data (isa : isa_t) (IS_KERNEL_VADDR : Nat → Bool) (t : thread_t)
    (mem : Nat → Nat) (data : Nat) (hk : t.process_is_kthread = true)
    (hK : IS_KERNEL_VADDR data = false) (hd : data ≠ 0) :
    kthread_fill_up_stack isa IS_KERNEL_VADDR (some t) mem data = (-EFAULT, some t, mem) := by
  unfold kthread_fill_up_stack
  simp [hk, hK, hd]

theorem fill_up_stack_ok (isa : isa_t) (IS_KERNEL_VADDR : Nat → Bool) (t : thread_t)
    (mem : Nat → Nat) (data : Nat) (hk : t.process_is_kthread = true)
    (hd : IS_KERNEL_VADDR data = true ∨ data = 0) :
    (kthread_fill_up_stack isa IS_KERNEL_VADDR (some t) mem data).1 = (0 : Int) ∧
    (isa ≠ .i386 →
      (kthread_fill_up_stack isa IS_KERNEL_VADDR (some t) mem data).2.1
        = some { t with tf := { t.tf with first_arg := data } } ∧
      (kthread_fill_up_stack isa IS_KERNEL_VADDR (some t) mem data).2.2 = mem) ∧
    (isa = .i386 →
      (kthread_fill_up_stack isa IS_KERNEL_VADDR (some t) mem data).2.1
        = some { t with tf := tf_move_stack_pointer_down t.tf } ∧
      (kthread_fill_up_stack isa IS_KERNEL_VADDR (some t) mem data).2.2
        = vmm_copy_to_address_space mem data
            (get_stack_pointer (tf_move_stack_pointer_down t.tf))) := by
  have hc : (!IS_KERNEL_VADDR data && data != 0) = false := by
    rcases hd with h | h
    · simp [h]
    · simp [h]
  unfold kthread_fill_up_stack
  simp only [hk, hc, Bool.not_true, Bool.false_eq_true, if_false]
  cases isa
  · exact ⟨rfl, fun h => absurd rfl h, fun _ => ⟨rfl, rfl⟩⟩
  · exact ⟨rfl, fun _ => ⟨rfl, rfl⟩, fun h => isa_t.noConfusion h⟩
  · exact ⟨rfl, fun _ => ⟨rfl, rfl⟩, fun h => isa_t.noConfusion h⟩
  · exact ⟨rfl, fun _ => ⟨rfl, rfl⟩, fun h => isa_t.noConfusion h⟩
  · exact ⟨rfl, fun _ => ⟨rfl, rfl⟩, fun h => isa_t.noConfusion h⟩

theorem move_stack_pointer_down_eq (tf : trapframe_t) (h4 : 4 ≤ tf.stack_pointer) :
    get_stack_pointer (tf_move_stack_pointer_down tf) + 4 = tf.stack_pointer := by
  unfold get_stack_pointer tf_move_stack_pointer_down
  dsimp only
  rw [if_pos h4]
  omega

/-- C33, amended: `kthread_fill_up_stack(thread, data)` returns 0 exactly when
the thread is not null, its process is a kernel thread and `data` is a
kernel-space address or null; it returns `-EPERM` exactly when the process of
the thread is not a kernel thread, and `-EFAULT` exactly for a null thread and
for a kernel thread with a `data` that is neither null nor a kernel-space
address.  In every error case the thread and the memory are unchanged.  On
success the register of the first argument holds `data` and nothing else
changes, except on i386, where the register is left alone, the stack pointer
goes down by 4 and the four bytes of `data` stand at the new top of the
stack. -/
theorem kthread_fill_up_stack_contract (isa : isa_t) (IS_KERNEL_VADDR : Nat → Bool)
    (thread : Option thread_t) (mem : Nat → Nat) (data : Nat) :
    ((kthread_fill_up_stack isa IS_KERNEL_VADDR thread mem data).1 = (0 : Int) ↔
      ∃ t : thread_t, thread = some t ∧ t.process_is_kthread = true ∧
        (IS_KERNEL_VADDR data = true ∨ data = 0)) ∧
    ((kthread_fill_up_stack isa IS_KERNEL_VADDR thread mem data).1 = -EPERM ↔
      ∃ t : thread_t, thread = some t ∧ t.process_is_kthread = false) ∧
    ((kthread_fill_up_stack isa IS_KERNEL_VADDR thread mem data).1 = -EFAULT ↔
      (thread = none ∨ ∃ t : thread_t, thread = some t ∧ t.process_is_kthread = true ∧
        IS_KERNEL_VADDR data = false ∧ data ≠ 0)) ∧
    ((kthread_fill_up_stack isa IS_KERNEL_VADDR thread mem data).1 ≠ (0 : Int) →
      (kthread_fill_up_stack isa IS_KERNEL_VADDR thread mem data).2.1 = thread ∧
      (kthread_fill_up_stack isa IS_KERNEL_VADDR thread mem data).2.2 = mem) ∧
    ((kthread_fill_up_stack isa IS_KERNEL_VADDR thread mem data).1 = (0 : Int) → isa ≠ .i386 →
      (kthread_fill_up_stack isa IS_KERNEL_VADDR thread mem data).2.2 = mem ∧
      ∀ t : thread_t, thread = some t →
        (kthread_fill_up_stack isa IS_KERNEL_VADDR thread mem data).2.1
          = some { t with tf := { t.tf with first_arg := data } }) ∧
    ((kthread_fill_up_stack isa IS_KERNEL_VADDR thread mem data).1 = (0 : Int) → isa = .i386 →
      ∀ t : thread_t, thread = some t →
        (kthread_fill_up_stack isa IS_KERNEL_VADDR thread mem data).2.1
          = some { t with tf := tf_move_stack_pointer_down t.tf } ∧
        (4 ≤ t.tf.stack_pointer →
          get_stack_pointer (tf_move_stack_pointer_down t.tf) + 4 = t.tf.stack_pointer) ∧
        (∀ k, k < 4 →
          (kthread_fill_up_stack isa IS_KERNEL_VADDR thread mem data).2.2
            (get_stack_pointer (tf_move_stack_pointer_down t.tf) + k) = byte_of data k) ∧
        (∀ a, ¬ (get_stack_pointer (tf_move_stack_pointer_down t.tf) ≤ a ∧
                 a < get_stack_pointer (tf_move_stack_pointer_down t.tf) + 4) →
          (kthread_fill_up_stack isa IS_KERNEL_VADDR thread mem data).2.2 a = mem a)) := by
  have hne1 : ¬ (-EFAULT = (0 : Int)) := by decide
  have hne2 : ¬ (-EPERM = (0 : Int)) := by decide
  have hne3 : ¬ (-EPERM = -EFAULT) := by decide
  have hne4 : ¬ (-EFAULT = -EPERM) := by decide
  have hne5 : ¬ ((0 : Int) = -EPERM) := by decide
  have hne6 : ¬ ((0 : Int) = -EFAULT) := by decide
  cases thread with
  | none =>
    rw [fill_up_stack_null]
    dsimp only
    refine ⟨⟨fun h => absurd h hne1, fun ⟨t, h, _⟩ => Option.noConfusion h⟩,
      ⟨fun h => absurd h hne4, fun ⟨t, h, _⟩ => Option.noConfusion h⟩,
      ⟨fun _ => Or.inl rfl, fun _ => rfl⟩, fun _ => ⟨rfl, rfl⟩, fun h => absurd h hne1,
      fun h => absurd h hne1⟩
  | some t =>
    by_cases hk : t.process_is_kthread = true
    · by_cases hd : IS_KERNEL_VADDR data = true ∨ data = 0
      · have hnot : ¬ (IS_KERNEL_VADDR data = false ∧ data ≠ 0) := by
          rintro ⟨h1, h2⟩
          rcases hd with h | h
          · rw [h1] at h
            exact Bool.noConfusion h
          · exact h2 h
        obtain ⟨h1, h2, h3⟩ := fill_up_stack_ok isa IS_KERNEL_VADDR t mem data hk hd
        rw [h1]
        refine ⟨⟨fun _ => ⟨t, rfl, hk, hd⟩, fun _ => rfl⟩,
          ⟨fun h => absurd h hne5, fun ⟨u, hu, hu2⟩ => ?_⟩,
          ⟨fun h => absurd h hne6, fun h => ?_⟩, fun h => absurd rfl h, fun _ hi => ?_,
          fun _ hi => ?_⟩
        · rw [← Option.some.inj hu, hk] at hu2
          exact Bool.noConfusion hu2
        · rcases h with h | ⟨u, hu, _, hu2, hu3⟩
          · exact Option.noConfusion h
          · exact absurd ⟨hu2, hu3⟩ hnot
        · obtain ⟨e1, e2⟩ := h2 hi
          exact ⟨e2, fun u hu => by rw [e1, ← Option.some.inj hu]⟩
        · obtain ⟨e1, e2⟩ := h3 hi
          intro u hu
          rw [← Option.some.inj hu, e1, e2]
          refine ⟨rfl, move_stack_pointer_down_eq t.tf,
            fun k hk4 => copy_to_address_space_bytes mem data _ k hk4, fun a ha => ?_⟩
          unfold vmm_copy_to_address_space
          rw [if_neg ha]
      · have hbad : IS_KERNEL_VADDR data = false ∧ data ≠ 0 := by
          constructor
          · cases hK : IS_KERNEL_VADDR data with
            | true => exact absurd (Or.inl hK) hd
            | false => rfl
          · exact fun h => hd (Or.inr h)
        rw [fill_up_stack_bad_data isa IS_KERNEL_VADDR t mem data hk hbad.1 hbad.2]
        dsimp only
        refine ⟨⟨fun h => absurd h hne1, fun ⟨u, hu, _, hu2⟩ => ?_⟩,
          ⟨fun h => absurd h hne4, fun ⟨u, hu, hu2⟩ => ?_⟩,
          ⟨fun _ => Or.inr ⟨t, rfl, hk, hbad.1, hbad.2⟩, fun _ => rfl⟩, fun _ => ⟨rfl, rfl⟩,
          fun h => absurd h hne1, fun h => absurd h hne1⟩
        · exact absurd hu2 hd
        · rw [← Option.some.inj hu, hk] at hu2
          exact Bool.noConfusion hu2
    · have hk2 : t.process_is_kthread = false := by
        cases h : t.process_is_kthread with
        | true => exact absurd h hk
        | false => rfl
      rw [fill_up_stack_not_kthread isa IS_KERNEL_VADDR t mem data hk2]
      dsimp only
      refine ⟨⟨fun h => absurd h hne2, fun ⟨u, hu, hu2, _⟩ => ?_⟩,
        ⟨fun _ => ⟨t, rfl, hk2⟩, fun _ => rfl⟩,
        ⟨fun h => absurd h hne3, fun h => ?_⟩, fun _ => ⟨rfl, rfl⟩,
        fun h => absurd h hne2, fun h => absurd h hne2⟩
      · rw [← Option.some.inj hu] at hu2
        exact absurd hu2 hk
      · rcases h with h | ⟨u, hu, hu2, _⟩
        · exact Option.noConfusion h
        · rw [← Option.some.inj hu] at hu2
          exact absurd hu2 hk

/-- Witness of C33: a kernel address as the argument of a kernel thread on arm,
and the same on i386. -/
theorem kthread_fill_up_stack_contract_witness :
    (kthread_fill_up_stack .arm is_kernel_vaddr_3g (some kthread_seven) (fun _ => 0)
      0xc0200000).1 = (0 : Int) ∧
    (kthread_fill_up_stack .arm is_kernel_vaddr_3g (some kthread_seven) (fun _ => 0)
      0xc0200000).2.1
      = some { kthread_seven with tf := { tf_seven with first_arg := 0xc0200000 } } ∧
    (kthread_fill_up_stack .i386 is_kernel_vaddr_3g (some kthread_seven) (fun _ => 0)
      0xc0200000).2.1
      = some { kthread_seven with tf := { tf_seven with stack_pointer := 0xc0101ffc } } :=
  ⟨by decide,
   ((kthread_fill_up_stack_contract .arm is_kernel_vaddr_3g (some kthread_seven) (fun _ => 0)
      0xc0200000).2.2.2.2.1 (by decide) (by decide)).2 kthread_seven rfl,
   (((kthread_fill_up_stack_contract .i386 is_kernel_vaddr_3g (some kthread_seven) (fun _ => 0)
      0xc0200000).2.2.2.2.2 (by decide) rfl) kthread_seven rfl).1.trans (by decide)⟩

/-- C33 as stated fails: the null pointer is not a kernel-space address, and
for a kernel thread the call with `data = NULL` returns 0 and overwrites the
register of the first argument. -/
theorem fill_up_stack_accepts_null :
    is_kernel_vaddr_3g 0 = false ∧
    (kthread_fill_up_stack .arm is_kernel_vaddr_3g (some kthread_seven) (fun _ => 0) 0).1 = (0 : Int) ∧
    (kthread_fill_up_stack .arm is_kernel_vaddr_3g (some kthread_seven) (fun _ => 0) 0).2.1
      = some { kthread_seven with tf := { tf_seven with first_arg := 0 } } ∧
    (kthread_fill_up_stack .arm is_kernel_vaddr_3g (some kthread_seven) (fun _ => 0) 0).2.1
      ≠ some kthread_seven := by
  decide

end Kthread

namespace X86

/-! ## Page faults -/

/-- What `isr_handler` does for vector 14: nothing when the page-fault handler
does not answer `SHOULD_CRASH`; otherwise `dump_and_kill` of the process of the
running thread whenever a thread is running on the CPU, and `kpanic_tf` only
when none is.  The state in which the fault was taken plays no part. -/
theorem isr_page_fault_contract (SHOULD_CRASH : Int) (cpu : cpu_t) (frame : trapframe_t)
    (res : Int) (h14 : frame.int_no = 14) :
    (res ≠ SHOULD_CRASH → (isr_handler SHOULD_CRASH cpu frame res).1 = .nothing) ∧
    (res = SHOULD_CRASH → ∀ t, cpu.running_thread = some t →
      (isr_handler SHOULD_CRASH cpu frame res).1 = .dump_and_kill t.process) ∧
    (res = SHOULD_CRASH → cpu.running_thread = none →
      (isr_handler SHOULD_CRASH cpu frame res).1 = .kpanic_tf frame) := by
  unfold isr_handler
  simp only [h14]
  refine ⟨fun h => ?_, fun h t ht => ?_, fun h ht => ?_⟩
  · simp [h]
  · simp [h, ht, crash_or_trap]
  · simp [h, ht, crash_or_trap]

/-- C35 fails for faults in kernel mode: a kernel thread is running in kernel
code, the page fault has the error code of a supervisor access, the page-fault
handler answers `SHOULD_CRASH`, and `isr_handler` calls `dump_and_kill` on the
process of the thread, not `kpanic_tf`. -/
theorem isr_page_fault_in_kernel_kills (SHOULD_CRASH : Int) :
    cpu_kthread.current_state = .CPU_IN_KERNEL ∧
    frame_kernel_pf.err &&& 4 = 0 ∧
    (isr_handler SHOULD_CRASH cpu_kthread frame_kernel_pf SHOULD_CRASH).1 = .dump_and_kill 5 ∧
    (isr_handler SHOULD_CRASH cpu_kthread frame_kernel_pf SHOULD_CRASH).1
      ≠ .kpanic_tf frame_kernel_pf := by
  have h := (isr_page_fault_contract SHOULD_CRASH cpu_kthread frame_kernel_pf SHOULD_CRASH
    rfl).2.1 rfl _ rfl
  refine ⟨rfl, by decide, h, ?_⟩
  rw [h]
  exact fun hc => isr_action.noConfusion hc

end X86
